import Mathlib

/-!
# libusbg: a shallow embedding of `src/usbg.c`

Conventions of the embedding.

* A C string is modelled by its content, the characters before the
  terminating NUL, as a `List Char`; a pointer into a string is an offset.
* C `int` values (return codes, ids, `errno`) are `Int`.  The only narrowing
  conversion that matters, `long` to `int`, is written out (`long_to_int`).
* `malloc`, `strdup`, `strndup` and `asprintf` are taken to succeed; a fresh
  object gets the next unused address of the heap.
* The storage backend (mkdir, rmdir, symlink, ...) is a parameter, and every
  call to it is recorded in a trace.
* A loop over a queue follows pointers and need not end when the queue is
  damaged; the model of such a loop visits at most `Heap.fuel` elements, and a
  function that contains one gives `none` when the bound is reached or a NULL
  pointer is dereferenced.
-/

namespace Usbg

/-! ## Error codes -/

/-- Modelled from the spec: the error taxonomy of `usbg/usbg.h` (the header is
not among the sources); success is `0` and every error is negative, as the
source relies on (`ret = 0`, `ret < 0`). -/
def USBG_SUCCESS : Int := 0
def USBG_ERROR_NO_MEM : Int := -1
def USBG_ERROR_NO_ACCESS : Int := -2
def USBG_ERROR_INVALID_PARAM : Int := -3
def USBG_ERROR_NOT_FOUND : Int := -4
def USBG_ERROR_IO : Int := -5
def USBG_ERROR_EXIST : Int := -6
def USBG_ERROR_NO_DEV : Int := -7
def USBG_ERROR_BUSY : Int := -8
def USBG_ERROR_NOT_SUPPORTED : Int := -9
def USBG_ERROR_PATH_TOO_LONG : Int := -10
def USBG_ERROR_INVALID_FORMAT : Int := -11
def USBG_ERROR_MISSING_TAG : Int := -12
def USBG_ERROR_INVALID_TYPE : Int := -13
def USBG_ERROR_INVALID_VALUE : Int := -14
def USBG_ERROR_OTHER_ERROR : Int := -99

/-! `errno` values of Linux (`errno.h`). -/

def EPERM : Int := 1
def ENOENT : Int := 2
def EIO : Int := 5
def ENOMEM : Int := 12
def EACCES : Int := 13
def EBUSY : Int := 16
def EEXIST : Int := 17
def ENODEV : Int := 19
def ENOTDIR : Int := 20
def EINVAL : Int := 22
def EROFS : Int := 30
def ERANGE : Int := 34
def ENOTEMPTY : Int := 39

/-- The `switch` of `usbg_translate_error`. -/
def usbg_translate_error (error : Int) : Int :=
  if error = ENOMEM then USBG_ERROR_NO_MEM
  else if error = EACCES ∨ error = EROFS ∨ error = EPERM then USBG_ERROR_NO_ACCESS
  else if error = ENOENT ∨ error = ENOTDIR then USBG_ERROR_NOT_FOUND
  else if error = EINVAL ∨ error = USBG_ERROR_INVALID_PARAM then USBG_ERROR_INVALID_PARAM
  else if error = EIO then USBG_ERROR_IO
  else if error = EEXIST then USBG_ERROR_EXIST
  else if error = ENODEV then USBG_ERROR_NO_DEV
  else if error = EBUSY then USBG_ERROR_BUSY
  else USBG_ERROR_OTHER_ERROR

/-! ## libc string functions -/

/-- The sign of `strcmp`: bytes are compared as unsigned values. -/
def strcmp : List Char → List Char → Int
  | [], [] => 0
  | [], _ :: _ => -1
  | _ :: _, [] => 1
  | a :: s, b :: t => if a = b then strcmp s t else if a.toNat < b.toNat then -1 else 1

/-- Offset of the first occurrence of `c`, `none` for a NULL result. -/
def strchr : List Char → Char → Option Nat
  | [], _ => none
  | a :: t, c => if a = c then some 0 else (strchr t c).map (· + 1)

/-- Offset of the last occurrence of `c`, `none` for a NULL result. -/
def strrchr : List Char → Char → Option Nat
  | [], _ => none
  | a :: t, c =>
    match strrchr t c with
    | some i => some (i + 1)
    | none => if a = c then some 0 else none

/-- The `isspace` of the C locale. -/
def isspace (c : Char) : Bool :=
  c = ' ' || c = '\t' || c = '\n' || c = '\x0b' || c = '\x0c' || c = '\r'

def isdigit (c : Char) : Bool :=
  48 ≤ c.toNat && c.toNat ≤ 57

def LONG_MAX : Int := 9223372036854775807
def LONG_MIN : Int := -9223372036854775808

/-- Value of a run of decimal digits. -/
def digits_value (ds : List Char) : Nat :=
  ds.foldl (fun acc c => 10 * acc + (c.toNat - 48)) 0

/-- The call `strtol(s, &endptr, 10)` with a 64-bit `long`: the result, the
text `endptr` is left at, and the value of `errno` afterwards (it was cleared
before the call).  Without any digit nothing is converted: the result is 0,
`endptr` is `s`, and glibc leaves `errno` alone. -/
def strtol (s : List Char) : Int × List Char × Int :=
  let s1 := s.dropWhile isspace
  let neg := s1.head? = some '-'
  let s2 := if s1.head? = some '-' ∨ s1.head? = some '+' then s1.tail else s1
  let ds := s2.takeWhile isdigit
  let rest := s2.dropWhile isdigit
  if ds = [] then (0, s, 0)
  else
    let v : Int := if neg then -(digits_value ds : Int) else (digits_value ds : Int)
    if v > LONG_MAX then (LONG_MAX, rest, ERANGE)
    else if v < LONG_MIN then (LONG_MIN, rest, ERANGE)
    else (v, rest, 0)

/-- Conversion of a `long` to a 32-bit `int`. -/
def long_to_int (v : Int) : Int :=
  (v + 2147483648) % 4294967296 - 2147483648

/-- The conversion `%d` of printf. -/
def fmt_d (n : Int) : List Char :=
  if n < 0 then '-' :: Nat.toDigits 10 n.natAbs else Nat.toDigits 10 n.toNat

/-! ## Naming codec -/

/-- The table `function_names`. -/
def function_names : List (List Char) :=
  ["gser".toList, "acm".toList, "obex".toList, "ecm".toList, "geth".toList,
   "ncm".toList, "eem".toList, "rndis".toList, "phonet".toList, "ffs".toList]

/-- Modelled from the spec: the enumeration `usbg_function_type` of
`usbg/usbg.h` (the header is not among the sources), ten variants in the order
the spec lists them, numbered from 0 as a C enumeration is; the source uses
the value as the index into `function_names`. -/
abbrev usbg_function_type := Int

def F_SERIAL : usbg_function_type := 0
def F_ACM : usbg_function_type := 1
def F_OBEX : usbg_function_type := 2
def F_ECM : usbg_function_type := 3
def F_SUBSET : usbg_function_type := 4
def F_NCM : usbg_function_type := 5
def F_EEM : usbg_function_type := 6
def F_RNDIS : usbg_function_type := 7
def F_PHONET : usbg_function_type := 8
def F_FFS : usbg_function_type := 9

/-- The ten function types. -/
def function_types : List usbg_function_type :=
  [F_SERIAL, F_ACM, F_OBEX, F_ECM, F_SUBSET, F_NCM, F_EEM, F_RNDIS, F_PHONET, F_FFS]

/-- The loop of `usbg_lookup_function_type`, at index `i` with the table
entries from `i` on still to compare. -/
def usbg_lookup_function_type_loop (name : List Char) : Int → List (List Char) → Int
  | _, [] => -1
  | i, n :: rest =>
    if strcmp name n = 0 then i else usbg_lookup_function_type_loop name (i + 1) rest

def usbg_lookup_function_type (name : Option (List Char)) : Int :=
  match name with
  | none => -1
  | some n => usbg_lookup_function_type_loop n 0 function_names

/-- The type string of a function type, `none` for NULL. -/
def usbg_get_function_type_str (type : usbg_function_type) : Option (List Char) :=
  if type > 0 ∧ type < (function_names.length : Int) then function_names.get? type.toNat
  else none

/-- The function `usbg_split_function_instance_type`: the return value and
what was stored through `f_type` and through `instance` (`none` when nothing
was stored). -/
def usbg_split_function_instance_type (full_name : List Char) :
    Int × Option usbg_function_type × Option (List Char) :=
  match strchr full_name '.' with
  | none => (USBG_ERROR_INVALID_PARAM, none, none)
  | some dot =>
    if dot = 0 ∨ full_name.drop (dot + 1) = [] then (USBG_ERROR_INVALID_PARAM, none, none)
    else
      let inst := full_name.drop (dot + 1)
      let type_name := full_name.take dot
      let f_type_ret := usbg_lookup_function_type (some type_name)
      if f_type_ret ≥ 0 then (USBG_SUCCESS, some f_type_ret, some inst)
      else (USBG_ERROR_NOT_SUPPORTED, none, some inst)

/-- The function `usbg_split_config_label_id`: the return value and what
`*label` holds afterwards (it is NULL before the call). -/
def usbg_split_config_label_id (full_name : List Char) : Int × Option (List Char) :=
  match strrchr full_name '.' with
  | none => (USBG_ERROR_INVALID_PARAM, none)
  | some dot =>
    let id_string := full_name.drop (dot + 1)
    if dot = 0 ∨ id_string = [] ∨ (id_string.head?.map isspace = some true) then
      (USBG_ERROR_INVALID_PARAM, none)
    else
      let label := full_name.take dot
      let r := strtol id_string
      if r.2.2 ≠ 0 then (usbg_translate_error r.2.2, none)
      else
        let ret := long_to_int r.1
        if r.2.1 ≠ [] ∨ ret < 0 ∨ ret > 255 then (USBG_ERROR_INVALID_PARAM, some label)
        else (ret, some label)

/-- The name `usbg_allocate_function` composes, `"%s.%s"` of the type string
and the instance; `none` when the type string is NULL and the allocation is
given up. -/
def function_name (type : usbg_function_type) (inst : List Char) : Option (List Char) :=
  match usbg_get_function_type_str type with
  | none => none
  | some type_name => some (type_name ++ '.' :: inst)

/-- The name `usbg_allocate_config` composes, `"%s.%d"` of label and id. -/
def config_name (label : List Char) (id : Int) : List Char :=
  label ++ '.' :: fmt_d id

/-! ## Tail queues (`sys/queue.h`)

The four kinds of collection (gadgets of a state, functions and configs of a
gadget, bindings of a config) are intrusive `TAILQ`s.  The cells of one kind
are kept in a `QMem`: the two words of every head, indexed by the address of
the owning object, and the two words of every entry, indexed by the address
of the element. -/

/-- Address of a pointer cell that `tqe_prev` or `tqh_last` can hold:
`&owner->tqh_first` or `&elem->tqe_next`. -/
inductive Link where
  | head (owner : Nat)
  | next (elem : Nat)
  deriving DecidableEq, Repr

/-- Update of a memory at one address. -/
def upd {α : Type} (m : Nat → α) (a : Nat) (v : α) : Nat → α :=
  fun x => if x = a then v else m x

structure QMem where
  tqh_first : Nat → Option Nat
  tqh_last : Nat → Link
  tqe_next : Nat → Option Nat
  tqe_prev : Nat → Link

/-- A memory of zeroed cells. -/
def QMem.zero : QMem :=
  ⟨fun _ => none, fun o => Link.head o, fun _ => none, fun e => Link.next e⟩

/-- Read of the pointer cell at a link. -/
def QMem.load (q : QMem) : Link → Option Nat
  | Link.head o => q.tqh_first o
  | Link.next e => q.tqe_next e

/-- Write of the pointer cell at a link. -/
def QMem.store (q : QMem) (l : Link) (v : Option Nat) : QMem :=
  match l with
  | Link.head o => { q with tqh_first := upd q.tqh_first o v }
  | Link.next e => { q with tqe_next := upd q.tqe_next e v }

/-- The word that follows the pointer cell at a link, which `TAILQ_LAST` reads
as the `tqh_last` of a head laid over that cell. -/
def QMem.load_last (q : QMem) : Link → Link
  | Link.head o => q.tqh_last o
  | Link.next e => q.tqe_prev e

def TAILQ_INIT (q : QMem) (h : Nat) : QMem :=
  { q with tqh_first := upd q.tqh_first h none, tqh_last := upd q.tqh_last h (Link.head h) }

def TAILQ_FIRST (q : QMem) (h : Nat) : Option Nat := q.tqh_first h

def TAILQ_NEXT (q : QMem) (e : Nat) : Option Nat := q.tqe_next e

def TAILQ_EMPTY (q : QMem) (h : Nat) : Bool := (q.tqh_first h).isNone

def TAILQ_LAST (q : QMem) (h : Nat) : Option Nat := q.load (q.load_last (q.tqh_last h))

def TAILQ_INSERT_HEAD (q : QMem) (h elm : Nat) : QMem :=
  let q1 := { q with tqe_next := upd q.tqe_next elm (q.tqh_first h) }
  let q2 :=
    match q1.tqh_first h with
    | some first => { q1 with tqe_prev := upd q1.tqe_prev first (Link.next elm) }
    | none => { q1 with tqh_last := upd q1.tqh_last h (Link.next elm) }
  let q3 := { q2 with tqh_first := upd q2.tqh_first h (some elm) }
  { q3 with tqe_prev := upd q3.tqe_prev elm (Link.head h) }

def TAILQ_INSERT_TAIL (q : QMem) (h elm : Nat) : QMem :=
  let q1 := { q with tqe_next := upd q.tqe_next elm none }
  let q2 := { q1 with tqe_prev := upd q1.tqe_prev elm (q1.tqh_last h) }
  let q3 := q2.store (q2.tqh_last h) (some elm)
  { q3 with tqh_last := upd q3.tqh_last h (Link.next elm) }

def TAILQ_INSERT_BEFORE (q : QMem) (listelm elm : Nat) : QMem :=
  let q1 := { q with tqe_prev := upd q.tqe_prev elm (q.tqe_prev listelm) }
  let q2 := { q1 with tqe_next := upd q1.tqe_next elm (some listelm) }
  let q3 := q2.store (q2.tqe_prev listelm) (some elm)
  { q3 with tqe_prev := upd q3.tqe_prev listelm (Link.next elm) }

def TAILQ_REMOVE (q : QMem) (h elm : Nat) : QMem :=
  let q1 :=
    match q.tqe_next elm with
    | some n => { q with tqe_prev := upd q.tqe_prev n (q.tqe_prev elm) }
    | none => { q with tqh_last := upd q.tqh_last h (q.tqe_prev elm) }
  q1.store (q1.tqe_prev elm) (q1.tqe_next elm)

/-- The `TAILQ_FOREACH` of `INSERT_TAILQ_STRING_ORDER` from `cur` on: an
element that compares below the new one is skipped, before any other the new
one is inserted, and the loop goes on to the next element either way.  `none`
when the loop has not ended after `fuel` elements. -/
def INSERT_TAILQ_STRING_ORDER_loop (name : Nat → List Char) (ToInsert : Nat) :
    Nat → Option Nat → QMem → Option QMem
  | _, none, q => some q
  | 0, some _, _ => none
  | fuel + 1, some cur, q =>
    if strcmp (name ToInsert) (name cur) > 0 then
      INSERT_TAILQ_STRING_ORDER_loop name ToInsert fuel (q.tqe_next cur) q
    else
      let q1 := TAILQ_INSERT_BEFORE q cur ToInsert
      INSERT_TAILQ_STRING_ORDER_loop name ToInsert fuel (q1.tqe_next cur) q1

/-- The statement `INSERT_TAILQ_STRING_ORDER(&h->..., HeadType, name, ToInsert, node)`;
`name` reads the name field of an element.  `none` when `TAILQ_LAST` is NULL
and is dereferenced, or when the loop has not ended after `fuel` elements. -/
def INSERT_TAILQ_STRING_ORDER (fuel : Nat) (name : Nat → List Char) (q : QMem)
    (h ToInsert : Nat) : Option QMem :=
  match TAILQ_FIRST q h with
  | none => some (TAILQ_INSERT_HEAD q h ToInsert)
  | some first =>
    if strcmp (name ToInsert) (name first) < 0 then some (TAILQ_INSERT_HEAD q h ToInsert)
    else
      match TAILQ_LAST q h with
      | none => none
      | some last =>
        if strcmp (name ToInsert) (name last) > 0 then some (TAILQ_INSERT_TAIL q h ToInsert)
        else INSERT_TAILQ_STRING_ORDER_loop name ToInsert fuel (TAILQ_FIRST q h) q

/-- The loop `TAILQ_FOREACH(var, head, node) if (p(var)) break;` from `cur`
on: the element it stops at, or NULL (`some none`) at the end of the queue;
`none` when the loop has not ended after `fuel` elements. -/
def tailq_find (q : QMem) (p : Nat → Bool) : Nat → Option Nat → Option (Option Nat)
  | _, none => some none
  | 0, some _ => none
  | fuel + 1, some cur => if p cur then some (some cur) else tailq_find q p fuel (q.tqe_next cur)

/-! ## Documents (libconfig)

The import and export functions read and build documents through libconfig.
A setting is kept with its name (NULL for an element of a list), its type and
its value. -/

/-- A setting of a document (`config_setting_t`), by its type: an integer, a
string, a group of named settings, a list of settings, or a scalar of another
type. -/
inductive config_setting_t where
  | int (name : Option (List Char)) (value : Int)
  | string (name : Option (List Char)) (value : List Char)
  | group (name : Option (List Char)) (children : List config_setting_t)
  | list (name : Option (List Char)) (children : List config_setting_t)
  | other (name : Option (List Char))
  deriving Inhabited

/-- A document (`config_t`): its root setting, and the error text and the
error line that `config_error_text` and `config_error_line` give. -/
structure config_t where
  root : config_setting_t
  error_text : Option (List Char)
  error_line : Int
  deriving Inhabited

def config_setting_name : config_setting_t → Option (List Char)
  | config_setting_t.int name _ => name
  | config_setting_t.string name _ => name
  | config_setting_t.group name _ => name
  | config_setting_t.list name _ => name
  | config_setting_t.other name => name

/-- The function `config_setting_get_member`: the child of that name of a
group, `none` for NULL. -/
def config_setting_get_member (setting : config_setting_t) (name : List Char) :
    Option config_setting_t :=
  match setting with
  | config_setting_t.group _ children =>
    children.find? (fun c => decide (config_setting_name c = some name))
  | _ => none

/-- The function `config_setting_get_string`: `none` for NULL, when the
setting is not a string. -/
def config_setting_get_string : config_setting_t → Option (List Char)
  | config_setting_t.string _ value => some value
  | _ => none

/-- The test `config_setting_type(node) == CONFIG_TYPE_INT`. -/
def usbg_config_is_int : config_setting_t → Bool
  | config_setting_t.int _ _ => true
  | _ => false

/-- The function `config_setting_get_int`: 0 when the setting is not an
integer. -/
def config_setting_get_int : config_setting_t → Int
  | config_setting_t.int _ value => value
  | _ => 0

def config_root_setting (cfg : config_t) : config_setting_t := cfg.root

def config_error_text (cfg : config_t) : Option (List Char) := cfg.error_text

def config_error_line (cfg : config_t) : Int := cfg.error_line

/-! ## Objects and the heap -/

/-- Modelled from the spec: the buffer sizes `USBG_MAX_PATH_LENGTH` and
`USBG_MAX_STR_LENGTH` of `usbg/usbg.h` (the header is not among the sources),
the maximum path length being `PATH_MAX` of Linux. -/
def USBG_MAX_PATH_LENGTH : Nat := 4096
def USBG_MAX_STR_LENGTH : Nat := 256

/-- Modelled from the spec: the label `usbg/usbg.h` gives a config created
without one. -/
def DEFAULT_CONFIG_LABEL : List Char := "config".toList

/-- Modelled from the spec: the language code of US English. -/
def LANG_US_ENG : Int := 1033

def STRINGS_DIR : List Char := "strings".toList
def CONFIGS_DIR : List Char := "configs".toList
def FUNCTIONS_DIR : List Char := "functions".toList

structure usbg_state where
  path : List Char
  last_failed_import : Option config_t
  deriving Inhabited

structure usbg_gadget where
  name : List Char
  path : List Char
  udc : List Char
  parent : Nat
  last_failed_import : Option config_t
  deriving Inhabited

structure usbg_config where
  parent : Nat
  name : List Char
  path : List Char
  label : List Char
  id : Int
  deriving DecidableEq, Inhabited

/-- The field `inst` is the C field `instance`, a pointer into `name`. -/
structure usbg_function where
  parent : Nat
  name : List Char
  path : List Char
  inst : List Char
  label : Option (List Char)
  type : usbg_function_type
  deriving DecidableEq, Inhabited

/-- The field `target` holds the address of a function (`none` while it is
not set). -/
structure usbg_binding where
  parent : Nat
  target : Option Nat
  name : List Char
  path : List Char
  deriving DecidableEq, Inhabited

/-- The memory of the library: the objects by address, the cells of the four
kinds of queue, and the next unused address. -/
structure Heap where
  brk : Nat
  states : Nat → usbg_state
  gadgets : Nat → usbg_gadget
  configs : Nat → usbg_config
  functions : Nat → usbg_function
  bindings : Nat → usbg_binding
  gq : QMem
  fq : QMem
  cq : QMem
  bq : QMem

def Heap.empty : Heap :=
  ⟨1, fun _ => default, fun _ => default, fun _ => default, fun _ => default,
    fun _ => default, QMem.zero, QMem.zero, QMem.zero, QMem.zero⟩

/-- Bound on the elements a loop over a queue visits before the model gives
up: a queue without a cycle has fewer elements than addresses in use. -/
def Heap.fuel (h : Heap) : Nat := h.brk + 1

/-- The store `g->udc = udc` (a copy into the buffer of the gadget). -/
def Heap.set_udc (h : Heap) (g : Nat) (udc : List Char) : Heap :=
  { h with gadgets := upd h.gadgets g { (h.gadgets g) with udc := udc } }

/-- The store `b->target = f`. -/
def Heap.set_target (h : Heap) (b f : Nat) : Heap :=
  { h with bindings := upd h.bindings b { (h.bindings b) with target := some f } }

/-! ## Storage backend -/

def DT_DIR : Nat := 4
def DT_REG : Nat := 8
def DT_LNK : Nat := 10

structure dirent where
  d_name : List Char
  d_type : Nat
  deriving DecidableEq, Repr

/-- A call to the storage backend. -/
inductive Syscall where
  | mkdir (path : List Char)
  | rmdir (path : List Char)
  | unlink (path : List Char)
  | symlink (target linkpath : List Char)
  | readlink (path : List Char)
  | scandir (path : List Char)
  | opendir (path : List Char)
  | read (path : List Char)
  | write (path content : List Char)
  deriving DecidableEq, Repr

/-- The storage backend over states `σ`.  An operation that changes storage
gives its result, 0 or the `errno` of the failure, and the next state; one
that only reads gives the `errno` of the failure or what it read.  `scandir`
gives the entries of a directory as stored, neither filtered nor sorted;
`read` gives the whole content of a file (`fopen` for reading), `write`
replaces it (`fopen` for writing, `fputs`, `fflush`). -/
structure Backend (σ : Type) where
  mkdir : List Char → σ → Int × σ
  rmdir : List Char → σ → Int × σ
  unlink : List Char → σ → Int × σ
  symlink : List Char → List Char → σ → Int × σ
  write : List Char → List Char → σ → Int × σ
  readlink : List Char → σ → Except Int (List Char)
  scandir : List Char → σ → Except Int (List dirent)
  opendir : List Char → σ → Int
  read : List Char → σ → Except Int (List Char)

/-- The storage, the calls made to it so far (latest last), and the memory of
the library. -/
structure World (σ : Type) where
  fs : σ
  trace : List Syscall
  heap : Heap

section backend
variable {σ : Type} (B : Backend σ)

def sys_mkdir (path : List Char) (w : World σ) : Int × World σ :=
  ((B.mkdir path w.fs).1,
    { w with fs := (B.mkdir path w.fs).2, trace := w.trace ++ [Syscall.mkdir path] })

def sys_rmdir (path : List Char) (w : World σ) : Int × World σ :=
  ((B.rmdir path w.fs).1,
    { w with fs := (B.rmdir path w.fs).2, trace := w.trace ++ [Syscall.rmdir path] })

def sys_unlink (path : List Char) (w : World σ) : Int × World σ :=
  ((B.unlink path w.fs).1,
    { w with fs := (B.unlink path w.fs).2, trace := w.trace ++ [Syscall.unlink path] })

def sys_symlink (target linkpath : List Char) (w : World σ) : Int × World σ :=
  ((B.symlink target linkpath w.fs).1,
    { w with fs := (B.symlink target linkpath w.fs).2,
             trace := w.trace ++ [Syscall.symlink target linkpath] })

def sys_write (path content : List Char) (w : World σ) : Int × World σ :=
  ((B.write path content w.fs).1,
    { w with fs := (B.write path content w.fs).2,
             trace := w.trace ++ [Syscall.write path content] })

def sys_readlink (path : List Char) (w : World σ) : Except Int (List Char) × World σ :=
  (B.readlink path w.fs, { w with trace := w.trace ++ [Syscall.readlink path] })

def sys_scandir (path : List Char) (w : World σ) : Except Int (List dirent) × World σ :=
  (B.scandir path w.fs, { w with trace := w.trace ++ [Syscall.scandir path] })

def sys_opendir (path : List Char) (w : World σ) : Int × World σ :=
  (B.opendir path w.fs, { w with trace := w.trace ++ [Syscall.opendir path] })

def sys_read (path : List Char) (w : World σ) : Except Int (List Char) × World σ :=
  (B.read path w.fs, { w with trace := w.trace ++ [Syscall.read path] })

/-! ## Storage accessor -/

/-- The text of `"%s/%s"`. -/
def path2 (path name : List Char) : List Char := path ++ '/' :: name

/-- The text of `"%s/%s/%s"`. -/
def path3 (path name file : List Char) : List Char := path ++ '/' :: (name ++ '/' :: file)

/-- The characters `fgets` stores when `n` of them fit: a line through its
newline, or the first `n` characters. -/
def take_line : Nat → List Char → List Char
  | 0, _ => []
  | _, [] => []
  | n + 1, c :: t => if c = '\n' then [c] else c :: take_line n t

/-- The call `fgets(buf, size, fp)` on a file just opened: what `buf` holds,
`none` for NULL at the end of an empty file. -/
def fgets (size : Nat) (content : List Char) : Option (List Char) :=
  if content = [] then none else some (take_line (size - 1) content)

/-- The function `usbg_read_buf`: the return value, what was read into `buf`
(`none` when `buf` was not written), the world afterwards. -/
def usbg_read_buf (path name file : List Char) (w : World σ) :
    Int × Option (List Char) × World σ :=
  if (path3 path name file).length < USBG_MAX_PATH_LENGTH then
    match sys_read B (path3 path name file) w with
    | (Except.ok content, w1) =>
      match fgets USBG_MAX_STR_LENGTH content with
      | some line => (USBG_SUCCESS, some line, w1)
      | none => ( USBG_ERROR_IO, none, w1)
    | (Except.error e, w1) => (usbg_translate_error e, none, w1)
  else (USBG_ERROR_PATH_TOO_LONG, none, w)

/-- The function `usbg_read_string`: the return value, the string left in
`buf`, the world afterwards. -/
def usbg_read_string (path name file : List Char) (w : World σ) :
    Int × List Char × World σ :=
  match usbg_read_buf B path name file w with
  | (ret, some buf, w1) =>
    if ret = USBG_SUCCESS then
      match strchr buf '\n' with
      | some p => (ret, buf.take p, w1)
      | none => (ret, buf, w1)
    else (ret, [], w1)
  | (ret, none, w1) => (ret, [], w1)

def usbg_write_buf (path name file buf : List Char) (w : World σ) : Int × World σ :=
  if (path3 path name file).length < USBG_MAX_PATH_LENGTH then
    match sys_write B (path3 path name file) buf w with
    | (e, w1) => if e ≠ 0 then (usbg_translate_error e, w1) else (USBG_SUCCESS, w1)
  else (USBG_ERROR_PATH_TOO_LONG, w)

/-- The conversion `%x` of printf, to at least `width` digits (`%0<width>x`);
the argument is converted to `unsigned int`. -/
def fmt_x (width : Nat) (v : Int) : List Char :=
  List.replicate (width - (Nat.toDigits 16 (v % 4294967296).toNat).length) '0'
    ++ Nat.toDigits 16 (v % 4294967296).toNat

/-- The function `usbg_write_int`, given the text its format makes of the
value. -/
def usbg_write_int (path name file text : List Char) (w : World σ) : Int × World σ :=
  if text.length < USBG_MAX_STR_LENGTH then usbg_write_buf B path name file text w
  else (USBG_ERROR_INVALID_PARAM, w)

def usbg_write_dec (path name file : List Char) (v : Int) (w : World σ) : Int × World σ :=
  usbg_write_int B path name file (fmt_d v ++ ['\n']) w

def usbg_write_hex16 (path name file : List Char) (v : Int) (w : World σ) : Int × World σ :=
  usbg_write_int B path name file ('0' :: 'x' :: fmt_x 4 v ++ ['\n']) w

def usbg_write_hex8 (path name file : List Char) (v : Int) (w : World σ) : Int × World σ :=
  usbg_write_int B path name file ('0' :: 'x' :: fmt_x 2 v ++ ['\n']) w

def usbg_write_string (path name file buf : List Char) (w : World σ) : Int × World σ :=
  usbg_write_buf B path name file buf w

def file_select (dent : dirent) : Bool :=
  if strcmp dent.d_name ['.'] = 0 ∨ strcmp dent.d_name ['.', '.'] = 0 then false else true

def bindings_select (dent : dirent) : Bool :=
  if dent.d_type = DT_LNK then true else false

/-- Insertion of an entry into a list sorted by `alphasort`, which in the C
locale compares names with `strcmp`. -/
def alphasort_insert (d : dirent) : List dirent → List dirent
  | [] => [d]
  | e :: t => if strcmp d.d_name e.d_name ≤ 0 then d :: e :: t else e :: alphasort_insert d t

/-- The call `scandir(path, &dent, filter, alphasort)`: the `errno` of the
failure, or the entries that pass the filter, sorted. -/
def scandir (path : List Char) (filter : dirent → Bool) (w : World σ) :
    Except Int (List dirent) × World σ :=
  match sys_scandir B path w with
  | (Except.ok l, w1) => (Except.ok ((l.filter filter).foldr alphasort_insert []), w1)
  | (Except.error e, w1) => (Except.error e, w1)

/-! ## Allocation and lookup -/

/-- The function `usbg_allocate_gadget`: the address of the new gadget and the
heap that holds it. -/
def usbg_allocate_gadget (path name : List Char) (parent : Nat) (h : Heap) : Nat × Heap :=
  (h.brk,
    { h with brk := h.brk + 1,
             gadgets := upd h.gadgets h.brk ⟨name, path, [], parent, none⟩,
             fq := TAILQ_INIT h.fq h.brk,
             cq := TAILQ_INIT h.cq h.brk })

def usbg_allocate_config (path label : List Char) (id : Int) (parent : Nat) (h : Heap) :
    Nat × Heap :=
  (h.brk,
    { h with brk := h.brk + 1,
             configs := upd h.configs h.brk ⟨parent, config_name label id, path, label, id⟩,
             bq := TAILQ_INIT h.bq h.brk })

/-- The function `usbg_allocate_function`; `none` for NULL, when the type has
no type string. -/
def usbg_allocate_function (path : List Char) (type : usbg_function_type)
    (inst : List Char) (parent : Nat) (h : Heap) : Option (Nat × Heap) :=
  match usbg_get_function_type_str type with
  | none => none
  | some type_name =>
    some (h.brk,
      { h with brk := h.brk + 1,
               functions := upd h.functions h.brk
                 ⟨parent, type_name ++ '.' :: inst, path,
                  (type_name ++ '.' :: inst).drop (type_name.length + 1), none, type⟩ })

def usbg_allocate_binding (path name : List Char) (parent : Nat) (h : Heap) : Nat × Heap :=
  (h.brk,
    { h with brk := h.brk + 1,
             bindings := upd h.bindings h.brk ⟨parent, none, name, path⟩ })

/-- The function `usbg_get_gadget`: `some none` for NULL, `none` when the
loop does not end. -/
def usbg_get_gadget (h : Heap) (s : Nat) (name : List Char) : Option (Option Nat) :=
  tailq_find h.gq (fun g => strcmp (h.gadgets g).name name = 0) h.fuel (TAILQ_FIRST h.gq s)

def usbg_get_function (h : Heap) (g : Nat) (type : usbg_function_type) (inst : List Char) :
    Option (Option Nat) :=
  tailq_find h.fq (fun f => (h.functions f).type = type && strcmp (h.functions f).inst inst = 0)
    h.fuel (TAILQ_FIRST h.fq g)

/-- The function `usbg_get_config`; `label` is `none` for a NULL label. -/
def usbg_get_config (h : Heap) (g : Nat) (id : Int) (label : Option (List Char)) :
    Option (Option Nat) :=
  tailq_find h.cq
    (fun c => (h.configs c).id = id &&
      (match label with
       | none => true
       | some l => strcmp (h.configs c).label l = 0))
    h.fuel (TAILQ_FIRST h.cq g)

def usbg_get_binding (h : Heap) (c : Nat) (name : List Char) : Option (Option Nat) :=
  tailq_find h.bq (fun b => strcmp (h.bindings b).name name = 0) h.fuel (TAILQ_FIRST h.bq c)

def usbg_get_link_binding (h : Heap) (c f : Nat) : Option (Option Nat) :=
  tailq_find h.bq (fun b => (h.bindings b).target = some f) h.fuel (TAILQ_FIRST h.bq c)

def usbg_get_first_gadget (h : Heap) (s : Nat) : Option Nat := TAILQ_FIRST h.gq s
def usbg_get_first_function (h : Heap) (g : Nat) : Option Nat := TAILQ_FIRST h.fq g
def usbg_get_first_config (h : Heap) (g : Nat) : Option Nat := TAILQ_FIRST h.cq g
def usbg_get_first_binding (h : Heap) (c : Nat) : Option Nat := TAILQ_FIRST h.bq c
def usbg_get_next_gadget (h : Heap) (g : Nat) : Option Nat := TAILQ_NEXT h.gq g
def usbg_get_next_function (h : Heap) (f : Nat) : Option Nat := TAILQ_NEXT h.fq f
def usbg_get_next_config (h : Heap) (c : Nat) : Option Nat := TAILQ_NEXT h.cq c
def usbg_get_next_binding (h : Heap) (b : Nat) : Option Nat := TAILQ_NEXT h.bq b

/-- The elements that `first`, then `next` again and again until NULL, yield;
`none` when NULL has not come after `fuel` elements. -/
def iterate (next : Nat → Option Nat) : Nat → Option Nat → Option (List Nat)
  | _, none => some []
  | 0, some _ => none
  | fuel + 1, some cur => (iterate next fuel (next cur)).map (cur :: ·)

/-- The gadgets that the iteration with `usbg_get_first_gadget` and
`usbg_get_next_gadget` yields. -/
def gadgets_of (h : Heap) (s : Nat) : Option (List Nat) :=
  iterate (usbg_get_next_gadget h) h.fuel (usbg_get_first_gadget h s)

def functions_of (h : Heap) (g : Nat) : Option (List Nat) :=
  iterate (usbg_get_next_function h) h.fuel (usbg_get_first_function h g)

def configs_of (h : Heap) (g : Nat) : Option (List Nat) :=
  iterate (usbg_get_next_config h) h.fuel (usbg_get_first_config h g)

def bindings_of (h : Heap) (c : Nat) : Option (List Nat) :=
  iterate (usbg_get_next_binding h) h.fuel (usbg_get_first_binding h c)

/-! ## Attributes -/

structure usbg_gadget_attrs where
  bcdUSB : Int
  bDeviceClass : Int
  bDeviceSubClass : Int
  bDeviceProtocol : Int
  bMaxPacketSize0 : Int
  idVendor : Int
  idProduct : Int
  bcdDevice : Int
  deriving DecidableEq

structure usbg_gadget_strs where
  str_ser : List Char
  str_mnf : List Char
  str_prd : List Char
  deriving DecidableEq

structure usbg_config_attrs where
  bmAttributes : Int
  bMaxPower : Int
  deriving DecidableEq

structure usbg_config_strs where
  configuration : List Char
  deriving DecidableEq

/-- The six octets of a `struct ether_addr`. -/
structure ether_addr where
  ether_addr_octet : List Nat
  deriving DecidableEq

structure usbg_f_net_attrs where
  dev_addr : ether_addr
  host_addr : ether_addr
  ifname : List Char
  qmult : Int
  deriving DecidableEq

/-- The union `usbg_function_attrs`, by the member that was stored. -/
inductive usbg_function_attrs where
  | serial (port_num : Int)
  | net (attrs : usbg_f_net_attrs)
  | phonet (ifname : List Char)
  | ffs (dev_name : List Char)
  deriving DecidableEq

/-- The text `ether_ntoa_r` writes, `"%x:%x:%x:%x:%x:%x"`. -/
def ether_ntoa_r (a : ether_addr) : List Char :=
  List.intercalate [':'] (a.ether_addr_octet.map (Nat.toDigits 16))

/-- The text of `"%s/%s/%s/0x%x"` for a strings directory. -/
def strings_path (path name : List Char) (lang : Int) : List Char :=
  path ++ '/' :: (name ++ '/' :: (STRINGS_DIR ++ '/' :: '0' :: 'x' :: fmt_x 0 lang))

def usbg_check_dir (path : List Char) (w : World σ) : Int × World σ :=
  match sys_opendir B path w with
  | (e, w1) =>
    if e = 0 then (USBG_SUCCESS, w1)
    else if e ≠ ENOENT then (usbg_translate_error e, w1)
    else
      match sys_mkdir B path w1 with
      | (m, w2) => if m ≠ 0 then (usbg_translate_error m, w2) else (USBG_SUCCESS, w2)

def usbg_set_gadget_attrs (g : Nat) (a : usbg_gadget_attrs) (w : World σ) : Int × World σ :=
  let path := (w.heap.gadgets g).path
  let name := (w.heap.gadgets g).name
  match usbg_write_hex16 B path name "bcdUSB".toList a.bcdUSB w with
  | (ret, w1) =>
  if ret ≠ USBG_SUCCESS then (ret, w1) else
  match usbg_write_hex8 B path name "bDeviceClass".toList a.bDeviceClass w1 with
  | (ret, w2) =>
  if ret ≠ USBG_SUCCESS then (ret, w2) else
  match usbg_write_hex8 B path name "bDeviceSubClass".toList a.bDeviceSubClass w2 with
  | (ret, w3) =>
  if ret ≠ USBG_SUCCESS then (ret, w3) else
  match usbg_write_hex8 B path name "bDeviceProtocol".toList a.bDeviceProtocol w3 with
  | (ret, w4) =>
  if ret ≠ USBG_SUCCESS then (ret, w4) else
  match usbg_write_hex8 B path name "bMaxPacketSize0".toList a.bMaxPacketSize0 w4 with
  | (ret, w5) =>
  if ret ≠ USBG_SUCCESS then (ret, w5) else
  match usbg_write_hex16 B path name "idVendor".toList a.idVendor w5 with
  | (ret, w6) =>
  if ret ≠ USBG_SUCCESS then (ret, w6) else
  match usbg_write_hex16 B path name "idProduct".toList a.idProduct w6 with
  | (ret, w7) =>
  if ret ≠ USBG_SUCCESS then (ret, w7) else
  usbg_write_hex16 B path name "bcdDevice".toList a.bcdDevice w7

def usbg_set_gadget_strs (g : Nat) (lang : Int) (strs : usbg_gadget_strs) (w : World σ) :
    Int × World σ :=
  let path := strings_path (w.heap.gadgets g).path (w.heap.gadgets g).name lang
  if path.length ≥ USBG_MAX_PATH_LENGTH then (USBG_ERROR_PATH_TOO_LONG, w)
  else
    match usbg_check_dir B path w with
    | (ret, w1) =>
    if ret ≠ USBG_SUCCESS then (ret, w1) else
    match usbg_write_string B path [] "serialnumber".toList strs.str_ser w1 with
    | (ret, w2) =>
    if ret ≠ USBG_SUCCESS then (ret, w2) else
    match usbg_write_string B path [] "manufacturer".toList strs.str_mnf w2 with
    | (ret, w3) =>
    if ret ≠ USBG_SUCCESS then (ret, w3) else
    usbg_write_string B path [] "product".toList strs.str_prd w3

def usbg_set_function_net_attrs (f : Nat) (attrs : usbg_f_net_attrs) (w : World σ) :
    Int × World σ :=
  let path := (w.heap.functions f).path
  let name := (w.heap.functions f).name
  if attrs.ifname ≠ [] then (USBG_ERROR_INVALID_PARAM, w)
  else
    match usbg_write_string B path name "dev_addr".toList (ether_ntoa_r attrs.dev_addr) w with
    | (ret, w1) =>
    if ret ≠ USBG_SUCCESS then (ret, w1) else
    match usbg_write_string B path name "host_addr".toList (ether_ntoa_r attrs.host_addr) w1 with
    | (ret, w2) =>
    if ret ≠ USBG_SUCCESS then (ret, w2) else
    usbg_write_dec B path name "qmult".toList attrs.qmult w2

/-- The function `usbg_set_function_attrs`; `none` when the member of the
union that the type of the function selects is not the one that was stored. -/
def usbg_set_function_attrs (f : Nat) (f_attrs : usbg_function_attrs) (w : World σ) :
    Option (Int × World σ) :=
  let type := (w.heap.functions f).type
  if type = F_SERIAL ∨ type = F_ACM ∨ type = F_OBEX then
    match f_attrs with
    | usbg_function_attrs.serial port_num =>
      some (if port_num ≠ 0 then USBG_ERROR_INVALID_PARAM else USBG_SUCCESS, w)
    | _ => none
  else if type = F_ECM ∨ type = F_SUBSET ∨ type = F_NCM ∨ type = F_EEM ∨ type = F_RNDIS then
    match f_attrs with
    | usbg_function_attrs.net attrs => some (usbg_set_function_net_attrs B f attrs w)
    | _ => none
  else if type = F_PHONET then
    match f_attrs with
    | usbg_function_attrs.phonet ifname =>
      some (if ifname ≠ [] then USBG_ERROR_INVALID_PARAM else USBG_SUCCESS, w)
    | _ => none
  else if type = F_FFS then
    match f_attrs with
    | usbg_function_attrs.ffs dev_name =>
      some (if dev_name ≠ [] then USBG_ERROR_INVALID_PARAM else USBG_SUCCESS, w)
    | _ => none
  else some (USBG_ERROR_NOT_SUPPORTED, w)

def usbg_set_config_attrs (c : Nat) (a : usbg_config_attrs) (w : World σ) : Int × World σ :=
  match usbg_write_dec B (w.heap.configs c).path (w.heap.configs c).name "MaxPower".toList
      a.bMaxPower w with
  | (ret, w1) =>
    if ret = USBG_SUCCESS then
      usbg_write_hex8 B (w1.heap.configs c).path (w1.heap.configs c).name "bmAttributes".toList
        a.bmAttributes w1
    else (ret, w1)

def usbg_set_config_string (c : Nat) (lang : Int) (str : List Char) (w : World σ) :
    Int × World σ :=
  let path := strings_path (w.heap.configs c).path (w.heap.configs c).name lang
  if path.length < USBG_MAX_PATH_LENGTH then
    match usbg_check_dir B path w with
    | (ret, w1) =>
      if ret = USBG_SUCCESS then usbg_write_string B path [] "configuration".toList str w1
      else (ret, w1)
  else (USBG_ERROR_PATH_TOO_LONG, w)

/-! ## Tree mutator: create operations

A create operation gives its return value, the pointer it stored through its
last argument (`none` when it stored nothing, or NULL), and the world
afterwards; the whole result is `none` when a loop over a queue does not end
or a NULL pointer is dereferenced.  A `free` leaves the heap as it is: the
address is not used again. -/

/-- The function `usbg_create_empty_gadget`. -/
def usbg_create_empty_gadget (s : Nat) (name : List Char) (w : World σ) :
    Int × Option Nat × World σ :=
  if (path2 (w.heap.states s).path name).length ≥ USBG_MAX_PATH_LENGTH then
    (USBG_ERROR_PATH_TOO_LONG, none, w)
  else
    match usbg_allocate_gadget (w.heap.states s).path name s w.heap with
    | (gad, h1) =>
      match sys_mkdir B (path2 (w.heap.states s).path name) { w with heap := h1 } with
      | (e, w2) =>
        if e = 0 then
          match usbg_read_string B (h1.gadgets gad).path (h1.gadgets gad).name "UDC".toList w2 with
          | (ret, udc, w3) =>
            if ret ≠ USBG_SUCCESS then
              (ret, none, (sys_rmdir B (path2 (w.heap.states s).path name) w3).2)
            else
              (ret, some gad, { w3 with heap := w3.heap.set_udc gad udc })
        else (usbg_translate_error e, none, w2)

/-- The last step of a create operation on the gadgets of a state: the
insertion into the queue. -/
def insert_gadget (s gad : Nat) (w : World σ) : Option (World σ) :=
  match INSERT_TAILQ_STRING_ORDER w.heap.fuel (fun g => (w.heap.gadgets g).name)
      w.heap.gq s gad with
  | some gq => some { w with heap := { w.heap with gq := gq } }
  | none => none

def usbg_create_gadget_vid_pid (s : Nat) (name : List Char) (idVendor idProduct : Int)
    (w : World σ) : Option (Int × Option Nat × World σ) :=
  match usbg_get_gadget w.heap s name with
  | none => none
  | some (some _) => some (USBG_ERROR_EXIST, none, w)
  | some none =>
    match usbg_create_empty_gadget B s name w with
    | (ret, some gad, w1) =>
      if ret = USBG_SUCCESS then
        match usbg_write_hex16 B (w1.heap.states s).path name "idVendor".toList idVendor w1 with
        | (ret, w2) =>
          if ret = USBG_SUCCESS then
            match usbg_write_hex16 B (w2.heap.states s).path name "idProduct".toList
                idProduct w2 with
            | (ret, w3) =>
              if ret = USBG_SUCCESS then
                (insert_gadget s gad w3).map (fun w4 => (ret, some gad, w4))
              else some (ret, some gad, w3)
          else some (ret, some gad, w2)
      else some (ret, some gad, w1)
    | (ret, none, w1) => some (ret, none, w1)

def usbg_create_gadget (s : Nat) (name : List Char) (g_attrs : Option usbg_gadget_attrs)
    (g_strs : Option usbg_gadget_strs) (w : World σ) : Option (Int × Option Nat × World σ) :=
  match usbg_get_gadget w.heap s name with
  | none => none
  | some (some _) => some (USBG_ERROR_EXIST, none, w)
  | some none =>
    match usbg_create_empty_gadget B s name w with
    | (ret, some gad, w1) =>
      if ret = USBG_SUCCESS then
        match (match g_attrs with
               | some a => usbg_set_gadget_attrs B gad a w1
               | none => (ret, w1)) with
        | (ret1, w2) =>
          match (match g_strs with
                 | some t => usbg_set_gadget_strs B gad LANG_US_ENG t w2
                 | none => (ret1, w2)) with
          | (ret2, w3) =>
            if ret2 = USBG_SUCCESS then
              (insert_gadget s gad w3).map (fun w4 => (ret2, some gad, w4))
            else some (ret2, some gad, w3)
      else some (ret, some gad, w1)
    | (ret, none, w1) => some (ret, none, w1)

def insert_function (g func : Nat) (w : World σ) : Option (World σ) :=
  match INSERT_TAILQ_STRING_ORDER w.heap.fuel (fun f => (w.heap.functions f).name)
      w.heap.fq g func with
  | some fq => some { w with heap := { w.heap with fq := fq } }
  | none => none

/-- The function `usbg_create_function` from the lookup of a duplicate on,
with the instance name settled. -/
def usbg_create_function_named (g : Nat) (type : usbg_function_type) (inst : List Char)
    (f_attrs : Option usbg_function_attrs) (w : World σ) :
    Option (Int × Option Nat × World σ) :=
  match usbg_get_function w.heap g type inst with
  | none => none
  | some (some _) => some (USBG_ERROR_EXIST, none, w)
  | some none =>
    let fpath := path3 (w.heap.gadgets g).path (w.heap.gadgets g).name FUNCTIONS_DIR
    if fpath.length ≥ USBG_MAX_PATH_LENGTH then some (USBG_ERROR_PATH_TOO_LONG, none, w)
    else
      match usbg_allocate_function fpath type inst g w.heap with
      | none => some (USBG_ERROR_NO_MEM, none, w)
      | some (func, h1) =>
        match (if 1 + (h1.functions func).name.length < USBG_MAX_PATH_LENGTH - fpath.length then
                 match sys_mkdir B (fpath ++ '/' :: (h1.functions func).name)
                     { w with heap := h1 } with
                 | (e, w2) =>
                   if e = 0 then
                     match f_attrs with
                     | some a => usbg_set_function_attrs B func a w2
                     | none => some (USBG_SUCCESS, w2)
                   else some (usbg_translate_error e, w2)
               else some (USBG_ERROR_INVALID_PARAM, { w with heap := h1 })) with
        | none => none
        | some (ret, w3) =>
          if ret = USBG_SUCCESS then
            (insert_function g func w3).map (fun w4 => (ret, some func, w4))
          else some (ret, some func, w3)

/-- The function `usbg_create_function`; `inst` is `none` for a NULL instance
and `f_attrs` is `none` for NULL attributes. -/
def usbg_create_function (g : Nat) (type : usbg_function_type) (inst : Option (List Char))
    (f_attrs : Option usbg_function_attrs) (w : World σ) :
    Option (Int × Option Nat × World σ) :=
  match inst with
  | some i => usbg_create_function_named B g type i f_attrs w
  | none =>
    match f_attrs with
    | none => some (USBG_ERROR_INVALID_PARAM, none, w)
    | some a =>
      if type = F_FFS then
        match a with
        | usbg_function_attrs.ffs dev_name => usbg_create_function_named B g type dev_name none w
        | _ => none
      else some (USBG_ERROR_INVALID_PARAM, none, w)

def insert_config (g conf : Nat) (w : World σ) : Option (World σ) :=
  match INSERT_TAILQ_STRING_ORDER w.heap.fuel (fun c => (w.heap.configs c).name)
      w.heap.cq g conf with
  | some cq => some { w with heap := { w.heap with cq := cq } }
  | none => none

/-- The function `usbg_create_config`; `label` is `none` for a NULL label.
The second `snprintf` cuts the path to the size of the buffer, and `mkdir` is
called on what the buffer holds. -/
def usbg_create_config (g : Nat) (id : Int) (label : Option (List Char))
    (c_attrs : Option usbg_config_attrs) (c_strs : Option usbg_config_strs) (w : World σ) :
    Option (Int × Option Nat × World σ) :=
  if id ≤ 0 ∨ id > 255 then some (USBG_ERROR_INVALID_PARAM, none, w)
  else
    match usbg_get_config w.heap g id none with
    | none => none
    | some (some _) => some (USBG_ERROR_EXIST, none, w)
    | some none =>
      let cpath := path3 (w.heap.gadgets g).path (w.heap.gadgets g).name CONFIGS_DIR
      if cpath.length ≥ USBG_MAX_PATH_LENGTH then some (USBG_ERROR_PATH_TOO_LONG, none, w)
      else
        match usbg_allocate_config cpath (label.getD DEFAULT_CONFIG_LABEL) id g w.heap with
        | (conf, h1) =>
          match sys_mkdir B
              ((cpath ++ '/' :: (h1.configs conf).name).take (USBG_MAX_PATH_LENGTH - 1))
              { w with heap := h1 } with
          | (e, w2) =>
            match (if e = 0 then
                     match (match c_attrs with
                            | some a => usbg_set_config_attrs B conf a w2
                            | none => (USBG_SUCCESS, w2)) with
                     | (ret1, w3) =>
                       match c_strs with
                       | some t =>
                         if ret1 = USBG_SUCCESS then
                           usbg_set_config_string B conf LANG_US_ENG t.configuration w3
                         else (ret1, w3)
                       | none => (ret1, w3)
                   else (usbg_translate_error e, w2)) with
            | (ret, w4) =>
              if ret = USBG_SUCCESS then
                (insert_config g conf w4).map (fun w5 => (ret, some conf, w5))
              else some (ret, some conf, w4)

def insert_binding (c b : Nat) (w : World σ) : Option (World σ) :=
  match INSERT_TAILQ_STRING_ORDER w.heap.fuel (fun x => (w.heap.bindings x).name)
      w.heap.bq c b with
  | some bq => some { w with heap := { w.heap with bq := bq } }
  | none => none

/-- The function `usbg_add_config_function`: the return value and the world
afterwards. -/
def usbg_add_config_function (c : Nat) (name : List Char) (f : Nat) (w : World σ) :
    Option (Int × World σ) :=
  match usbg_get_binding w.heap c name with
  | none => none
  | some (some _) => some (USBG_ERROR_EXIST, w)
  | some none =>
    match usbg_get_link_binding w.heap c f with
    | none => none
    | some (some _) => some (USBG_ERROR_EXIST, w)
    | some none =>
      let fpath := path2 (w.heap.functions f).path (w.heap.functions f).name
      let bpath := path2 (w.heap.configs c).path (w.heap.configs c).name
      if fpath.length ≥ USBG_MAX_PATH_LENGTH then some (USBG_ERROR_PATH_TOO_LONG, w)
      else if bpath.length ≥ USBG_MAX_PATH_LENGTH then some (USBG_ERROR_PATH_TOO_LONG, w)
      else
        match usbg_allocate_binding bpath name c w.heap with
        | (b, h1) =>
          let h2 := h1.set_target b f
          if 1 + name.length < USBG_MAX_PATH_LENGTH - bpath.length then
            match sys_symlink B fpath (bpath ++ '/' :: name) { w with heap := h2 } with
            | (e, w2) =>
              if e = 0 then (insert_binding c b w2).map (fun w3 => (USBG_SUCCESS, w3))
              else some (usbg_translate_error e, w2)
          else some (USBG_ERROR_PATH_TOO_LONG, { w with heap := h2 })

/-! ## Tree loader

A loader function gives its return value and the world afterwards; the whole
result is `none` when a loop over a queue does not end or a NULL pointer is
dereferenced. -/

/-- The loop of `usbg_parse_functions` over the entries still to visit. -/
def usbg_parse_functions_loop (fpath : List Char) (g : Nat) : List dirent → Int → Heap → Int × Heap
  | [], ret, h => (ret, h)
  | d :: rest, ret, h =>
    if ret = USBG_SUCCESS then
      match usbg_split_function_instance_type d.d_name with
      | (r, some type, some inst) =>
        if r = USBG_SUCCESS then
          match usbg_allocate_function fpath type inst g h with
          | some (f, h1) =>
            usbg_parse_functions_loop fpath g rest r { h1 with fq := TAILQ_INSERT_TAIL h1.fq g f }
          | none => usbg_parse_functions_loop fpath g rest USBG_ERROR_NO_MEM h
        else usbg_parse_functions_loop fpath g rest r h
      | (r, _, _) => usbg_parse_functions_loop fpath g rest r h
    else usbg_parse_functions_loop fpath g rest ret h

def usbg_parse_functions (path : List Char) (g : Nat) (w : World σ) : Int × World σ :=
  let fpath := path3 path (w.heap.gadgets g).name FUNCTIONS_DIR
  if fpath.length ≥ USBG_MAX_PATH_LENGTH then (USBG_ERROR_PATH_TOO_LONG, w)
  else
    match scandir B fpath file_select w with
    | (Except.error e, w1) => (usbg_translate_error e, w1)
    | (Except.ok dent, w1) =>
      match usbg_parse_functions_loop fpath g dent USBG_SUCCESS w1.heap with
      | (ret, h) => (ret, { w1 with heap := h })

/-- The function `usbg_parse_config_binding` for the link `name` of the
directory `bpath`; `readlink` fills at most the buffer less one character. -/
def usbg_parse_config_binding (c : Nat) (bpath name : List Char) (w : World σ) :
    Option (Int × World σ) :=
  match sys_readlink B (bpath ++ '/' :: name) w with
  | (Except.error e, w1) => some (usbg_translate_error e, w1)
  | (Except.ok t, w1) =>
    let target := t.take (USBG_MAX_PATH_LENGTH - 1)
    match strrchr target '/' with
    | none => none
    | some slash =>
      match usbg_split_function_instance_type (target.drop (slash + 1)) with
      | (ret, some type, some inst) =>
        if ret ≠ USBG_SUCCESS then some (ret, w1)
        else
          match usbg_get_function w1.heap (w1.heap.configs c).parent type inst with
          | none => none
          | some none => some (USBG_ERROR_OTHER_ERROR, w1)
          | some (some f) =>
            match usbg_allocate_binding bpath name c w1.heap with
            | (b, h1) =>
              some (ret,
                { w1 with heap :=
                    { (h1.set_target b f) with bq := TAILQ_INSERT_TAIL (h1.set_target b f).bq c b } })
      | (ret, _, _) => some (ret, w1)

/-- The loop of `usbg_parse_config_bindings` over the entries still to visit. -/
def usbg_parse_config_bindings_loop (c : Nat) (bpath : List Char) :
    List dirent → Int → World σ → Option (Int × World σ)
  | [], ret, w => some (ret, w)
  | d :: rest, ret, w =>
    if ret = USBG_SUCCESS then
      if 1 + d.d_name.length < USBG_MAX_PATH_LENGTH - bpath.length then
        match usbg_parse_config_binding B c bpath d.d_name w with
        | none => none
        | some (r, w1) => usbg_parse_config_bindings_loop c bpath rest r w1
      else usbg_parse_config_bindings_loop c bpath rest USBG_ERROR_PATH_TOO_LONG w
    else usbg_parse_config_bindings_loop c bpath rest ret w

def usbg_parse_config_bindings (c : Nat) (w : World σ) : Option (Int × World σ) :=
  let bpath := path2 (w.heap.configs c).path (w.heap.configs c).name
  if bpath.length ≥ USBG_MAX_PATH_LENGTH then some (USBG_ERROR_PATH_TOO_LONG, w)
  else
    match scandir B bpath bindings_select w with
    | (Except.error e, w1) => some (usbg_translate_error e, w1)
    | (Except.ok dent, w1) => usbg_parse_config_bindings_loop B c bpath dent USBG_SUCCESS w1

def usbg_parse_config (path name : List Char) (g : Nat) (w : World σ) :
    Option (Int × World σ) :=
  match usbg_split_config_label_id name with
  | (ret, label) =>
    if ret ≤ 0 then some (ret, w)
    else
      match usbg_allocate_config path (label.getD []) ret g w.heap with
      | (c, h1) =>
        match usbg_parse_config_bindings B c { w with heap := h1 } with
        | none => none
        | some (r, w1) =>
          if r = USBG_SUCCESS then
            some (r, { w1 with heap := { w1.heap with cq := TAILQ_INSERT_TAIL w1.heap.cq g c } })
          else some (r, w1)

/-- The loop of `usbg_parse_configs` over the entries still to visit. -/
def usbg_parse_configs_loop (cpath : List Char) (g : Nat) :
    List dirent → Int → World σ → Option (Int × World σ)
  | [], ret, w => some (ret, w)
  | d :: rest, ret, w =>
    if ret = USBG_SUCCESS then
      match usbg_parse_config B cpath d.d_name g w with
      | none => none
      | some (r, w1) => usbg_parse_configs_loop cpath g rest r w1
    else usbg_parse_configs_loop cpath g rest ret w

def usbg_parse_configs (path : List Char) (g : Nat) (w : World σ) : Option (Int × World σ) :=
  let cpath := path3 path (w.heap.gadgets g).name CONFIGS_DIR
  if cpath.length ≥ USBG_MAX_PATH_LENGTH then some (USBG_ERROR_PATH_TOO_LONG, w)
  else
    match scandir B cpath file_select w with
    | (Except.error e, w1) => some (usbg_translate_error e, w1)
    | (Except.ok dent, w1) => usbg_parse_configs_loop B cpath g dent USBG_SUCCESS w1

def usbg_parse_gadget (g : Nat) (w : World σ) : Option (Int × World σ) :=
  match usbg_read_string B (w.heap.gadgets g).path (w.heap.gadgets g).name "UDC".toList w with
  | (ret, udc, w1) =>
    if ret ≠ USBG_SUCCESS then some (ret, { w1 with heap := w1.heap.set_udc g udc })
    else
      match usbg_parse_functions B (w.heap.gadgets g).path g
          { w1 with heap := w1.heap.set_udc g udc } with
      | (ret1, w2) =>
        if ret1 ≠ USBG_SUCCESS then some (ret1, w2)
        else usbg_parse_configs B (w.heap.gadgets g).path g w2

/-- The loop of `usbg_parse_gadgets` over the entries still to visit. -/
def usbg_parse_gadgets_loop (path : List Char) (s : Nat) :
    List dirent → Int → World σ → Option (Int × World σ)
  | [], ret, w => some (ret, w)
  | d :: rest, ret, w =>
    if ret = USBG_SUCCESS then
      match usbg_allocate_gadget path d.d_name s w.heap with
      | (g, h1) =>
        match usbg_parse_gadget B g { w with heap := h1 } with
        | none => none
        | some (r, w1) =>
          if r = USBG_SUCCESS then
            usbg_parse_gadgets_loop path s rest r
              { w1 with heap := { w1.heap with gq := TAILQ_INSERT_TAIL w1.heap.gq s g } }
          else usbg_parse_gadgets_loop path s rest r w1
    else usbg_parse_gadgets_loop path s rest ret w

def usbg_parse_gadgets (path : List Char) (s : Nat) (w : World σ) : Option (Int × World σ) :=
  match scandir B path file_select w with
  | (Except.error e, w1) => some (usbg_translate_error e, w1)
  | (Except.ok dent, w1) => usbg_parse_gadgets_loop B path s dent USBG_SUCCESS w1

/-- The function `usbg_init_state` on the state at address `s`. -/
def usbg_init_state (path : List Char) (s : Nat) (w : World σ) : Option (Int × World σ) :=
  usbg_parse_gadgets B path s
    { w with heap := { w.heap with states := upd w.heap.states s ⟨path, none⟩,
                                   gq := TAILQ_INIT w.heap.gq s } }

/-- The function `usbg_init`: the return value, the state stored through
`state` (`none` when nothing was stored), the world afterwards. -/
def usbg_init (configfs_path : List Char) (w : World σ) : Option (Int × Option Nat × World σ) :=
  match sys_opendir B (configfs_path ++ "/usb_gadget".toList) w with
  | (e, w1) =>
    if e ≠ 0 then some (usbg_translate_error e, none, w1)
    else
      match usbg_init_state B (configfs_path ++ "/usb_gadget".toList) w1.heap.brk
          { w1 with heap := { w1.heap with brk := w1.heap.brk + 1 } } with
      | none => none
      | some (ret, w2) =>
        if ret ≠ USBG_SUCCESS then some (ret, none, w2) else some (ret, some w1.heap.brk, w2)

end backend

/-! ## Tree mutator: remove operations

A remove operation gives its return value and the world afterwards; the whole
result is `none` when a loop over a queue does not end.  A `free` leaves the
heap as it is. -/

section removal
variable {σ : Type} (B : Backend σ)

/-- Modelled from the spec: the option `USBG_RM_RECURSE` of `usbg/usbg.h`. -/
def USBG_RM_RECURSE : Int := 1

def ubsg_rm_file (path name : List Char) (w : World σ) : Int × World σ :=
  if (path2 path name).length < USBG_MAX_PATH_LENGTH then
    match sys_unlink B (path2 path name) w with
    | (e, w1) => if e ≠ 0 then (usbg_translate_error e, w1) else (USBG_SUCCESS, w1)
  else (USBG_ERROR_PATH_TOO_LONG, w)

def usbg_rm_dir (path name : List Char) (w : World σ) : Int × World σ :=
  if (path2 path name).length < USBG_MAX_PATH_LENGTH then
    match sys_rmdir B (path2 path name) w with
    | (e, w1) => if e ≠ 0 then (usbg_translate_error e, w1) else (USBG_SUCCESS, w1)
  else (USBG_ERROR_PATH_TOO_LONG, w)

/-- The loop of `usbg_rm_all_dirs` over the entries still to visit. -/
def usbg_rm_all_dirs_loop (path : List Char) : List dirent → Int → World σ → Int × World σ
  | [], ret, w => (ret, w)
  | d :: rest, ret, w =>
    if ret = USBG_SUCCESS then
      match usbg_rm_dir B path d.d_name w with
      | (r, w1) => usbg_rm_all_dirs_loop path rest r w1
    else usbg_rm_all_dirs_loop path rest ret w

def usbg_rm_all_dirs (path : List Char) (w : World σ) : Int × World σ :=
  match scandir B path file_select w with
  | (Except.ok dent, w1) => usbg_rm_all_dirs_loop B path dent USBG_SUCCESS w1
  | (Except.error e, w1) => (usbg_translate_error e, w1)

def usbg_rm_binding (b : Nat) (w : World σ) : Int × World σ :=
  match ubsg_rm_file B (w.heap.bindings b).path (w.heap.bindings b).name w with
  | (ret, w1) =>
    if ret = USBG_SUCCESS then
      (ret, { w1 with heap :=
        { w1.heap with bq := TAILQ_REMOVE w1.heap.bq (w.heap.bindings b).parent b } })
    else (ret, w1)

/-- The loop `while (!TAILQ_EMPTY(&c->bindings))` of `usbg_rm_config`: the
return value of the `usbg_rm_binding` that failed (`none` when the queue
became empty) and the world afterwards. -/
def usbg_rm_config_bindings (c : Nat) : Nat → World σ → Option (Option Int × World σ)
  | 0, _ => none
  | fuel + 1, w =>
    match TAILQ_FIRST w.heap.bq c with
    | none => some (none, w)
    | some b =>
      match usbg_rm_binding B b w with
      | (ret, w1) =>
        if ret ≠ USBG_SUCCESS then some (some ret, w1)
        else usbg_rm_config_bindings c fuel w1

/-- The last step of `usbg_rm_config`: the directory of the config is removed
and then the config is taken out of the queue of its gadget. -/
def usbg_rm_config_dir (c : Nat) (w : World σ) : Int × World σ :=
  match usbg_rm_dir B (w.heap.configs c).path (w.heap.configs c).name w with
  | (ret, w1) =>
    if ret = USBG_SUCCESS then
      (ret, { w1 with heap :=
        { w1.heap with cq := TAILQ_REMOVE w1.heap.cq (w.heap.configs c).parent c } })
    else (ret, w1)

def usbg_rm_config (c : Nat) (opts : Int) (w : World σ) : Option (Int × World σ) :=
  if Int.land opts USBG_RM_RECURSE ≠ 0 then
    match usbg_rm_config_bindings B c (w.heap.fuel + 1) w with
    | none => none
    | some (some ret, w1) => some (ret, w1)
    | some (none, w1) =>
      let spath := path3 (w1.heap.configs c).path (w1.heap.configs c).name STRINGS_DIR
      if spath.length ≥ USBG_MAX_PATH_LENGTH then some (USBG_ERROR_PATH_TOO_LONG, w1)
      else
        match usbg_rm_all_dirs B spath w1 with
        | (ret, w2) =>
          if ret ≠ USBG_SUCCESS then some (ret, w2)
          else some (usbg_rm_config_dir B c w2)
  else some (usbg_rm_config_dir B c w)

/-- The loop `while (b != NULL)` of `usbg_rm_function` over the bindings of
one config, from `b` on: the return value of the `usbg_rm_binding` that
failed (`none` at the end of the queue) and the world afterwards. -/
def usbg_rm_function_bindings (f : Nat) :
    Nat → Option Nat → World σ → Option (Option Int × World σ)
  | _, none, w => some (none, w)
  | 0, some _, _ => none
  | fuel + 1, some b, w =>
    if (w.heap.bindings b).target = some f then
      match usbg_rm_binding B b w with
      | (ret, w1) =>
        if ret ≠ USBG_SUCCESS then some (some ret, w1)
        else usbg_rm_function_bindings f fuel (TAILQ_NEXT w.heap.bq b) w1
    else usbg_rm_function_bindings f fuel (TAILQ_NEXT w.heap.bq b) w

/-- The loop `TAILQ_FOREACH(c, &g->configs, cnode)` of `usbg_rm_function`,
from the config `c` on. -/
def usbg_rm_function_configs (f : Nat) :
    Nat → Option Nat → World σ → Option (Option Int × World σ)
  | _, none, w => some (none, w)
  | 0, some _, _ => none
  | fuel + 1, some c, w =>
    match usbg_rm_function_bindings B f w.heap.fuel (TAILQ_FIRST w.heap.bq c) w with
    | none => none
    | some (some ret, w1) => some (some ret, w1)
    | some (none, w1) => usbg_rm_function_configs f fuel (TAILQ_NEXT w1.heap.cq c) w1

/-- The last step of `usbg_rm_function`. -/
def usbg_rm_function_dir (f : Nat) (w : World σ) : Int × World σ :=
  match usbg_rm_dir B (w.heap.functions f).path (w.heap.functions f).name w with
  | (ret, w1) =>
    if ret = USBG_SUCCESS then
      (ret, { w1 with heap :=
        { w1.heap with fq := TAILQ_REMOVE w1.heap.fq (w.heap.functions f).parent f } })
    else (ret, w1)

def usbg_rm_function (f : Nat) (opts : Int) (w : World σ) : Option (Int × World σ) :=
  if Int.land opts USBG_RM_RECURSE ≠ 0 then
    match usbg_rm_function_configs B f w.heap.fuel
        (TAILQ_FIRST w.heap.cq (w.heap.functions f).parent) w with
    | none => none
    | some (some ret, w1) => some (ret, w1)
    | some (none, w1) => some (usbg_rm_function_dir B f w1)
  else some (usbg_rm_function_dir B f w)

/-- The loop `while (!TAILQ_EMPTY(&g->configs))` of `usbg_rm_gadget`. -/
def usbg_rm_gadget_configs (g : Nat) (opts : Int) :
    Nat → World σ → Option (Option Int × World σ)
  | 0, _ => none
  | fuel + 1, w =>
    match TAILQ_FIRST w.heap.cq g with
    | none => some (none, w)
    | some c =>
      match usbg_rm_config B c opts w with
      | none => none
      | some (ret, w1) =>
        if ret ≠ USBG_SUCCESS then some (some ret, w1)
        else usbg_rm_gadget_configs g opts fuel w1

/-- The loop `while (!TAILQ_EMPTY(&g->functions))` of `usbg_rm_gadget`. -/
def usbg_rm_gadget_functions (g : Nat) (opts : Int) :
    Nat → World σ → Option (Option Int × World σ)
  | 0, _ => none
  | fuel + 1, w =>
    match TAILQ_FIRST w.heap.fq g with
    | none => some (none, w)
    | some f =>
      match usbg_rm_function B f opts w with
      | none => none
      | some (ret, w1) =>
        if ret ≠ USBG_SUCCESS then some (some ret, w1)
        else usbg_rm_gadget_functions g opts fuel w1

/-- The last step of `usbg_rm_gadget`. -/
def usbg_rm_gadget_dir (g : Nat) (w : World σ) : Int × World σ :=
  match usbg_rm_dir B (w.heap.gadgets g).path (w.heap.gadgets g).name w with
  | (ret, w1) =>
    if ret = USBG_SUCCESS then
      (ret, { w1 with heap :=
        { w1.heap with gq := TAILQ_REMOVE w1.heap.gq (w.heap.gadgets g).parent g } })
    else (ret, w1)

def usbg_rm_gadget (g : Nat) (opts : Int) (w : World σ) : Option (Int × World σ) :=
  if Int.land opts USBG_RM_RECURSE ≠ 0 then
    match usbg_rm_gadget_configs B g opts (w.heap.fuel + 1) w with
    | none => none
    | some (some ret, w1) => some (ret, w1)
    | some (none, w1) =>
      match usbg_rm_gadget_functions B g opts (w1.heap.fuel + 1) w1 with
      | none => none
      | some (some ret, w2) => some (ret, w2)
      | some (none, w2) =>
        let spath := path3 (w2.heap.gadgets g).path (w2.heap.gadgets g).name STRINGS_DIR
        if spath.length ≥ USBG_MAX_PATH_LENGTH then some (USBG_ERROR_PATH_TOO_LONG, w2)
        else
          match usbg_rm_all_dirs B spath w2 with
          | (ret, w3) =>
            if ret ≠ USBG_SUCCESS then some (ret, w3)
            else some (usbg_rm_gadget_dir B g w3)
  else some (usbg_rm_gadget_dir B g w)

end removal

/-! ## Import of a function from a document

An import function gives its return value, the pointer it stored through its
last argument (`none` when it stored nothing), and the world afterwards. -/

/-- The value of a hexadecimal digit, in either case. -/
def hex_digit (c : Char) : Option Nat :=
  if '0' ≤ c ∧ c ≤ '9' then some (c.toNat - '0'.toNat)
  else if 'a' ≤ c ∧ c ≤ 'f' then some (c.toNat - 'a'.toNat + 10)
  else if 'A' ≤ c ∧ c ≤ 'F' then some (c.toNat - 'A'.toNat + 10)
  else none

/-- The loop of `ether_aton_r` of glibc from the octet `cnt` on: an octet is
one or two hexadecimal digits, a colon follows each of the first five, and
what follows the sixth is not looked at when it starts with a space. -/
def ether_aton_loop : Nat → Nat → List Char → Option (List Nat)
  | 0, _, _ => some []
  | n + 1, cnt, asc =>
    match asc with
    | [] => none
    | c1 :: rest =>
      match hex_digit c1 with
      | none => none
      | some d1 =>
        if (cnt < 5 ∧ rest.head? ≠ some ':') ∨
            (cnt = 5 ∧ rest ≠ [] ∧ ¬ (rest.head?.map isspace = some true)) then
          match rest with
          | [] => none
          | c2 :: rest2 =>
            match hex_digit c2 with
            | none => none
            | some d2 =>
              if cnt < 5 ∧ rest2.head? ≠ some ':' then none
              else (ether_aton_loop n (cnt + 1) (rest2.drop 1)).map ((d1 * 16 + d2) :: ·)
        else (ether_aton_loop n (cnt + 1) (rest.drop 1)).map (d1 :: ·)

/-- The function `ether_aton_r`; `none` for NULL. -/
def ether_aton_r (asc : List Char) : Option ether_addr :=
  (ether_aton_loop 6 0 asc).map (fun l => ⟨l⟩)

/-- The store `g->last_failed_import = cfg`. -/
def Heap.set_gadget_failed_import (h : Heap) (g : Nat) (cfg : Option config_t) : Heap :=
  { h with gadgets := upd h.gadgets g { (h.gadgets g) with last_failed_import := cfg } }

/-- What `config_read(cfg, stream)` makes of a stream: whether it returns
`CONFIG_TRUE`, and the document `cfg` afterwards. -/
structure config_stream where
  cfg_ret : Bool
  cfg : config_t

section import_function
variable {σ : Type} (B : Backend σ)

def usbg_set_net_dev_addr (f : Nat) (dev_addr : ether_addr) (w : World σ) : Int × World σ :=
  usbg_write_string B (w.heap.functions f).path (w.heap.functions f).name "dev_addr".toList
    (ether_ntoa_r dev_addr) w

def usbg_set_net_host_addr (f : Nat) (host_addr : ether_addr) (w : World σ) : Int × World σ :=
  usbg_write_string B (w.heap.functions f).path (w.heap.functions f).name "host_addr".toList
    (ether_ntoa_r host_addr) w

def usbg_set_net_qmult (f : Nat) (qmult : Int) (w : World σ) : Int × World σ :=
  usbg_write_dec B (w.heap.functions f).path (w.heap.functions f).name "qmult".toList qmult w

/-- The statement `GET_OPTIONAL_ADDR(NAME)` of `usbg_import_f_net_attrs`, with
the setter of that attribute: the value of `ret` when the statement jumps to
`out` (`none` when it falls through), and the world afterwards. -/
def GET_OPTIONAL_ADDR (root : config_setting_t) (name : List Char)
    (set : Nat → ether_addr → World σ → Int × World σ) (f : Nat) (w : World σ) :
    Option Int × World σ :=
  match config_setting_get_member root name with
  | none => (none, w)
  | some node =>
    match config_setting_get_string node with
    | none => (some USBG_ERROR_INVALID_TYPE, w)
    | some str =>
      match ether_aton_r str with
      | none => (some USBG_ERROR_INVALID_VALUE, w)
      | some addr =>
        match set f addr w with
        | (ret, w1) => if ret ≠ USBG_SUCCESS then (some ret, w1) else (none, w1)

def usbg_import_f_net_attrs (root : config_setting_t) (f : Nat) (w : World σ) :
    Int × World σ :=
  match GET_OPTIONAL_ADDR root "host_addr".toList (usbg_set_net_host_addr B) f w with
  | (some ret, w1) => (ret, w1)
  | (none, w1) =>
    match GET_OPTIONAL_ADDR root "dev_addr".toList (usbg_set_net_dev_addr B) f w1 with
    | (some ret, w2) => (ret, w2)
    | (none, w2) =>
      match config_setting_get_member root "qmult".toList with
      | none => (USBG_SUCCESS, w2)
      | some node =>
        if ¬ usbg_config_is_int node then (USBG_ERROR_INVALID_TYPE, w2)
        else usbg_set_net_qmult B f (config_setting_get_int node) w2

def usbg_import_function_attrs (root : config_setting_t) (f : Nat) (w : World σ) :
    Int × World σ :=
  let type := (w.heap.functions f).type
  if type = F_SERIAL ∨ type = F_ACM ∨ type = F_OBEX then (USBG_SUCCESS, w)
  else if type = F_ECM ∨ type = F_SUBSET ∨ type = F_NCM ∨ type = F_EEM ∨ type = F_RNDIS then
    usbg_import_f_net_attrs B root f w
  else if type = F_PHONET then (USBG_SUCCESS, w)
  else if type = F_FFS then (USBG_SUCCESS, w)
  else (USBG_ERROR_NOT_SUPPORTED, w)

/-- The function `usbg_import_function_run`: the return value, the pointer
stored through `f`, the world afterwards. -/
def usbg_import_function_run (g : Nat) (root : config_setting_t) (inst : List Char)
    (w : World σ) : Option (Int × Option Nat × World σ) :=
  match config_setting_get_member root "type".toList with
  | none => some (USBG_ERROR_MISSING_TAG, none, w)
  | some node =>
    match config_setting_get_string node with
    | none => some (USBG_ERROR_INVALID_TYPE, none, w)
    | some type_str =>
      if usbg_lookup_function_type (some type_str) < 0 then
        some (USBG_ERROR_NOT_SUPPORTED, none, w)
      else
        match usbg_create_function B g (usbg_lookup_function_type (some type_str)) (some inst)
            none w with
        | none => none
        | some (ret, f, w1) =>
          if ret ≠ USBG_SUCCESS then some (ret, f, w1)
          else
            match config_setting_get_member root "attrs".toList, f with
            | none, _ => some (ret, f, w1)
            | some _, none => none
            | some node, some func =>
              match usbg_import_function_attrs B node func w1 with
              | (usbg_ret, w2) =>
                if usbg_ret ≠ USBG_SUCCESS then some (usbg_ret, f, w2) else some (ret, f, w2)

/-- The function `usbg_import_function`; `inst` is `none` for a NULL instance.
The pointer to the new function is stored through `f` only on success. -/
def usbg_import_function (g : Nat) (stream : config_stream) (inst : Option (List Char))
    (w : World σ) : Option (Int × Option Nat × World σ) :=
  match inst with
  | none => some (USBG_ERROR_INVALID_PARAM, none, w)
  | some i =>
    if ¬ stream.cfg_ret then
      some (USBG_ERROR_INVALID_FORMAT, none,
        { w with heap := w.heap.set_gadget_failed_import g (some stream.cfg) })
    else
      match usbg_import_function_run B g (config_root_setting stream.cfg) i w with
      | none => none
      | some (ret, newf, w1) =>
        if ret ≠ USBG_SUCCESS then
          some (ret, none, { w1 with heap := w1.heap.set_gadget_failed_import g (some stream.cfg) })
        else some (ret, newf, { w1 with heap := w1.heap.set_gadget_failed_import g none })

end import_function

/-- The function `usbg_get_func_import_error_text`; `none` for NULL. -/
def usbg_get_func_import_error_text (h : Heap) (g : Nat) : Option (List Char) :=
  match (h.gadgets g).last_failed_import with
  | none => none
  | some cfg => config_error_text cfg

def usbg_get_func_import_error_line (h : Heap) (g : Nat) : Int :=
  match (h.gadgets g).last_failed_import with
  | none => -1
  | some cfg => config_error_line cfg

/-! ## Function labels of documents -/

/-- Modelled from the spec: the buffer size `USBG_MAX_NAME_LENGTH` of
`usbg/usbg.h` (the header is not among the sources). -/
def USBG_MAX_NAME_LENGTH : Nat := 40

/-- The function `split_function_label` of `usbg.c`: the return value, the
type and the instance stored.  The whole result is `none` when the label has
no `'_'`: `floor` is NULL then, and neither the difference `floor - label` nor
the copy of that many characters into `buf` is defined. -/
def split_function_label (label : List Char) :
    Option (Int × Option usbg_function_type × Option (List Char)) :=
  match strchr label '_' with
  | none => none
  | some len =>
    if len ≥ USBG_MAX_NAME_LENGTH ∨ len = 0 then some (USBG_ERROR_NOT_FOUND, none, none)
    else if usbg_lookup_function_type (some (label.take len)) < 0 then
      some (USBG_ERROR_NOT_FOUND, none, none)
    else
      some (USBG_SUCCESS, some (usbg_lookup_function_type (some (label.take len))),
        some (label.drop (len + 1)))

/-- The function `split_function_label` of `usbg_schemes_libconfig.c`. -/
def split_function_label_libconfig (label : List Char) :
    Option (Int × Option usbg_function_type × Option (List Char)) :=
  match strchr label '_' with
  | none => none
  | some len =>
    if len ≥ USBG_MAX_NAME_LENGTH ∨ len = 0 then some (USBG_ERROR_NOT_FOUND, none, none)
    else if usbg_lookup_function_type (some (label.take len)) < 0 then
      some (USBG_ERROR_NOT_FOUND, none, none)
    else
      some (USBG_SUCCESS, some (usbg_lookup_function_type (some (label.take len))),
        some (label.drop (len + 1)))

/-! ## Storage accessor: reading attributes -/

/-- Modelled from the spec: the buffer size `USBG_MAX_DEV_LENGTH` of
`usbg/usbg.h`, the name length less the four characters of `ffs.`. -/
def USBG_MAX_DEV_LENGTH : Nat := USBG_MAX_NAME_LENGTH - 4

/-- Value of a run of hexadecimal digits. -/
def hex_digits_value (ds : List Char) : Nat :=
  ds.foldl (fun acc c => 16 * acc + (hex_digit c).getD 0) 0

/-- The call `strtol(s, &endptr, 16)` with a 64-bit `long`: the result and
the text `endptr` is left at.  A `0x` before the digits is passed over when a
hexadecimal digit follows it. -/
def strtol_hex (s : List Char) : Int × List Char :=
  let s1 := s.dropWhile isspace
  let neg := s1.head? = some '-'
  let s2 := if s1.head? = some '-' ∨ s1.head? = some '+' then s1.tail else s1
  let s3 :=
    match s2 with
    | '0' :: x :: d :: rest =>
      if (x = 'x' ∨ x = 'X') ∧ (hex_digit d).isSome then d :: rest else s2
    | _ => s2
  let ds := s3.takeWhile (fun c => (hex_digit c).isSome)
  let rest := s3.dropWhile (fun c => (hex_digit c).isSome)
  if ds = [] then (0, s)
  else
    let v : Int := if neg then -(hex_digits_value ds : Int) else (hex_digits_value ds : Int)
    if v > LONG_MAX then (LONG_MAX, rest)
    else if v < LONG_MIN then (LONG_MIN, rest)
    else (v, rest)

/-- The call `sscanf(s, "%x", &v)`: the value stored, `none` when nothing
was converted and the call does not return 1. -/
def sscanf_x (s : List Char) : Option Int :=
  if (strtol_hex s).2 = s then none else some (long_to_int (strtol_hex s).1)

section reading
variable {σ : Type} (B : Backend σ)

/-- The function `usbg_read_int`: the return value, the value stored through
`dest` (`none` when nothing was stored), the world afterwards. -/
def usbg_read_int (path name file : List Char) (base : Nat) (w : World σ) :
    Int × Option Int × World σ :=
  match usbg_read_buf B path name file w with
  | (ret, some buf, w1) =>
    if ret = USBG_SUCCESS then
      (ret, some (long_to_int (if base = 16 then (strtol_hex buf).1 else (strtol buf).1)), w1)
    else (ret, none, w1)
  | (ret, none, w1) => (ret, none, w1)

def usbg_read_dec (path name file : List Char) (w : World σ) : Int × Option Int × World σ :=
  usbg_read_int B path name file 10 w

def usbg_read_hex (path name file : List Char) (w : World σ) : Int × Option Int × World σ :=
  usbg_read_int B path name file 16 w

/-- The function `usbg_parse_gadget_attrs`: the return value, the attributes
when all of them were read, the world afterwards. -/
def usbg_parse_gadget_attrs (path name : List Char) (w : World σ) :
    Int × Option usbg_gadget_attrs × World σ :=
  match usbg_read_hex B path name "bcdUSB".toList w with
  | (ret, none, w1) => (ret, none, w1)
  | (_, some bcdUSB, w1) =>
  match usbg_read_hex B path name "bcdDevice".toList w1 with
  | (ret, none, w2) => (ret, none, w2)
  | (_, some bcdDevice, w2) =>
  match usbg_read_hex B path name "bDeviceClass".toList w2 with
  | (ret, none, w3) => (ret, none, w3)
  | (_, some bDeviceClass, w3) =>
  match usbg_read_hex B path name "bDeviceSubClass".toList w3 with
  | (ret, none, w4) => (ret, none, w4)
  | (_, some bDeviceSubClass, w4) =>
  match usbg_read_hex B path name "bDeviceProtocol".toList w4 with
  | (ret, none, w5) => (ret, none, w5)
  | (_, some bDeviceProtocol, w5) =>
  match usbg_read_hex B path name "bMaxPacketSize0".toList w5 with
  | (ret, none, w6) => (ret, none, w6)
  | (_, some bMaxPacketSize0, w6) =>
  match usbg_read_hex B path name "idVendor".toList w6 with
  | (ret, none, w7) => (ret, none, w7)
  | (_, some idVendor, w7) =>
  match usbg_read_hex B path name "idProduct".toList w7 with
  | (ret, none, w8) => (ret, none, w8)
  | (ret, some idProduct, w8) =>
    (ret, some ⟨bcdUSB % 65536, bDeviceClass % 256, bDeviceSubClass % 256,
      bDeviceProtocol % 256, bMaxPacketSize0 % 256, idVendor % 65536, idProduct % 65536,
      bcdDevice % 65536⟩, w8)

def usbg_get_gadget_attrs (g : Nat) (w : World σ) : Int × Option usbg_gadget_attrs × World σ :=
  usbg_parse_gadget_attrs B (w.heap.gadgets g).path (w.heap.gadgets g).name w

/-- The function `usbg_parse_gadget_strs`: the return value, the strings when
all of them were read, the world afterwards. -/
def usbg_parse_gadget_strs (path name : List Char) (lang : Int) (w : World σ) :
    Int × Option usbg_gadget_strs × World σ :=
  let spath := strings_path path name lang
  if spath.length ≥ USBG_MAX_PATH_LENGTH then (USBG_ERROR_PATH_TOO_LONG, none, w)
  else
    match sys_opendir B spath w with
    | (e, w1) =>
      if e = 0 then
        match usbg_read_string B spath [] "serialnumber".toList w1 with
        | (ret, str_ser, w2) =>
        if ret ≠ USBG_SUCCESS then (ret, none, w2) else
        match usbg_read_string B spath [] "manufacturer".toList w2 with
        | (ret, str_mnf, w3) =>
        if ret ≠ USBG_SUCCESS then (ret, none, w3) else
        match usbg_read_string B spath [] "product".toList w3 with
        | (ret, str_prd, w4) =>
        if ret ≠ USBG_SUCCESS then (ret, none, w4) else (ret, some ⟨str_ser, str_mnf, str_prd⟩, w4)
      else (usbg_translate_error e, none, w1)

def usbg_get_gadget_strs (g : Nat) (lang : Int) (w : World σ) :
    Int × Option usbg_gadget_strs × World σ :=
  usbg_parse_gadget_strs B (w.heap.gadgets g).path (w.heap.gadgets g).name lang w

def usbg_parse_config_attrs (path name : List Char) (w : World σ) :
    Int × Option usbg_config_attrs × World σ :=
  match usbg_read_dec B path name "MaxPower".toList w with
  | (ret, none, w1) => (ret, none, w1)
  | (_, some bMaxPower, w1) =>
    match usbg_read_hex B path name "bmAttributes".toList w1 with
    | (ret, none, w2) => (ret, none, w2)
    | (ret, some bmAttributes, w2) => (ret, some ⟨bmAttributes % 256, bMaxPower % 256⟩, w2)

def usbg_get_config_attrs (c : Nat) (w : World σ) : Int × Option usbg_config_attrs × World σ :=
  usbg_parse_config_attrs B (w.heap.configs c).path (w.heap.configs c).name w

def usbg_parse_config_strs (path name : List Char) (lang : Int) (w : World σ) :
    Int × Option usbg_config_strs × World σ :=
  let spath := strings_path path name lang
  if spath.length < USBG_MAX_PATH_LENGTH then
    match sys_opendir B spath w with
    | (e, w1) =>
      if e = 0 then
        match usbg_read_string B spath [] "configuration".toList w1 with
        | (ret, configuration, w2) =>
          if ret = USBG_SUCCESS then (ret, some ⟨configuration⟩, w2) else (ret, none, w2)
      else (usbg_translate_error e, none, w1)
  else (USBG_ERROR_PATH_TOO_LONG, none, w)

def usbg_get_config_strs (c : Nat) (lang : Int) (w : World σ) :
    Int × Option usbg_config_strs × World σ :=
  usbg_parse_config_strs B (w.heap.configs c).path (w.heap.configs c).name lang w

def usbg_parse_function_net_attrs (f : Nat) (w : World σ) :
    Int × Option usbg_f_net_attrs × World σ :=
  let path := (w.heap.functions f).path
  let name := (w.heap.functions f).name
  match usbg_read_string B path name "dev_addr".toList w with
  | (ret, str_addr, w1) =>
  if ret ≠ USBG_SUCCESS then (ret, none, w1) else
  match ether_aton_r str_addr with
  | none => ( USBG_ERROR_IO, none, w1)
  | some dev_addr =>
  match usbg_read_string B path name "host_addr".toList w1 with
  | (ret, str_addr, w2) =>
  if ret ≠ USBG_SUCCESS then (ret, none, w2) else
  match ether_aton_r str_addr with
  | none => ( USBG_ERROR_IO, none, w2)
  | some host_addr =>
  match usbg_read_string B path name "ifname".toList w2 with
  | (ret, ifname, w3) =>
  if ret ≠ USBG_SUCCESS then (ret, none, w3) else
  match usbg_read_dec B path name "qmult".toList w3 with
  | (ret, none, w4) => (ret, none, w4)
  | (ret, some qmult, w4) => (ret, some ⟨dev_addr, host_addr, ifname, qmult⟩, w4)

/-- The function `usbg_parse_function_attrs`: the return value, the member of
the union that was filled (`none` when it was not), the world afterwards. -/
def usbg_parse_function_attrs (f : Nat) (w : World σ) :
    Int × Option usbg_function_attrs × World σ :=
  let type := (w.heap.functions f).type
  if type = F_SERIAL ∨ type = F_ACM ∨ type = F_OBEX then
    match usbg_read_dec B (w.heap.functions f).path (w.heap.functions f).name
        "port_num".toList w with
    | (ret, some port_num, w1) => (ret, some (usbg_function_attrs.serial port_num), w1)
    | (ret, none, w1) => (ret, none, w1)
  else if type = F_ECM ∨ type = F_SUBSET ∨ type = F_NCM ∨ type = F_EEM ∨ type = F_RNDIS then
    match usbg_parse_function_net_attrs B f w with
    | (ret, some attrs, w1) => (ret, some (usbg_function_attrs.net attrs), w1)
    | (ret, none, w1) => (ret, none, w1)
  else if type = F_PHONET then
    match usbg_read_string B (w.heap.functions f).path (w.heap.functions f).name
        "ifname".toList w with
    | (ret, ifname, w1) =>
      if ret = USBG_SUCCESS then (ret, some (usbg_function_attrs.phonet ifname), w1)
      else (ret, none, w1)
  else if type = F_FFS then
    (0, some (usbg_function_attrs.ffs ((w.heap.functions f).inst.take (USBG_MAX_DEV_LENGTH - 1))),
      w)
  else (USBG_ERROR_NOT_SUPPORTED, none, w)

def usbg_get_function_attrs (f : Nat) (w : World σ) :
    Int × Option usbg_function_attrs × World σ :=
  usbg_parse_function_attrs B f w

end reading

/-! ## Export to a document

An export function is given the setting `root` it fills and gives its return
value, the setting afterwards, and the world afterwards; the whole result is
`none` when a loop over a queue does not end or a NULL pointer is
dereferenced.  The library is taken to accept every name and never to run out
of memory, so `config_setting_add` does not return NULL, and a setting is
given its value by the call that the code makes for its type, so
`config_setting_set_string`, `config_setting_set_int` and
`config_setting_set_format` return `CONFIG_TRUE`. -/

/-- The call `config_setting_add(parent, name, type)` together with the calls
that give the new setting its value or its members: the setting `child`
becomes the last member of `parent`. -/
def config_setting_add (parent child : config_setting_t) : config_setting_t :=
  match parent with
  | config_setting_t.group name children => config_setting_t.group name (children ++ [child])
  | config_setting_t.list name children => config_setting_t.list name (children ++ [child])
  | s => s

/-- The text `generate_function_label` composes, `"%s_%s"`; `none` when the
type of the function has no type string. -/
def generate_function_label (h : Heap) (f : Nat) : Option (List Char) :=
  match usbg_get_function_type_str (h.functions f).type with
  | none => none
  | some ts => some (ts ++ '_' :: (h.functions f).inst)

/-- The function `usbg_export_binding`: the return value and the setting
afterwards. -/
def usbg_export_binding (h : Heap) (b : Nat) (root : config_setting_t) :
    Option (Int × config_setting_t) :=
  let root1 := config_setting_add root
    (config_setting_t.string (some "name".toList) (h.bindings b).name)
  match (h.bindings b).target with
  | none => none
  | some target =>
    match generate_function_label h target with
    | none => none
    | some label =>
      if label.length ≥ USBG_MAX_NAME_LENGTH then some (USBG_ERROR_OTHER_ERROR, root1)
      else
        some (USBG_SUCCESS,
          config_setting_add root1 (config_setting_t.string (some "function".toList) label))

/-- The loop of `usbg_export_config_bindings`, from the binding `cur` on. -/
def usbg_export_config_bindings_loop (h : Heap) :
    Nat → Option Nat → Int → config_setting_t → Option (Int × config_setting_t)
  | _, none, ret, root => some (ret, root)
  | 0, some _, _, _ => none
  | fuel + 1, some b, _, root =>
    match usbg_export_binding h b (config_setting_t.group none []) with
    | none => none
    | some (ret, node) =>
      if ret ≠ USBG_SUCCESS then some (ret, config_setting_add root node)
      else
        usbg_export_config_bindings_loop h fuel (TAILQ_NEXT h.bq b) ret
          (config_setting_add root node)

def usbg_export_config_bindings (h : Heap) (c : Nat) (root : config_setting_t) :
    Option (Int × config_setting_t) :=
  usbg_export_config_bindings_loop h h.fuel (TAILQ_FIRST h.bq c) USBG_SUCCESS root

/-- The function `usbg_export_f_net_attrs`; none of its steps fails. -/
def usbg_export_f_net_attrs (attrs : usbg_f_net_attrs) (root : config_setting_t) :
    Int × config_setting_t :=
  (0,
    config_setting_add
      (config_setting_add
        (config_setting_add root
          (config_setting_t.string (some "dev_addr".toList) (ether_ntoa_r attrs.dev_addr)))
        (config_setting_t.string (some "host_addr".toList) (ether_ntoa_r attrs.host_addr)))
      (config_setting_t.int (some "qmult".toList) attrs.qmult))

section exporting
variable {σ : Type} (B : Backend σ)

def usbg_export_config_strs_lang (c : Nat) (lang_str : List Char) (root : config_setting_t)
    (w : World σ) : Int × config_setting_t × World σ :=
  match sscanf_x lang_str with
  | none => (USBG_ERROR_OTHER_ERROR, root, w)
  | some lang =>
    match usbg_get_config_strs B c lang w with
    | (usbg_ret, none, w1) => (usbg_ret, root, w1)
    | (_, some strs, w1) =>
      (USBG_SUCCESS,
        config_setting_add
          (config_setting_add root (config_setting_t.int (some "lang".toList) lang))
          (config_setting_t.string (some "configuration".toList) strs.configuration),
        w1)

/-- The loop of `usbg_export_config_strings` over the entries still to
visit. -/
def usbg_export_config_strings_loop (c : Nat) :
    List dirent → config_setting_t → World σ → Int × config_setting_t × World σ
  | [], root, w => (USBG_SUCCESS, root, w)
  | d :: rest, root, w =>
    match usbg_export_config_strs_lang B c d.d_name (config_setting_t.group none []) w with
    | (usbg_ret, node, w1) =>
      if usbg_ret ≠ USBG_SUCCESS then (usbg_ret, config_setting_add root node, w1)
      else usbg_export_config_strings_loop c rest (config_setting_add root node) w1

def usbg_export_config_strings (c : Nat) (root : config_setting_t) (w : World σ) :
    Int × config_setting_t × World σ :=
  let spath := path3 (w.heap.configs c).path (w.heap.configs c).name STRINGS_DIR
  if spath.length ≥ USBG_MAX_PATH_LENGTH then (USBG_ERROR_PATH_TOO_LONG, root, w)
  else
    match scandir B spath file_select w with
    | (Except.error e, w1) => (usbg_translate_error e, root, w1)
    | (Except.ok dent, w1) => usbg_export_config_strings_loop B c dent root w1

def usbg_export_config_attrs (c : Nat) (root : config_setting_t) (w : World σ) :
    Int × config_setting_t × World σ :=
  match usbg_get_config_attrs B c w with
  | (usbg_ret, none, w1) => (usbg_ret, root, w1)
  | (usbg_ret, some attrs, w1) =>
    if usbg_ret ≠ 0 then (usbg_ret, root, w1)
    else
      (USBG_SUCCESS,
        config_setting_add
          (config_setting_add root
            (config_setting_t.int (some "bmAttributes".toList) attrs.bmAttributes))
          (config_setting_t.int (some "bMaxPower".toList) attrs.bMaxPower),
        w1)

def usbg_export_config_prep (c : Nat) (root : config_setting_t) (w : World σ) :
    Option (Int × config_setting_t × World σ) :=
  let root1 := config_setting_add root
    (config_setting_t.string (some "name".toList) (w.heap.configs c).label)
  match usbg_export_config_attrs B c (config_setting_t.group (some "attrs".toList) []) w with
  | (usbg_ret, attrs, w1) =>
    if usbg_ret ≠ USBG_SUCCESS then some (usbg_ret, config_setting_add root1 attrs, w1)
    else
      match usbg_export_config_strings B c (config_setting_t.list (some "strings".toList) [])
          w1 with
      | (usbg_ret, strings, w2) =>
        if usbg_ret ≠ USBG_SUCCESS then
          some (usbg_ret, config_setting_add (config_setting_add root1 attrs) strings, w2)
        else
          match usbg_export_config_bindings w2.heap c
              (config_setting_t.list (some "functions".toList) []) with
          | none => none
          | some (ret, functions) =>
            some (ret,
              config_setting_add (config_setting_add (config_setting_add root1 attrs) strings)
                functions, w2)

/-- The loop of `usbg_export_gadget_configs`, from the config `cur` on. -/
def usbg_export_gadget_configs_loop :
    Nat → Option Nat → Int → config_setting_t → World σ →
    Option (Int × config_setting_t × World σ)
  | _, none, ret, root, w => some (ret, root, w)
  | 0, some _, _, _, _ => none
  | fuel + 1, some c, _, root, w =>
    match usbg_export_config_prep B c
        (config_setting_t.group none [config_setting_t.int (some "id".toList) (w.heap.configs c).id])
        w with
    | none => none
    | some (ret, node, w1) =>
      if ret ≠ USBG_SUCCESS then some (ret, config_setting_add root node, w1)
      else
        usbg_export_gadget_configs_loop fuel (TAILQ_NEXT w1.heap.cq c) ret
          (config_setting_add root node) w1

def usbg_export_gadget_configs (g : Nat) (root : config_setting_t) (w : World σ) :
    Option (Int × config_setting_t × World σ) :=
  usbg_export_gadget_configs_loop B w.heap.fuel (TAILQ_FIRST w.heap.cq g) USBG_SUCCESS root w

/-- The function `usbg_export_function_attrs`.  In the case `F_PHONET` the
`switch` is left with `ret` as it was set at the start. -/
def usbg_export_function_attrs (f : Nat) (root : config_setting_t) (w : World σ) :
    Int × config_setting_t × World σ :=
  match usbg_get_function_attrs B f w with
  | (usbg_ret, none, w1) => (usbg_ret, root, w1)
  | (usbg_ret, some f_attrs, w1) =>
    if usbg_ret ≠ 0 then (usbg_ret, root, w1)
    else
      let type := (w1.heap.functions f).type
      if type = F_SERIAL ∨ type = F_ACM ∨ type = F_OBEX then
        match f_attrs with
        | usbg_function_attrs.serial port_num =>
          (0, config_setting_add root (config_setting_t.int (some "port_num".toList) port_num),
            w1)
        | _ => (0, root, w1)
      else if type = F_ECM ∨ type = F_SUBSET ∨ type = F_NCM ∨ type = F_EEM ∨ type = F_RNDIS then
        match f_attrs with
        | usbg_function_attrs.net attrs =>
          ((usbg_export_f_net_attrs attrs root).1, (usbg_export_f_net_attrs attrs root).2, w1)
        | _ => (0, root, w1)
      else if type = F_PHONET then (USBG_ERROR_NO_MEM, root, w1)
      else if type = F_FFS then (USBG_SUCCESS, root, w1)
      else (USBG_ERROR_NOT_SUPPORTED, root, w1)

/-- The function `usbg_export_function_prep`; `none` when the type of the
function has no type string. -/
def usbg_export_function_prep (f : Nat) (root : config_setting_t) (w : World σ) :
    Option (Int × config_setting_t × World σ) :=
  match usbg_get_function_type_str (w.heap.functions f).type with
  | none => none
  | some ts =>
    match usbg_export_function_attrs B f (config_setting_t.group (some "attrs".toList) []) w with
    | (ret, attrs, w1) =>
      some (ret,
        config_setting_add
          (config_setting_add root (config_setting_t.string (some "type".toList) ts)) attrs,
        w1)

/-- The label `usbg_export_gadget_functions` gives a function: the label of
the function when it has one, else the generated label; `none` when the type
of the function has no type string. -/
def export_func_label (h : Heap) (f : Nat) : Option (List Char) :=
  match (h.functions f).label with
  | some label => some label
  | none => generate_function_label h f

/-- The loop of `usbg_export_gadget_functions`, from the function `cur`
on. -/
def usbg_export_gadget_functions_loop :
    Nat → Option Nat → Int → config_setting_t → World σ →
    Option (Int × config_setting_t × World σ)
  | _, none, ret, root, w => some (ret, root, w)
  | 0, some _, _, _, _ => none
  | fuel + 1, some f, _, root, w =>
    match export_func_label w.heap f with
    | none => none
    | some func_label =>
      if (w.heap.functions f).label = none ∧ func_label.length ≥ USBG_MAX_NAME_LENGTH then
        some (USBG_ERROR_OTHER_ERROR, root, w)
      else
        match usbg_export_function_prep B f
            (config_setting_t.group (some func_label)
              [config_setting_t.string (some "instance".toList) (w.heap.functions f).inst])
            w with
        | none => none
        | some (ret, node, w1) =>
          if ret ≠ USBG_SUCCESS then some (ret, config_setting_add root node, w1)
          else
            usbg_export_gadget_functions_loop fuel (TAILQ_NEXT w1.heap.fq f) ret
              (config_setting_add root node) w1

def usbg_export_gadget_functions (g : Nat) (root : config_setting_t) (w : World σ) :
    Option (Int × config_setting_t × World σ) :=
  usbg_export_gadget_functions_loop B w.heap.fuel (TAILQ_FIRST w.heap.fq g) USBG_SUCCESS root w

def usbg_export_gadget_strs_lang (g : Nat) (lang_str : List Char) (root : config_setting_t)
    (w : World σ) : Int × config_setting_t × World σ :=
  match sscanf_x lang_str with
  | none => (USBG_ERROR_OTHER_ERROR, root, w)
  | some lang =>
    match usbg_get_gadget_strs B g lang w with
    | (usbg_ret, none, w1) => (usbg_ret, root, w1)
    | (_, some strs, w1) =>
      (USBG_SUCCESS,
        config_setting_add
          (config_setting_add
            (config_setting_add
              (config_setting_add root (config_setting_t.int (some "lang".toList) lang))
              (config_setting_t.string (some "manufacturer".toList) strs.str_mnf))
            (config_setting_t.string (some "product".toList) strs.str_prd))
          (config_setting_t.string (some "serialnumber".toList) strs.str_ser),
        w1)

/-- The loop of `usbg_export_gadget_strings` over the entries still to
visit. -/
def usbg_export_gadget_strings_loop (g : Nat) :
    List dirent → config_setting_t → World σ → Int × config_setting_t × World σ
  | [], root, w => (USBG_SUCCESS, root, w)
  | d :: rest, root, w =>
    match usbg_export_gadget_strs_lang B g d.d_name (config_setting_t.group none []) w with
    | (usbg_ret, node, w1) =>
      if usbg_ret ≠ USBG_SUCCESS then (usbg_ret, config_setting_add root node, w1)
      else usbg_export_gadget_strings_loop g rest (config_setting_add root node) w1

def usbg_export_gadget_strings (g : Nat) (root : config_setting_t) (w : World σ) :
    Int × config_setting_t × World σ :=
  let spath := path3 (w.heap.gadgets g).path (w.heap.gadgets g).name STRINGS_DIR
  if spath.length ≥ USBG_MAX_PATH_LENGTH then (USBG_ERROR_PATH_TOO_LONG, root, w)
  else
    match scandir B spath file_select w with
    | (Except.error e, w1) => (usbg_translate_error e, root, w1)
    | (Except.ok dent, w1) => usbg_export_gadget_strings_loop B g dent root w1

def usbg_export_gadget_attrs (g : Nat) (root : config_setting_t) (w : World σ) :
    Int × config_setting_t × World σ :=
  match usbg_get_gadget_attrs B g w with
  | (usbg_ret, none, w1) => (usbg_ret, root, w1)
  | (usbg_ret, some attrs, w1) =>
    if usbg_ret ≠ 0 then (usbg_ret, root, w1)
    else
      (0,
        [config_setting_t.int (some "bcdUSB".toList) attrs.bcdUSB,
         config_setting_t.int (some "bDeviceClass".toList) attrs.bDeviceClass,
         config_setting_t.int (some "bDeviceSubClass".toList) attrs.bDeviceSubClass,
         config_setting_t.int (some "bDeviceProtocol".toList) attrs.bDeviceProtocol,
         config_setting_t.int (some "bMaxPacketSize0".toList) attrs.bMaxPacketSize0,
         config_setting_t.int (some "idVendor".toList) attrs.idVendor,
         config_setting_t.int (some "idProduct".toList) attrs.idProduct,
         config_setting_t.int (some "bcdDevice".toList) attrs.bcdDevice].foldl
          config_setting_add root,
        w1)

def usbg_export_gadget_prep (g : Nat) (root : config_setting_t) (w : World σ) :
    Option (Int × config_setting_t × World σ) :=
  match usbg_export_gadget_attrs B g (config_setting_t.group (some "attrs".toList) []) w with
  | (usbg_ret, attrs, w1) =>
    if usbg_ret ≠ 0 then some (usbg_ret, config_setting_add root attrs, w1)
    else
      match usbg_export_gadget_strings B g (config_setting_t.list (some "strings".toList) [])
          w1 with
      | (usbg_ret, strings, w2) =>
        if usbg_ret ≠ 0 then
          some (usbg_ret, config_setting_add (config_setting_add root attrs) strings, w2)
        else
          match usbg_export_gadget_functions B g
              (config_setting_t.group (some "functions".toList) []) w2 with
          | none => none
          | some (usbg_ret, functions, w3) =>
            if usbg_ret ≠ 0 then
              some (usbg_ret,
                config_setting_add (config_setting_add (config_setting_add root attrs) strings)
                  functions, w3)
            else
              match usbg_export_gadget_configs B g
                  (config_setting_t.list (some "configs".toList) []) w3 with
              | none => none
              | some (usbg_ret, configs, w4) =>
                some (usbg_ret,
                  config_setting_add
                    (config_setting_add
                      (config_setting_add (config_setting_add root attrs) strings) functions)
                    configs, w4)

/-- The root setting of a document after `config_init`. -/
def config_init_root : config_setting_t := config_setting_t.group none []

/-- The function `usbg_export_function`: the return value, the document that
`config_write` wrote to the stream (`none` when nothing was written), the
world afterwards. -/
def usbg_export_function (f : Nat) (w : World σ) :
    Option (Int × Option config_setting_t × World σ) :=
  match usbg_export_function_prep B f config_init_root w with
  | none => none
  | some (ret, root, w1) =>
    if ret ≠ USBG_SUCCESS then some (ret, none, w1) else some (ret, some root, w1)

def usbg_export_config (c : Nat) (w : World σ) :
    Option (Int × Option config_setting_t × World σ) :=
  match usbg_export_config_prep B c config_init_root w with
  | none => none
  | some (ret, root, w1) =>
    if ret ≠ USBG_SUCCESS then some (ret, none, w1) else some (ret, some root, w1)

def usbg_export_gadget (g : Nat) (w : World σ) :
    Option (Int × Option config_setting_t × World σ) :=
  match usbg_export_gadget_prep B g config_init_root w with
  | none => none
  | some (ret, root, w1) =>
    if ret ≠ USBG_SUCCESS then some (ret, none, w1) else some (ret, some root, w1)

end exporting

/-! ## Import of a config and of a gadget from a document -/

/-- The test `config_setting_type(node) == CONFIG_TYPE_STRING`. -/
def usbg_config_is_string : config_setting_t → Bool
  | config_setting_t.string _ _ => true
  | _ => false

def config_setting_is_group : config_setting_t → Bool
  | config_setting_t.group _ _ => true
  | _ => false

def config_setting_is_list : config_setting_t → Bool
  | config_setting_t.list _ _ => true
  | _ => false

/-- The settings `config_setting_get_elem(setting, i)` for the indices `i`
below `config_setting_length(setting)`, in order. -/
def config_setting_elems : config_setting_t → List config_setting_t
  | config_setting_t.group _ children => children
  | config_setting_t.list _ children => children
  | _ => []

/-- The store `f->label = strdup(label)`. -/
def Heap.set_label (h : Heap) (f : Nat) (label : List Char) : Heap :=
  { h with functions := upd h.functions f { (h.functions f) with label := some label } }

/-- The store `s->last_failed_import = cfg`. -/
def Heap.set_state_failed_import (h : Heap) (s : Nat) (cfg : Option config_t) : Heap :=
  { h with states := upd h.states s { (h.states s) with last_failed_import := cfg } }

/-- The function `usbg_lookup_function`: `some none` for NULL; `none` when a
loop does not end or `split_function_label` has no defined result. -/
def usbg_lookup_function (h : Heap) (g : Nat) (label : List Char) : Option (Option Nat) :=
  match tailq_find h.fq
      (fun f =>
        match (h.functions f).label with
        | some l => strcmp l label = 0
        | none => false)
      h.fuel (TAILQ_FIRST h.fq g) with
  | none => none
  | some (some f) => some (some f)
  | some none =>
    match split_function_label label with
    | none => none
    | some (usbg_ret, type, inst) =>
      if usbg_ret ≠ USBG_SUCCESS then some none
      else
        match type, inst with
        | some t, some i => usbg_get_function h g t i
        | _, _ => none

section import_config
variable {σ : Type} (B : Backend σ)

def usbg_set_gadget_vendor_id (g : Nat) (idVendor : Int) (w : World σ) : Int × World σ :=
  usbg_write_hex16 B (w.heap.gadgets g).path (w.heap.gadgets g).name "idVendor".toList idVendor w

def usbg_set_gadget_product_id (g : Nat) (idProduct : Int) (w : World σ) : Int × World σ :=
  usbg_write_hex16 B (w.heap.gadgets g).path (w.heap.gadgets g).name "idProduct".toList
    idProduct w

def usbg_set_gadget_device_class (g : Nat) (bDeviceClass : Int) (w : World σ) : Int × World σ :=
  usbg_write_hex8 B (w.heap.gadgets g).path (w.heap.gadgets g).name "bDeviceClass".toList
    bDeviceClass w

def usbg_set_gadget_device_protocol (g : Nat) (bDeviceProtocol : Int) (w : World σ) :
    Int × World σ :=
  usbg_write_hex8 B (w.heap.gadgets g).path (w.heap.gadgets g).name "bDeviceProtocol".toList
    bDeviceProtocol w

def usbg_set_gadget_device_subclass (g : Nat) (bDeviceSubClass : Int) (w : World σ) :
    Int × World σ :=
  usbg_write_hex8 B (w.heap.gadgets g).path (w.heap.gadgets g).name "bDeviceSubClass".toList
    bDeviceSubClass w

def usbg_set_gadget_device_max_packet (g : Nat) (bMaxPacketSize0 : Int) (w : World σ) :
    Int × World σ :=
  usbg_write_hex8 B (w.heap.gadgets g).path (w.heap.gadgets g).name "bMaxPacketSize0".toList
    bMaxPacketSize0 w

def usbg_set_gadget_device_bcd_device (g : Nat) (bcdDevice : Int) (w : World σ) :
    Int × World σ :=
  usbg_write_hex16 B (w.heap.gadgets g).path (w.heap.gadgets g).name "bcdDevice".toList
    bcdDevice w

def usbg_set_gadget_device_bcd_usb (g : Nat) (bcdUSB : Int) (w : World σ) : Int × World σ :=
  usbg_write_hex16 B (w.heap.gadgets g).path (w.heap.gadgets g).name "bcdUSB".toList bcdUSB w

def usbg_set_config_max_power (c : Nat) (bMaxPower : Int) (w : World σ) : Int × World σ :=
  usbg_write_dec B (w.heap.configs c).path (w.heap.configs c).name "MaxPower".toList bMaxPower w

def usbg_set_config_bm_attrs (c : Nat) (bmAttributes : Int) (w : World σ) : Int × World σ :=
  usbg_write_hex8 B (w.heap.configs c).path (w.heap.configs c).name "bmAttributes".toList
    bmAttributes w

def usbg_set_config_strs (c : Nat) (lang : Int) (c_strs : usbg_config_strs) (w : World σ) :
    Int × World σ :=
  usbg_set_config_string B c lang c_strs.configuration w

/-- The function `usbg_import_binding_string`: the return value and the world
afterwards. -/
def usbg_import_binding_string (root : config_setting_t) (c : Nat) (w : World σ) :
    Option (Int × World σ) :=
  match config_setting_get_string root with
  | none => some (USBG_ERROR_OTHER_ERROR, w)
  | some func_label =>
    match usbg_lookup_function w.heap (w.heap.configs c).parent func_label with
    | none => none
    | some none => some (USBG_ERROR_NOT_FOUND, w)
    | some (some target) =>
      usbg_add_config_function B c (w.heap.functions target).name target w

/-- The first part of `usbg_import_binding_group`, which settles `target`:
the value of `ret` when it jumps to `out` (`none` when it goes on), the
target, and the world afterwards. -/
def usbg_import_binding_target (root : config_setting_t) (c : Nat) (w : World σ) :
    Option (Option Int × Option Nat × World σ) :=
  match config_setting_get_member root "function".toList with
  | none => some (some USBG_ERROR_MISSING_TAG, none, w)
  | some node =>
    if usbg_config_is_string node then
      match config_setting_get_string node with
      | none => some (some USBG_ERROR_OTHER_ERROR, none, w)
      | some func_label =>
        match usbg_lookup_function w.heap (w.heap.configs c).parent func_label with
        | none => none
        | some none => some (some USBG_ERROR_NOT_FOUND, none, w)
        | some (some target) => some (none, some target, w)
    else if config_setting_is_group node then
      match config_setting_get_member node "instance".toList with
      | none => some (some USBG_ERROR_MISSING_TAG, none, w)
      | some inst_node =>
        match config_setting_get_string inst_node with
        | none => some (some USBG_ERROR_OTHER_ERROR, none, w)
        | some inst =>
          match usbg_import_function_run B (w.heap.configs c).parent node inst w with
          | none => none
          | some (ret, target, w1) =>
            if ret ≠ USBG_SUCCESS then some (some ret, target, w1)
            else some (none, target, w1)
    else some (some USBG_ERROR_INVALID_TYPE, none, w)

def usbg_import_binding_group (root : config_setting_t) (c : Nat) (w : World σ) :
    Option (Int × World σ) :=
  match usbg_import_binding_target B root c w with
  | none => none
  | some (some ret, _, w1) => some (ret, w1)
  | some (none, none, _) => none
  | some (none, some target, w1) =>
    match config_setting_get_member root "name".toList with
    | some node =>
      if ¬ usbg_config_is_string node then some (USBG_ERROR_INVALID_TYPE, w1)
      else
        match config_setting_get_string node with
        | none => some (USBG_ERROR_OTHER_ERROR, w1)
        | some name => usbg_add_config_function B c name target w1
    | none => usbg_add_config_function B c (w1.heap.functions target).name target w1

/-- The loop of `usbg_import_config_bindings` over the elements still to
visit. -/
def usbg_import_config_bindings_loop (c : Nat) :
    List config_setting_t → Int → World σ → Option (Int × World σ)
  | [], ret, w => some (ret, w)
  | node :: rest, _, w =>
    match (if usbg_config_is_string node then usbg_import_binding_string B node c w
           else if config_setting_is_group node then usbg_import_binding_group B node c w
           else some (USBG_ERROR_INVALID_TYPE, w)) with
    | none => none
    | some (ret, w1) =>
      if ret ≠ USBG_SUCCESS then some (ret, w1)
      else usbg_import_config_bindings_loop c rest ret w1

def usbg_import_config_bindings (root : config_setting_t) (c : Nat) (w : World σ) :
    Option (Int × World σ) :=
  usbg_import_config_bindings_loop B c (config_setting_elems root) USBG_SUCCESS w

def usbg_import_config_strs_lang (root : config_setting_t) (c : Nat) (w : World σ) :
    Int × World σ :=
  match config_setting_get_member root "lang".toList with
  | none => (USBG_ERROR_MISSING_TAG, w)
  | some node =>
    if ¬ usbg_config_is_int node then (USBG_ERROR_INVALID_TYPE, w)
    else
      match config_setting_get_member root "configuration".toList with
      | none => usbg_set_config_strs B c (config_setting_get_int node) ⟨[]⟩ w
      | some snode =>
        match config_setting_get_string snode with
        | none => (USBG_ERROR_INVALID_TYPE, w)
        | some str =>
          usbg_set_config_strs B c (config_setting_get_int node)
            ⟨str.take (USBG_MAX_STR_LENGTH - 1)⟩ w

/-- The loop of `usbg_import_config_strings` over the elements still to
visit. -/
def usbg_import_config_strings_loop (c : Nat) :
    List config_setting_t → Int → World σ → Int × World σ
  | [], ret, w => (ret, w)
  | node :: rest, _, w =>
    if ¬ config_setting_is_group node then (USBG_ERROR_INVALID_TYPE, w)
    else
      match usbg_import_config_strs_lang B node c w with
      | (ret, w1) =>
        if ret ≠ USBG_SUCCESS then (ret, w1)
        else usbg_import_config_strings_loop c rest ret w1

def usbg_import_config_strings (root : config_setting_t) (c : Nat) (w : World σ) :
    Int × World σ :=
  usbg_import_config_strings_loop B c (config_setting_elems root) USBG_SUCCESS w

/-- The function `usbg_import_config_attrs`; the values are handed to the
setters as they are read. -/
def usbg_import_config_attrs (root : config_setting_t) (c : Nat) (w : World σ) :
    Int × World σ :=
  match (match config_setting_get_member root "bmAttributes".toList with
         | none => ((none : Option Int), w)
         | some node =>
           if ¬ usbg_config_is_int node then (some USBG_ERROR_INVALID_TYPE, w)
           else
             match usbg_set_config_bm_attrs B c (config_setting_get_int node) w with
             | (usbg_ret, w1) =>
               if usbg_ret ≠ USBG_SUCCESS then (some usbg_ret, w1) else (none, w1)) with
  | (some ret, w1) => (ret, w1)
  | (none, w1) =>
    match config_setting_get_member root "bMaxPower".toList with
    | none => (USBG_SUCCESS, w1)
    | some node =>
      if ¬ usbg_config_is_int node then (USBG_ERROR_INVALID_TYPE, w1)
      else
        match usbg_set_config_max_power B c (config_setting_get_int node) w1 with
        | (usbg_ret, w2) =>
          if usbg_ret ≠ USBG_SUCCESS then (usbg_ret, w2) else (USBG_SUCCESS, w2)

/-- The part of `usbg_import_config_run` after the config was created: the
value `ret` has at `out` or at `error2`, and the world then. -/
def usbg_import_config_members (root : config_setting_t) (newc : Nat) (w : World σ) :
    Option (Int × World σ) :=
  match (match config_setting_get_member root "attrs".toList with
         | none => (USBG_SUCCESS, w)
         | some node =>
           if ¬ config_setting_is_group node then (USBG_ERROR_INVALID_TYPE, w)
           else usbg_import_config_attrs B node newc w) with
  | (ret1, w1) =>
    if ret1 ≠ USBG_SUCCESS then some (ret1, w1)
    else
      match (match config_setting_get_member root "strings".toList with
             | none => (USBG_SUCCESS, w1)
             | some node =>
               if ¬ config_setting_is_list node then (USBG_ERROR_INVALID_TYPE, w1)
               else usbg_import_config_strings B node newc w1) with
      | (ret2, w2) =>
        if ret2 ≠ USBG_SUCCESS then some (ret2, w2)
        else
          match config_setting_get_member root "functions".toList with
          | none => some (USBG_SUCCESS, w2)
          | some node =>
            if ¬ config_setting_is_list node then some (USBG_ERROR_INVALID_TYPE, w2)
            else usbg_import_config_bindings B node newc w2

/-- The function `usbg_import_config_run`: the return value, the pointer
stored through `c`, the world afterwards.  After a failed step the new config
is removed and the result of that removal is not looked at. -/
def usbg_import_config_run (g : Nat) (root : config_setting_t) (id : Int) (w : World σ) :
    Option (Int × Option Nat × World σ) :=
  match config_setting_get_member root "name".toList with
  | none => some (USBG_ERROR_MISSING_TAG, none, w)
  | some node =>
    match config_setting_get_string node with
    | none => some (USBG_ERROR_INVALID_TYPE, none, w)
    | some name =>
      match usbg_create_config B g id (some name) none none w with
      | none => none
      | some (usbg_ret, newc, w1) =>
        if usbg_ret ≠ USBG_SUCCESS then some (usbg_ret, none, w1)
        else
          match newc with
          | none => none
          | some conf =>
            match usbg_import_config_members B root conf w1 with
            | none => none
            | some (ret, w2) =>
              if ret = USBG_SUCCESS then some (ret, some conf, w2)
              else
                match usbg_rm_config B conf USBG_RM_RECURSE w2 with
                | none => none
                | some (_, w3) => some (ret, none, w3)

/-- The loop of `usbg_import_gadget_configs` over the elements still to
visit. -/
def usbg_import_gadget_configs_loop (g : Nat) :
    List config_setting_t → Int → World σ → Option (Int × World σ)
  | [], ret, w => some (ret, w)
  | node :: rest, _, w =>
    if ¬ config_setting_is_group node then some (USBG_ERROR_INVALID_TYPE, w)
    else
      match config_setting_get_member node "id".toList with
      | none => some (USBG_ERROR_MISSING_TAG, w)
      | some id_node =>
        if ¬ usbg_config_is_int id_node then some (USBG_ERROR_INVALID_TYPE, w)
        else
          match usbg_import_config_run B g node (config_setting_get_int id_node) w with
          | none => none
          | some (ret, _, w1) =>
            if ret ≠ USBG_SUCCESS then some (ret, w1)
            else usbg_import_gadget_configs_loop g rest ret w1

def usbg_import_gadget_configs (root : config_setting_t) (g : Nat) (w : World σ) :
    Option (Int × World σ) :=
  usbg_import_gadget_configs_loop B g (config_setting_elems root) USBG_SUCCESS w

/-- The loop of `usbg_import_gadget_functions` over the elements still to
visit. -/
def usbg_import_gadget_functions_loop (g : Nat) :
    List config_setting_t → Int → World σ → Option (Int × World σ)
  | [], ret, w => some (ret, w)
  | node :: rest, _, w =>
    if ¬ config_setting_is_group node then some (USBG_ERROR_INVALID_TYPE, w)
    else
      match config_setting_get_member node "instance".toList with
      | none => some (USBG_ERROR_MISSING_TAG, w)
      | some inst_node =>
        if ¬ usbg_config_is_string inst_node then some (USBG_ERROR_INVALID_TYPE, w)
        else
          match config_setting_get_string inst_node with
          | none => some (USBG_ERROR_OTHER_ERROR, w)
          | some inst =>
            match usbg_import_function_run B g node inst w with
            | none => none
            | some (ret, f, w1) =>
              if ret ≠ USBG_SUCCESS then some (ret, w1)
              else
                match config_setting_name node, f with
                | none, _ => some (USBG_ERROR_OTHER_ERROR, w1)
                | some _, none => none
                | some label, some func =>
                  usbg_import_gadget_functions_loop g rest ret
                    { w1 with heap := w1.heap.set_label func label }

def usbg_import_gadget_functions (root : config_setting_t) (g : Nat) (w : World σ) :
    Option (Int × World σ) :=
  usbg_import_gadget_functions_loop B g (config_setting_elems root) USBG_SUCCESS w

/-- The statement `GET_OPTIONAL_GADGET_STR(NAME, FIELD)` of
`usbg_import_gadget_strs_lang`: the text the field holds afterwards, `none`
when the statement jumps to `out`. -/
def GET_OPTIONAL_GADGET_STR (root : config_setting_t) (name : List Char) :
    Option (List Char) :=
  match config_setting_get_member root name with
  | none => some []
  | some node =>
    match config_setting_get_string node with
    | none => none
    | some str => some (str.take (USBG_MAX_STR_LENGTH - 1))

def usbg_import_gadget_strs_lang (root : config_setting_t) (g : Nat) (w : World σ) :
    Int × World σ :=
  match config_setting_get_member root "lang".toList with
  | none => (USBG_ERROR_MISSING_TAG, w)
  | some node =>
    if ¬ usbg_config_is_int node then (USBG_ERROR_INVALID_TYPE, w)
    else
      match GET_OPTIONAL_GADGET_STR root "manufacturer".toList with
      | none => (USBG_ERROR_INVALID_TYPE, w)
      | some str_mnf =>
        match GET_OPTIONAL_GADGET_STR root "product".toList with
        | none => (USBG_ERROR_INVALID_TYPE, w)
        | some str_prd =>
          match GET_OPTIONAL_GADGET_STR root "serialnumber".toList with
          | none => (USBG_ERROR_INVALID_TYPE, w)
          | some str_ser =>
            usbg_set_gadget_strs B g (config_setting_get_int node) ⟨str_ser, str_mnf, str_prd⟩ w

/-- The loop of `usbg_import_gadget_strings` over the elements still to
visit. -/
def usbg_import_gadget_strings_loop (g : Nat) :
    List config_setting_t → Int → World σ → Int × World σ
  | [], ret, w => (ret, w)
  | node :: rest, _, w =>
    if ¬ config_setting_is_group node then (USBG_ERROR_INVALID_TYPE, w)
    else
      match usbg_import_gadget_strs_lang B node g w with
      | (ret, w1) =>
        if ret ≠ USBG_SUCCESS then (ret, w1)
        else usbg_import_gadget_strings_loop g rest ret w1

def usbg_import_gadget_strings (root : config_setting_t) (g : Nat) (w : World σ) :
    Int × World σ :=
  usbg_import_gadget_strings_loop B g (config_setting_elems root) USBG_SUCCESS w

/-- The statement `GET_OPTIONAL_GADGET_ATTR(NAME, FUNC_END, TYPE)` of
`usbg_import_gadget_attrs`, with the setter of that attribute and the number
of bits of `TYPE`: the value of `ret` when the statement jumps to `out`
(`none` when it falls through), and the world afterwards. -/
def GET_OPTIONAL_GADGET_ATTR (root : config_setting_t) (name : List Char)
    (set : Nat → Int → World σ → Int × World σ) (bits : Nat) (g : Nat) (w : World σ) :
    Option Int × World σ :=
  match config_setting_get_member root name with
  | none => (none, w)
  | some node =>
    if ¬ usbg_config_is_int node then (some USBG_ERROR_INVALID_TYPE, w)
    else if config_setting_get_int node < 0 ∨ config_setting_get_int node > 2 ^ bits - 1 then
      (some USBG_ERROR_INVALID_VALUE, w)
    else
      match set g (config_setting_get_int node) w with
      | (usbg_ret, w1) => if usbg_ret ≠ USBG_SUCCESS then (some usbg_ret, w1) else (none, w1)

def usbg_import_gadget_attrs (root : config_setting_t) (g : Nat) (w : World σ) :
    Int × World σ :=
  match GET_OPTIONAL_GADGET_ATTR root "bcdUSB".toList (usbg_set_gadget_device_bcd_usb B) 16 g w with
  | (some ret, w1) => (ret, w1)
  | (none, w1) =>
  match GET_OPTIONAL_GADGET_ATTR root "bDeviceClass".toList (usbg_set_gadget_device_class B) 8
      g w1 with
  | (some ret, w2) => (ret, w2)
  | (none, w2) =>
  match GET_OPTIONAL_GADGET_ATTR root "bDeviceSubClass".toList
      (usbg_set_gadget_device_subclass B) 8 g w2 with
  | (some ret, w3) => (ret, w3)
  | (none, w3) =>
  match GET_OPTIONAL_GADGET_ATTR root "bDeviceProtocol".toList
      (usbg_set_gadget_device_protocol B) 8 g w3 with
  | (some ret, w4) => (ret, w4)
  | (none, w4) =>
  match GET_OPTIONAL_GADGET_ATTR root "bMaxPacketSize0".toList
      (usbg_set_gadget_device_max_packet B) 8 g w4 with
  | (some ret, w5) => (ret, w5)
  | (none, w5) =>
  match GET_OPTIONAL_GADGET_ATTR root "idVendor".toList (usbg_set_gadget_vendor_id B) 16 g w5 with
  | (some ret, w6) => (ret, w6)
  | (none, w6) =>
  match GET_OPTIONAL_GADGET_ATTR root "idProduct".toList (usbg_set_gadget_product_id B) 16
      g w6 with
  | (some ret, w7) => (ret, w7)
  | (none, w7) =>
  match GET_OPTIONAL_GADGET_ATTR root "bcdDevice".toList (usbg_set_gadget_device_bcd_device B) 16
      g w7 with
  | (some ret, w8) => (ret, w8)
  | (none, w8) => (USBG_SUCCESS, w8)

/-- The part of `usbg_import_gadget_run` after the gadget was created: the
value `ret` has at `out` or at `error2`, and the world then. -/
def usbg_import_gadget_members (root : config_setting_t) (newg : Nat) (w : World σ) :
    Option (Int × World σ) :=
  match (match config_setting_get_member root "attrs".toList with
         | none => (USBG_SUCCESS, w)
         | some node =>
           if ¬ config_setting_is_group node then (USBG_ERROR_INVALID_TYPE, w)
           else usbg_import_gadget_attrs B node newg w) with
  | (ret1, w1) =>
    if ret1 ≠ USBG_SUCCESS then some (ret1, w1)
    else
      match (match config_setting_get_member root "strings".toList with
             | none => (USBG_SUCCESS, w1)
             | some node =>
               if ¬ config_setting_is_list node then (USBG_ERROR_INVALID_TYPE, w1)
               else usbg_import_gadget_strings B node newg w1) with
      | (ret2, w2) =>
        if ret2 ≠ USBG_SUCCESS then some (ret2, w2)
        else
          match (match config_setting_get_member root "functions".toList with
                 | none => some (USBG_SUCCESS, w2)
                 | some node =>
                   if ¬ config_setting_is_group node then some (USBG_ERROR_INVALID_TYPE, w2)
                   else usbg_import_gadget_functions B node newg w2) with
          | none => none
          | some (ret3, w3) =>
            if ret3 ≠ USBG_SUCCESS then some (ret3, w3)
            else
              match config_setting_get_member root "configs".toList with
              | none => some (USBG_SUCCESS, w3)
              | some node =>
                if ¬ config_setting_is_list node then some (USBG_ERROR_INVALID_TYPE, w3)
                else usbg_import_gadget_configs B node newg w3

/-- The function `usbg_import_gadget_run`: the return value, the pointer
stored through `g`, the world afterwards.  After a failed step the new gadget
is removed and the result of that removal is not looked at. -/
def usbg_import_gadget_run (s : Nat) (root : config_setting_t) (name : List Char)
    (w : World σ) : Option (Int × Option Nat × World σ) :=
  match usbg_create_gadget B s name none none w with
  | none => none
  | some (usbg_ret, newg, w1) =>
    if usbg_ret ≠ USBG_SUCCESS then some (usbg_ret, none, w1)
    else
      match newg with
      | none => none
      | some gad =>
        match usbg_import_gadget_members B root gad w1 with
        | none => none
        | some (ret, w2) =>
          if ret = USBG_SUCCESS then some (ret, some gad, w2)
          else
            match usbg_rm_gadget B gad USBG_RM_RECURSE w2 with
            | none => none
            | some (_, w3) => some (ret, none, w3)

/-- The function `usbg_import_config`.  The pointer to the new config is
stored through `c` only on success. -/
def usbg_import_config (g : Nat) (stream : config_stream) (id : Int) (w : World σ) :
    Option (Int × Option Nat × World σ) :=
  if id < 0 then some (USBG_ERROR_INVALID_PARAM, none, w)
  else if ¬ stream.cfg_ret then
    some (USBG_ERROR_INVALID_FORMAT, none,
      { w with heap := w.heap.set_gadget_failed_import g (some stream.cfg) })
  else
    match usbg_import_config_run B g (config_root_setting stream.cfg) id w with
    | none => none
    | some (ret, newc, w1) =>
      if ret ≠ USBG_SUCCESS then
        some (ret, none, { w1 with heap := w1.heap.set_gadget_failed_import g (some stream.cfg) })
      else some (ret, newc, { w1 with heap := w1.heap.set_gadget_failed_import g none })

/-- The function `usbg_import_gadget`; `name` is `none` for a NULL name.  The
pointer to the new gadget is stored through `g` only on success. -/
def usbg_import_gadget (s : Nat) (stream : config_stream) (name : Option (List Char))
    (w : World σ) : Option (Int × Option Nat × World σ) :=
  match name with
  | none => some (USBG_ERROR_INVALID_PARAM, none, w)
  | some n =>
    if ¬ stream.cfg_ret then
      some (USBG_ERROR_INVALID_FORMAT, none,
        { w with heap := w.heap.set_state_failed_import s (some stream.cfg) })
    else
      match usbg_import_gadget_run B s (config_root_setting stream.cfg) n w with
      | none => none
      | some (ret, newg, w1) =>
        if ret ≠ USBG_SUCCESS then
          some (ret, none,
            { w1 with heap := w1.heap.set_state_failed_import s (some stream.cfg) })
        else some (ret, newg, { w1 with heap := w1.heap.set_state_failed_import s none })

end import_config

/-- The function `usbg_get_config_import_error_text`; `none` for NULL. -/
def usbg_get_config_import_error_text (h : Heap) (g : Nat) : Option (List Char) :=
  match (h.gadgets g).last_failed_import with
  | none => none
  | some cfg => config_error_text cfg

def usbg_get_config_import_error_line (h : Heap) (g : Nat) : Int :=
  match (h.gadgets g).last_failed_import with
  | none => -1
  | some cfg => config_error_line cfg

/-- The function `usbg_get_gadget_import_error_text`; `none` for NULL. -/
def usbg_get_gadget_import_error_text (h : Heap) (s : Nat) : Option (List Char) :=
  match (h.states s).last_failed_import with
  | none => none
  | some cfg => config_error_text cfg

def usbg_get_gadget_import_error_line (h : Heap) (s : Nat) : Int :=
  match (h.states s).last_failed_import with
  | none => -1
  | some cfg => config_error_line cfg

/-! ## A storage for the examples

A table of paths in memory that behaves as a plain file system does. -/

inductive FNode where
  | dir
  | file (content : List Char)
  | link (target : List Char)
  deriving DecidableEq, Repr

abbrev SimFS := List (List Char × FNode)

/-- The path of the directory an entry is in. -/
def dirname (p : List Char) : List Char :=
  match strrchr p '/' with
  | some i => p.take i
  | none => []

def basename (p : List Char) : List Char :=
  match strrchr p '/' with
  | some i => p.drop (i + 1)
  | none => p

def SimFS.has_child (fs : SimFS) (p : List Char) : Bool :=
  fs.any (fun e => dirname e.1 = p)

def FNode.d_type : FNode → Nat
  | FNode.dir => DT_DIR
  | FNode.file _ => DT_REG
  | FNode.link _ => DT_LNK

def SimFS.add (fs : SimFS) (p : List Char) (n : FNode) : Int × SimFS :=
  if (fs.lookup p).isSome then (EEXIST, fs)
  else if fs.lookup (dirname p) = some FNode.dir then (0, fs ++ [(p, n)])
  else (ENOENT, fs)

def simfs : Backend SimFS where
  mkdir := fun p fs => fs.add p FNode.dir
  rmdir := fun p fs =>
    match fs.lookup p with
    | some FNode.dir =>
      if fs.has_child p then (ENOTEMPTY, fs) else (0, fs.filter (fun e => e.1 ≠ p))
    | some _ => (ENOTDIR, fs)
    | none => (ENOENT, fs)
  unlink := fun p fs =>
    match fs.lookup p with
    | some FNode.dir => (21, fs)
    | some _ => (0, fs.filter (fun e => e.1 ≠ p))
    | none => (ENOENT, fs)
  symlink := fun target linkpath fs => fs.add linkpath (FNode.link target)
  write := fun p content fs =>
    match fs.lookup p with
    | some (FNode.file _) =>
      (0, fs.map (fun e => if e.1 = p then (p, FNode.file content) else e))
    | some _ => (21, fs)
    | none => fs.add p (FNode.file content)
  readlink := fun p fs =>
    match fs.lookup p with
    | some (FNode.link t) => Except.ok t
    | some _ => Except.error EINVAL
    | none => Except.error ENOENT
  scandir := fun p fs =>
    match fs.lookup p with
    | some FNode.dir =>
      Except.ok (⟨['.'], DT_DIR⟩ :: ⟨['.', '.'], DT_DIR⟩ ::
        (fs.filter (fun e => dirname e.1 = p)).map (fun e => ⟨basename e.1, e.2.d_type⟩))
    | some _ => Except.error ENOTDIR
    | none => Except.error ENOENT
  opendir := fun p fs =>
    match fs.lookup p with
    | some FNode.dir => 0
    | some _ => ENOTDIR
    | none => ENOENT
  read := fun p fs =>
    match fs.lookup p with
    | some (FNode.file content) => Except.ok content
    | some _ => Except.error 21
    | none => Except.error ENOENT

/-! ## Well-formed queues -/

/-- The elements `l` lie one after another from the cell `lk` on, each with
its back link to the cell before it, and the last one ends the queue. -/
def seg_ok (q : QMem) : Link → List Nat → Bool
  | lk, [] => decide (q.load lk = none)
  | lk, a :: l => decide (q.load lk = some a) && decide (q.tqe_prev a = lk) && seg_ok q (Link.next a) l

/-- The cell that ends the elements `l` that start at the cell `lk`. -/
def end_link : Link → List Nat → Link
  | lk, [] => lk
  | _, a :: l => end_link (Link.next a) l

/-- The queue at head `h` is well formed and holds the elements `l`, first to
last. -/
def is_queue (q : QMem) (h : Nat) (l : List Nat) : Bool :=
  decide l.Nodup && seg_ok q (Link.head h) l && decide (q.tqh_last h = end_link (Link.head h) l)

/-- From the cell `lk` on lie the elements `pre` and then the element `x`. -/
def path_to (q : QMem) : Link → List Nat → Nat → Prop
  | lk, [], x => q.load lk = some x
  | lk, a :: l, x => q.load lk = some a ∧ path_to q (Link.next a) l x

/-! ## Example objects -/

/-- A tree with one gadget `g1` that has no function and no config. -/
def tree_one_gadget : SimFS :=
  [("/cfg".toList, FNode.dir),
   ("/cfg/usb_gadget".toList, FNode.dir),
   ("/cfg/usb_gadget/g1".toList, FNode.dir),
   ("/cfg/usb_gadget/g1/UDC".toList, FNode.file ['\n']),
   ("/cfg/usb_gadget/g1/functions".toList, FNode.dir),
   ("/cfg/usb_gadget/g1/configs".toList, FNode.dir)]

/-- The state `usbg_init` loads from `tree_one_gadget`, its first gadget, and
the world after the load. -/
def loaded_one_gadget : Option (Nat × Nat × World SimFS) :=
  match usbg_init simfs "/cfg".toList ⟨tree_one_gadget, [], Heap.empty⟩ with
  | some (_, some s, w) =>
    match usbg_get_first_gadget w.heap s with
    | some g => some (s, g, w)
    | none => none
  | _ => none

/-- Calls of `usbg_create_function` without attributes, one after another: the
return values and the world afterwards. -/
def create_functions {σ : Type} (B : Backend σ) (g : Nat) :
    List (usbg_function_type × List Char) → World σ → Option (List Int × World σ)
  | [], w => some ([], w)
  | (type, inst) :: rest, w =>
    match usbg_create_function B g type (some inst) none w with
    | some (ret, _, w1) => (create_functions B g rest w1).map (fun r => (ret :: r.1, r.2))
    | none => none

/-- The on-disk names of the functions that the iteration over a gadget
yields. -/
def function_name_list (h : Heap) (g : Nat) : Option (List String) :=
  (functions_of h g).map (List.map (fun f => String.mk (h.functions f).name))

/-- Insertions with `INSERT_TAILQ_STRING_ORDER`, one after another. -/
def insert_all (fuel : Nat) (name : Nat → List Char) (h : Nat) : List Nat → QMem → Option QMem
  | [], q => some q
  | x :: xs, q => (INSERT_TAILQ_STRING_ORDER fuel name q h x).bind (insert_all fuel name h xs)

/-- Six elements, at the addresses 1 to 6, named a, c, d, e, b and ab. -/
def six_names : Nat → List Char
  | 1 => ['a']
  | 2 => ['c']
  | 3 => ['d']
  | 4 => ['e']
  | 5 => ['b']
  | 6 => ['a', 'b']
  | _ => []

/-- The names that the iteration over the queue at head `h` yields. -/
def queue_names (fuel : Nat) (name : Nat → List Char) (q : QMem) (h : Nat) :
    Option (List String) :=
  (iterate (TAILQ_NEXT q) fuel (TAILQ_FIRST q h)).map (List.map (fun x => String.mk (name x)))

/-- Strictly ascending order of names under `strcmp`. -/
def strictly_ascending : List String → Bool
  | a :: b :: rest => decide (strcmp a.toList b.toList < 0) && strictly_ascending (b :: rest)
  | _ => true

/-- In the gadget of `loaded_one_gadget`: the functions `acm.a`, `acm.c` and
`acm.d` are created, then the config `c.1`, then `acm.c` is bound into the
config, then the function `acm.b` is created.  The return values of the six
calls, the gadget, the config, the function `acm.c`, and the world
afterwards. -/
def bind_then_create : Option (List Int × Nat × Nat × Nat × World SimFS) :=
  match loaded_one_gadget with
  | some (_, g, w0) =>
    match usbg_create_function simfs g F_ACM (some ['a']) none w0 with
    | some (r1, _, w1) =>
      match usbg_create_function simfs g F_ACM (some ['c']) none w1 with
      | some (r2, some fc, w2) =>
        match usbg_create_function simfs g F_ACM (some ['d']) none w2 with
        | some (r3, _, w3) =>
          match usbg_create_config simfs g 1 (some ['c']) none none w3 with
          | some (r4, some c, w4) =>
            match usbg_add_config_function simfs c "acm.c".toList fc w4 with
            | some (r5, w5) =>
              match usbg_create_function simfs g F_ACM (some ['b']) none w5 with
              | some (r6, _, w6) => some ([r1, r2, r3, r4, r5, r6], g, c, fc, w6)
              | none => none
            | none => none
          | _ => none
        | none => none
      | _ => none
    | none => none
  | none => none

/-- The world after the load of `tree_one_gadget`: the state is at address 1
and the gadget at address 2. -/
def world_one_gadget : World SimFS :=
  match loaded_one_gadget with
  | some (_, _, w) => w
  | none => ⟨[], [], Heap.empty⟩

/-- A storage on which every operation succeeds and every directory is
empty. -/
def okfs : Backend Unit where
  mkdir := fun _ s => (0, s)
  rmdir := fun _ s => (0, s)
  unlink := fun _ s => (0, s)
  symlink := fun _ _ s => (0, s)
  write := fun _ _ s => (0, s)
  readlink := fun _ _ => Except.ok []
  scandir := fun _ _ => Except.ok []
  opendir := fun _ _ => 0
  read := fun _ _ => Except.ok ['\n']

/-- An instance name of 4096 characters. -/
@[irreducible] def long_instance : List Char := List.replicate 4096 'x'

/-- The world after the functions `acm.a` and `acm.d` are created in the
gadget of `world_one_gadget`. -/
def world_two_functions : World SimFS :=
  match create_functions simfs 2 [(F_ACM, ['a']), (F_ACM, ['d'])] world_one_gadget with
  | some (_, w) => w
  | none => world_one_gadget

/-- The world after the calls of `bind_then_create`. -/
def world_bound : World SimFS :=
  match bind_then_create with
  | some (_, _, _, _, w) => w
  | none => world_one_gadget

/-- The tree of `tree_one_gadget` with the functions `acm.a`, `acm.b`, `acm.c`
and `acm.d` in the gadget. -/
def tree_four_functions : SimFS :=
  tree_one_gadget ++
  [("/cfg/usb_gadget/g1/functions/acm.a".toList, FNode.dir),
   ("/cfg/usb_gadget/g1/functions/acm.b".toList, FNode.dir),
   ("/cfg/usb_gadget/g1/functions/acm.c".toList, FNode.dir),
   ("/cfg/usb_gadget/g1/functions/acm.d".toList, FNode.dir)]

/-- The tree of `tree_four_functions` with an attribute file in the directory
of the function `acm.b`. -/
def tree_four_functions_attr : SimFS :=
  tree_four_functions ++
  [("/cfg/usb_gadget/g1/functions/acm.b/port_num".toList, FNode.file ['0', '\n'])]

/-- Calls of `usbg_add_config_function`, one after another: the return values
and the world afterwards. -/
def add_config_functions {σ : Type} (B : Backend σ) (c : Nat) :
    List (List Char × Nat) → World σ → Option (List Int × World σ)
  | [], w => some ([], w)
  | (name, f) :: rest, w =>
    match usbg_add_config_function B c name f w with
    | some (ret, w1) => (add_config_functions B c rest w1).map (fun r => (ret :: r.1, r.2))
    | none => none

/-- The tree `fs` is loaded (the state comes to address 1, the gadget to 2,
the functions `acm.a` to `acm.d` to 3, 4, 5, 6), the config `c.1` is created,
and the functions are bound into it under the names a, c, d, b, in this
order.  The return values of the five calls after the load, the config, and
the world afterwards. -/
def bind_four (fs : SimFS) : Option (List Int × Nat × World SimFS) :=
  match usbg_init simfs "/cfg".toList ⟨fs, [], Heap.empty⟩ with
  | some (_, some _, w0) =>
    match usbg_create_config simfs 2 1 (some ['c']) none none w0 with
    | some (r, some c, w1) =>
      match add_config_functions simfs c [(['a'], 3), (['c'], 5), (['d'], 6), (['b'], 4)] w1 with
      | some (rs, w2) => some (r :: rs, c, w2)
      | none => none
    | _ => none
  | _ => none

/-- For each binding that the iteration over the bindings of the config `c`
yields, whether its target is the function `f`. -/
def binding_targets (h : Heap) (c f : Nat) : Option (List Bool) :=
  (bindings_of h c).map (List.map (fun b => decide ((h.bindings b).target = some f)))

/-- A function document with the type `ecm` and, in its attributes, a `qmult`
that is a string. -/
def doc_ecm_bad_qmult : config_t :=
  ⟨config_setting_t.group none
    [config_setting_t.string (some "type".toList) "ecm".toList,
     config_setting_t.group (some "attrs".toList)
       [config_setting_t.string (some "qmult".toList) "5".toList]],
   none, 0⟩

/-- A function document without a `type` tag. -/
def doc_no_type : config_t :=
  ⟨config_setting_t.group none
    [config_setting_t.string (some "instance".toList) "usb0".toList],
   none, 0⟩

/-- The tree of `tree_one_gadget` with the directories `default.0` and `x.1`
in the configs directory of the gadget. -/
def tree_config_zero : SimFS :=
  tree_one_gadget ++
  [("/cfg/usb_gadget/g1/configs/default.0".toList, FNode.dir),
   ("/cfg/usb_gadget/g1/configs/x.1".toList, FNode.dir)]

/-- The tree of `tree_one_gadget` with the directories `a.1` and `b.1` in the
configs directory of the gadget. -/
def tree_same_id : SimFS :=
  tree_one_gadget ++
  [("/cfg/usb_gadget/g1/configs/a.1".toList, FNode.dir),
   ("/cfg/usb_gadget/g1/configs/b.1".toList, FNode.dir)]

/-- The on-disk names and the ids of the configs that the iteration over a
gadget yields. -/
def config_name_id_list (h : Heap) (g : Nat) : Option (List (String × Int)) :=
  (configs_of h g).map (List.map (fun c => (String.mk (h.configs c).name, (h.configs c).id)))

/-- The names of the entries a directory of `simfs` has for `scandir` with
the filter `file_select`. -/
def entry_names (fs : SimFS) (path : List Char) : Option (List String) :=
  match (scandir simfs path file_select ⟨fs, [], Heap.empty⟩).1 with
  | Except.ok l => some (l.map (fun d => String.mk d.d_name))
  | Except.error _ => none

/-- The storage `okfs` with a `write` that fails with `EACCES` on every file
of the name `file`. -/
def okfs_write_fails (file : List Char) : Backend Unit :=
  { okfs with write := fun p _ s => if basename p = file then (EACCES, s) else (0, s) }

/-- Gadget attributes and strings for the examples. -/
def example_gadget_attrs : usbg_gadget_attrs := ⟨512, 0, 0, 0, 64, 7531, 260, 1⟩

def example_gadget_strs : usbg_gadget_strs := ⟨"0123".toList, "Foo".toList, "Bar".toList⟩

/-- From the cell `lk` on lie the elements `l`, and the last one ends the
queue: the forward links only. -/
def chain (q : QMem) : Link → List Nat → Prop
  | lk, [] => q.load lk = none
  | lk, a :: l => q.load lk = some a ∧ chain q (Link.next a) l

def ENOSPC : Int := 28

/-- The tree of `tree_one_gadget` with the function `acm.a` and, in the
configs directory of the gadget, the empty directory `x.01` and the directory
`x.1`, which holds a link `l` to the function. -/
def tree_config_leading_zero : SimFS :=
  tree_one_gadget ++
  [("/cfg/usb_gadget/g1/functions/acm.a".toList, FNode.dir),
   ("/cfg/usb_gadget/g1/configs/x.01".toList, FNode.dir),
   ("/cfg/usb_gadget/g1/configs/x.1".toList, FNode.dir),
   ("/cfg/usb_gadget/g1/configs/x.1/l".toList,
     FNode.link "/cfg/usb_gadget/g1/functions/acm.a".toList)]

/-- The number of bindings of each config that the iteration over a gadget
yields. -/
def binding_counts (h : Heap) (g : Nat) : Option (List (Option Nat)) :=
  (configs_of h g).map (List.map (fun c => (bindings_of h c).map List.length))

/-- The tree of `tree_one_gadget` with the attribute files of the gadget and
the function `phonet.p0`, which has the attribute file `ifname`. -/
def tree_phonet : SimFS :=
  tree_one_gadget ++
  [("/cfg/usb_gadget/g1/bcdUSB".toList, FNode.file "0x0200\n".toList),
   ("/cfg/usb_gadget/g1/bcdDevice".toList, FNode.file "0x0001\n".toList),
   ("/cfg/usb_gadget/g1/bDeviceClass".toList, FNode.file "0x00\n".toList),
   ("/cfg/usb_gadget/g1/bDeviceSubClass".toList, FNode.file "0x00\n".toList),
   ("/cfg/usb_gadget/g1/bDeviceProtocol".toList, FNode.file "0x00\n".toList),
   ("/cfg/usb_gadget/g1/bMaxPacketSize0".toList, FNode.file "0x40\n".toList),
   ("/cfg/usb_gadget/g1/idVendor".toList, FNode.file "0x1d6b\n".toList),
   ("/cfg/usb_gadget/g1/idProduct".toList, FNode.file "0x0104\n".toList),
   ("/cfg/usb_gadget/g1/strings".toList, FNode.dir),
   ("/cfg/usb_gadget/g1/functions/phonet.p0".toList, FNode.dir),
   ("/cfg/usb_gadget/g1/functions/phonet.p0/ifname".toList, FNode.file "upnlink0\n".toList)]

/-- The world after the load of `tree_phonet`: the state is at address 1, the
gadget at address 2 and the function `phonet.p0` at address 3. -/
def world_phonet : World SimFS :=
  match usbg_init simfs "/cfg".toList ⟨tree_phonet, [], Heap.empty⟩ with
  | some (_, _, w) => w
  | none => ⟨[], [], Heap.empty⟩


/-- The world after `usbg_init` on the storage `okfs`: the state is at
address 1 and has no gadget. -/
def world_okfs : World Unit :=
  match usbg_init okfs "/cfg".toList ⟨(), [], Heap.empty⟩ with
  | some (_, _, w) => w
  | none => ⟨(), [], Heap.empty⟩

/-- The world after the gadget `g1` is created in `world_okfs`: the gadget is
at address 2. -/
def world_okfs_gadget : World Unit :=
  match usbg_create_gadget okfs 1 "g1".toList none none world_okfs with
  | some (_, _, w) => w
  | none => world_okfs

/-- A config document whose `functions` list defines the function `acm.usb0`
inline and then refers to a function that the gadget does not have. -/
def doc_inline_then_missing : config_t :=
  ⟨config_setting_t.group none
    [config_setting_t.string (some "name".toList) "c".toList,
     config_setting_t.list (some "functions".toList)
       [config_setting_t.group none
          [config_setting_t.group (some "function".toList)
             [config_setting_t.string (some "instance".toList) "usb0".toList,
              config_setting_t.string (some "type".toList) "acm".toList]],
        config_setting_t.string none "acm_nothere".toList]],
   none, 0⟩

/-- A config document that gives `bmAttributes` the value 300 and `bMaxPower`
the value 256. -/
def doc_config_attrs_out_of_range : config_t :=
  ⟨config_setting_t.group none
    [config_setting_t.string (some "name".toList) "c".toList,
     config_setting_t.group (some "attrs".toList)
       [config_setting_t.int (some "bmAttributes".toList) 300,
        config_setting_t.int (some "bMaxPower".toList) 256]],
   none, 0⟩

/-- A function document of the type `acm` that gives `port_num` the value
5. -/
def doc_acm_port_num : config_t :=
  ⟨config_setting_t.group none
    [config_setting_t.string (some "type".toList) "acm".toList,
     config_setting_t.group (some "attrs".toList)
       [config_setting_t.int (some "port_num".toList) 5]],
   none, 0⟩

/-- The content of a file of `simfs`. -/
def file_content (fs : SimFS) (path : List Char) : Option String :=
  match fs.lookup path with
  | some (FNode.file content) => some (String.mk content)
  | _ => none

/-- The import-diagnostic slots of the memory: that of each state and that of
each gadget, by address. -/
def Heap.slots (h : Heap) : (Nat → Option config_t) × (Nat → Option config_t) :=
  (fun s => (h.states s).last_failed_import, fun g => (h.gadgets g).last_failed_import)

/-- The slots of `h1` are those of `h`, but for the slot of the gadget at the
address `n`. -/
def slots_but (n : Nat) (h h1 : Heap) : Prop :=
  h1.slots.1 = h.slots.1 ∧ ∀ a, a ≠ n → h1.slots.2 a = h.slots.2 a

/-- The world after a call of `usbg_import_config` on the gadget of
`world_one_gadget` with the document `doc_no_type`, which has no `name`
tag. -/
def world_failed_import : World SimFS :=
  { world_one_gadget with
    heap := world_one_gadget.heap.set_gadget_failed_import 2 (some doc_no_type) }

/-- A gadget document that gives `bcdUSB` the value 70000. -/
def doc_gadget_bad_attr : config_t :=
  ⟨config_setting_t.group none
    [config_setting_t.group (some "attrs".toList)
       [config_setting_t.int (some "bcdUSB".toList) 70000]],
   none, 0⟩

/-- A gadget document that gives `idVendor` the value 7531. -/
def doc_gadget_attrs : config_t :=
  ⟨config_setting_t.group none
    [config_setting_t.group (some "attrs".toList)
       [config_setting_t.int (some "idVendor".toList) 7531]],
   none, 0⟩

/-- The world after a call of `usbg_import_gadget` on the state of
`world_okfs` with a stream that `config_read` refuses, `doc_no_type` being
what `config_read` leaves in the document. -/
def world_okfs_failed_import : World Unit :=
  { world_okfs with heap := world_okfs.heap.set_state_failed_import 1 (some doc_no_type) }

/-! ## Lemmas on strings and the naming codec -/

theorem strcmp_self (s : List Char) : strcmp s s = 0 := by
  induction s with
  | nil => rfl
  | cons a t ih => simp [strcmp, ih]

theorem strcmp_eq_zero_iff (s t : List Char) : strcmp s t = 0 ↔ s = t := by
  induction s generalizing t with
  | nil => cases t <;> simp [strcmp]
  | cons a s ih =>
    cases t with
    | nil => simp [strcmp]
    | cons b t =>
      by_cases hab : a = b
      · simp [strcmp, hab, ih]
      · by_cases hlt : a.toNat < b.toNat <;> simp [strcmp, hab, hlt]

theorem strchr_not_mem (s : List Char) (c : Char) (h : c ∉ s) : strchr s c = none := by
  induction s with
  | nil => rfl
  | cons a t ih =>
    simp only [List.mem_cons, not_or] at h
    have h1 : ¬ a = c := fun e => h.1 e.symm
    simp [strchr, h1, ih h.2]

theorem strchr_append (pre post : List Char) (c : Char) (h : c ∉ pre) :
    strchr (pre ++ c :: post) c = some pre.length := by
  induction pre with
  | nil => simp [strchr]
  | cons a t ih =>
    simp only [List.mem_cons, not_or] at h
    have h1 : ¬ a = c := fun e => h.1 e.symm
    simp [strchr, h1, ih h.2]

theorem strrchr_append (pre post : List Char) (c : Char) (h : strrchr post c = none) :
    strrchr (pre ++ c :: post) c = some pre.length := by
  induction pre with
  | nil => simp [strrchr, h]
  | cons a t ih => simp [strrchr, ih]

theorem lookup_loop_not_mem (n : List Char) :
    ∀ (l : List (List Char)) (i : Int), n ∉ l → usbg_lookup_function_type_loop n i l = -1 := by
  intro l
  induction l with
  | nil => intro i _; rfl
  | cons a t ih =>
    intro i h
    simp only [List.mem_cons, not_or] at h
    have h1 : ¬ strcmp n a = 0 := fun e => h.1 ((strcmp_eq_zero_iff n a).1 e)
    simp [usbg_lookup_function_type_loop, h1, ih (i + 1) h.2]

theorem lookup_loop_get (n : List Char) :
    ∀ (l : List (List Char)) (i : Int) (k : Nat), l.Nodup → l.get? k = some n →
      usbg_lookup_function_type_loop n i l = i + k := by
  intro l
  induction l with
  | nil => intro i k _ h; simp at h
  | cons a t ih =>
    intro i k hnd h
    cases k with
    | zero =>
      simp only [List.get?_cons_zero, Option.some.injEq] at h
      simp [usbg_lookup_function_type_loop, h, strcmp_self]
    | succ k =>
      simp only [List.get?_cons_succ] at h
      have hmem : n ∈ t := List.get?_mem h
      have hne : ¬ strcmp n a = 0 := by
        intro e
        have := (strcmp_eq_zero_iff n a).1 e
        subst this
        exact (List.nodup_cons.1 hnd).1 hmem
      simp only [usbg_lookup_function_type_loop, hne, if_false]
      rw [ih (i + 1) k (List.nodup_cons.1 hnd).2 h]
      push_cast; ring

theorem function_names_nodup : function_names.Nodup := by decide

theorem function_names_no_dot : ∀ n ∈ function_names, '.' ∉ n ∧ n ≠ [] := by decide


theorem split_function_no_dot (s : List Char) (h : '.' ∉ s) :
    usbg_split_function_instance_type s = (USBG_ERROR_INVALID_PARAM, none, none) := by
  simp [usbg_split_function_instance_type, strchr_not_mem s '.' h]

theorem split_function_at_dot (pre post : List Char) (h : '.' ∉ pre) :
    usbg_split_function_instance_type (pre ++ '.' :: post) =
      if pre = [] ∨ post = [] then (USBG_ERROR_INVALID_PARAM, none, none)
      else if usbg_lookup_function_type (some pre) ≥ 0 then
        (USBG_SUCCESS, some (usbg_lookup_function_type (some pre)), some post)
      else (USBG_ERROR_NOT_SUPPORTED, none, some post) := by
  have hd : (pre ++ '.' :: post).drop (pre.length + 1) = post := by
    rw [show pre ++ '.' :: post = (pre ++ ['.']) ++ post by simp]
    exact List.drop_left' (by simp)
  simp only [usbg_split_function_instance_type, strchr_append pre post '.' h, hd,
    List.take_left', List.length_eq_zero]

/-- Round trip of the naming codec for the function types that have a type
string: the name composed for the type and a non-empty instance decodes to
them. -/
theorem split_function_name (t : Nat) (ts inst : List Char) (ht : function_names.get? t = some ts)
    (hi : inst ≠ []) :
    usbg_split_function_instance_type (ts ++ '.' :: inst) = (USBG_SUCCESS, some (t : Int), some inst) := by
  have hmem : ts ∈ function_names := List.get?_mem ht
  have hnd := function_names_no_dot ts hmem
  have hl : usbg_lookup_function_type (some ts) = (t : Int) := by
    simp only [usbg_lookup_function_type]
    rw [lookup_loop_get ts function_names 0 t function_names_nodup ht]
    simp
  rw [split_function_at_dot ts inst hnd.1, hl]
  simp [hnd.2, hi]

/-- Claim C5: `usbg_split_function_instance_type` splits a full name at its
first dot.  It returns InvalidParam when there is no dot, when the dot is the
first character, and when nothing follows the first dot; otherwise it returns
NotSupported when the text before the first dot is not one of the ten type
strings; otherwise it returns success with the type whose string is that
text, and with everything after the first dot as the instance. -/
theorem usbg_split_function_instance_type_cases :
    (∀ s : List Char, '.' ∉ s →
      usbg_split_function_instance_type s = (USBG_ERROR_INVALID_PARAM, none, none)) ∧
    (∀ post : List Char,
      usbg_split_function_instance_type ('.' :: post) = (USBG_ERROR_INVALID_PARAM, none, none)) ∧
    (∀ pre : List Char, '.' ∉ pre →
      usbg_split_function_instance_type (pre ++ ['.']) = (USBG_ERROR_INVALID_PARAM, none, none)) ∧
    (∀ pre post : List Char, '.' ∉ pre → pre ≠ [] → post ≠ [] → pre ∉ function_names →
      usbg_split_function_instance_type (pre ++ '.' :: post) =
        (USBG_ERROR_NOT_SUPPORTED, none, some post)) ∧
    (∀ (pre post : List Char) (t : Nat), '.' ∉ pre → post ≠ [] →
      function_names.get? t = some pre →
      usbg_split_function_instance_type (pre ++ '.' :: post) =
        (USBG_SUCCESS, some (t : Int), some post)) := by
  refine ⟨split_function_no_dot, ?_, ?_, ?_, ?_⟩
  · intro post
    have := split_function_at_dot [] post (by simp)
    simpa using this
  · intro pre h
    have := split_function_at_dot pre [] h
    simpa using this
  · intro pre post h hp hq hn
    rw [split_function_at_dot pre post h]
    have hl : usbg_lookup_function_type (some pre) = -1 := lookup_loop_not_mem pre _ 0 hn
    simp [hp, hq, hl]
  · intro pre post t _ hq ht
    exact split_function_name t pre post ht hq

/-- The cases of claim C5 at the name `ecm.usb.0`, which decodes to F_ECM and
the instance `usb.0`. -/
theorem usbg_split_function_instance_type_cases_witness :
    usbg_split_function_instance_type "ecm.usb.0".toList =
      (USBG_SUCCESS, some F_ECM, some "usb.0".toList) :=
  usbg_split_function_instance_type_cases.2.2.2.2 "ecm".toList "usb.0".toList 3
    (by decide) (by decide) (by decide)

/-- Claim C3, at the failing input: the name `gser.x` decodes to the type
F_SERIAL (with success), but `usbg_get_function_type_str` gives NULL for
F_SERIAL, so `usbg_allocate_function` composes no name for F_SERIAL, whatever
the instance, and there is nothing to decode. -/
theorem function_name_serial :
    usbg_split_function_instance_type "gser.x".toList = (USBG_SUCCESS, some F_SERIAL, some ['x']) ∧
    usbg_get_function_type_str F_SERIAL = none ∧
    (∀ inst : List Char, function_name F_SERIAL inst = none) ∧
    ∀ (path inst : List Char) (parent : Nat) (h : Heap),
      usbg_allocate_function path F_SERIAL inst parent h = none := by
  have h0 : usbg_get_function_type_str F_SERIAL = none := by decide
  refine ⟨by decide, h0, fun inst => ?_, fun path inst parent h => ?_⟩
  · simp [function_name, h0]
  · simp [usbg_allocate_function, h0]

/-- With the type F_SERIAL `usbg_create_function` returns NoMemory and creates
nothing, also where `mkdir` would succeed. -/
theorem usbg_create_function_serial :
    (usbg_create_function simfs 2 F_SERIAL (some ['x']) none world_one_gadget).map
      (fun r => (r.1, r.2.1, decide (r.2.2.trace = world_one_gadget.trace),
        function_name_list r.2.2.heap 2)) =
      some (USBG_ERROR_NO_MEM, none, true, some []) := by
  decide

set_option maxRecDepth 1000000 in
theorem fmt_d_id_facts : ∀ n : Fin 256,
    strrchr (fmt_d n.val) '.' = none ∧ fmt_d n.val ≠ [] ∧
    (fmt_d n.val).head?.map isspace ≠ some true ∧
    strtol (fmt_d n.val) = ((n.val : Int), [], 0) ∧ long_to_int n.val = n.val := by
  decide

/-- Round trip of the naming codec for configs, for a label with or without
dots: the name composed for a non-empty label and an id from 1 to 255 decodes
to them. -/
theorem split_config_name (label : List Char) (id : Int) (hl : label ≠ [])
    (h1 : 1 ≤ id) (h2 : id ≤ 255) :
    usbg_split_config_label_id (config_name label id) = (id, some label) := by
  obtain ⟨n, rfl⟩ : ∃ n : Fin 256, id = (n.val : Int) :=
    ⟨⟨id.toNat, by omega⟩, by simp; omega⟩
  obtain ⟨f1, f2, f3, f4, f5⟩ := fmt_d_id_facts n
  have hd : (label ++ '.' :: fmt_d n.val).drop (label.length + 1) = fmt_d n.val := by
    rw [show label ++ '.' :: fmt_d n.val = (label ++ ['.']) ++ fmt_d n.val by simp]
    exact List.drop_left' (by simp)
  have h3 : ¬ ((n.val : Int) > 255) := by omega
  have h4 : ¬ ((n.val : Int) < 0) := by omega
  simp only [usbg_split_config_label_id, config_name, strrchr_append label _ '.' f1, hd,
    List.take_left', f4, f5]
  simp [hl, f2, f3, h3, h4, List.length_eq_zero]

/-- The example of the spec: `default.1` decodes to the label `default` and
the id 1. -/
theorem split_config_name_eval :
    usbg_split_config_label_id "default.1".toList = (1, some "default".toList) := by
  decide

/-- Claim C4, amended: for every non-empty label that contains no dot and
every id from 1 to 255, `usbg_split_config_label_id` on the name
`usbg_allocate_config` composes returns the id and yields the label. -/
theorem usbg_split_config_label_id_roundtrip (label : List Char) (id : Int) (hl : label ≠ [])
    (_hdot : '.' ∉ label) (h1 : 1 ≤ id) (h2 : id ≤ 255) :
    usbg_split_config_label_id (config_name label id) = (id, some label) :=
  split_config_name label id hl h1 h2

/-- The round trip of claim C4 at the label `default` and the id 1. -/
theorem usbg_split_config_label_id_roundtrip_witness :
    "default".toList ≠ [] ∧ '.' ∉ "default".toList ∧
    usbg_split_config_label_id (config_name "default".toList 1) = (1, some "default".toList) :=
  ⟨by decide, by decide,
    usbg_split_config_label_id_roundtrip "default".toList 1 (by decide) (by decide) (by decide)
      (by decide)⟩

/-- Claim C4 as stated fails for the empty label, which contains no dot: the
name composed for it and the id 5 is `.5`, the dot is then the first
character, and the decoder returns InvalidParam and yields no label. -/
theorem usbg_split_config_label_id_empty_label :
    '.' ∉ ([] : List Char) ∧ (1 : Int) ≤ 5 ∧ (5 : Int) ≤ 255 ∧
    usbg_split_config_label_id (config_name [] 5) = (USBG_ERROR_INVALID_PARAM, none) ∧
    usbg_split_config_label_id (config_name [] 5) ≠ (5, some []) := by
  decide

/-- Claim C6, at the failing input: `usbg_split_config_label_id` returns 0 for
`default.0`, and yields the label, rather than an error; `usbg_parse_config`
then returns that 0, which is USBG_SUCCESS, and adds no config: the world
after the call is the world before it. -/
theorem usbg_parse_config_id_zero :
    usbg_split_config_label_id "default.0".toList = (0, some "default".toList) ∧
    USBG_SUCCESS = 0 ∧
    ∀ (σ : Type) (B : Backend σ) (path : List Char) (g : Nat) (w : World σ),
      usbg_parse_config B path "default.0".toList g w = some (USBG_SUCCESS, w) := by
  refine ⟨by decide, rfl, fun σ B path g w => ?_⟩
  have h : usbg_split_config_label_id "default.0".toList = (0, some "default".toList) := by
    decide
  simp only [usbg_parse_config, h]
  simp [USBG_SUCCESS]

/-! ## The insertion into a well-formed queue -/

theorem upd_same {α : Type} (m : Nat → α) (a : Nat) (v : α) : upd m a v a = v := by
  simp [upd]

theorem upd_other {α : Type} (m : Nat → α) (a b : Nat) (v : α) (h : b ≠ a) :
    upd m a v b = m b := by
  simp [upd, h]

theorem insert_before_load (q : QMem) (c x : Nat) (hcx : c ≠ x) (lk : Link) :
    (TAILQ_INSERT_BEFORE q c x).load lk =
      if lk = q.tqe_prev c then some x else if lk = Link.next x then some c else q.load lk := by
  have h1 : upd q.tqe_prev x (q.tqe_prev c) c = q.tqe_prev c := upd_other _ _ _ _ hcx
  cases hp : q.tqe_prev c with
  | head o =>
    cases lk with
    | head o2 =>
      by_cases ho : o2 = o
      · simp [TAILQ_INSERT_BEFORE, QMem.store, QMem.load, h1, hp, ho, upd]
      · simp [TAILQ_INSERT_BEFORE, QMem.store, QMem.load, h1, hp, ho, upd]
    | next e =>
      by_cases he : e = x
      · simp [TAILQ_INSERT_BEFORE, QMem.store, QMem.load, h1, hp, he, upd]
      · simp [TAILQ_INSERT_BEFORE, QMem.store, QMem.load, h1, hp, he, upd]
  | next t =>
    cases lk with
    | head o2 => simp [TAILQ_INSERT_BEFORE, QMem.store, QMem.load, h1, hp, upd]
    | next e =>
      by_cases het : e = t
      · simp [TAILQ_INSERT_BEFORE, QMem.store, QMem.load, h1, hp, het, upd]
      · by_cases he : e = x
        · simp [TAILQ_INSERT_BEFORE, QMem.store, QMem.load, h1, hp, he, het, upd]
        · simp [TAILQ_INSERT_BEFORE, QMem.store, QMem.load, h1, hp, he, het, upd]

theorem insert_before_prev (q : QMem) (c x e : Nat) :
    (TAILQ_INSERT_BEFORE q c x).tqe_prev e =
      if e = c then Link.next x else if e = x then q.tqe_prev c else q.tqe_prev e := by
  cases hp : q.tqe_prev c <;>
    simp [TAILQ_INSERT_BEFORE, QMem.store, hp, upd]

theorem seg_ok_cons (q : QMem) (lk : Link) (a : Nat) (l : List Nat) :
    seg_ok q lk (a :: l) = true ↔
      q.load lk = some a ∧ q.tqe_prev a = lk ∧ seg_ok q (Link.next a) l = true := by
  simp [seg_ok, and_assoc]

theorem seg_ok_nil (q : QMem) (lk : Link) : seg_ok q lk [] = true ↔ q.load lk = none := by
  simp [seg_ok]

theorem seg_ok_congr (q q1 : QMem) : ∀ (l : List Nat) (lk : Link),
    q1.load lk = q.load lk → (∀ s ∈ l, q1.load (Link.next s) = q.load (Link.next s)) →
    (∀ s ∈ l, q1.tqe_prev s = q.tqe_prev s) → seg_ok q1 lk l = seg_ok q lk l := by
  intro l
  induction l with
  | nil => intro lk h _ _; simp [seg_ok, h]
  | cons a l ih =>
    intro lk h hn hp
    simp only [seg_ok]
    rw [h, hp a (List.mem_cons_self _ _),
      ih (Link.next a) (hn a (List.mem_cons_self _ _))
        (fun s hs => hn s (List.mem_cons_of_mem _ hs))
        (fun s hs => hp s (List.mem_cons_of_mem _ hs))]

theorem path_to_congr (q q1 : QMem) (x : Nat) : ∀ (l : List Nat) (lk : Link),
    q1.load lk = q.load lk → (∀ s ∈ l, q1.load (Link.next s) = q.load (Link.next s)) →
    path_to q lk l x → path_to q1 lk l x := by
  intro l
  induction l with
  | nil => intro lk h _ hp; simpa [path_to, h] using hp
  | cons a l ih =>
    intro lk h hn hp
    simp only [path_to] at hp ⊢
    exact ⟨by rw [h]; exact hp.1,
      ih (Link.next a) (hn a (List.mem_cons_self _ _))
        (fun s hs => hn s (List.mem_cons_of_mem _ hs)) hp.2⟩

theorem end_link_cases : ∀ (l : List Nat) (lk : Link),
    end_link lk l = lk ∧ l = [] ∨ ∃ s ∈ l, end_link lk l = Link.next s := by
  intro l
  induction l with
  | nil => intro lk; exact Or.inl ⟨rfl, rfl⟩
  | cons a l ih =>
    intro lk
    right
    rcases ih (Link.next a) with ⟨h, _⟩ | ⟨s, hs, h⟩
    · exact ⟨a, List.mem_cons_self _ _, by simpa [end_link] using h⟩
    · exact ⟨s, List.mem_cons_of_mem _ hs, by simpa [end_link] using h⟩

theorem loop_none (name : Nat → List Char) (x fuel : Nat) (q : QMem) :
    INSERT_TAILQ_STRING_ORDER_loop name x fuel none q = some q := by
  cases fuel <;> simp [INSERT_TAILQ_STRING_ORDER_loop]

/-- The loop after its first insertion: whatever it goes on to do with the
elements `S` that follow `t`, the new element stays where the elements `P`
lead to it. -/
theorem loop_after_insert (name : Nat → List Char) (x : Nat) (P : List Nat) (lk0 : Link) :
    ∀ (S : List Nat) (q : QMem) (fuel t : Nat),
      S.length ≤ fuel → seg_ok q (Link.next t) S = true → (t :: S).Nodup → x ∉ t :: S →
      x ∉ P → (∀ a ∈ P, a ∉ t :: S) → lk0 ≠ Link.next x → (∀ s ∈ t :: S, lk0 ≠ Link.next s) →
      path_to q lk0 P x →
      ∃ q1, INSERT_TAILQ_STRING_ORDER_loop name x fuel (q.tqe_next t) q = some q1 ∧
        path_to q1 lk0 P x := by
  intro S
  induction S with
  | nil =>
    intro q fuel t _ hseg _ _ _ _ _ _ hpath
    have h : q.tqe_next t = none := by simpa [seg_ok, QMem.load] using hseg
    exact ⟨q, by rw [h, loop_none], hpath⟩
  | cons a S ih =>
    intro q fuel t hlen hseg hnd hx hxP hP hlk0x hlk0 hpath
    obtain ⟨h1, h2, h3⟩ := (seg_ok_cons q (Link.next t) a S).1 hseg
    have h1' : q.tqe_next t = some a := by simpa [QMem.load] using h1
    obtain ⟨f, rfl⟩ : ∃ f, fuel = f + 1 := ⟨fuel - 1, by simp at hlen; omega⟩
    have hlen' : S.length ≤ f := by simp at hlen; omega
    have hnd' : (a :: S).Nodup := (List.nodup_cons.1 hnd).2
    have hta : t ≠ a := fun e => (List.nodup_cons.1 hnd).1 (e ▸ List.mem_cons_self _ _)
    have hxa : x ≠ a := fun e => hx (e ▸ List.mem_cons_of_mem _ (List.mem_cons_self _ _))
    have hxt : x ≠ t := fun e => hx (e ▸ List.mem_cons_self _ _)
    have hx' : x ∉ a :: S := fun e => hx (List.mem_cons_of_mem _ e)
    have hP' : ∀ p ∈ P, p ∉ a :: S := fun p hp e => hP p hp (List.mem_cons_of_mem _ e)
    have hlk0' : ∀ s ∈ a :: S, lk0 ≠ Link.next s := fun s hs => hlk0 s (List.mem_cons_of_mem _ hs)
    rw [h1']
    by_cases hskip : strcmp (name x) (name a) > 0
    · simp only [INSERT_TAILQ_STRING_ORDER_loop, hskip, if_true]
      exact ih q f a hlen' h3 hnd' hx' hxP hP' hlk0x hlk0' hpath
    · simp only [INSERT_TAILQ_STRING_ORDER_loop, hskip, if_false]
      have hload : ∀ lk : Link, lk ≠ Link.next t → lk ≠ Link.next x →
          (TAILQ_INSERT_BEFORE q a x).load lk = q.load lk := by
        intro lk e1 e2
        rw [insert_before_load q a x (Ne.symm hxa), h2]
        simp [e1, e2]
      have hnext : (TAILQ_INSERT_BEFORE q a x).tqe_next a = q.tqe_next a :=
        hload (Link.next a) (by simpa using Ne.symm hta) (by simpa using Ne.symm hxa)
      have hseg' : seg_ok (TAILQ_INSERT_BEFORE q a x) (Link.next a) S = true := by
        rw [seg_ok_congr q _ S (Link.next a) hnext]
        · exact h3
        · intro s hs
          apply hload
          · intro e
            have : s = t := by simpa using e
            exact (List.nodup_cons.1 hnd).1 (this ▸ List.mem_cons_of_mem _ hs)
          · intro e
            have : s = x := by simpa using e
            exact hx (this ▸ List.mem_cons_of_mem _ (List.mem_cons_of_mem _ hs))
        · intro s hs
          rw [insert_before_prev]
          have e1 : s ≠ a := fun e => (List.nodup_cons.1 hnd').1 (e ▸ hs)
          have e2 : s ≠ x := fun e =>
            hx (e ▸ List.mem_cons_of_mem _ (List.mem_cons_of_mem _ hs))
          simp [e1, e2]
      have hpath' : path_to (TAILQ_INSERT_BEFORE q a x) lk0 P x := by
        apply path_to_congr q _ x P lk0 _ _ hpath
        · exact hload lk0 (hlk0 t (List.mem_cons_self _ _)) hlk0x
        · intro s hs
          apply hload
          · intro e
            have : s = t := by simpa using e
            exact hP s hs (this ▸ List.mem_cons_self _ _)
          · intro e
            have : s = x := by simpa using e
            exact hxP (this ▸ hs)
      exact ih (TAILQ_INSERT_BEFORE q a x) f a hlen' hseg' hnd' hx' hxP hP' hlk0x hlk0' hpath'

/-- The first insertion of the loop, before the element `c` that the elements
`P` lead to: afterwards they lead to the new element, and the elements `R`
after `c` are as before. -/
theorem insert_before_seg (q : QMem) (c x : Nat) (R : List Nat) :
    ∀ (P : List Nat) (lk : Link),
      seg_ok q lk (P ++ c :: R) = true → (P ++ c :: R).Nodup → x ∉ P ++ c :: R →
      lk ≠ Link.next x → (∀ s ∈ P ++ c :: R, lk ≠ Link.next s) →
      path_to (TAILQ_INSERT_BEFORE q c x) lk P x ∧
      seg_ok (TAILQ_INSERT_BEFORE q c x) (Link.next c) R = true ∧
      (q.tqe_prev c = lk ∨ ∃ s ∈ P, q.tqe_prev c = Link.next s) := by
  intro P
  induction P with
  | nil =>
    intro lk hseg hnd hx hlkx hlk
    simp only [List.nil_append] at hseg hnd hx hlk
    obtain ⟨h1, h2, h3⟩ := (seg_ok_cons q lk c R).1 hseg
    have hxc : x ≠ c := fun e => hx (e ▸ List.mem_cons_self _ _)
    refine ⟨?_, ?_, Or.inl h2⟩
    · simp [path_to, insert_before_load q c x (Ne.symm hxc), h2]
    · have hload : ∀ l1 : Link, l1 ≠ lk → l1 ≠ Link.next x →
          (TAILQ_INSERT_BEFORE q c x).load l1 = q.load l1 := by
        intro l1 e1 e2
        rw [insert_before_load q c x (Ne.symm hxc), h2]
        simp [e1, e2]
      rw [seg_ok_congr q _ R (Link.next c)]
      · exact h3
      · exact hload _ (Ne.symm (hlk c (List.mem_cons_self _ _))) (by simpa using Ne.symm hxc)
      · intro s hs
        apply hload
        · exact Ne.symm (hlk s (List.mem_cons_of_mem _ hs))
        · intro e
          have : s = x := by simpa using e
          exact hx (this ▸ List.mem_cons_of_mem _ hs)
      · intro s hs
        rw [insert_before_prev]
        have e1 : s ≠ c := fun e => (List.nodup_cons.1 hnd).1 (e ▸ hs)
        have e2 : s ≠ x := fun e => hx (e ▸ List.mem_cons_of_mem _ hs)
        simp [e1, e2]
  | cons a P ih =>
    intro lk hseg hnd hx hlkx hlk
    simp only [List.cons_append] at hseg hnd hx hlk
    obtain ⟨h1, h2, h3⟩ := (seg_ok_cons q lk a (P ++ c :: R)).1 hseg
    have hxa : x ≠ a := fun e => hx (e ▸ List.mem_cons_self _ _)
    have hxc : x ≠ c := fun e =>
      hx (e ▸ List.mem_cons_of_mem _ (List.mem_append_right _ (List.mem_cons_self _ _)))
    have hnd' := (List.nodup_cons.1 hnd).2
    have hx' : x ∉ P ++ c :: R := fun e => hx (List.mem_cons_of_mem _ e)
    obtain ⟨i1, i2, i3⟩ := ih (Link.next a) h3 hnd' hx' (by simpa using Ne.symm hxa)
      (fun s hs e => by
        have : a = s := by simpa using e
        exact (List.nodup_cons.1 hnd).1 (this ▸ hs))
    have hprev : ∃ s ∈ a :: P, q.tqe_prev c = Link.next s := by
      rcases i3 with e | ⟨s, hs, e⟩
      · exact ⟨a, List.mem_cons_self _ _, e⟩
      · exact ⟨s, List.mem_cons_of_mem _ hs, e⟩
    refine ⟨?_, i2, Or.inr hprev⟩
    obtain ⟨s, hs, e⟩ := hprev
    have hs' : s ∈ a :: (P ++ c :: R) := by
      rcases List.mem_cons.1 hs with r | r
      · exact r ▸ List.mem_cons_self _ _
      · exact List.mem_cons_of_mem _ (List.mem_append_left _ r)
    simp only [path_to]
    refine ⟨?_, i1⟩
    rw [insert_before_load q c x (Ne.symm hxc), e]
    simp [hlk s hs', hlkx, h1]

/-- The loop passes over the elements `P` that compare below the new one
and leaves the queue as it is. -/
theorem loop_skip (name : Nat → List Char) (x : Nat) (q : QMem) (rest : List Nat) :
    ∀ (P : List Nat) (lk : Link) (fuel : Nat),
      seg_ok q lk (P ++ rest) = true → (∀ a ∈ P, strcmp (name x) (name a) > 0) →
      INSERT_TAILQ_STRING_ORDER_loop name x (P.length + fuel) (q.load lk) q =
        INSERT_TAILQ_STRING_ORDER_loop name x fuel (q.load (end_link lk P)) q ∧
      seg_ok q (end_link lk P) rest = true := by
  intro P
  induction P with
  | nil => intro lk fuel hseg _; simpa [end_link] using hseg
  | cons a P ih =>
    intro lk fuel hseg hskip
    simp only [List.cons_append] at hseg
    obtain ⟨h1, _, h3⟩ := (seg_ok_cons q lk a (P ++ rest)).1 hseg
    have hs : strcmp (name x) (name a) > 0 := hskip a (List.mem_cons_self _ _)
    obtain ⟨i1, i2⟩ := ih (Link.next a) fuel h3 (fun b hb => hskip b (List.mem_cons_of_mem _ hb))
    refine ⟨?_, by simpa [end_link] using i2⟩
    rw [h1, show (a :: P).length + fuel = (P.length + fuel) + 1 by simp; omega]
    simp only [INSERT_TAILQ_STRING_ORDER_loop, hs, if_true, end_link]
    exact i1

theorem insert_head_load (q : QMem) (h x : Nat) :
    (TAILQ_INSERT_HEAD q h x).load (Link.head h) = some x := by
  cases hf : q.tqh_first h <;> simp [TAILQ_INSERT_HEAD, QMem.load, hf, upd]

theorem insert_tail_load (q : QMem) (h x : Nat) (lk : Link) :
    (TAILQ_INSERT_TAIL q h x).load lk =
      if lk = q.tqh_last h then some x else if lk = Link.next x then none else q.load lk := by
  cases hp : q.tqh_last h with
  | head o =>
    cases lk with
    | head o2 =>
      by_cases ho : o2 = o <;> simp [TAILQ_INSERT_TAIL, QMem.store, QMem.load, hp, ho, upd]
    | next e =>
      by_cases he : e = x <;> simp [TAILQ_INSERT_TAIL, QMem.store, QMem.load, hp, he, upd]
  | next t =>
    cases lk with
    | head o2 => simp [TAILQ_INSERT_TAIL, QMem.store, QMem.load, hp, upd]
    | next e =>
      by_cases het : e = t
      · simp [TAILQ_INSERT_TAIL, QMem.store, QMem.load, hp, het, upd]
      · by_cases he : e = x <;>
          simp [TAILQ_INSERT_TAIL, QMem.store, QMem.load, hp, he, het, upd]

/-- The insertion at the tail of a well-formed queue: all its elements lead
to the new one. -/
theorem insert_tail_path (q : QMem) (h x : Nat) :
    ∀ (l : List Nat) (lk : Link),
      seg_ok q lk l = true → q.tqh_last h = end_link lk l → l.Nodup → x ∉ l →
      lk ≠ Link.next x → (∀ s ∈ l, lk ≠ Link.next s) →
      path_to (TAILQ_INSERT_TAIL q h x) lk l x := by
  intro l
  induction l with
  | nil =>
    intro lk _ hlast _ _ _ _
    simp [path_to, insert_tail_load, hlast, end_link]
  | cons a l ih =>
    intro lk hseg hlast hnd hx hlkx hlk
    obtain ⟨h1, _, h3⟩ := (seg_ok_cons q lk a l).1 hseg
    have hxa : x ≠ a := fun e => hx (e ▸ List.mem_cons_self _ _)
    have hlast' : q.tqh_last h = end_link (Link.next a) l := by simpa [end_link] using hlast
    have hne : lk ≠ q.tqh_last h := by
      rw [hlast']
      rcases end_link_cases l (Link.next a) with ⟨e, _⟩ | ⟨s, hs, e⟩
      · rw [e]; exact hlk a (List.mem_cons_self _ _)
      · rw [e]; exact hlk s (List.mem_cons_of_mem _ hs)
    simp only [path_to]
    refine ⟨by rw [insert_tail_load]; simp [hne, hlkx, h1], ?_⟩
    exact ih (Link.next a) h3 hlast' (List.nodup_cons.1 hnd).2
      (fun e => hx (List.mem_cons_of_mem _ e)) (by simpa using Ne.symm hxa)
      (fun s hs e => by
        have : a = s := by simpa using e
        exact (List.nodup_cons.1 hnd).1 (this ▸ hs))

/-- In a well-formed queue that is not empty `TAILQ_LAST` is an element of
the queue. -/
theorem seg_ok_last (q : QMem) : ∀ (l : List Nat) (lk : Link) (a : Nat),
    seg_ok q lk (a :: l) = true →
    ∃ z ∈ a :: l, q.load (q.load_last (end_link lk (a :: l))) = some z := by
  intro l
  induction l with
  | nil =>
    intro lk a hseg
    obtain ⟨h1, h2, _⟩ := (seg_ok_cons q lk a []).1 hseg
    exact ⟨a, List.mem_cons_self _ _, by simp [end_link, QMem.load_last, h2, h1]⟩
  | cons b l ih =>
    intro lk a hseg
    obtain ⟨_, _, h3⟩ := (seg_ok_cons q lk a (b :: l)).1 hseg
    obtain ⟨z, hz, e⟩ := ih (Link.next a) b h3
    exact ⟨z, List.mem_cons_of_mem _ hz, by simpa [end_link] using e⟩

theorem exists_first_not (p : Nat → Prop) [DecidablePred p] : ∀ l : List Nat,
    (∃ z ∈ l, ¬ p z) → ∃ P c R, l = P ++ c :: R ∧ (∀ a ∈ P, p a) ∧ ¬ p c := by
  intro l
  induction l with
  | nil => intro ⟨z, hz, _⟩; simp at hz
  | cons a l ih =>
    intro ⟨z, hz, hp⟩
    by_cases ha : p a
    · have : ∃ z ∈ l, ¬ p z := by
        rcases List.mem_cons.1 hz with e | e
        · exact absurd (e ▸ ha) hp
        · exact ⟨z, e, hp⟩
      obtain ⟨P, c, R, e, h1, h2⟩ := ih this
      refine ⟨a :: P, c, R, by simp [e], ?_, h2⟩
      intro b hb
      rcases List.mem_cons.1 hb with r | r
      · exact r ▸ ha
      · exact h1 b r
    · exact ⟨[], a, l, rfl, by simp, ha⟩

/-- The effect of `INSERT_TAILQ_STRING_ORDER` on a well-formed queue that
holds the elements `l`: it ends, and afterwards the new element is reached
from the head through elements that were first in the queue before. -/
theorem insert_string_order_path (name : Nat → List Char) (q : QMem) (h x fuel : Nat)
    (l : List Nat) (hq : is_queue q h l = true) (hx : x ∉ l) (hf : l.length ≤ fuel) :
    ∃ q1 P R, l = P ++ R ∧ INSERT_TAILQ_STRING_ORDER fuel name q h x = some q1 ∧
      path_to q1 (Link.head h) P x := by
  simp only [is_queue, Bool.and_eq_true, decide_eq_true_eq] at hq
  obtain ⟨⟨hnd, hseg⟩, hlast⟩ := hq
  cases l with
  | nil =>
    have h0 : q.tqh_first h = none := by simpa [seg_ok, QMem.load] using hseg
    exact ⟨TAILQ_INSERT_HEAD q h x, [], [], rfl,
      by simp [INSERT_TAILQ_STRING_ORDER, TAILQ_FIRST, h0],
      insert_head_load q h x⟩
  | cons a l =>
    obtain ⟨h1, _, _⟩ := (seg_ok_cons q (Link.head h) a l).1 hseg
    have h1' : q.tqh_first h = some a := by simpa [QMem.load] using h1
    by_cases hlt : strcmp (name x) (name a) < 0
    · exact ⟨TAILQ_INSERT_HEAD q h x, [], a :: l, rfl,
        by simp [INSERT_TAILQ_STRING_ORDER, TAILQ_FIRST, h1', hlt],
        insert_head_load q h x⟩
    · obtain ⟨z, hz, hzl⟩ := seg_ok_last q l (Link.head h) a hseg
      have hL : TAILQ_LAST q h = some z := by simp [TAILQ_LAST, hlast, hzl]
      by_cases hgt : strcmp (name x) (name z) > 0
      · refine ⟨TAILQ_INSERT_TAIL q h x, a :: l, [], by simp,
          by simp [INSERT_TAILQ_STRING_ORDER, TAILQ_FIRST, h1', hlt, hL, hgt], ?_⟩
        exact insert_tail_path q h x (a :: l) (Link.head h) hseg hlast hnd hx (by simp)
          (by simp)
      · obtain ⟨P, c, R, e, hP, hc⟩ :=
          exists_first_not (fun b => strcmp (name x) (name b) > 0) (a :: l) ⟨z, hz, hgt⟩
        have hloop : INSERT_TAILQ_STRING_ORDER fuel name q h x =
            INSERT_TAILQ_STRING_ORDER_loop name x fuel (q.load (Link.head h)) q := by
          simp [INSERT_TAILQ_STRING_ORDER, TAILQ_FIRST, h1', hlt, hL, hgt, QMem.load]
        rw [e] at hseg hnd hx hf
        obtain ⟨f, rfl⟩ : ∃ f, fuel = P.length + (f + 1) :=
          ⟨fuel - P.length - 1, by simp at hf; omega⟩
        obtain ⟨s1, s2⟩ := loop_skip name x q (c :: R) P (Link.head h) (f + 1) hseg hP
        obtain ⟨c1, _, _⟩ := (seg_ok_cons q _ c R).1 s2
        obtain ⟨i1, i2, _⟩ := insert_before_seg q c x R P (Link.head h) hseg hnd hx (by simp)
          (by simp)
        have hnd2 : (c :: R).Nodup := (List.nodup_append.1 hnd).2.1
        have hdis : ∀ p ∈ P, p ∉ c :: R := fun p hp hr =>
          (List.nodup_append.1 hnd).2.2 hp hr
        have hxc : x ≠ c := fun e1 =>
          hx (e1 ▸ List.mem_append_right _ (List.mem_cons_self _ _))
        have hnext : (TAILQ_INSERT_BEFORE q c x).tqe_next c = R.head? := by
          cases R with
          | nil => simpa [seg_ok, QMem.load] using i2
          | cons r R => simpa [QMem.load] using ((seg_ok_cons _ _ r R).1 i2).1
        obtain ⟨q1, j1, j2⟩ := loop_after_insert name x P (Link.head h) R
          (TAILQ_INSERT_BEFORE q c x) f c (by simp at hf; omega) i2 hnd2
          (fun e1 => hx (List.mem_append_right _ e1))
          (fun e1 => hx (List.mem_append_left _ e1)) hdis (by simp) (by simp) i1
        refine ⟨q1, P, c :: R, e, ?_, j2⟩
        rw [hloop, s1, c1]
        simp only [INSERT_TAILQ_STRING_ORDER_loop, hc, if_false]
        exact j1

theorem tailq_find_path (q : QMem) (p : Nat → Bool) (x : Nat) :
    ∀ (P : List Nat) (lk : Link) (fuel : Nat),
      path_to q lk P x → (∀ a ∈ P, p a = false) → p x = true → P.length < fuel →
      tailq_find q p fuel (q.load lk) = some (some x) := by
  intro P
  induction P with
  | nil =>
    intro lk fuel hp _ hx hf
    obtain ⟨f, rfl⟩ : ∃ f, fuel = f + 1 := ⟨fuel - 1, by simp at hf; omega⟩
    simp only [path_to] at hp
    simp [hp, tailq_find, hx]
  | cons a P ih =>
    intro lk fuel hp hP hx hf
    obtain ⟨f, rfl⟩ : ∃ f, fuel = f + 1 := ⟨fuel - 1, by simp at hf; omega⟩
    simp only [path_to] at hp
    have ha : p a = false := hP a (List.mem_cons_self _ _)
    rw [hp.1]
    simp only [tailq_find, ha]
    exact ih (Link.next a) f hp.2 (fun b hb => hP b (List.mem_cons_of_mem _ hb)) hx
      (by simp at hf; omega)

theorem tailq_find_seg (q : QMem) (p : Nat → Bool) :
    ∀ (l : List Nat) (lk : Link) (fuel : Nat),
      seg_ok q lk l = true → (∀ a ∈ l, p a = false) → l.length ≤ fuel →
      tailq_find q p fuel (q.load lk) = some none := by
  intro l
  induction l with
  | nil =>
    intro lk fuel hseg _ _
    have : q.load lk = none := by simpa [seg_ok] using hseg
    rw [this]
    cases fuel <;> simp [tailq_find]
  | cons a l ih =>
    intro lk fuel hseg hP hf
    obtain ⟨f, rfl⟩ : ∃ f, fuel = f + 1 := ⟨fuel - 1, by simp at hf; omega⟩
    obtain ⟨h1, _, h3⟩ := (seg_ok_cons q lk a l).1 hseg
    have ha : p a = false := hP a (List.mem_cons_self _ _)
    rw [h1]
    simp only [tailq_find, ha]
    exact ih (Link.next a) f h3 (fun b hb => hP b (List.mem_cons_of_mem _ hb))
      (by simp at hf; omega)

theorem nodup_length_le (n : Nat) (l : List Nat) (hnd : l.Nodup) (hb : ∀ a ∈ l, a < n) :
    l.length ≤ n := by
  have h1 : l.toFinset ⊆ Finset.range n := by
    intro a ha
    simp only [List.mem_toFinset] at ha
    simpa using hb a ha
  have h2 := Finset.card_le_card h1
  rw [List.toFinset_card_of_nodup hnd, Finset.card_range] at h2
  exact h2

theorem type_str_of_mem (type : usbg_function_type) (ts : List Char)
    (hty : type ∈ function_types) (hns : type ≠ F_SERIAL)
    (hts : function_names.get? type.toNat = some ts) :
    usbg_get_function_type_str type = some ts := by
  have h : type > 0 ∧ type < (function_names.length : Int) := by
    simp only [function_types, List.mem_cons, List.mem_singleton, List.not_mem_nil,
      or_false] at hty
    rcases hty with e | e | e | e | e | e | e | e | e | e
    · exact absurd e hns
    all_goals subst e; decide
  rw [usbg_get_function_type_str, if_pos h]
  exact hts

/-- Claim C7, amended: for each of the function types other than F_SERIAL
(`ts` being its type string) and every instance name such that no function of
the gadget has that type and instance, `usbg_create_function` with no
attributes returns success and `usbg_get_function` then returns the new
function, whose on-disk name is the type string, a dot and the instance;
provided that the function collection of the gadget is a well-formed queue
(`l` being its elements, all allocated), that the paths composed fit within
the maximum path length, and that the `mkdir` of the backend succeeds. -/
theorem usbg_create_function_then_get {σ : Type} (B : Backend σ) (w : World σ) (g : Nat)
    (type : usbg_function_type) (ts inst : List Char) (l : List Nat)
    (hty : type ∈ function_types) (hns : type ≠ F_SERIAL)
    (hts : function_names.get? type.toNat = some ts)
    (hq : is_queue w.heap.fq g l = true) (hb : ∀ a ∈ l, a < w.heap.brk)
    (hnew : ∀ a ∈ l, ¬ ((w.heap.functions a).type = type ∧ (w.heap.functions a).inst = inst))
    (hp1 : (path3 (w.heap.gadgets g).path (w.heap.gadgets g).name FUNCTIONS_DIR).length
      < USBG_MAX_PATH_LENGTH)
    (hp2 : 1 + (ts ++ '.' :: inst).length < USBG_MAX_PATH_LENGTH -
      (path3 (w.heap.gadgets g).path (w.heap.gadgets g).name FUNCTIONS_DIR).length)
    (hmk : (B.mkdir (path3 (w.heap.gadgets g).path (w.heap.gadgets g).name FUNCTIONS_DIR
      ++ '/' :: (ts ++ '.' :: inst)) w.fs).1 = 0) :
    ∃ f w1, usbg_create_function B g type (some inst) none w = some (USBG_SUCCESS, some f, w1) ∧
      usbg_get_function w1.heap g type inst = some (some f) ∧
      (w1.heap.functions f).name = ts ++ '.' :: inst := by
  have hstr := type_str_of_mem type ts hty hns hts
  have hq' := hq
  simp only [is_queue, Bool.and_eq_true, decide_eq_true_eq] at hq'
  obtain ⟨⟨hnd, hseg⟩, _⟩ := hq'
  have hlen : l.length ≤ w.heap.brk := nodup_length_le _ l hnd hb
  have hfresh : w.heap.brk ∉ l := fun e => Nat.lt_irrefl _ (hb _ e)
  -- the lookup before the call finds nothing
  have hget : usbg_get_function w.heap g type inst = some none := by
    apply tailq_find_seg w.heap.fq _ l (Link.head g) w.heap.fuel hseg
    · intro a ha
      have := hnew a ha
      simp only [Bool.and_eq_false_imp, decide_eq_true_eq, decide_eq_false_iff_not,
        strcmp_eq_zero_iff]
      intro e1 e2
      exact this ⟨e1, e2⟩
    · simp only [Heap.fuel]; omega
  -- the insertion
  obtain ⟨q1, P, R, hPR, hins, hpath⟩ :=
    insert_string_order_path
      (fun f => ((upd w.heap.functions w.heap.brk
        ⟨g, ts ++ '.' :: inst,
          path3 (w.heap.gadgets g).path (w.heap.gadgets g).name FUNCTIONS_DIR,
          (ts ++ '.' :: inst).drop (ts.length + 1), none, type⟩) f).name)
      w.heap.fq g w.heap.brk (w.heap.brk + 1 + 1) l hq hfresh (by omega)
  have hnp1 : ¬ (path3 (w.heap.gadgets g).path (w.heap.gadgets g).name FUNCTIONS_DIR).length
      ≥ USBG_MAX_PATH_LENGTH := by omega
  refine ⟨w.heap.brk, ?_⟩
  simp only [usbg_create_function, usbg_create_function_named, hget, hnp1, if_false,
    usbg_allocate_function, hstr, upd_same, hp2, if_true, sys_mkdir, hmk, insert_function,
    Heap.fuel, hins, Option.map_some']
  refine ⟨_, rfl, ?_, by simp [upd]⟩
  have hdrop : List.drop (ts.length + 1) (ts ++ '.' :: inst) = inst := by
    rw [show ts ++ '.' :: inst = (ts ++ ['.']) ++ inst by simp]
    exact List.drop_left' (by simp)
  apply tailq_find_path q1 _ w.heap.brk P (Link.head g) _ hpath
  · intro a ha
    have hal : a ∈ l := hPR ▸ List.mem_append_left _ ha
    have hne : a ≠ w.heap.brk := fun e => hfresh (e ▸ hal)
    have := hnew a hal
    simp only [upd, hne, if_false, Bool.and_eq_false_imp, decide_eq_true_eq,
      decide_eq_false_iff_not, strcmp_eq_zero_iff]
    intro e1 e2
    exact this ⟨e1, e2⟩
  · simp [upd, hdrop, strcmp_self]
  · have : P.length ≤ l.length := by rw [hPR]; simp
    simp only [Heap.fuel]
    omega

theorem tailq_find_of_iterate (q : QMem) (p : Nat → Bool) :
    ∀ (fuel : Nat) (cur : Option Nat) (l : List Nat),
      iterate (TAILQ_NEXT q) fuel cur = some l → (∃ a ∈ l, p a = true) →
      ∃ b ∈ l, tailq_find q p fuel cur = some (some b) ∧ p b = true := by
  intro fuel
  induction fuel with
  | zero =>
    intro cur l hl ⟨a, ha, _⟩
    cases cur with
    | none => simp [iterate] at hl; subst hl; simp at ha
    | some c => simp [iterate] at hl
  | succ f ih =>
    intro cur l hl ⟨a, ha, hpa⟩
    cases cur with
    | none => simp [iterate] at hl; subst hl; simp at ha
    | some c =>
      simp only [iterate, Option.map_eq_some'] at hl
      obtain ⟨l1, h1, rfl⟩ := hl
      by_cases hc : p c = true
      · exact ⟨c, List.mem_cons_self _ _, by simp [tailq_find, hc], hc⟩
      · have ha1 : a ∈ l1 := by
          rcases List.mem_cons.1 ha with e | e
          · exact absurd (e ▸ hpa) hc
          · exact e
        obtain ⟨b, hb, hf, hpb⟩ := ih (TAILQ_NEXT q c) l1 h1 ⟨a, ha1, hpa⟩
        exact ⟨b, List.mem_cons_of_mem _ hb, by simpa [tailq_find, hc, TAILQ_NEXT] using hf, hpb⟩

/-- Claim C8: `usbg_create_gadget` and `usbg_create_gadget_vid_pid`, called
with the name of a gadget that the iteration over the gadgets of the state
yields, return AlreadyExists and leave the world as it is: no call to the
storage is made, and the memory of the library, with the gadget collection and
the existing gadget, is unchanged. -/
theorem usbg_create_gadget_exists {σ : Type} (B : Backend σ) (w : World σ) (s g : Nat)
    (name : List Char) (l : List Nat) (g_attrs : Option usbg_gadget_attrs)
    (g_strs : Option usbg_gadget_strs) (idVendor idProduct : Int)
    (hl : gadgets_of w.heap s = some l) (hg : g ∈ l) (hn : (w.heap.gadgets g).name = name) :
    usbg_create_gadget B s name g_attrs g_strs w = some (USBG_ERROR_EXIST, none, w) ∧
    usbg_create_gadget_vid_pid B s name idVendor idProduct w =
      some (USBG_ERROR_EXIST, none, w) := by
  obtain ⟨b, _, hb, _⟩ := tailq_find_of_iterate w.heap.gq
    (fun g => strcmp (w.heap.gadgets g).name name = 0) w.heap.fuel (TAILQ_FIRST w.heap.gq s) l
    hl ⟨g, hg, by simp [hn, strcmp_self]⟩
  have hfind : usbg_get_gadget w.heap s name = some (some b) := hb
  simp [usbg_create_gadget, usbg_create_gadget_vid_pid, hfind]

/-- Claim C8 at the loaded gadget `g1`: a second gadget `g1` is refused. -/
theorem usbg_create_gadget_exists_witness :
    gadgets_of world_one_gadget.heap 1 = some [2] ∧
    usbg_create_gadget simfs 1 "g1".toList none none world_one_gadget =
      some (USBG_ERROR_EXIST, none, world_one_gadget) ∧
    usbg_create_gadget_vid_pid simfs 1 "g1".toList 7531 260 world_one_gadget =
      some (USBG_ERROR_EXIST, none, world_one_gadget) :=
  ⟨by decide,
    usbg_create_gadget_exists simfs world_one_gadget 1 2 "g1".toList [2] none none 7531 260
      (by decide) (by decide) (by decide)⟩

/-- Claim C9: `usbg_create_config` returns InvalidParam for every id outside
1..255; and for an id in 1..255 that a config has which the iteration over the
configs of the gadget yields, it returns AlreadyExists, whatever the label
given and whatever the label of that config.  In both cases the world is left
as it is: no call to the storage is made and the config collection is
unchanged. -/
theorem usbg_create_config_rejects {σ : Type} (B : Backend σ) (w : World σ) (g : Nat) (id : Int)
    (label : Option (List Char)) (c_attrs : Option usbg_config_attrs)
    (c_strs : Option usbg_config_strs) :
    ((id < 1 ∨ 255 < id) →
      usbg_create_config B g id label c_attrs c_strs w =
        some (USBG_ERROR_INVALID_PARAM, none, w)) ∧
    (∀ (l : List Nat) (c : Nat), 1 ≤ id → id ≤ 255 → configs_of w.heap g = some l → c ∈ l →
      (w.heap.configs c).id = id →
      usbg_create_config B g id label c_attrs c_strs w = some (USBG_ERROR_EXIST, none, w)) := by
  constructor
  · intro h
    have : id ≤ 0 ∨ id > 255 := by omega
    simp [usbg_create_config, this]
  · intro l c h1 h2 hl hc hid
    obtain ⟨b, _, hb, _⟩ := tailq_find_of_iterate w.heap.cq
      (fun c => decide ((w.heap.configs c).id = id) && true) w.heap.fuel
      (TAILQ_FIRST w.heap.cq g) l hl ⟨c, hc, by simp [hid]⟩
    have hfind : usbg_get_config w.heap g id none = some (some b) := hb
    have : ¬ (id ≤ 0 ∨ id > 255) := by omega
    simp [usbg_create_config, this, hfind]

/-- Claim C9 in the gadget that has the config `c.1`: the id 0 is refused as
invalid, and the id 1 as existing although the label differs. -/
theorem usbg_create_config_rejects_witness :
    usbg_create_config simfs 2 0 (some "c".toList) none none world_bound =
      some (USBG_ERROR_INVALID_PARAM, none, world_bound) ∧
    configs_of world_bound.heap 2 = some [6] ∧
    (world_bound.heap.configs 6).label = "c".toList ∧
    usbg_create_config simfs 2 1 (some "other".toList) none none world_bound =
      some (USBG_ERROR_EXIST, none, world_bound) :=
  ⟨(usbg_create_config_rejects simfs world_bound 2 0 (some "c".toList) none none).1 (by decide),
    by decide, by decide,
    (usbg_create_config_rejects simfs world_bound 2 1 (some "other".toList) none none).2 [6] 6
      (by decide) (by decide) (by decide) (by decide) (by decide)⟩

/-- Claim C7, amended, in the gadget that has the functions `acm.a` and
`acm.d`: the function `acm.b` is created and found. -/
theorem usbg_create_function_then_get_witness :
    is_queue world_two_functions.heap.fq 2 [3, 4] = true ∧
    function_name_list world_two_functions.heap 2 = some ["acm.a", "acm.d"] ∧
    ∃ f w1, usbg_create_function simfs 2 F_ACM (some ['b']) none world_two_functions =
        some (USBG_SUCCESS, some f, w1) ∧
      usbg_get_function w1.heap 2 F_ACM ['b'] = some (some f) ∧
      (w1.heap.functions f).name = "acm".toList ++ '.' :: ['b'] :=
  ⟨by decide, by decide,
    usbg_create_function_then_get simfs world_two_functions 2 F_ACM "acm".toList ['b'] [3, 4]
      (by decide) (by decide) (by decide) (by decide) (by decide) (by decide) (by decide)
      (by decide) (by decide)⟩

/-- Claim C7 as stated fails for an instance name of 4096 characters, on a
storage whose every `mkdir` succeeds: the gadget has no function of that type
and instance, the path composed for the function does not fit within the
maximum path length, `usbg_create_function` returns InvalidParam without any
call to the storage, and `usbg_get_function` finds no such function
afterwards. -/
theorem usbg_create_function_long_instance :
    usbg_get_function world_one_gadget.heap 2 F_ACM long_instance = some none ∧
    (∀ path : List Char, (okfs.mkdir path ()).1 = 0) ∧
    (usbg_create_function okfs 2 F_ACM (some long_instance) none
        ⟨(), [], world_one_gadget.heap⟩).map
      (fun r => (r.1, r.2.2.trace, usbg_get_function r.2.2.heap 2 F_ACM long_instance)) =
      some (USBG_ERROR_INVALID_PARAM, [], some none) := by
  have hget : usbg_get_function world_one_gadget.heap 2 F_ACM long_instance = some none := by
    decide
  have hpath : path3 (world_one_gadget.heap.gadgets 2).path (world_one_gadget.heap.gadgets 2).name
      FUNCTIONS_DIR = "/cfg/usb_gadget/g1/functions".toList := by decide
  have hstr : usbg_get_function_type_str F_ACM = some "acm".toList := by decide
  have hlen : ¬ (1 + ("acm".toList ++ '.' :: long_instance).length <
      USBG_MAX_PATH_LENGTH - "/cfg/usb_gadget/g1/functions".toList.length) := by
    have hlong : long_instance.length = 4096 := by
      unfold long_instance
      exact List.length_replicate _ _
    have h3 : "acm".toList.length = 3 := by decide
    have h28 : "/cfg/usb_gadget/g1/functions".toList.length = 28 := by decide
    rw [List.length_append, List.length_cons, hlong, h3, h28]
    decide
  have hfit : ¬ ("/cfg/usb_gadget/g1/functions".toList.length ≥ USBG_MAX_PATH_LENGTH) := by
    decide
  refine ⟨hget, fun _ => rfl, ?_⟩
  simp only [usbg_create_function, usbg_create_function_named, hget, hpath]
  simp only [hfit, if_false, usbg_allocate_function, hstr]
  simp only [upd_same, hlen, if_false, Option.map_some']
  simp [USBG_ERROR_INVALID_PARAM, USBG_SUCCESS]
  decide

/-! ## The insertion in string order -/

/-- Claim C1, at the failing input: in the gadget loaded from a tree in which
it has no function, the functions `acm.a`, `acm.c`, `acm.d`, `acm.b` are
created in this order and every call returns success; the iteration over the
functions of the gadget then yields `acm.a`, `acm.b`, `acm.d`, without
`acm.c`.  The three functions of the example of the spec do come out in
ascending order. -/
theorem create_function_loses_sibling :
    (loaded_one_gadget.bind (fun x =>
        (create_functions simfs x.2.1
          [(F_ACM, ['a']), (F_ACM, ['c']), (F_ACM, ['d']), (F_ACM, ['b'])] x.2.2).map
          (fun r => (r.1, function_name_list r.2.heap x.2.1)))) =
      some ([USBG_SUCCESS, USBG_SUCCESS, USBG_SUCCESS, USBG_SUCCESS],
        some ["acm.a", "acm.b", "acm.d"]) ∧
    (loaded_one_gadget.bind (fun x =>
        (create_functions simfs x.2.1
          [(F_RNDIS, ['b']), (F_ACM, ['a']), (F_ECM, ['c'])] x.2.2).map
          (fun r => (r.1, function_name_list r.2.heap x.2.1)))) =
      some ([USBG_SUCCESS, USBG_SUCCESS, USBG_SUCCESS],
        some ["acm.a", "ecm.c", "rndis.b"]) := by
  decide

/-- Claim C2, at the failing input: the elements named a, c, d, e, b are
inserted into an empty queue with `INSERT_TAILQ_STRING_ORDER`, after which the
iteration yields a, b, e, in strictly ascending order; then the element named
ab, a name no element of the queue has, is inserted, and the iteration yields
a, b, ab, e, which is not in ascending order. -/
theorem insert_string_order_unsorted :
    ((insert_all 8 six_names 0 [1, 2, 3, 4, 5] (TAILQ_INIT QMem.zero 0)).bind
        (queue_names 8 six_names · 0)) = some ["a", "b", "e"] ∧
    strictly_ascending ["a", "b", "e"] = true ∧
    ((insert_all 8 six_names 0 [1, 2, 3, 4, 5, 6] (TAILQ_INIT QMem.zero 0)).bind
        (queue_names 8 six_names · 0)) = some ["a", "b", "ab", "e"] ∧
    strictly_ascending ["a", "b", "ab", "e"] = false := by
  decide

/-- Claim C10, at the failing input: in the gadget loaded from a tree in which
it has no function, the functions `acm.a`, `acm.c`, `acm.d` and the config
`c.1` are created, `acm.c` is bound into the config, and the function `acm.b`
is created; every call returns success.  Afterwards the config is in the
config collection of the gadget and has one binding, whose target is the
function `acm.c`; but the function collection of the gadget is `acm.a`,
`acm.b`, `acm.d`, the target is not in it, and `usbg_get_function` finds no
function `acm.c`. -/
theorem binding_target_not_in_gadget :
    bind_then_create.map (fun r => r.1) =
      some [USBG_SUCCESS, USBG_SUCCESS, USBG_SUCCESS, USBG_SUCCESS, USBG_SUCCESS,
        USBG_SUCCESS] ∧
    bind_then_create.map (fun r =>
      (decide (configs_of r.2.2.2.2.heap r.2.1 = some [r.2.2.1]),
       (bindings_of r.2.2.2.2.heap r.2.2.1).map
         (List.map (fun b => decide ((r.2.2.2.2.heap.bindings b).target = some r.2.2.2.1))),
       String.mk (r.2.2.2.2.heap.functions r.2.2.2.1).name)) =
      some (true, some [true], "acm.c") ∧
    bind_then_create.map (fun r =>
      (function_name_list r.2.2.2.2.heap r.2.1,
       (functions_of r.2.2.2.2.heap r.2.1).map (fun l => decide (r.2.2.2.1 ∈ l)),
       usbg_get_function r.2.2.2.2.heap r.2.1 F_ACM ['c'])) =
      some (some ["acm.a", "acm.b", "acm.d"], some false, some none) := by
  decide

theorem usbg_translate_error_neg (e : Int) : usbg_translate_error e < 0 := by
  unfold usbg_translate_error
  split_ifs <;> decide

/-- Claim C13: `usbg_rm_config` without the recursive flag, on a storage whose
`rmdir` refuses the directory of the config with the error `e` and leaves the
storage as it is: the call returns an error, which is the translation of `e`
when the path of the directory fits within the maximum path length (OtherError
for `ENOTEMPTY`, Busy for `EBUSY`); the memory of the library, with the config,
its bindings and the config collection of the gadget, and the storage, with
the directory of the config, are unchanged. -/
theorem usbg_rm_config_refused {σ : Type} (B : Backend σ) (w : World σ) (c : Nat)
    (opts e : Int) (hopts : Int.land opts USBG_RM_RECURSE = 0) (he : e ≠ 0)
    (hrm : B.rmdir (path2 (w.heap.configs c).path (w.heap.configs c).name) w.fs = (e, w.fs)) :
    ∃ ret w1, usbg_rm_config B c opts w = some (ret, w1) ∧ ret ≠ USBG_SUCCESS ∧
      ((path2 (w.heap.configs c).path (w.heap.configs c).name).length < USBG_MAX_PATH_LENGTH →
        ret = usbg_translate_error e ∧ (e = ENOTEMPTY → ret = USBG_ERROR_OTHER_ERROR) ∧
        (e = EBUSY → ret = USBG_ERROR_BUSY)) ∧
      w1.heap = w.heap ∧ w1.fs = w.fs := by
  have hneg := usbg_translate_error_neg e
  by_cases hfit :
      (path2 (w.heap.configs c).path (w.heap.configs c).name).length < USBG_MAX_PATH_LENGTH
  · refine ⟨usbg_translate_error e,
      { w with trace := w.trace ++
          [Syscall.rmdir (path2 (w.heap.configs c).path (w.heap.configs c).name)] }, ?_, ?_, ?_,
      rfl, rfl⟩
    · have hne : usbg_translate_error e ≠ USBG_SUCCESS := by
        rw [USBG_SUCCESS]; omega
      simp [usbg_rm_config, hopts, usbg_rm_config_dir, usbg_rm_dir, hfit, sys_rmdir, hrm, he, hne]
    · rw [USBG_SUCCESS]; omega
    · intro _
      refine ⟨rfl, ?_, ?_⟩
      · intro h; subst h; decide
      · intro h; subst h; decide
  · refine ⟨USBG_ERROR_PATH_TOO_LONG, w, ?_, by decide, fun h => absurd h hfit, rfl, rfl⟩
    have hne : USBG_ERROR_PATH_TOO_LONG ≠ USBG_SUCCESS := by decide
    simp [usbg_rm_config, hopts, usbg_rm_config_dir, usbg_rm_dir, hfit, hne]

/-- Claim C13 at the config `c.1` of `world_bound`, which has one binding: the
`rmdir` of the storage refuses its directory with `ENOTEMPTY`, and
`usbg_rm_config` without the recursive flag returns OtherError. -/
theorem usbg_rm_config_refused_witness :
    bindings_of world_bound.heap 6 = some [7] ∧
    ∃ ret w1, usbg_rm_config simfs 6 0 world_bound = some (ret, w1) ∧ ret ≠ USBG_SUCCESS ∧
      ((path2 (world_bound.heap.configs 6).path (world_bound.heap.configs 6).name).length <
          USBG_MAX_PATH_LENGTH →
        ret = usbg_translate_error ENOTEMPTY ∧
        (ENOTEMPTY = ENOTEMPTY → ret = USBG_ERROR_OTHER_ERROR) ∧
        (ENOTEMPTY = EBUSY → ret = USBG_ERROR_BUSY)) ∧
      w1.heap = world_bound.heap ∧ w1.fs = world_bound.fs :=
  ⟨by decide,
    usbg_rm_config_refused simfs world_bound 6 0 ENOTEMPTY (by decide) (by decide) (by decide)⟩

/-- Claim C12, at the failing input: the tree in which the gadget has the
functions `acm.a` to `acm.d` is loaded, the config `c.1` is created and the
four functions are bound into it under the names a, c, d, b; every call
returns success.  Then `usbg_rm_function` with the recursive flag is called on
`acm.b`: it returns success, the link `b` and the directory `acm.b` are gone
from the storage, and the function is out of the function collection, but the
iteration over the bindings of the config still yields a binding whose target
is that function. -/
theorem usbg_rm_function_leaves_binding :
    (bind_four tree_four_functions).map (fun r => (r.1, function_name_list r.2.2.heap 2)) =
      some ([USBG_SUCCESS, USBG_SUCCESS, USBG_SUCCESS, USBG_SUCCESS, USBG_SUCCESS],
        some ["acm.a", "acm.b", "acm.c", "acm.d"]) ∧
    (bind_four tree_four_functions).bind (fun r =>
      (usbg_rm_function simfs 4 USBG_RM_RECURSE r.2.2).map (fun x =>
        (x.1, x.2.fs.lookup "/cfg/usb_gadget/g1/configs/c.1/b".toList,
          x.2.fs.lookup "/cfg/usb_gadget/g1/functions/acm.b".toList))) =
      some (USBG_SUCCESS, none, none) ∧
    (bind_four tree_four_functions).bind (fun r =>
      (usbg_rm_function simfs 4 USBG_RM_RECURSE r.2.2).map (fun x =>
        (function_name_list x.2.heap 2, binding_targets x.2.heap r.2.1 4))) =
      some (some ["acm.a", "acm.c", "acm.d"], some [false, true, false]) := by
  decide

/-- Claim C14, at the failing input: the calls of claim C12 on the tree in
which the directory of `acm.b` holds an attribute file.  `usbg_rm_function`
with the recursive flag on `acm.b` deletes the link `b` from the storage, then
`rmdir` refuses the directory of the function and the call returns the
translation of `ENOTEMPTY`; the binding whose link was deleted is still
yielded by the iteration over the bindings of the config. -/
theorem usbg_rm_function_deleted_still_linked :
    (bind_four tree_four_functions_attr).map (fun r => r.1) =
      some [USBG_SUCCESS, USBG_SUCCESS, USBG_SUCCESS, USBG_SUCCESS, USBG_SUCCESS] ∧
    (bind_four tree_four_functions_attr).bind (fun r =>
      (usbg_rm_function simfs 4 USBG_RM_RECURSE r.2.2).map (fun x =>
        (x.1, x.2.trace.drop r.2.2.trace.length,
          x.2.fs.lookup "/cfg/usb_gadget/g1/configs/c.1/b".toList))) =
      some (usbg_translate_error ENOTEMPTY,
        [Syscall.unlink "/cfg/usb_gadget/g1/configs/c.1/b".toList,
         Syscall.rmdir "/cfg/usb_gadget/g1/functions/acm.b".toList], none) ∧
    (bind_four tree_four_functions_attr).bind (fun r =>
      (usbg_rm_function simfs 4 USBG_RM_RECURSE r.2.2).map (fun x =>
        (function_name_list x.2.heap 2, binding_targets x.2.heap r.2.1 4))) =
      some (some ["acm.a", "acm.b", "acm.c", "acm.d"], some [false, true, false]) := by
  decide

/-- Claim C15, at the failing input: the tree in which the configs directory
of the gadget has the entries `default.0` and `x.1` is loaded.  `usbg_init`
returns success and hands out the state, and the gadget has the config `x.1`
only: no config was made for the entry `default.0`. -/
theorem usbg_init_no_config_for_entry :
    entry_names tree_config_zero "/cfg/usb_gadget/g1/configs".toList =
      some ["default.0", "x.1"] ∧
    (usbg_init simfs "/cfg".toList ⟨tree_config_zero, [], Heap.empty⟩).map
      (fun r => (r.1, r.2.1, gadgets_of r.2.2.heap 1)) = some (USBG_SUCCESS, some 1, some [2]) ∧
    (usbg_init simfs "/cfg".toList ⟨tree_config_zero, [], Heap.empty⟩).map
      (fun r => config_name_id_list r.2.2.heap 2) = some (some [("x.1", 1)]) := by
  decide

/-- Claim C16, at the failing input: in the load of the tree in which the
configs directory of the gadget has the entries `default.0` and `x.1`, the
entry `default.0` does not decode to an id above 0, and `usbg_parse_config`
leaves it without making a config.  `usbg_init` nevertheless returns success
and hands out the state, and the load goes on to the later entry `x.1`, whose
directory is scanned as the last call to the storage. -/
theorem usbg_init_goes_on_after_config_zero :
    usbg_split_config_label_id "default.0".toList = (0, some "default".toList) ∧
    (usbg_init simfs "/cfg".toList ⟨tree_config_zero, [], Heap.empty⟩).map
      (fun r => (r.1, r.2.1, r.2.2.trace.getLast?)) =
      some (USBG_SUCCESS, some 1,
        some (Syscall.scandir "/cfg/usb_gadget/g1/configs/x.1".toList)) := by
  decide

/-- Claim C11 as stated fails for the state that `usbg_init` loads from the
tree in which the configs directory of the gadget has the entries `a.1` and
`b.1`: the load succeeds and the gadget has two configs with the id 1. -/
theorem usbg_init_two_configs_same_id :
    (usbg_init simfs "/cfg".toList ⟨tree_same_id, [], Heap.empty⟩).map
      (fun r => (r.1, r.2.1, gadgets_of r.2.2.heap 1)) = some (USBG_SUCCESS, some 1, some [2]) ∧
    (usbg_init simfs "/cfg".toList ⟨tree_same_id, [], Heap.empty⟩).map
      (fun r => config_name_id_list r.2.2.heap 2) = some (some [("a.1", 1), ("b.1", 1)]) := by
  decide

/-- Claim C17, at the failing input: on a storage where the write of the file
`bcdUSB` fails with `EACCES` and every other operation succeeds,
`usbg_create_gadget` is called with attributes and strings for a gadget `g2`
that the state does not have.  After the directory is made the write of
`bcdUSB` fails, yet the strings are written, the call returns success, and the
gadget is in the gadget collection of the state. -/
theorem usbg_create_gadget_attrs_write_fails :
    ((okfs_write_fails "bcdUSB".toList).write "/cfg/usb_gadget/g2/bcdUSB".toList
      "0x0200\n".toList ()).1 = EACCES ∧
    (usbg_create_gadget (okfs_write_fails "bcdUSB".toList) 1 "g2".toList
        (some example_gadget_attrs) (some example_gadget_strs)
        ⟨(), [], world_one_gadget.heap⟩).map
      (fun r => (r.1, r.2.1, gadgets_of r.2.2.heap 1)) =
      some (USBG_SUCCESS, some 3, some [2, 3]) ∧
    (usbg_create_gadget (okfs_write_fails "bcdUSB".toList) 1 "g2".toList
        (some example_gadget_attrs) (some example_gadget_strs)
        ⟨(), [], world_one_gadget.heap⟩).map (fun r => r.2.2.trace) =
      some [Syscall.mkdir "/cfg/usb_gadget/g2".toList,
        Syscall.read "/cfg/usb_gadget/g2/UDC".toList,
        Syscall.write "/cfg/usb_gadget/g2/bcdUSB".toList "0x0200\n".toList,
        Syscall.opendir "/cfg/usb_gadget/g2/strings/0x409".toList,
        Syscall.write "/cfg/usb_gadget/g2/strings/0x409//serialnumber".toList "0123".toList,
        Syscall.write "/cfg/usb_gadget/g2/strings/0x409//manufacturer".toList "Foo".toList,
        Syscall.write "/cfg/usb_gadget/g2/strings/0x409//product".toList "Bar".toList] := by
  decide

/-- Claim C19, at the failing input: in the gadget loaded from a tree in which
it has no function, `usbg_import_function` is called with the instance `usb0`
and a document of the type `ecm` whose attribute `qmult` is a string.  The
function is created, the import of the attributes fails, and the call returns
InvalidType without any call to delete: the function `ecm.usb0` is still in
the function collection of the gadget and its directory is still in the
storage. -/
theorem usbg_import_function_leaves_function :
    function_name_list world_one_gadget.heap 2 = some [] ∧
    (usbg_import_function simfs 2 ⟨true, doc_ecm_bad_qmult⟩ (some "usb0".toList)
        world_one_gadget).map
      (fun r => (r.1, function_name_list r.2.2.heap 2,
        r.2.2.trace.drop world_one_gadget.trace.length,
        r.2.2.fs.lookup "/cfg/usb_gadget/g1/functions/ecm.usb0".toList)) =
      some (USBG_ERROR_INVALID_TYPE, some ["ecm.usb0"],
        [Syscall.mkdir "/cfg/usb_gadget/g1/functions/ecm.usb0".toList], some FNode.dir) := by
  decide

theorem long_instance_length : long_instance.length = 4096 := by
  unfold long_instance
  exact List.length_replicate _ _

/-- Claim C18, at the failing input: in the gadget loaded from a tree in which
it has no config, on a storage whose every operation succeeds,
`usbg_create_config` is called with the id 1 and a label of 4096 characters.
The path composed for the directory of the config does not fit within the
maximum path length; `mkdir` is called on the path cut to 4095 characters, the
call returns success, and the config is in the config collection of the
gadget. -/
theorem usbg_create_config_long_label :
    USBG_MAX_PATH_LENGTH ≤
      ("/cfg/usb_gadget/g1/configs".toList ++ '/' :: config_name long_instance 1).length ∧
    configs_of world_one_gadget.heap 2 = some [] ∧
    (usbg_create_config okfs 2 1 (some long_instance) none none
        ⟨(), [], world_one_gadget.heap⟩).map
      (fun r => (r.1, r.2.2.trace, configs_of r.2.2.heap 2)) =
      some (USBG_SUCCESS,
        [Syscall.mkdir (("/cfg/usb_gadget/g1/configs".toList ++
          '/' :: config_name long_instance 1).take (USBG_MAX_PATH_LENGTH - 1))],
        some [3]) := by
  have hget : usbg_get_config world_one_gadget.heap 2 1 none = some none := by decide
  have hpath : path3 (world_one_gadget.heap.gadgets 2).path (world_one_gadget.heap.gadgets 2).name
      CONFIGS_DIR = "/cfg/usb_gadget/g1/configs".toList := by decide
  have hfit : ¬ ("/cfg/usb_gadget/g1/configs".toList.length ≥ USBG_MAX_PATH_LENGTH) := by
    decide
  have hid : ¬ ((1 : Int) ≤ 0 ∨ (1 : Int) > 255) := by decide
  refine ⟨?_, by decide, ?_⟩
  · rw [List.length_append, List.length_cons, config_name, List.length_append,
      long_instance_length]
    decide
  · simp only [usbg_create_config, hid, if_false, hget, hpath, hfit, usbg_allocate_config,
      Option.getD_some, sys_mkdir, okfs, upd_same, if_true, insert_config]
    have hfirst : TAILQ_FIRST world_one_gadget.heap.cq 2 = none := by decide
    simp only [INSERT_TAILQ_STRING_ORDER, hfirst, Option.map_some', List.nil_append]
    refine congrArg some (Prod.ext rfl (Prod.ext rfl ?_))
    decide

/-- Claim C20: `usbg_import_function`, for every storage, world, gadget and
instance name, on a stream that parses to a document whose root has no member
`type`: the call returns MissingTag and stores no function; the function
collection of the gadget, the functions in memory and the storage are
unchanged and no call to the storage is made; the document is in the slot
`last_failed_import` of the gadget, and `usbg_get_func_import_error_text` and
`usbg_get_func_import_error_line` give the error text and the error line of
that document. -/
theorem usbg_import_function_missing_type {σ : Type} (B : Backend σ) (w : World σ) (g : Nat)
    (inst : List Char) (cfg : config_t)
    (htype : config_setting_get_member (config_root_setting cfg) "type".toList = none) :
    ∃ w1, usbg_import_function B g ⟨true, cfg⟩ (some inst) w =
        some (USBG_ERROR_MISSING_TAG, none, w1) ∧
      functions_of w1.heap g = functions_of w.heap g ∧
      w1.heap.functions = w.heap.functions ∧ w1.fs = w.fs ∧ w1.trace = w.trace ∧
      (w1.heap.gadgets g).last_failed_import = some cfg ∧
      usbg_get_func_import_error_text w1.heap g = config_error_text cfg ∧
      usbg_get_func_import_error_line w1.heap g = config_error_line cfg := by
  refine ⟨{ w with heap := w.heap.set_gadget_failed_import g (some cfg) }, ?_, rfl, rfl, rfl, rfl,
    ?_, ?_, ?_⟩
  · have hne : USBG_ERROR_MISSING_TAG ≠ USBG_SUCCESS := by decide
    simp only [usbg_import_function, usbg_import_function_run, htype]
    simp [hne]
  · simp [Heap.set_gadget_failed_import, upd]
  · simp [usbg_get_func_import_error_text, Heap.set_gadget_failed_import, upd]
  · simp [usbg_get_func_import_error_line, Heap.set_gadget_failed_import, upd]

/-- Claim C20 at the gadget loaded from `tree_one_gadget`, with the instance
`usb0` and a document that has an `instance` tag only. -/
theorem usbg_import_function_missing_type_witness :
    config_setting_get_member (config_root_setting doc_no_type) "type".toList = none ∧
    ∃ w1, usbg_import_function simfs 2 ⟨true, doc_no_type⟩ (some "usb0".toList)
        world_one_gadget = some (USBG_ERROR_MISSING_TAG, none, w1) ∧
      functions_of w1.heap 2 = functions_of world_one_gadget.heap 2 ∧
      w1.heap.functions = world_one_gadget.heap.functions ∧ w1.fs = world_one_gadget.fs ∧
      w1.trace = world_one_gadget.trace ∧
      (w1.heap.gadgets 2).last_failed_import = some doc_no_type ∧
      usbg_get_func_import_error_text w1.heap 2 = config_error_text doc_no_type ∧
      usbg_get_func_import_error_line w1.heap 2 = config_error_line doc_no_type :=
  ⟨rfl,
    usbg_import_function_missing_type simfs world_one_gadget 2 "usb0".toList doc_no_type rfl⟩

/-! ## The forward chain of a queue after an insertion or a removal -/

theorem chain_of_seg_ok (q : QMem) : ∀ (l : List Nat) (lk : Link),
    seg_ok q lk l = true → chain q lk l := by
  intro l
  induction l with
  | nil => intro lk h; simpa [chain, seg_ok] using h
  | cons a l ih =>
    intro lk h
    obtain ⟨h1, _, h3⟩ := (seg_ok_cons q lk a l).1 h
    exact ⟨h1, ih _ h3⟩

theorem chain_congr (q q1 : QMem) : ∀ (l : List Nat) (lk lk1 : Link),
    q1.load lk1 = q.load lk → (∀ s ∈ l, q1.load (Link.next s) = q.load (Link.next s)) →
    chain q lk l → chain q1 lk1 l := by
  intro l
  induction l with
  | nil => intro lk lk1 h _ hc; simpa [chain, h] using hc
  | cons a l ih =>
    intro lk lk1 h hn hc
    simp only [chain] at hc ⊢
    exact ⟨by rw [h]; exact hc.1,
      ih (Link.next a) (Link.next a) (hn a (List.mem_cons_self _ _))
        (fun s hs => hn s (List.mem_cons_of_mem _ hs)) hc.2⟩

theorem path_to_chain (q : QMem) (x : Nat) (M : List Nat) : ∀ (P : List Nat) (lk : Link),
    path_to q lk P x → chain q (Link.next x) M → chain q lk (P ++ x :: M) := by
  intro P
  induction P with
  | nil => intro lk hp hc; exact ⟨hp, hc⟩
  | cons a P ih =>
    intro lk hp hc
    simp only [path_to] at hp
    exact ⟨hp.1, ih (Link.next a) hp.2 hc⟩

theorem iterate_of_chain (q : QMem) : ∀ (l : List Nat) (lk : Link) (fuel : Nat),
    chain q lk l → l.length ≤ fuel → iterate (TAILQ_NEXT q) fuel (q.load lk) = some l := by
  intro l
  induction l with
  | nil =>
    intro lk fuel hc _
    simp only [chain] at hc
    rw [hc]
    cases fuel <;> simp [iterate]
  | cons a l ih =>
    intro lk fuel hc hf
    obtain ⟨f, rfl⟩ : ∃ f, fuel = f + 1 := ⟨fuel - 1, by simp at hf; omega⟩
    simp only [chain] at hc
    rw [hc.1]
    simp only [iterate, TAILQ_NEXT]
    have := ih (Link.next a) f hc.2 (by simp at hf; omega)
    simp only [QMem.load] at this
    simp [this]

/-- The loop after its first insertion, with the forward chain from the new
element on: the elements `M` that the loop has passed since its last
insertion, then the elements `S` still to visit.  When the loop ends, the
elements `P` lead to the new element as before, and after it come elements
`M1` that were among `M` and `S`, in their order. -/
theorem loop_after_insert_chain (name : Nat → List Char) (x : Nat) (P : List Nat) (lk0 : Link) :
    ∀ (S : List Nat) (q : QMem) (fuel t : Nat) (M : List Nat),
      S.length ≤ fuel → seg_ok q (Link.next t) S = true → (t :: S).Nodup → x ∉ t :: S →
      x ∉ P → (∀ a ∈ P, a ∉ t :: S) → lk0 ≠ Link.next x → (∀ s ∈ t :: S, lk0 ≠ Link.next s) →
      path_to q lk0 P x → chain q (Link.next x) (M ++ S) →
      ∃ q1 M1, INSERT_TAILQ_STRING_ORDER_loop name x fuel (q.tqe_next t) q = some q1 ∧
        path_to q1 lk0 P x ∧ chain q1 (Link.next x) M1 ∧ M1.Sublist (M ++ S) := by
  intro S
  induction S with
  | nil =>
    intro q fuel t M _ hseg _ _ _ _ _ _ hpath hch
    have h : q.tqe_next t = none := by simpa [seg_ok, QMem.load] using hseg
    exact ⟨q, M, by rw [h, loop_none], hpath, by simpa using hch, by simp⟩
  | cons a S ih =>
    intro q fuel t M hlen hseg hnd hx hxP hP hlk0x hlk0 hpath hch
    obtain ⟨h1, h2, h3⟩ := (seg_ok_cons q (Link.next t) a S).1 hseg
    have h1' : q.tqe_next t = some a := by simpa [QMem.load] using h1
    obtain ⟨f, rfl⟩ : ∃ f, fuel = f + 1 := ⟨fuel - 1, by simp at hlen; omega⟩
    have hlen' : S.length ≤ f := by simp at hlen; omega
    have hnd' : (a :: S).Nodup := (List.nodup_cons.1 hnd).2
    have hta : t ≠ a := fun e => (List.nodup_cons.1 hnd).1 (e ▸ List.mem_cons_self _ _)
    have hxa : x ≠ a := fun e => hx (e ▸ List.mem_cons_of_mem _ (List.mem_cons_self _ _))
    have hxt : x ≠ t := fun e => hx (e ▸ List.mem_cons_self _ _)
    have hx' : x ∉ a :: S := fun e => hx (List.mem_cons_of_mem _ e)
    have hP' : ∀ p ∈ P, p ∉ a :: S := fun p hp e => hP p hp (List.mem_cons_of_mem _ e)
    have hlk0' : ∀ s ∈ a :: S, lk0 ≠ Link.next s := fun s hs => hlk0 s (List.mem_cons_of_mem _ hs)
    rw [h1']
    by_cases hskip : strcmp (name x) (name a) > 0
    · simp only [INSERT_TAILQ_STRING_ORDER_loop, hskip, if_true]
      obtain ⟨q1, M1, r1, r2, r3, r4⟩ := ih q f a (M ++ [a]) hlen' h3 hnd' hx' hxP hP' hlk0x
        hlk0' hpath (by simpa using hch)
      exact ⟨q1, M1, r1, r2, r3, by simpa using r4⟩
    · simp only [INSERT_TAILQ_STRING_ORDER_loop, hskip, if_false]
      have hload : ∀ lk : Link, lk ≠ Link.next t → lk ≠ Link.next x →
          (TAILQ_INSERT_BEFORE q a x).load lk = q.load lk := by
        intro lk e1 e2
        rw [insert_before_load q a x (Ne.symm hxa), h2]
        simp [e1, e2]
      have hnext : (TAILQ_INSERT_BEFORE q a x).tqe_next a = q.tqe_next a :=
        hload (Link.next a) (by simpa using Ne.symm hta) (by simpa using Ne.symm hxa)
      have hseg' : seg_ok (TAILQ_INSERT_BEFORE q a x) (Link.next a) S = true := by
        rw [seg_ok_congr q _ S (Link.next a) hnext]
        · exact h3
        · intro s hs
          apply hload
          · intro e
            have : s = t := by simpa using e
            exact (List.nodup_cons.1 hnd).1 (this ▸ List.mem_cons_of_mem _ hs)
          · intro e
            have : s = x := by simpa using e
            exact hx (this ▸ List.mem_cons_of_mem _ (List.mem_cons_of_mem _ hs))
        · intro s hs
          rw [insert_before_prev]
          have e1 : s ≠ a := fun e => (List.nodup_cons.1 hnd').1 (e ▸ hs)
          have e2 : s ≠ x := fun e =>
            hx (e ▸ List.mem_cons_of_mem _ (List.mem_cons_of_mem _ hs))
          simp [e1, e2]
      have hpath' : path_to (TAILQ_INSERT_BEFORE q a x) lk0 P x := by
        apply path_to_congr q _ x P lk0 _ _ hpath
        · exact hload lk0 (hlk0 t (List.mem_cons_self _ _)) hlk0x
        · intro s hs
          apply hload
          · intro e
            have : s = t := by simpa using e
            exact hP s hs (this ▸ List.mem_cons_self _ _)
          · intro e
            have : s = x := by simpa using e
            exact hxP (this ▸ hs)
      have hch' : chain (TAILQ_INSERT_BEFORE q a x) (Link.next x) ([a] ++ S) := by
        refine ⟨?_, chain_of_seg_ok _ S _ hseg'⟩
        rw [insert_before_load q a x (Ne.symm hxa), h2]
        simp [hxt]
      obtain ⟨q1, M1, r1, r2, r3, r4⟩ := ih (TAILQ_INSERT_BEFORE q a x) f a [a] hlen' hseg' hnd'
        hx' hxP hP' hlk0x hlk0' hpath' hch'
      exact ⟨q1, M1, r1, r2, r3, r4.trans (List.sublist_append_right M (a :: S))⟩

theorem insert_head_load_all (q : QMem) (h x : Nat) (lk : Link) :
    (TAILQ_INSERT_HEAD q h x).load lk =
      if lk = Link.head h then some x else if lk = Link.next x then q.tqh_first h
      else q.load lk := by
  cases hf : q.tqh_first h <;> cases lk with
  | head o => by_cases ho : o = h <;> simp [TAILQ_INSERT_HEAD, QMem.load, hf, ho, upd]
  | next e => by_cases he : e = x <;> simp [TAILQ_INSERT_HEAD, QMem.load, hf, he, upd]

/-- The insertion at the head of a queue: the new element comes first and the
forward chain goes on as before. -/
theorem insert_head_chain (q : QMem) (h x : Nat) (l : List Nat) (hc : chain q (Link.head h) l)
    (hx : x ∉ l) : chain (TAILQ_INSERT_HEAD q h x) (Link.head h) (x :: l) := by
  refine ⟨insert_head_load q h x, ?_⟩
  apply chain_congr q _ l (Link.head h) (Link.next x) _ _ hc
  · rw [insert_head_load_all]
    simp [QMem.load]
  · intro s hs
    have : s ≠ x := fun e => hx (e ▸ hs)
    rw [insert_head_load_all]
    simp [this]

/-- The effect of `INSERT_TAILQ_STRING_ORDER` on a well-formed queue that
holds the elements `l`: it ends, and afterwards the forward chain from the
head holds the new element between elements `P` and `M` that were in the queue
before, in their order. -/
theorem insert_string_order_chain (name : Nat → List Char) (q : QMem) (h x fuel : Nat)
    (l : List Nat) (hq : is_queue q h l = true) (hx : x ∉ l) (hf : l.length ≤ fuel) :
    ∃ q1 P M, INSERT_TAILQ_STRING_ORDER fuel name q h x = some q1 ∧
      chain q1 (Link.head h) (P ++ x :: M) ∧ (P ++ M).Sublist l := by
  simp only [is_queue, Bool.and_eq_true, decide_eq_true_eq] at hq
  obtain ⟨⟨hnd, hseg⟩, hlast⟩ := hq
  have hhead := insert_head_chain q h x l (chain_of_seg_ok q l _ hseg) hx
  cases l with
  | nil =>
    have h0 : q.tqh_first h = none := by simpa [seg_ok, QMem.load] using hseg
    exact ⟨TAILQ_INSERT_HEAD q h x, [], [],
      by simp [INSERT_TAILQ_STRING_ORDER, TAILQ_FIRST, h0], hhead, by simp⟩
  | cons a l =>
    obtain ⟨h1, _, _⟩ := (seg_ok_cons q (Link.head h) a l).1 hseg
    have h1' : q.tqh_first h = some a := by simpa [QMem.load] using h1
    by_cases hlt : strcmp (name x) (name a) < 0
    · exact ⟨TAILQ_INSERT_HEAD q h x, [], a :: l,
        by simp [INSERT_TAILQ_STRING_ORDER, TAILQ_FIRST, h1', hlt], hhead, by simp⟩
    · obtain ⟨z, hz, hzl⟩ := seg_ok_last q l (Link.head h) a hseg
      have hL : TAILQ_LAST q h = some z := by simp [TAILQ_LAST, hlast, hzl]
      by_cases hgt : strcmp (name x) (name z) > 0
      · refine ⟨TAILQ_INSERT_TAIL q h x, a :: l, [],
          by simp [INSERT_TAILQ_STRING_ORDER, TAILQ_FIRST, h1', hlt, hL, hgt], ?_, by simp⟩
        apply path_to_chain
        · exact insert_tail_path q h x (a :: l) (Link.head h) hseg hlast hnd hx (by simp)
            (by simp)
        · have hne : Link.next x ≠ q.tqh_last h := by
            rw [hlast]
            rcases end_link_cases (a :: l) (Link.head h) with ⟨e, _⟩ | ⟨s, hs, e⟩
            · rw [e]; simp
            · rw [e]; intro e1
              have : x = s := by simpa using e1
              exact hx (this ▸ hs)
          simp [chain, insert_tail_load, hne]
      · obtain ⟨P, c, R, e, hP, hc⟩ :=
          exists_first_not (fun b => strcmp (name x) (name b) > 0) (a :: l) ⟨z, hz, hgt⟩
        have hloop : INSERT_TAILQ_STRING_ORDER fuel name q h x =
            INSERT_TAILQ_STRING_ORDER_loop name x fuel (q.load (Link.head h)) q := by
          simp [INSERT_TAILQ_STRING_ORDER, TAILQ_FIRST, h1', hlt, hL, hgt, QMem.load]
        rw [e] at hseg hnd hx hf
        obtain ⟨f, rfl⟩ : ∃ f, fuel = P.length + (f + 1) :=
          ⟨fuel - P.length - 1, by simp at hf; omega⟩
        obtain ⟨s1, s2⟩ := loop_skip name x q (c :: R) P (Link.head h) (f + 1) hseg hP
        obtain ⟨c1, c2, _⟩ := (seg_ok_cons q _ c R).1 s2
        obtain ⟨i1, i2, i3⟩ := insert_before_seg q c x R P (Link.head h) hseg hnd hx (by simp)
          (by simp)
        have hnd2 : (c :: R).Nodup := (List.nodup_append.1 hnd).2.1
        have hdis : ∀ p ∈ P, p ∉ c :: R := fun p hp hr =>
          (List.nodup_append.1 hnd).2.2 hp hr
        have hxc : x ≠ c := fun e1 =>
          hx (e1 ▸ List.mem_append_right _ (List.mem_cons_self _ _))
        have hch : chain (TAILQ_INSERT_BEFORE q c x) (Link.next x) ([c] ++ R) := by
          refine ⟨?_, chain_of_seg_ok _ R _ i2⟩
          rw [insert_before_load q c x (Ne.symm hxc)]
          have : Link.next x ≠ q.tqe_prev c := by
            rcases i3 with e1 | ⟨s, hs, e1⟩
            · rw [e1]; simp
            · rw [e1]; intro e2
              have : x = s := by simpa using e2
              exact hx (this ▸ List.mem_append_left _ hs)
          simp [this]
        obtain ⟨q1, M1, j1, j2, j3, j4⟩ := loop_after_insert_chain name x P (Link.head h) R
          (TAILQ_INSERT_BEFORE q c x) f c [c] (by simp at hf; omega) i2 hnd2
          (fun e1 => hx (List.mem_append_right _ e1))
          (fun e1 => hx (List.mem_append_left _ e1)) hdis (by simp) (by simp) i1 hch
        refine ⟨q1, P, M1, ?_, path_to_chain q1 x M1 P _ j2 j3, ?_⟩
        · rw [hloop, s1, c1]
          simp only [INSERT_TAILQ_STRING_ORDER_loop, hc, if_false]
          exact j1
        · rw [e]
          exact List.Sublist.append_left (by simpa using j4) P

theorem remove_load (q : QMem) (h c : Nat) (lk : Link) :
    (TAILQ_REMOVE q h c).load lk = if lk = q.tqe_prev c then q.tqe_next c else q.load lk := by
  cases hn : q.tqe_next c <;> cases hp : q.tqe_prev c <;> cases lk <;>
    simp [TAILQ_REMOVE, QMem.store, QMem.load, hn, hp, upd]

theorem seg_ok_prev_mid (q : QMem) (c : Nat) (R : List Nat) : ∀ (P : List Nat) (lk : Link),
    seg_ok q lk (P ++ c :: R) = true → q.tqe_prev c = end_link lk P := by
  intro P
  induction P with
  | nil =>
    intro lk h
    exact ((seg_ok_cons q lk c R).1 h).2.1
  | cons a P ih =>
    intro lk h
    simp only [List.cons_append] at h
    simpa [end_link] using ih (Link.next a) ((seg_ok_cons q lk a _).1 h).2.2

/-- The removal of the element `c` from a well-formed queue: the forward
chain holds the other elements, in their order. -/
theorem remove_chain (q : QMem) (h c : Nat) (R : List Nat) : ∀ (P : List Nat) (lk : Link),
    seg_ok q lk (P ++ c :: R) = true → (P ++ c :: R).Nodup →
    (∀ s ∈ P ++ c :: R, lk ≠ Link.next s) →
    chain (TAILQ_REMOVE q h c) lk (P ++ R) := by
  intro P
  induction P with
  | nil =>
    intro lk hseg hnd hlk
    simp only [List.nil_append] at hseg hnd hlk ⊢
    obtain ⟨_, h2, h3⟩ := (seg_ok_cons q lk c R).1 hseg
    apply chain_congr q _ R (Link.next c) lk _ _ (chain_of_seg_ok q R _ h3)
    · rw [remove_load, h2]
      simp [QMem.load]
    · intro s hs
      rw [remove_load, h2]
      simp [Ne.symm (hlk s (List.mem_cons_of_mem _ hs))]
  | cons a P ih =>
    intro lk hseg hnd hlk
    simp only [List.cons_append] at hseg hnd hlk ⊢
    obtain ⟨h1, _, h3⟩ := (seg_ok_cons q lk a _).1 hseg
    have hprev := seg_ok_prev_mid q c R P (Link.next a) h3
    refine ⟨?_, ih (Link.next a) h3 (List.nodup_cons.1 hnd).2 ?_⟩
    · rw [remove_load, hprev]
      have : lk ≠ end_link (Link.next a) P := by
        rcases end_link_cases P (Link.next a) with ⟨e, _⟩ | ⟨s, hs, e⟩
        · rw [e]; exact hlk a (List.mem_cons_self _ _)
        · rw [e]; exact hlk s (List.mem_cons_of_mem _ (List.mem_append_left _ hs))
      simp [this, h1]
    · intro s hs e
      have : a = s := by simpa using e
      exact (List.nodup_cons.1 hnd).1 (this ▸ hs)

theorem tailq_find_none_seg (q : QMem) (p : Nat → Bool) :
    ∀ (l : List Nat) (lk : Link) (fuel : Nat),
      seg_ok q lk l = true → tailq_find q p fuel (q.load lk) = some none →
      ∀ a ∈ l, p a = false := by
  intro l
  induction l with
  | nil => intro _ _ _ _ a ha; simp at ha
  | cons b l ih =>
    intro lk fuel hseg hfind a ha
    obtain ⟨h1, _, h3⟩ := (seg_ok_cons q lk b l).1 hseg
    rw [h1] at hfind
    cases fuel with
    | zero => simp [tailq_find] at hfind
    | succ f =>
      simp only [tailq_find] at hfind
      by_cases hb : p b = true
      · simp [hb] at hfind
      · simp only [hb] at hfind
        rcases List.mem_cons.1 ha with e | e
        · rw [e]; simpa using hb
        · exact ih (Link.next b) f h3 (by simpa [QMem.load] using hfind) a e

/-! ## What the calls to the storage leave of the memory -/

section frame
variable {σ : Type} (B : Backend σ)

theorem usbg_write_buf_heap (path name file buf : List Char) (w : World σ) :
    (usbg_write_buf B path name file buf w).2.heap = w.heap := by
  unfold usbg_write_buf
  split_ifs <;> simp [sys_write]
  split_ifs <;> rfl

theorem usbg_write_int_heap (path name file text : List Char) (w : World σ) :
    (usbg_write_int B path name file text w).2.heap = w.heap := by
  unfold usbg_write_int
  split_ifs
  · exact usbg_write_buf_heap B _ _ _ _ w
  · rfl

theorem usbg_check_dir_heap (path : List Char) (w : World σ) :
    (usbg_check_dir B path w).2.heap = w.heap := by
  unfold usbg_check_dir
  simp only [sys_opendir, sys_mkdir]
  split_ifs <;> rfl

theorem usbg_set_config_attrs_heap (c : Nat) (a : usbg_config_attrs) (w : World σ) :
    (usbg_set_config_attrs B c a w).2.heap = w.heap := by
  unfold usbg_set_config_attrs
  simp only [usbg_write_dec, usbg_write_hex8]
  split_ifs
  · rw [usbg_write_int_heap, usbg_write_int_heap]
  · exact usbg_write_int_heap B _ _ _ _ w

theorem usbg_set_config_string_heap (c : Nat) (lang : Int) (str : List Char) (w : World σ) :
    (usbg_set_config_string B c lang str w).2.heap = w.heap := by
  unfold usbg_set_config_string
  simp only
  split_ifs
  · rw [usbg_write_string, usbg_write_buf_heap, usbg_check_dir_heap]
  · exact usbg_check_dir_heap B _ w
  · rfl

theorem usbg_rm_dir_heap (path name : List Char) (w : World σ) :
    (usbg_rm_dir B path name w).2.heap = w.heap := by
  unfold usbg_rm_dir
  split_ifs <;> simp [sys_rmdir]
  split_ifs <;> rfl

theorem ubsg_rm_file_heap (path name : List Char) (w : World σ) :
    (ubsg_rm_file B path name w).2.heap = w.heap := by
  unfold ubsg_rm_file
  split_ifs <;> simp [sys_unlink]
  split_ifs <;> rfl

theorem scandir_heap (path : List Char) (filter : dirent → Bool) (w : World σ) :
    (scandir B path filter w).2.heap = w.heap := by
  unfold scandir
  simp only [sys_scandir]
  cases B.scandir path w.fs <;> rfl

theorem usbg_rm_all_dirs_loop_heap (path : List Char) : ∀ (l : List dirent) (ret : Int)
    (w : World σ), (usbg_rm_all_dirs_loop B path l ret w).2.heap = w.heap := by
  intro l
  induction l with
  | nil => intro ret w; rfl
  | cons d l ih =>
    intro ret w
    simp only [usbg_rm_all_dirs_loop]
    split_ifs
    · rw [ih]; exact usbg_rm_dir_heap B path d.d_name w
    · exact ih ret w

theorem usbg_rm_all_dirs_heap (path : List Char) (w : World σ) :
    (usbg_rm_all_dirs B path w).2.heap = w.heap := by
  unfold usbg_rm_all_dirs
  have h := scandir_heap B path file_select w
  rcases hs : scandir B path file_select w with ⟨r, w1⟩
  rw [hs] at h
  cases r with
  | ok dent => simp only; rw [usbg_rm_all_dirs_loop_heap]; exact h
  | error e => exact h

end frame

section frame_remove
variable {σ : Type} (B : Backend σ)

theorem usbg_rm_binding_configs (b : Nat) (w : World σ) :
    (usbg_rm_binding B b w).2.heap.cq = w.heap.cq ∧
    (usbg_rm_binding B b w).2.heap.configs = w.heap.configs ∧
    (usbg_rm_binding B b w).2.heap.brk = w.heap.brk := by
  unfold usbg_rm_binding
  have h := ubsg_rm_file_heap B (w.heap.bindings b).path (w.heap.bindings b).name w
  simp only
  split_ifs <;> simp [h]

theorem usbg_rm_config_bindings_configs (c : Nat) : ∀ (fuel : Nat) (w : World σ)
    (r : Option Int) (w1 : World σ), usbg_rm_config_bindings B c fuel w = some (r, w1) →
    w1.heap.cq = w.heap.cq ∧ w1.heap.configs = w.heap.configs ∧ w1.heap.brk = w.heap.brk := by
  intro fuel
  induction fuel with
  | zero => intro w r w1 h; simp [usbg_rm_config_bindings] at h
  | succ f ih =>
    intro w r w1 h
    simp only [usbg_rm_config_bindings] at h
    cases hfirst : TAILQ_FIRST w.heap.bq c with
    | none =>
      simp only [hfirst] at h
      cases h
      exact ⟨rfl, rfl, rfl⟩
    | some b =>
      simp only [hfirst] at h
      obtain ⟨e1, e2, e3⟩ := usbg_rm_binding_configs B b w
      split_ifs at h
      · cases h
        exact ⟨e1, e2, e3⟩
      · obtain ⟨i1, i2, i3⟩ := ih _ r w1 h
        exact ⟨i1.trans e1, i2.trans e2, i3.trans e3⟩

theorem usbg_rm_config_dir_configs (c : Nat) (w : World σ) :
    (usbg_rm_config_dir B c w).2.heap.configs = w.heap.configs ∧
    (usbg_rm_config_dir B c w).2.heap.brk = w.heap.brk ∧
    ((usbg_rm_config_dir B c w).2.heap.cq = w.heap.cq ∨
      (usbg_rm_config_dir B c w).2.heap.cq =
        TAILQ_REMOVE w.heap.cq (w.heap.configs c).parent c) := by
  unfold usbg_rm_config_dir
  have h := usbg_rm_dir_heap B (w.heap.configs c).path (w.heap.configs c).name w
  simp only
  split_ifs <;> simp [h]

/-- What `usbg_rm_config` leaves of the configs: the objects are as before,
and the queue of the gadget is as before or has lost the config. -/
theorem usbg_rm_config_configs (c : Nat) (opts : Int) (w : World σ) (ret : Int) (w1 : World σ)
    (h : usbg_rm_config B c opts w = some (ret, w1)) :
    w1.heap.configs = w.heap.configs ∧ w1.heap.brk = w.heap.brk ∧
    (w1.heap.cq = w.heap.cq ∨
      w1.heap.cq = TAILQ_REMOVE w.heap.cq (w.heap.configs c).parent c) := by
  unfold usbg_rm_config at h
  split_ifs at h with hopts
  · cases hb : usbg_rm_config_bindings B c (w.heap.fuel + 1) w with
    | none => simp [hb] at h
    | some r =>
      obtain ⟨r1, w2⟩ := r
      obtain ⟨e1, e2, e3⟩ := usbg_rm_config_bindings_configs B c _ w r1 w2 hb
      cases r1 with
      | some e =>
        simp only [hb] at h
        have h' := Prod.mk.inj (Option.some.inj h)
        rw [← h'.2]
        exact ⟨e2, e3, Or.inl e1⟩
      | none =>
        simp only [hb] at h
        by_cases hlen : (path3 (w2.heap.configs c).path (w2.heap.configs c).name
            STRINGS_DIR).length ≥ USBG_MAX_PATH_LENGTH
        · rw [if_pos hlen] at h
          have h' := Prod.mk.inj (Option.some.inj h)
          rw [← h'.2]
          exact ⟨e2, e3, Or.inl e1⟩
        · rw [if_neg hlen] at h
          have ha := usbg_rm_all_dirs_heap B
            (path3 (w2.heap.configs c).path (w2.heap.configs c).name STRINGS_DIR) w2
          rcases hall : usbg_rm_all_dirs B
            (path3 (w2.heap.configs c).path (w2.heap.configs c).name STRINGS_DIR) w2
            with ⟨r3, w3⟩
          rw [hall] at h ha
          simp only at h ha
          by_cases hr3 : r3 ≠ USBG_SUCCESS
          · rw [if_pos hr3] at h
            have h' := Prod.mk.inj (Option.some.inj h)
            rw [← h'.2, ha]
            exact ⟨e2, e3, Or.inl e1⟩
          · rw [if_neg hr3] at h
            obtain ⟨d1, d2, d3⟩ := usbg_rm_config_dir_configs B c w3
            have h' := Option.some.inj h
            rw [show w1 = (usbg_rm_config_dir B c w3).2 from by rw [h']]
            rw [ha] at d1 d2 d3
            refine ⟨d1.trans e2, d2.trans e3, ?_⟩
            rw [e1, e2] at d3
            exact d3
  · obtain ⟨d1, d2, d3⟩ := usbg_rm_config_dir_configs B c w
    have h' := Option.some.inj h
    rw [show w1 = (usbg_rm_config_dir B c w).2 from by rw [h']]
    exact ⟨d1, d2, d3⟩

end frame_remove

theorem usbg_create_config_success {σ : Type} (B : Backend σ) (w : World σ) (g : Nat)
    (id : Int) (label : Option (List Char)) (c_attrs : Option usbg_config_attrs)
    (c_strs : Option usbg_config_strs) (c : Nat) (w1 : World σ)
    (hres : usbg_create_config B g id label c_attrs c_strs w = some (USBG_SUCCESS, some c, w1)) :
    usbg_get_config w.heap g id none = some none ∧ c = w.heap.brk ∧
    ∃ w4 : World σ,
      w4.heap = (usbg_allocate_config
        (path3 (w.heap.gadgets g).path (w.heap.gadgets g).name CONFIGS_DIR)
        (label.getD DEFAULT_CONFIG_LABEL) id g w.heap).2 ∧
      insert_config g w.heap.brk w4 = some w1 := by
  unfold usbg_create_config at hres
  by_cases hrange : id ≤ 0 ∨ id > 255
  · rw [if_pos hrange] at hres
    exact absurd (Prod.mk.inj (Option.some.inj hres)).1 (by decide)
  rw [if_neg hrange] at hres
  cases hget : usbg_get_config w.heap g id none with
  | none => simp [hget] at hres
  | some r =>
    cases r with
    | some _ =>
      simp only [hget] at hres
      exact absurd (Prod.mk.inj (Option.some.inj hres)).1 (by decide)
    | none =>
      simp only [hget] at hres
      by_cases hlen : (path3 (w.heap.gadgets g).path (w.heap.gadgets g).name
          CONFIGS_DIR).length ≥ USBG_MAX_PATH_LENGTH
      · rw [if_pos hlen] at hres
        exact absurd (Prod.mk.inj (Option.some.inj hres)).1 (by decide)
      · rw [if_neg hlen] at hres
        refine ⟨rfl, ?_⟩
        generalize hh1 : usbg_allocate_config
          (path3 (w.heap.gadgets g).path (w.heap.gadgets g).name CONFIGS_DIR)
          (label.getD DEFAULT_CONFIG_LABEL) id g w.heap = al at hres ⊢
        obtain ⟨conf, h1⟩ := al
        have hconf : conf = w.heap.brk := by
          have := congrArg Prod.fst hh1
          simpa [usbg_allocate_config] using this.symm
        have fin : ∀ (W : World σ) (r : Int), W.heap = h1 →
            Option.map (fun w5 => (r, some conf, w5)) (insert_config g conf W) =
              some (USBG_SUCCESS, some c, w1) →
            c = w.heap.brk ∧ ∃ w4 : World σ, w4.heap = h1 ∧
              insert_config g w.heap.brk w4 = some w1 := by
          intro W r hW hmap
          cases hi : insert_config g conf W with
          | none => simp [hi] at hmap
          | some w5 =>
            simp only [hi, Option.map_some', Option.some.injEq, Prod.mk.injEq] at hmap
            refine ⟨hmap.2.1.symm.trans hconf, W, hW, ?_⟩
            rw [← hconf, hi, hmap.2.2]
        have hmk : ∀ p W, (sys_mkdir B p W).2.heap = W.heap := fun _ _ => rfl
        simp only at hres ⊢
        cases c_attrs <;> cases c_strs <;> simp only [] at hres <;> split_ifs at hres <;>
          first
          | exact fin _ _ (by simp [hmk, usbg_set_config_attrs_heap, usbg_set_config_string_heap]) hres
          | (exfalso; simp_all)

theorem configs_of_eq (h : Heap) (g : Nat) :
    configs_of h g = iterate (TAILQ_NEXT h.cq) (h.brk + 1) (h.cq.load (Link.head g)) := rfl

/-- Claim C11, amended: on a gadget whose config collection is a well-formed
queue in which no two configs have the same id, a `usbg_create_config` that
returns success and a `usbg_rm_config` on a config of the gadget (whatever it
returns) leave a config collection in which no two configs have the same id:
the iteration over the configs of the gadget ends, and the ids of the configs
it yields are pairwise distinct; the config created is among them. -/
theorem config_ids_stay_distinct {σ : Type} (B : Backend σ) (w : World σ) (g : Nat)
    (l : List Nat) (hq : is_queue w.heap.cq g l = true) (hb : ∀ c ∈ l, c < w.heap.brk)
    (hid : (l.map (fun c => (w.heap.configs c).id)).Nodup) :
    (∀ (id : Int) (label : Option (List Char)) (c_attrs : Option usbg_config_attrs)
        (c_strs : Option usbg_config_strs) (c : Nat) (w1 : World σ),
      usbg_create_config B g id label c_attrs c_strs w = some (USBG_SUCCESS, some c, w1) →
      ∃ l1, configs_of w1.heap g = some l1 ∧ c ∈ l1 ∧
        (l1.map (fun c => (w1.heap.configs c).id)).Nodup) ∧
    (∀ (c : Nat) (opts ret : Int) (w1 : World σ), c ∈ l → (w.heap.configs c).parent = g →
      usbg_rm_config B c opts w = some (ret, w1) →
      ∃ l1, configs_of w1.heap g = some l1 ∧
        (l1.map (fun c => (w1.heap.configs c).id)).Nodup) := by
  have hq' := hq
  simp only [is_queue, Bool.and_eq_true, decide_eq_true_eq] at hq'
  obtain ⟨⟨hnd, hseg⟩, _⟩ := hq'
  have hlen : l.length ≤ w.heap.brk := nodup_length_le _ l hnd hb
  have hfresh : w.heap.brk ∉ l := fun e => Nat.lt_irrefl _ (hb _ e)
  constructor
  · intro id label c_attrs c_strs c w1 hres
    obtain ⟨hget, hc, w4, hw4, hins⟩ :=
      usbg_create_config_success B w g id label c_attrs c_strs c w1 hres
    have hnone := tailq_find_none_seg w.heap.cq _ l (Link.head g) w.heap.fuel hseg hget
    obtain ⟨q1, P, M, hi, hch, hsub⟩ := insert_string_order_chain
      (fun c => (w4.heap.configs c).name) w.heap.cq g w.heap.brk w4.heap.fuel l hq hfresh
      (by rw [hw4]; simp only [usbg_allocate_config, Heap.fuel]; omega)
    have hcq : w4.heap.cq = w.heap.cq := by rw [hw4]; rfl
    simp only [insert_config, hcq, hi, Option.some.injEq] at hins
    subst hins
    subst hc
    have hsl : (P ++ M).length ≤ l.length := hsub.length_le
    refine ⟨P ++ w.heap.brk :: M, ?_, by simp, ?_⟩
    · rw [configs_of_eq]
      have hbrk : w4.heap.brk = w.heap.brk + 1 := by rw [hw4]; rfl
      simp only [hbrk]
      exact iterate_of_chain q1 (P ++ w.heap.brk :: M) (Link.head g) (w.heap.brk + 1 + 1) hch
        (by simp at hsl ⊢; omega)
    · have hold : ∀ a ∈ P ++ M, (w4.heap.configs a).id = (w.heap.configs a).id := by
        intro a ha
        have hne : a ≠ w.heap.brk := fun e => hfresh (e ▸ hsub.subset ha)
        rw [hw4]
        simp [usbg_allocate_config, upd, hne]
      have hnew : (w4.heap.configs w.heap.brk).id = id := by
        rw [hw4]
        simp [usbg_allocate_config, upd]
      have hmap : (P ++ M).map (fun c => (w4.heap.configs c).id) =
          (P ++ M).map (fun c => (w.heap.configs c).id) := List.map_congr_left hold
      have hndPM : ((P ++ M).map (fun c => (w4.heap.configs c).id)).Nodup := by
        rw [hmap]
        exact hid.sublist (hsub.map _)
      have hnotin : id ∉ (P ++ M).map (fun c => (w4.heap.configs c).id) := by
        rw [hmap]
        intro hin
        obtain ⟨a, ha, e⟩ := List.mem_map.1 hin
        have := hnone a (hsub.subset ha)
        simp [e] at this
      simp only [List.map_append, List.map_cons, hnew]
      rw [List.nodup_middle]
      rw [List.map_append] at hndPM hnotin
      exact List.nodup_cons.2 ⟨hnotin, hndPM⟩
  · intro c opts ret w1 hc hpar hres
    obtain ⟨e1, e2, e3⟩ := usbg_rm_config_configs B c opts w ret w1 hres
    rcases e3 with e3 | e3
    · refine ⟨l, ?_, by rw [e1]; exact hid⟩
      rw [configs_of_eq, e2, e3]
      exact iterate_of_chain w.heap.cq l (Link.head g) (w.heap.brk + 1)
        (chain_of_seg_ok _ l _ hseg) (by omega)
    · obtain ⟨P, R, rfl⟩ := List.append_of_mem hc
      have hch := remove_chain w.heap.cq g c R P (Link.head g) hseg hnd (by simp)
      have hsub : (P ++ R).Sublist (P ++ c :: R) :=
        List.Sublist.append_left (List.sublist_cons_self c R) P
      refine ⟨P ++ R, ?_, by rw [e1]; exact hid.sublist (hsub.map _)⟩
      rw [configs_of_eq, e2, e3, hpar]
      exact iterate_of_chain _ (P ++ R) (Link.head g) (w.heap.brk + 1) hch
        (by have := hsub.length_le; omega)

/-- Claim C11, amended, in the gadget of `world_bound`, whose config
collection holds the config `c.1`: the config `d.2` is created, and the
config `c.1` is removed with the recursive flag; either way the ids of the
configs of the gadget are pairwise distinct afterwards. -/
theorem config_ids_stay_distinct_witness :
    is_queue world_bound.heap.cq 2 [6] = true ∧
    (∃ c w1 l1, usbg_create_config simfs 2 2 (some ['d']) none none world_bound =
        some (USBG_SUCCESS, some c, w1) ∧
      configs_of w1.heap 2 = some l1 ∧ c ∈ l1 ∧
      (l1.map (fun c => (w1.heap.configs c).id)).Nodup) ∧
    (∃ ret w1 l1, usbg_rm_config simfs 6 USBG_RM_RECURSE world_bound = some (ret, w1) ∧
      configs_of w1.heap 2 = some l1 ∧
      (l1.map (fun c => (w1.heap.configs c).id)).Nodup) := by
  have h := config_ids_stay_distinct simfs world_bound 2 [6] (by decide) (by decide) (by decide)
  refine ⟨by decide, ?_, ?_⟩
  · have hc : (usbg_create_config simfs 2 2 (some ['d']) none none world_bound).map
        (fun r => (r.1, r.2.1)) = some (USBG_SUCCESS, some 9) := by decide
    cases hr : usbg_create_config simfs 2 2 (some ['d']) none none world_bound with
    | none => simp [hr] at hc
    | some r =>
      obtain ⟨ret, c, w1⟩ := r
      simp only [hr, Option.map_some', Option.some.injEq, Prod.mk.injEq] at hc
      obtain ⟨e1, e2⟩ := hc
      subst e1
      subst e2
      obtain ⟨l1, i1, i2, i3⟩ := h.1 2 (some ['d']) none none 9 w1 hr
      exact ⟨9, w1, l1, rfl, i1, i2, i3⟩
  · have hc : (usbg_rm_config simfs 6 USBG_RM_RECURSE world_bound).isSome = true := by decide
    cases hr : usbg_rm_config simfs 6 USBG_RM_RECURSE world_bound with
    | none => simp [hr] at hc
    | some r =>
      obtain ⟨ret, w1⟩ := r
      obtain ⟨l1, i1, i2⟩ := h.2 6 USBG_RM_RECURSE ret w1 (by decide) (by decide) hr
      exact ⟨ret, w1, l1, rfl, i1, i2⟩

/-! ## The loader after a failed step -/

section loader_abort
variable {σ : Type} (B : Backend σ)

/-- Once a step has failed, the loop of `usbg_parse_functions` visits the
entries that are left without making a function. -/
theorem usbg_parse_functions_loop_failed (fpath : List Char) (g : Nat) :
    ∀ (l : List dirent) (ret : Int) (h : Heap), ret ≠ USBG_SUCCESS →
      usbg_parse_functions_loop fpath g l ret h = (ret, h) := by
  intro l
  induction l with
  | nil => intro ret h _; rfl
  | cons d l ih =>
    intro ret h hr
    simp only [usbg_parse_functions_loop, hr, if_false]
    exact ih ret h hr

theorem usbg_parse_config_bindings_loop_failed (c : Nat) (bpath : List Char) :
    ∀ (l : List dirent) (ret : Int) (w : World σ), ret ≠ USBG_SUCCESS →
      usbg_parse_config_bindings_loop B c bpath l ret w = some (ret, w) := by
  intro l
  induction l with
  | nil => intro ret w _; rfl
  | cons d l ih =>
    intro ret w hr
    simp only [usbg_parse_config_bindings_loop, hr, if_false]
    exact ih ret w hr

theorem usbg_parse_configs_loop_failed (cpath : List Char) (g : Nat) :
    ∀ (l : List dirent) (ret : Int) (w : World σ), ret ≠ USBG_SUCCESS →
      usbg_parse_configs_loop B cpath g l ret w = some (ret, w) := by
  intro l
  induction l with
  | nil => intro ret w _; rfl
  | cons d l ih =>
    intro ret w hr
    simp only [usbg_parse_configs_loop, hr, if_false]
    exact ih ret w hr

/-- Once a step has failed, the loop of `usbg_parse_gadgets` visits the
entries that are left without a call to the storage and without a change to
the memory, and gives the error of that step. -/
theorem usbg_parse_gadgets_loop_failed (path : List Char) (s : Nat) :
    ∀ (l : List dirent) (ret : Int) (w : World σ), ret ≠ USBG_SUCCESS →
      usbg_parse_gadgets_loop B path s l ret w = some (ret, w) := by
  intro l
  induction l with
  | nil => intro ret w _; rfl
  | cons d l ih =>
    intro ret w hr
    simp only [usbg_parse_gadgets_loop, hr, if_false]
    exact ih ret w hr

/-- When `usbg_init` returns an error it stores no state. -/
theorem usbg_init_error_no_state (configfs_path : List Char) (w w1 : World σ) (ret : Int)
    (st : Option Nat) (h : usbg_init B configfs_path w = some (ret, st, w1))
    (hr : ret ≠ USBG_SUCCESS) : st = none := by
  unfold usbg_init at h
  simp only at h
  split_ifs at h with he
  · exact ((Prod.mk.inj (Prod.mk.inj (Option.some.inj h)).2).1).symm
  · split at h
    · simp at h
    · split_ifs at h with h2
      · exact ((Prod.mk.inj (Prod.mk.inj (Option.some.inj h)).2).1).symm
      · have := (Prod.mk.inj (Option.some.inj h)).1
        exact absurd (this ▸ (not_not.1 h2)) hr

end loader_abort

/-- For a label with a `'_'`, `split_function_label` gives success exactly
when the text before the first `'_'` is a type string, with that type and the
text after the first `'_'` as the instance, and NotFound otherwise. -/
theorem split_function_label_underscore (pre post : List Char) (hpre : '_' ∉ pre) :
    split_function_label (pre ++ '_' :: post) =
      if pre ∈ function_names then
        some (USBG_SUCCESS, some (usbg_lookup_function_type (some pre)), some post)
      else some (USBG_ERROR_NOT_FOUND, none, none) := by
  have hlen : strchr (pre ++ '_' :: post) '_' = some pre.length := strchr_append pre post '_' hpre
  have htake : (pre ++ '_' :: post).take pre.length = pre := by simp
  have hdrop : (pre ++ '_' :: post).drop (pre.length + 1) = post := by
    rw [show pre ++ '_' :: post = (pre ++ ['_']) ++ post by simp]
    exact List.drop_left' (by simp)
  simp only [split_function_label, hlen, htake, hdrop]
  by_cases hmem : pre ∈ function_names
  · have hall : ∀ n ∈ function_names, ¬ (n.length ≥ USBG_MAX_NAME_LENGTH ∨ n.length = 0) ∧
        ¬ usbg_lookup_function_type (some n) < 0 := by decide
    obtain ⟨h1, h2⟩ := hall pre hmem
    simp only [h1, h2, hmem, if_true, if_false]
  · have hneg : usbg_lookup_function_type (some pre) < 0 := by
      simp only [usbg_lookup_function_type]
      rw [lookup_loop_not_mem pre function_names 0 hmem]
      decide
    simp only [hneg, hmem, if_true, if_false, ite_self]

/-- Claim C26, at the failing input: for the label `acm`, which has no `'_'`,
`strchr` gives NULL and what `split_function_label` does with it is not
defined; the model has no result for it, in either copy of the routine.  For
the labels `acm_usb0`, `foo_usb0` and `_usb0` the result is as the claim
says. -/
theorem split_function_label_no_underscore :
    strchr "acm".toList '_' = none ∧
    split_function_label "acm".toList = none ∧
    split_function_label_libconfig "acm".toList = none ∧
    split_function_label "acm_usb0".toList = some (USBG_SUCCESS, some F_ACM, some "usb0".toList) ∧
    split_function_label "foo_usb0".toList = some (USBG_ERROR_NOT_FOUND, none, none) ∧
    split_function_label "_usb0".toList = some (USBG_ERROR_NOT_FOUND, none, none) :=
  ⟨by decide, by decide, by decide, by decide, by decide, by decide⟩

theorem split_function_label_copies (label : List Char) :
    split_function_label_libconfig label = split_function_label label := rfl

/-- Claim C28, at the failing input: the entry name `x.01` decodes to the
label `x` and the id 1, and the name composed from them is `x.1`.  In the load
of the tree whose configs directory has the empty directory `x.01` and the
directory `x.1` with one link, both configs get the name `x.1`, and the config
made for `x.01` has the binding that lies in `x.1`. -/
theorem usbg_parse_config_leading_zero :
    usbg_split_config_label_id "x.01".toList = (1, some "x".toList) ∧
    config_name "x".toList 1 = "x.1".toList ∧
    entry_names tree_config_leading_zero "/cfg/usb_gadget/g1/configs".toList =
      some ["x.01", "x.1"] ∧
    entry_names tree_config_leading_zero "/cfg/usb_gadget/g1/configs/x.01".toList = some [] ∧
    (usbg_init simfs "/cfg".toList ⟨tree_config_leading_zero, [], Heap.empty⟩).map
      (fun r => (r.1, config_name_id_list r.2.2.heap 2)) =
      some (USBG_SUCCESS, some [("x.1", 1), ("x.1", 1)]) ∧
    (usbg_init simfs "/cfg".toList ⟨tree_config_leading_zero, [], Heap.empty⟩).map
      (fun r => binding_counts r.2.2.heap 2) = some (some [some 1, some 1]) := by
  decide

/-- C29: the function `phonet.p0` that `usbg_init` loads from `tree_phonet` is
at address 3; its attributes are read with success, no setting is added for
them, and yet `usbg_export_function_attrs` returns `USBG_ERROR_NO_MEM`, and
so do `usbg_export_function` for it and `usbg_export_gadget` for its gadget,
which write no document. -/
theorem usbg_export_function_attrs_phonet :
    usbg_get_first_function world_phonet.heap 2 = some 3 ∧
    (world_phonet.heap.functions 3).type = F_PHONET ∧
    (usbg_get_function_attrs simfs 3 world_phonet).1 = USBG_SUCCESS ∧
    (usbg_export_function_attrs simfs 3 (config_setting_t.group (some "attrs".toList) [])
      world_phonet).1 = USBG_ERROR_NO_MEM ∧
    (usbg_export_function simfs 3 world_phonet).map (fun r => (r.1, r.2.1.isSome)) =
      some (USBG_ERROR_NO_MEM, false) ∧
    (usbg_export_gadget simfs 2 world_phonet).map (fun r => r.1) = some USBG_ERROR_NO_MEM := by
  refine ⟨by decide, by decide, by decide, by decide, by decide, by decide⟩

/-- C23: the gadget `g1` that `usbg_init` loads from `tree_phonet` (address 2,
with the one function `phonet.p0`) has attributes that are read with success,
and `usbg_export_gadget` returns `USBG_ERROR_NO_MEM` for it and writes no
document, so there is nothing to import. -/
theorem usbg_export_gadget_phonet_no_document :
    (usbg_init simfs "/cfg".toList ⟨tree_phonet, [], Heap.empty⟩).map (fun r => (r.1, r.2.1)) =
      some (USBG_SUCCESS, some 1) ∧
    usbg_get_first_gadget world_phonet.heap 1 = some 2 ∧
    function_name_list world_phonet.heap 2 = some ["phonet.p0"] ∧
    (usbg_get_gadget_attrs simfs 2 world_phonet).1 = USBG_SUCCESS ∧
    (usbg_export_gadget simfs 2 world_phonet).map (fun r => (r.1, r.2.1.isSome)) =
      some (USBG_ERROR_NO_MEM, false) := by
  refine ⟨by decide, by decide, by decide, by decide, by decide⟩

/-- C30: the gadget of `world_okfs_gadget` has no function; the call of
`usbg_import_config` with `doc_inline_then_missing` returns
`USBG_ERROR_NOT_FOUND` and stores no config, the gadget has no config
afterwards, and the function `acm.usb0` of the first binding is in the
gadget. -/
theorem usbg_import_config_leaves_inline_function :
    function_name_list world_okfs_gadget.heap 2 = some [] ∧
    (usbg_import_config okfs 2 ⟨true, doc_inline_then_missing⟩ 1 world_okfs_gadget).map
      (fun r => (r.1, r.2.1)) = some (USBG_ERROR_NOT_FOUND, none) ∧
    (usbg_import_config okfs 2 ⟨true, doc_inline_then_missing⟩ 1 world_okfs_gadget).map
      (fun r => config_name_id_list r.2.2.heap 2) = some (some []) ∧
    (usbg_import_config okfs 2 ⟨true, doc_inline_then_missing⟩ 1 world_okfs_gadget).map
      (fun r => function_name_list r.2.2.heap 2) = some (some ["acm.usb0"]) := by
  refine ⟨by decide, by decide, by decide, by decide⟩

/-- C21: the call of `usbg_import_config` with the document
`doc_config_attrs_out_of_range` on the gadget of `world_one_gadget` returns
`USBG_SUCCESS`, and afterwards the file `bmAttributes` of the new config
holds `0x12c` and its file `MaxPower` holds `256`. -/
theorem usbg_import_config_attrs_no_range_check :
    (usbg_import_config simfs 2 ⟨true, doc_config_attrs_out_of_range⟩ 1 world_one_gadget).map
      (fun r => (r.1, r.2.1)) = some (USBG_SUCCESS, some 3) ∧
    (usbg_import_config simfs 2 ⟨true, doc_config_attrs_out_of_range⟩ 1 world_one_gadget).map
      (fun r => file_content r.2.2.fs "/cfg/usb_gadget/g1/configs/c.1/bmAttributes".toList) =
      some (some "0x12c\n") ∧
    (usbg_import_config simfs 2 ⟨true, doc_config_attrs_out_of_range⟩ 1 world_one_gadget).map
      (fun r => file_content r.2.2.fs "/cfg/usb_gadget/g1/configs/c.1/MaxPower".toList) =
      some (some "256\n") := by
  refine ⟨by decide, by decide, by decide⟩

/-- C22, counterexample: the call of `usbg_import_function` with the document
`doc_acm_port_num`, which gives the read-only attribute `port_num` the value
5, returns `USBG_SUCCESS` and the function `acm.usb0` is in the gadget. -/
theorem usbg_import_function_port_num_accepted :
    (usbg_import_function simfs 2 ⟨true, doc_acm_port_num⟩ (some "usb0".toList)
      world_one_gadget).map (fun r => (r.1, r.2.1, function_name_list r.2.2.heap 2)) =
      some (USBG_SUCCESS, some 3, some ["acm.usb0"]) := by
  decide

/-- A member of another name is not seen by `config_setting_get_member`. -/
theorem config_setting_get_member_skip (n : Option (List Char)) (x : config_setting_t)
    (l1 l2 : List config_setting_t) (k : List Char) (hx : config_setting_name x ≠ some k) :
    config_setting_get_member (config_setting_t.group n (l1 ++ x :: l2)) k =
      config_setting_get_member (config_setting_t.group n (l1 ++ l2)) k := by
  simp only [config_setting_get_member, List.find?_append, List.find?_cons]
  simp [hx]

/-- C22, amended: `usbg_import_function_attrs` does not read a member
`port_num`, `ifname` or `dev_name` of the attributes group: with such a member
`x` at any place of the group the function returns what it returns without
it, and leaves the world as it does without it; and for a function of the
type serial, ACM, OBEX, Phonet or FFS it returns `USBG_SUCCESS` and leaves the
world as it is, whatever the group holds. -/
theorem usbg_import_function_attrs_ignores_read_only {σ : Type} (B : Backend σ)
    (n : Option (List Char)) (x : config_setting_t) (l1 l2 : List config_setting_t)
    (f : Nat) (w : World σ)
    (hx : config_setting_name x = some "port_num".toList ∨
      config_setting_name x = some "ifname".toList ∨
      config_setting_name x = some "dev_name".toList) :
    usbg_import_function_attrs B (config_setting_t.group n (l1 ++ x :: l2)) f w =
      usbg_import_function_attrs B (config_setting_t.group n (l1 ++ l2)) f w ∧
    ((w.heap.functions f).type = F_SERIAL ∨ (w.heap.functions f).type = F_ACM ∨
      (w.heap.functions f).type = F_OBEX ∨ (w.heap.functions f).type = F_PHONET ∨
      (w.heap.functions f).type = F_FFS →
      usbg_import_function_attrs B (config_setting_t.group n (l1 ++ x :: l2)) f w =
        (USBG_SUCCESS, w)) := by
  have h1 : config_setting_name x ≠ some "host_addr".toList := by
    rcases hx with h | h | h <;> rw [h] <;> decide
  have h2 : config_setting_name x ≠ some "dev_addr".toList := by
    rcases hx with h | h | h <;> rw [h] <;> decide
  have h3 : config_setting_name x ≠ some "qmult".toList := by
    rcases hx with h | h | h <;> rw [h] <;> decide
  constructor
  · simp only [usbg_import_function_attrs, usbg_import_f_net_attrs, GET_OPTIONAL_ADDR,
      config_setting_get_member_skip n x l1 l2 _ h1,
      config_setting_get_member_skip n x l1 l2 _ h2,
      config_setting_get_member_skip n x l1 l2 _ h3]
  · intro ht
    unfold usbg_import_function_attrs
    rcases ht with h | h | h | h | h
    · simp [h]
    · simp [h]
    · simp [h]
    · rw [h, if_neg (by decide), if_neg (by decide), if_pos rfl]
    · rw [h, if_neg (by decide), if_neg (by decide), if_neg (by decide), if_pos rfl]

theorem usbg_import_function_attrs_ignores_read_only_witness :
    (config_setting_name (config_setting_t.int (some "port_num".toList) 5) =
        some "port_num".toList ∨
      config_setting_name (config_setting_t.int (some "port_num".toList) 5) =
        some "ifname".toList ∨
      config_setting_name (config_setting_t.int (some "port_num".toList) 5) =
        some "dev_name".toList) ∧
    (usbg_import_function_attrs simfs
        (config_setting_t.group (some "attrs".toList)
          ([] ++ config_setting_t.int (some "port_num".toList) 5 :: [])) 3 world_phonet =
      usbg_import_function_attrs simfs
        (config_setting_t.group (some "attrs".toList) ([] ++ [])) 3 world_phonet ∧
    ((world_phonet.heap.functions 3).type = F_SERIAL ∨
      (world_phonet.heap.functions 3).type = F_ACM ∨
      (world_phonet.heap.functions 3).type = F_OBEX ∨
      (world_phonet.heap.functions 3).type = F_PHONET ∨
      (world_phonet.heap.functions 3).type = F_FFS →
      usbg_import_function_attrs simfs
        (config_setting_t.group (some "attrs".toList)
          ([] ++ config_setting_t.int (some "port_num".toList) 5 :: [])) 3 world_phonet =
        (USBG_SUCCESS, world_phonet))) :=
  ⟨Or.inl rfl,
    usbg_import_function_attrs_ignores_read_only simfs (some "attrs".toList)
      (config_setting_t.int (some "port_num".toList) 5) [] [] 3 world_phonet (Or.inl rfl)⟩

/-! ## What the operations leave of the import-diagnostic slots -/

section frame_slots
variable {σ : Type} (B : Backend σ)

theorem usbg_read_buf_heap (path name file : List Char) (w : World σ) :
    (usbg_read_buf B path name file w).2.2.heap = w.heap := by
  unfold usbg_read_buf
  split_ifs
  · simp only [sys_read]
    cases B.read (path3 path name file) w.fs with
    | error e => rfl
    | ok content =>
      simp only
      cases fgets USBG_MAX_STR_LENGTH content <;> rfl
  · rfl

theorem usbg_read_string_heap (path name file : List Char) (w : World σ) :
    (usbg_read_string B path name file w).2.2.heap = w.heap := by
  unfold usbg_read_string
  have h := usbg_read_buf_heap B path name file w
  rcases hb : usbg_read_buf B path name file w with ⟨ret, buf, w1⟩
  rw [hb] at h
  cases buf with
  | none => exact h
  | some b =>
    simp only
    split_ifs
    · cases strchr b '\n' <;> exact h
    · exact h

theorem usbg_set_gadget_attrs_heap (g : Nat) (a : usbg_gadget_attrs) (w : World σ) :
    (usbg_set_gadget_attrs B g a w).2.heap = w.heap := by
  unfold usbg_set_gadget_attrs
  lift_lets
  intro path name
  have e : w.heap = w.heap := rfl
  iterate 7
    split
    rename_i r w1 hq
    replace e : w1.heap = w.heap := by
      have h1 := congrArg (fun p => p.2.heap) hq
      simp only [usbg_write_hex16, usbg_write_hex8, usbg_write_int_heap] at h1
      exact h1.symm.trans e
    split
    · exact e
  simp only [usbg_write_hex16, usbg_write_int_heap]
  exact e

theorem usbg_set_gadget_strs_heap (g : Nat) (lang : Int) (strs : usbg_gadget_strs)
    (w : World σ) : (usbg_set_gadget_strs B g lang strs w).2.heap = w.heap := by
  unfold usbg_set_gadget_strs
  simp only [usbg_write_string]
  split_ifs <;> simp only [usbg_write_buf_heap, usbg_check_dir_heap]

theorem usbg_set_function_net_attrs_heap (f : Nat) (attrs : usbg_f_net_attrs) (w : World σ) :
    (usbg_set_function_net_attrs B f attrs w).2.heap = w.heap := by
  unfold usbg_set_function_net_attrs
  simp only [usbg_write_string, usbg_write_dec]
  split_ifs <;> simp only [usbg_write_buf_heap, usbg_write_int_heap]

theorem usbg_set_function_attrs_heap (f : Nat) (f_attrs : usbg_function_attrs) (w : World σ)
    (ret : Int) (w1 : World σ) (h : usbg_set_function_attrs B f f_attrs w = some (ret, w1)) :
    w1.heap = w.heap := by
  unfold usbg_set_function_attrs at h
  simp only at h
  split_ifs at h
  · cases f_attrs <;> simp only [Option.some.injEq, Prod.mk.injEq, reduceCtorEq] at h
    exact h.2 ▸ rfl
  · cases f_attrs <;> simp only [Option.some.injEq, reduceCtorEq] at h
    rw [show w1 = (ret, w1).2 from rfl, ← h]
    exact usbg_set_function_net_attrs_heap B f _ w
  · cases f_attrs <;> simp only [Option.some.injEq, Prod.mk.injEq, reduceCtorEq] at h
    exact h.2 ▸ rfl
  · cases f_attrs <;> simp only [Option.some.injEq, Prod.mk.injEq, reduceCtorEq] at h
    exact h.2 ▸ rfl
  · simp only [Option.some.injEq, Prod.mk.injEq] at h
    exact h.2 ▸ rfl

end frame_slots

section frame_create
variable {σ : Type} (B : Backend σ)

theorem slots_but_of_eq (n : Nat) (h h1 : Heap) (e : h1.slots = h.slots) : slots_but n h h1 :=
  ⟨by rw [e], fun a _ => by rw [e]⟩

theorem usbg_create_empty_gadget_slots (s : Nat) (name : List Char) (w : World σ) :
    slots_but w.heap.brk w.heap (usbg_create_empty_gadget B s name w).2.2.heap := by
  unfold usbg_create_empty_gadget
  split_ifs
  · exact slots_but_of_eq _ _ _ rfl
  · simp only [usbg_allocate_gadget, sys_mkdir, sys_rmdir]
    split_ifs
    · have h := usbg_read_string_heap B
      simp [slots_but, Heap.slots, h, upd]
      intro a ha
      simp [ha]
    · have h := usbg_read_string_heap B
      simp [slots_but, Heap.slots, h, upd, Heap.set_udc]
      intro a ha
      simp [ha]
    · simp [slots_but, Heap.slots, upd]
      intro a ha
      simp [ha]

theorem insert_gadget_slots (s gad : Nat) (w w1 : World σ) (h : insert_gadget s gad w = some w1) :
    w1.heap.slots = w.heap.slots := by
  unfold insert_gadget at h
  split at h
  · cases h; rfl
  · cases h

theorem insert_function_slots (g func : Nat) (w w1 : World σ)
    (h : insert_function g func w = some w1) : w1.heap.slots = w.heap.slots := by
  unfold insert_function at h
  split at h
  · cases h; rfl
  · cases h

theorem insert_config_slots (g conf : Nat) (w w1 : World σ)
    (h : insert_config g conf w = some w1) : w1.heap.slots = w.heap.slots := by
  unfold insert_config at h
  split at h
  · cases h; rfl
  · cases h

theorem insert_binding_slots (c b : Nat) (w w1 : World σ)
    (h : insert_binding c b w = some w1) : w1.heap.slots = w.heap.slots := by
  unfold insert_binding at h
  split at h
  · cases h; rfl
  · cases h

theorem slots_but_trans (n : Nat) (h h1 h2 : Heap) (a : slots_but n h h1)
    (e : h2.slots = h1.slots) : slots_but n h h2 :=
  ⟨by rw [e]; exact a.1, fun x hx => by rw [e]; exact a.2 x hx⟩

theorem usbg_create_gadget_slots (s : Nat) (name : List Char)
    (g_attrs : Option usbg_gadget_attrs) (g_strs : Option usbg_gadget_strs) (w : World σ)
    (ret : Int) (gad : Option Nat) (w1 : World σ)
    (h : usbg_create_gadget B s name g_attrs g_strs w = some (ret, gad, w1)) :
    slots_but w.heap.brk w.heap w1.heap := by
  unfold usbg_create_gadget at h
  split at h
  · cases h
  · cases h; exact slots_but_of_eq _ _ _ rfl
  · have he := usbg_create_empty_gadget_slots B s name w
    split at h
    · rename_i r0 g0 w0 hq
      rw [hq] at he
      split at h
      · split at h
        rename_i ret1 w2 hq1
        have e2 : w2.heap = w0.heap := by
          cases g_attrs with
          | none => cases hq1; rfl
          | some a =>
            have := usbg_set_gadget_attrs_heap B g0 a w0
            simp only at hq1
            rw [hq1] at this
            exact this
        split at h
        rename_i ret2 w3 hq2
        have e3 : w3.heap = w2.heap := by
          cases g_strs with
          | none => cases hq2; rfl
          | some t =>
            have := usbg_set_gadget_strs_heap B g0 LANG_US_ENG t w2
            simp only at hq2
            rw [hq2] at this
            exact this
        split at h
        · cases hi : insert_gadget s g0 w3 with
          | none => rw [hi] at h; cases h
          | some w4 =>
            rw [hi] at h
            have h' := Prod.mk.inj (Option.some.inj h)
            have h'' := Prod.mk.inj h'.2
            rw [← h''.2]
            refine slots_but_trans _ _ _ _ he ?_
            rw [insert_gadget_slots s g0 w3 w4 hi, e3, e2]
        · have h' := Prod.mk.inj (Option.some.inj h)
          have h'' := Prod.mk.inj h'.2
          rw [← h''.2]
          refine slots_but_trans _ _ _ _ he ?_
          rw [e3, e2]
      · have h' := Prod.mk.inj (Option.some.inj h)
        have h'' := Prod.mk.inj h'.2
        rw [← h''.2]
        exact he
    · rename_i r0 w0 hq
      rw [hq] at he
      have h' := Prod.mk.inj (Option.some.inj h)
      have h'' := Prod.mk.inj h'.2
      rw [← h''.2]
      exact he

end frame_create

section frame_create2
variable {σ : Type} (B : Backend σ)

theorem usbg_create_function_named_slots (g : Nat) (type : usbg_function_type)
    (inst : List Char) (f_attrs : Option usbg_function_attrs) (w : World σ)
    (ret : Int) (f : Option Nat) (w1 : World σ)
    (h : usbg_create_function_named B g type inst f_attrs w = some (ret, f, w1)) :
    w1.heap.slots = w.heap.slots := by
  unfold usbg_create_function_named at h
  split at h
  · cases h
  · cases h; rfl
  · lift_lets at h
    extract_lets fpath at h
    split_ifs at h
    · cases h; rfl
    · split at h
      · cases h; rfl
      · rename_i func h1 hal
        have eal : h1.slots = w.heap.slots := by
          unfold usbg_allocate_function at hal
          split at hal
          · cases hal
          · cases hal; rfl
        split at h
        · cases h
        · rename_i ret3 w3 hq
          have e3 : w3.heap.slots = w.heap.slots := by
            split_ifs at hq
            · simp only [sys_mkdir] at hq
              split_ifs at hq
              · cases f_attrs with
                | none =>
                  simp only [Option.some.injEq, Prod.mk.injEq] at hq
                  rw [← hq.2]; exact eal
                | some a =>
                  simp only at hq
                  rw [usbg_set_function_attrs_heap B func a _ ret3 w3 hq]
                  exact eal
              · simp only [Option.some.injEq, Prod.mk.injEq] at hq
                rw [← hq.2]; exact eal
            · simp only [Option.some.injEq, Prod.mk.injEq] at hq
              rw [← hq.2]; exact eal
          split_ifs at h
          · cases hi : insert_function g func w3 with
            | none => rw [hi] at h; cases h
            | some w4 =>
              rw [hi] at h
              have h' := Prod.mk.inj (Option.some.inj h)
              have h'' := Prod.mk.inj h'.2
              rw [← h''.2, insert_function_slots g func w3 w4 hi]
              exact e3
          · have h' := Prod.mk.inj (Option.some.inj h)
            have h'' := Prod.mk.inj h'.2
            rw [← h''.2]
            exact e3

theorem usbg_create_function_slots (g : Nat) (type : usbg_function_type)
    (inst : Option (List Char)) (f_attrs : Option usbg_function_attrs) (w : World σ)
    (ret : Int) (f : Option Nat) (w1 : World σ)
    (h : usbg_create_function B g type inst f_attrs w = some (ret, f, w1)) :
    w1.heap.slots = w.heap.slots := by
  unfold usbg_create_function at h
  split at h
  · exact usbg_create_function_named_slots B g type _ f_attrs w ret f w1 h
  · split at h
    · cases h; rfl
    · split_ifs at h
      · split at h
        · exact usbg_create_function_named_slots B g type _ none w ret f w1 h
        · cases h
      · cases h; rfl

theorem usbg_create_config_slots (g : Nat) (id : Int) (label : Option (List Char))
    (c_attrs : Option usbg_config_attrs) (c_strs : Option usbg_config_strs) (w : World σ)
    (ret : Int) (c : Option Nat) (w1 : World σ)
    (h : usbg_create_config B g id label c_attrs c_strs w = some (ret, c, w1)) :
    w1.heap.slots = w.heap.slots := by
  unfold usbg_create_config at h
  split_ifs at h
  · cases h; rfl
  · split at h
    · cases h
    · cases h; rfl
    · lift_lets at h
      extract_lets cpath at h
      split_ifs at h
      · cases h; rfl
      · split at h
        rename_i conf h1 hal
        have eal : h1.slots = w.heap.slots := by
          unfold usbg_allocate_config at hal
          cases hal; rfl
        split at h
        rename_i e w2 hmk
        have e2 : w2.heap.slots = w.heap.slots := by
          simp only [sys_mkdir] at hmk
          cases hmk; exact eal
        split at h
        rename_i ret4 w4 hq
        have e4 : w4.heap.slots = w.heap.slots := by
          split_ifs at hq
          · split at hq
            rename_i ret1 w3 hq1
            have e3 : w3.heap = w2.heap := by
              cases c_attrs with
              | none => cases hq1; rfl
              | some a =>
                have := usbg_set_config_attrs_heap B conf a w2
                simp only at hq1
                rw [hq1] at this
                exact this
            cases c_strs with
            | none => cases hq; rw [e3]; exact e2
            | some t =>
              simp only at hq
              split_ifs at hq
              · have := usbg_set_config_string_heap B conf LANG_US_ENG t.configuration w3
                rw [hq] at this
                simp only at this
                rw [this, e3]; exact e2
              · cases hq; rw [e3]; exact e2
          · cases hq; exact e2
        split_ifs at h
        · cases hi : insert_config g conf w4 with
          | none => rw [hi] at h; cases h
          | some w5 =>
            rw [hi] at h
            have h' := Prod.mk.inj (Option.some.inj h)
            have h'' := Prod.mk.inj h'.2
            rw [← h''.2, insert_config_slots g conf w4 w5 hi]
            exact e4
        · have h' := Prod.mk.inj (Option.some.inj h)
          have h'' := Prod.mk.inj h'.2
          rw [← h''.2]
          exact e4

theorem usbg_add_config_function_slots (c : Nat) (name : List Char) (f : Nat) (w : World σ)
    (ret : Int) (w1 : World σ) (h : usbg_add_config_function B c name f w = some (ret, w1)) :
    w1.heap.slots = w.heap.slots := by
  unfold usbg_add_config_function at h
  split at h
  · cases h
  · cases h; rfl
  · split at h
    · cases h
    · cases h; rfl
    · lift_lets at h
      extract_lets fpath bpath at h
      split_ifs at h
      · cases h; rfl
      · cases h; rfl
      · split at h
        rename_i b h1 hal
        have eal : h1.slots = w.heap.slots := by
          unfold usbg_allocate_binding at hal
          cases hal; rfl
        lift_lets at h
        extract_lets h2 at h
        split at h
        rename_i e w2 hs
        have e2 : w2.heap.slots = w.heap.slots := by
          simp only [sys_symlink] at hs
          cases hs; exact eal
        split_ifs at h
        · cases hi : insert_binding c b w2 with
          | none => rw [hi] at h; cases h
          | some w3 =>
            rw [hi] at h
            have h' := Prod.mk.inj (Option.some.inj h)
            rw [← h'.2, insert_binding_slots c b w2 w3 hi]
            exact e2
        · have h' := Prod.mk.inj (Option.some.inj h)
          rw [← h'.2]; exact e2
      · split at h
        rename_i b h1 hal
        have eal : h1.slots = w.heap.slots := by
          unfold usbg_allocate_binding at hal
          cases hal; rfl
        have h' := Prod.mk.inj (Option.some.inj h)
        rw [← h'.2]; exact eal

end frame_create2

section frame_remove_slots
variable {σ : Type} (B : Backend σ)

theorem usbg_rm_binding_slots (b : Nat) (w : World σ) :
    (usbg_rm_binding B b w).2.heap.slots = w.heap.slots := by
  unfold usbg_rm_binding
  have h := ubsg_rm_file_heap B (w.heap.bindings b).path (w.heap.bindings b).name w
  simp only
  split_ifs <;> simp [h, Heap.slots]

theorem usbg_rm_config_dir_slots (c : Nat) (w : World σ) :
    (usbg_rm_config_dir B c w).2.heap.slots = w.heap.slots := by
  unfold usbg_rm_config_dir
  have h := usbg_rm_dir_heap B (w.heap.configs c).path (w.heap.configs c).name w
  simp only
  split_ifs <;> simp [h, Heap.slots]

theorem usbg_rm_function_dir_slots (f : Nat) (w : World σ) :
    (usbg_rm_function_dir B f w).2.heap.slots = w.heap.slots := by
  unfold usbg_rm_function_dir
  have h := usbg_rm_dir_heap B (w.heap.functions f).path (w.heap.functions f).name w
  simp only
  split_ifs <;> simp [h, Heap.slots]

theorem usbg_rm_gadget_dir_slots (g : Nat) (w : World σ) :
    (usbg_rm_gadget_dir B g w).2.heap.slots = w.heap.slots := by
  unfold usbg_rm_gadget_dir
  have h := usbg_rm_dir_heap B (w.heap.gadgets g).path (w.heap.gadgets g).name w
  simp only
  split_ifs <;> simp [h, Heap.slots]

theorem usbg_rm_config_bindings_slots (c : Nat) : ∀ (fuel : Nat) (w : World σ)
    (r : Option Int) (w1 : World σ), usbg_rm_config_bindings B c fuel w = some (r, w1) →
    w1.heap.slots = w.heap.slots := by
  intro fuel
  induction fuel with
  | zero => intro w r w1 h; simp [usbg_rm_config_bindings] at h
  | succ f ih =>
    intro w r w1 h
    simp only [usbg_rm_config_bindings] at h
    split at h
    · cases h; rfl
    · rename_i b hb
      have e := usbg_rm_binding_slots B b w
      split_ifs at h
      · have h' := Prod.mk.inj (Option.some.inj h)
        rw [← h'.2]; exact e
      · rw [ih _ r w1 h]; exact e

theorem usbg_rm_config_slots (c : Nat) (opts : Int) (w : World σ) (ret : Int) (w1 : World σ)
    (h : usbg_rm_config B c opts w = some (ret, w1)) : w1.heap.slots = w.heap.slots := by
  unfold usbg_rm_config at h
  split_ifs at h
  · split at h
    · cases h
    · rename_i r2 w2 hb
      cases h
      exact usbg_rm_config_bindings_slots B c _ w _ _ hb
    · rename_i w2 hb
      have e2 := usbg_rm_config_bindings_slots B c _ w _ _ hb
      lift_lets at h
      extract_lets spath at h
      split_ifs at h
      · cases h; exact e2
      · split at h
        rename_i r3 w3 hall
        have e3 : w3.heap = w2.heap := by
          have := usbg_rm_all_dirs_heap B spath w2
          rw [hall] at this
          exact this
        split_ifs at h
        · cases h; rw [e3]; exact e2
        · have h' := Option.some.inj h
          rw [show w1 = (usbg_rm_config_dir B c w3).2 from by rw [h'],
            usbg_rm_config_dir_slots, e3]
          exact e2
  · have h' := Option.some.inj h
    rw [show w1 = (usbg_rm_config_dir B c w).2 from by rw [h'], usbg_rm_config_dir_slots]

theorem usbg_rm_function_bindings_slots (f : Nat) : ∀ (fuel : Nat) (b : Option Nat)
    (w : World σ) (r : Option Int) (w1 : World σ),
    usbg_rm_function_bindings B f fuel b w = some (r, w1) → w1.heap.slots = w.heap.slots := by
  intro fuel
  induction fuel with
  | zero =>
    intro b w r w1 h
    cases b with
    | none => simp only [usbg_rm_function_bindings] at h; cases h; rfl
    | some b => simp [usbg_rm_function_bindings] at h
  | succ n ih =>
    intro b w r w1 h
    cases b with
    | none => simp only [usbg_rm_function_bindings] at h; cases h; rfl
    | some b =>
      simp only [usbg_rm_function_bindings] at h
      have e := usbg_rm_binding_slots B b w
      split_ifs at h
      · have h' := Prod.mk.inj (Option.some.inj h)
        rw [← h'.2]; exact e
      · rw [ih _ _ r w1 h]; exact e
      · exact ih _ _ r w1 h

theorem usbg_rm_function_configs_slots (f : Nat) : ∀ (fuel : Nat) (c : Option Nat)
    (w : World σ) (r : Option Int) (w1 : World σ),
    usbg_rm_function_configs B f fuel c w = some (r, w1) → w1.heap.slots = w.heap.slots := by
  intro fuel
  induction fuel with
  | zero =>
    intro c w r w1 h
    cases c with
    | none => simp only [usbg_rm_function_configs] at h; cases h; rfl
    | some c => simp [usbg_rm_function_configs] at h
  | succ n ih =>
    intro c w r w1 h
    cases c with
    | none => simp only [usbg_rm_function_configs] at h; cases h; rfl
    | some c =>
      simp only [usbg_rm_function_configs] at h
      split at h
      · cases h
      · rename_i ret w2 hq
        cases h
        exact usbg_rm_function_bindings_slots B f _ _ w _ _ hq
      · rename_i w2 hq
        rw [ih _ _ r w1 h]
        exact usbg_rm_function_bindings_slots B f _ _ w _ _ hq

theorem usbg_rm_function_slots (f : Nat) (opts : Int) (w : World σ) (ret : Int) (w1 : World σ)
    (h : usbg_rm_function B f opts w = some (ret, w1)) : w1.heap.slots = w.heap.slots := by
  unfold usbg_rm_function at h
  split_ifs at h
  · split at h
    · cases h
    · rename_i r2 w2 hq
      cases h
      exact usbg_rm_function_configs_slots B f _ _ w _ _ hq
    · rename_i w2 hq
      have h' := Option.some.inj h
      rw [show w1 = (usbg_rm_function_dir B f w2).2 from by rw [h'],
        usbg_rm_function_dir_slots]
      exact usbg_rm_function_configs_slots B f _ _ w _ _ hq
  · have h' := Option.some.inj h
    rw [show w1 = (usbg_rm_function_dir B f w).2 from by rw [h'], usbg_rm_function_dir_slots]

theorem usbg_rm_gadget_configs_slots (g : Nat) (opts : Int) : ∀ (fuel : Nat) (w : World σ)
    (r : Option Int) (w1 : World σ), usbg_rm_gadget_configs B g opts fuel w = some (r, w1) →
    w1.heap.slots = w.heap.slots := by
  intro fuel
  induction fuel with
  | zero => intro w r w1 h; simp [usbg_rm_gadget_configs] at h
  | succ n ih =>
    intro w r w1 h
    simp only [usbg_rm_gadget_configs] at h
    split at h
    · cases h; rfl
    · rename_i c hc
      split at h
      · cases h
      · rename_i ret w2 hq
        have e := usbg_rm_config_slots B c opts w ret w2 hq
        split_ifs at h
        · cases h; exact e
        · rw [ih _ r w1 h]; exact e

theorem usbg_rm_gadget_functions_slots (g : Nat) (opts : Int) : ∀ (fuel : Nat) (w : World σ)
    (r : Option Int) (w1 : World σ), usbg_rm_gadget_functions B g opts fuel w = some (r, w1) →
    w1.heap.slots = w.heap.slots := by
  intro fuel
  induction fuel with
  | zero => intro w r w1 h; simp [usbg_rm_gadget_functions] at h
  | succ n ih =>
    intro w r w1 h
    simp only [usbg_rm_gadget_functions] at h
    split at h
    · cases h; rfl
    · rename_i f hf
      split at h
      · cases h
      · rename_i ret w2 hq
        have e := usbg_rm_function_slots B f opts w ret w2 hq
        split_ifs at h
        · cases h; exact e
        · rw [ih _ r w1 h]; exact e

theorem usbg_rm_gadget_slots (g : Nat) (opts : Int) (w : World σ) (ret : Int) (w1 : World σ)
    (h : usbg_rm_gadget B g opts w = some (ret, w1)) : w1.heap.slots = w.heap.slots := by
  unfold usbg_rm_gadget at h
  split_ifs at h
  · split at h
    · cases h
    · rename_i r2 w2 hq
      cases h
      exact usbg_rm_gadget_configs_slots B g opts _ w _ _ hq
    · rename_i w2 hq
      have e2 := usbg_rm_gadget_configs_slots B g opts _ w _ _ hq
      split at h
      · cases h
      · rename_i r3 w3 hq3
        cases h
        rw [usbg_rm_gadget_functions_slots B g opts _ w2 _ _ hq3]; exact e2
      · rename_i w3 hq3
        have e3 := usbg_rm_gadget_functions_slots B g opts _ w2 _ _ hq3
        lift_lets at h
        extract_lets spath at h
        split_ifs at h
        · cases h; rw [e3]; exact e2
        · split at h
          rename_i r4 w4 hall
          have e4 : w4.heap = w3.heap := by
            have := usbg_rm_all_dirs_heap B spath w3
            rw [hall] at this
            exact this
          split_ifs at h
          · cases h; rw [e4, e3]; exact e2
          · have h' := Option.some.inj h
            rw [show w1 = (usbg_rm_gadget_dir B g w4).2 from by rw [h'],
              usbg_rm_gadget_dir_slots, e4, e3]
            exact e2
  · have h' := Option.some.inj h
    rw [show w1 = (usbg_rm_gadget_dir B g w).2 from by rw [h'], usbg_rm_gadget_dir_slots]

end frame_remove_slots

section frame_import
variable {σ : Type} (B : Backend σ)

theorem GET_OPTIONAL_ADDR_heap (root : config_setting_t) (name : List Char)
    (set : Nat → ether_addr → World σ → Int × World σ)
    (hset : ∀ f a w, (set f a w).2.heap = w.heap) (f : Nat) (w : World σ) :
    (GET_OPTIONAL_ADDR root name set f w).2.heap = w.heap := by
  unfold GET_OPTIONAL_ADDR
  split
  · rfl
  · split
    · rfl
    · split
      · rfl
      · rename_i addr _
        have e := hset f addr w
        split
        rename_i ret w1 hq
        rw [hq] at e
        split_ifs <;> exact e

theorem usbg_set_net_host_addr_heap (f : Nat) (a : ether_addr) (w : World σ) :
    (usbg_set_net_host_addr B f a w).2.heap = w.heap := by
  unfold usbg_set_net_host_addr usbg_write_string
  exact usbg_write_buf_heap B _ _ _ _ w

theorem usbg_set_net_dev_addr_heap (f : Nat) (a : ether_addr) (w : World σ) :
    (usbg_set_net_dev_addr B f a w).2.heap = w.heap := by
  unfold usbg_set_net_dev_addr usbg_write_string
  exact usbg_write_buf_heap B _ _ _ _ w

theorem usbg_import_f_net_attrs_heap (root : config_setting_t) (f : Nat) (w : World σ) :
    (usbg_import_f_net_attrs B root f w).2.heap = w.heap := by
  unfold usbg_import_f_net_attrs
  have e1 := GET_OPTIONAL_ADDR_heap root "host_addr".toList (usbg_set_net_host_addr B)
    (usbg_set_net_host_addr_heap B) f w
  split
  · rename_i ret w1 hq
    rw [hq] at e1
    exact e1
  · rename_i w1 hq
    rw [hq] at e1
    have e2 := GET_OPTIONAL_ADDR_heap root "dev_addr".toList (usbg_set_net_dev_addr B)
      (usbg_set_net_dev_addr_heap B) f w1
    split
    · rename_i ret w2 hq2
      rw [hq2] at e2
      exact e2.trans e1
    · rename_i w2 hq2
      rw [hq2] at e2
      split
      · exact e2.trans e1
      · split_ifs
        · unfold usbg_set_net_qmult usbg_write_dec
          rw [usbg_write_int_heap]
          exact e2.trans e1
        · exact e2.trans e1

theorem usbg_import_function_attrs_heap (root : config_setting_t) (f : Nat) (w : World σ) :
    (usbg_import_function_attrs B root f w).2.heap = w.heap := by
  unfold usbg_import_function_attrs
  lift_lets
  intro type
  split_ifs
  · rfl
  · exact usbg_import_f_net_attrs_heap B root f w
  · rfl
  · rfl
  · rfl

theorem usbg_import_function_run_slots (g : Nat) (root : config_setting_t) (inst : List Char)
    (w : World σ) (ret : Int) (f : Option Nat) (w1 : World σ)
    (h : usbg_import_function_run B g root inst w = some (ret, f, w1)) :
    w1.heap.slots = w.heap.slots := by
  unfold usbg_import_function_run at h
  split at h
  · cases h; rfl
  · split at h
    · cases h; rfl
    · split_ifs at h
      · cases h; rfl
      · split at h
        · cases h
        · rename_i ret1 f1 w2 hc
          have e2 := usbg_create_function_slots B g _ _ none w ret1 f1 w2 hc
          split_ifs at h
          · cases h; exact e2
          · split at h
            · cases h; exact e2
            · cases h
            · rename_i node func hm
              have e3 := usbg_import_function_attrs_heap B node func w2
              split at h
              rename_i r3 w3 hq
              rw [hq] at e3
              simp only at e3
              split_ifs at h
              · cases h; rw [e3]; exact e2
              · cases h; rw [e3]; exact e2

theorem set_gadget_failed_import_slots (h h0 : Heap) (g : Nat) (cfg : Option config_t)
    (e : h.slots = h0.slots) : slots_but g h0 (h.set_gadget_failed_import g cfg) := by
  constructor
  · rw [← e]; rfl
  · intro a ha
    rw [← e]
    simp [Heap.set_gadget_failed_import, Heap.slots, upd, ha]

/-- What `usbg_import_function` leaves of the slots: all but that of the
gadget `g`. -/
theorem usbg_import_function_slots (g : Nat) (stream : config_stream)
    (inst : Option (List Char)) (w : World σ) (ret : Int) (f : Option Nat) (w1 : World σ)
    (h : usbg_import_function B g stream inst w = some (ret, f, w1)) :
    slots_but g w.heap w1.heap := by
  unfold usbg_import_function at h
  split at h
  · cases h; exact slots_but_of_eq _ _ _ rfl
  · split_ifs at h
    · split at h
      · cases h
      · rename_i r2 f2 w2 hr
        have e2 := usbg_import_function_run_slots B g _ _ w r2 f2 w2 hr
        split_ifs at h
        · cases h
          exact set_gadget_failed_import_slots _ _ _ _ e2
        · cases h
          exact set_gadget_failed_import_slots _ _ _ _ e2
    · cases h
      exact set_gadget_failed_import_slots _ _ _ _ rfl

end frame_import

section frame_import_config
variable {σ : Type} (B : Backend σ)

theorem usbg_import_binding_string_slots (root : config_setting_t) (c : Nat) (w : World σ)
    (ret : Int) (w1 : World σ) (h : usbg_import_binding_string B root c w = some (ret, w1)) :
    w1.heap.slots = w.heap.slots := by
  unfold usbg_import_binding_string at h
  split at h
  · cases h; rfl
  · split at h
    · cases h
    · cases h; rfl
    · exact usbg_add_config_function_slots B c _ _ w ret w1 h

theorem usbg_import_binding_target_slots (root : config_setting_t) (c : Nat) (w : World σ)
    (ret : Option Int) (t : Option Nat) (w1 : World σ)
    (h : usbg_import_binding_target B root c w = some (ret, t, w1)) :
    w1.heap.slots = w.heap.slots := by
  unfold usbg_import_binding_target at h
  split at h
  · cases h; rfl
  · split_ifs at h
    · split at h
      · cases h; rfl
      · split at h
        · cases h
        · cases h; rfl
        · cases h; rfl
    · split at h
      · cases h; rfl
      · split at h
        · cases h; rfl
        · split at h
          · cases h
          · rename_i r2 t2 w2 hr
            have e := usbg_import_function_run_slots B _ _ _ w r2 t2 w2 hr
            split_ifs at h
            · cases h; exact e
            · cases h; exact e
    · cases h; rfl

theorem usbg_import_binding_group_slots (root : config_setting_t) (c : Nat) (w : World σ)
    (ret : Int) (w1 : World σ) (h : usbg_import_binding_group B root c w = some (ret, w1)) :
    w1.heap.slots = w.heap.slots := by
  unfold usbg_import_binding_group at h
  split at h
  · cases h
  · rename_i r2 t2 w2 ht
    cases h
    exact usbg_import_binding_target_slots B root c w _ _ _ ht
  · cases h
  · rename_i target w2 ht
    have e := usbg_import_binding_target_slots B root c w _ _ _ ht
    split at h
    · split_ifs at h
      · split at h
        · cases h; exact e
        · rw [usbg_add_config_function_slots B c _ _ w2 ret w1 h]; exact e
      · cases h; exact e
    · rw [usbg_add_config_function_slots B c _ _ w2 ret w1 h]; exact e

theorem usbg_import_config_bindings_loop_slots (c : Nat) : ∀ (l : List config_setting_t)
    (r0 : Int) (w : World σ) (ret : Int) (w1 : World σ),
    usbg_import_config_bindings_loop B c l r0 w = some (ret, w1) →
    w1.heap.slots = w.heap.slots := by
  intro l
  induction l with
  | nil =>
    intro r0 w ret w1 h
    simp only [usbg_import_config_bindings_loop] at h
    cases h; rfl
  | cons node rest ih =>
    intro r0 w ret w1 h
    unfold usbg_import_config_bindings_loop at h
    split at h
    · cases h
    · rename_i r2 w2 hq
      have e2 : w2.heap.slots = w.heap.slots := by
        split_ifs at hq
        · exact usbg_import_binding_string_slots B node c w r2 w2 hq
        · exact usbg_import_binding_group_slots B node c w r2 w2 hq
        · cases hq; rfl
      split_ifs at h
      · cases h; exact e2
      · rw [ih _ _ _ _ h]; exact e2

theorem usbg_import_config_strs_lang_heap (root : config_setting_t) (c : Nat) (w : World σ) :
    (usbg_import_config_strs_lang B root c w).2.heap = w.heap := by
  unfold usbg_import_config_strs_lang
  split
  · rfl
  · split_ifs
    · split
      · exact usbg_set_config_string_heap B c _ _ w
      · split
        · rfl
        · exact usbg_set_config_string_heap B c _ _ w
    · rfl

theorem usbg_import_config_strings_loop_heap (c : Nat) : ∀ (l : List config_setting_t)
    (r0 : Int) (w : World σ), (usbg_import_config_strings_loop B c l r0 w).2.heap = w.heap := by
  intro l
  induction l with
  | nil => intro r0 w; rfl
  | cons node rest ih =>
    intro r0 w
    unfold usbg_import_config_strings_loop
    have e := usbg_import_config_strs_lang_heap B node c w
    split_ifs
    · split
      rename_i r2 w2 hq
      rw [hq] at e
      split_ifs
      · exact e
      · rw [ih]; exact e
    · rfl

theorem usbg_set_config_bm_attrs_heap (c : Nat) (v : Int) (w : World σ) :
    (usbg_set_config_bm_attrs B c v w).2.heap = w.heap := by
  unfold usbg_set_config_bm_attrs usbg_write_hex8
  exact usbg_write_int_heap B _ _ _ _ w

theorem usbg_set_config_max_power_heap (c : Nat) (v : Int) (w : World σ) :
    (usbg_set_config_max_power B c v w).2.heap = w.heap := by
  unfold usbg_set_config_max_power usbg_write_dec
  exact usbg_write_int_heap B _ _ _ _ w

theorem usbg_import_config_attrs_heap (root : config_setting_t) (c : Nat) (w : World σ) :
    (usbg_import_config_attrs B root c w).2.heap = w.heap := by
  unfold usbg_import_config_attrs
  have key : ∀ (r : Option Int) (w1 : World σ),
      (match config_setting_get_member root "bmAttributes".toList with
        | none => ((none : Option Int), w)
        | some node =>
          if ¬ usbg_config_is_int node then (some USBG_ERROR_INVALID_TYPE, w)
          else
            match usbg_set_config_bm_attrs B c (config_setting_get_int node) w with
            | (usbg_ret, w1) =>
              if usbg_ret ≠ USBG_SUCCESS then (some usbg_ret, w1) else (none, w1)) = (r, w1) →
      w1.heap = w.heap := by
    intro r w1 hq
    split at hq
    · cases hq; rfl
    · rename_i node _
      split_ifs at hq
      · have e2 := usbg_set_config_bm_attrs_heap B c (config_setting_get_int node) w
        split at hq
        rename_i r2 w2 hq2
        rw [hq2] at e2
        split_ifs at hq
        · cases hq; exact e2
        · cases hq; exact e2
      · cases hq; rfl
  split
  · rename_i ret w1 hq
    exact key _ _ hq
  · rename_i w1 hq
    have e1 := key _ _ hq
    split
    · exact e1
    · rename_i node _
      split_ifs
      · have e2 := usbg_set_config_max_power_heap B c (config_setting_get_int node) w1
        split
        rename_i r2 w2 hq2
        rw [hq2] at e2
        split_ifs <;> exact e2.trans e1
      · exact e1

theorem usbg_import_config_members_slots (root : config_setting_t) (newc : Nat) (w : World σ)
    (ret : Int) (w1 : World σ) (h : usbg_import_config_members B root newc w = some (ret, w1)) :
    w1.heap.slots = w.heap.slots := by
  unfold usbg_import_config_members at h
  split at h
  rename_i ret1 w2 hq1
  have e2 : w2.heap = w.heap := by
    split at hq1
    · cases hq1; rfl
    · rename_i node _
      split_ifs at hq1
      · have := usbg_import_config_attrs_heap B node newc w
        rw [hq1] at this
        exact this
      · cases hq1; rfl
  split_ifs at h
  · cases h; rw [e2]
  · split at h
    rename_i ret2 w3 hq2
    have e3 : w3.heap = w2.heap := by
      split at hq2
      · cases hq2; rfl
      · rename_i node _
        split_ifs at hq2
        · have := usbg_import_config_strings_loop_heap B newc (config_setting_elems node)
            USBG_SUCCESS w2
          unfold usbg_import_config_strings at hq2
          rw [hq2] at this
          exact this
        · cases hq2; rfl
    split_ifs at h
    · cases h; rw [e3, e2]
    · split at h
      · cases h; rw [e3, e2]
      · rename_i node _
        split_ifs at h
        · unfold usbg_import_config_bindings at h
          rw [usbg_import_config_bindings_loop_slots B newc _ _ w3 ret w1 h, e3, e2]
        · cases h; rw [e3, e2]

theorem usbg_import_config_run_slots (g : Nat) (root : config_setting_t) (id : Int)
    (w : World σ) (ret : Int) (c : Option Nat) (w1 : World σ)
    (h : usbg_import_config_run B g root id w = some (ret, c, w1)) :
    w1.heap.slots = w.heap.slots := by
  unfold usbg_import_config_run at h
  split at h
  · cases h; rfl
  · split at h
    · cases h; rfl
    · split at h
      · cases h
      · rename_i r1 newc w2 hc
        have e2 := usbg_create_config_slots B g id _ none none w r1 newc w2 hc
        split_ifs at h
        · cases h; exact e2
        · split at h
          · cases h
          · rename_i conf
            split at h
            · cases h
            · rename_i r3 w3 hm
              have e3 := usbg_import_config_members_slots B root conf w2 r3 w3 hm
              split_ifs at h
              · cases h; rw [e3]; exact e2
              · split at h
                · cases h
                · rename_i hrm
                  cases h
                  rw [usbg_rm_config_slots B conf _ w3 _ _ hrm, e3]; exact e2

/-- What `usbg_import_config` leaves of the slots: all but that of the gadget
`g`. -/
theorem usbg_import_config_slots (g : Nat) (stream : config_stream) (id : Int) (w : World σ)
    (ret : Int) (c : Option Nat) (w1 : World σ)
    (h : usbg_import_config B g stream id w = some (ret, c, w1)) :
    slots_but g w.heap w1.heap := by
  unfold usbg_import_config at h
  split_ifs at h
  · cases h; exact slots_but_of_eq _ _ _ rfl
  · split at h
    · cases h
    · rename_i r2 c2 w2 hr
      have e2 := usbg_import_config_run_slots B g _ _ w r2 c2 w2 hr
      split_ifs at h
      · cases h
        exact set_gadget_failed_import_slots _ _ _ _ e2
      · cases h
        exact set_gadget_failed_import_slots _ _ _ _ e2
  · cases h
    exact set_gadget_failed_import_slots _ _ _ _ rfl

end frame_import_config

section frame_import_gadget
variable {σ : Type} (B : Backend σ)

theorem usbg_import_gadget_configs_loop_slots (g : Nat) : ∀ (l : List config_setting_t)
    (r0 : Int) (w : World σ) (ret : Int) (w1 : World σ),
    usbg_import_gadget_configs_loop B g l r0 w = some (ret, w1) →
    w1.heap.slots = w.heap.slots := by
  intro l
  induction l with
  | nil =>
    intro r0 w ret w1 h
    simp only [usbg_import_gadget_configs_loop] at h
    cases h; rfl
  | cons node rest ih =>
    intro r0 w ret w1 h
    unfold usbg_import_gadget_configs_loop at h
    split_ifs at h
    · split at h
      · cases h; rfl
      · split_ifs at h
        · split at h
          · cases h
          · rename_i r2 c2 w2 hr
            have e2 := usbg_import_config_run_slots B g _ _ w r2 c2 w2 hr
            split_ifs at h
            · cases h; exact e2
            · rw [ih _ _ _ _ h]; exact e2
        · cases h; rfl
    · cases h; rfl

theorem usbg_import_gadget_functions_loop_slots (g : Nat) : ∀ (l : List config_setting_t)
    (r0 : Int) (w : World σ) (ret : Int) (w1 : World σ),
    usbg_import_gadget_functions_loop B g l r0 w = some (ret, w1) →
    w1.heap.slots = w.heap.slots := by
  intro l
  induction l with
  | nil =>
    intro r0 w ret w1 h
    simp only [usbg_import_gadget_functions_loop] at h
    cases h; rfl
  | cons node rest ih =>
    intro r0 w ret w1 h
    unfold usbg_import_gadget_functions_loop at h
    split_ifs at h
    · split at h
      · cases h; rfl
      · split_ifs at h
        · split at h
          · cases h; rfl
          · split at h
            · cases h
            · rename_i r2 f2 w2 hr
              have e2 := usbg_import_function_run_slots B g _ _ w r2 f2 w2 hr
              split_ifs at h
              · cases h; exact e2
              · split at h
                · cases h; exact e2
                · cases h
                · rw [ih _ _ _ _ h]; exact e2
        · cases h; rfl
    · cases h; rfl

theorem usbg_import_gadget_strs_lang_heap (root : config_setting_t) (g : Nat) (w : World σ) :
    (usbg_import_gadget_strs_lang B root g w).2.heap = w.heap := by
  unfold usbg_import_gadget_strs_lang
  split
  · rfl
  · split_ifs
    · split
      · rfl
      · split
        · rfl
        · split
          · rfl
          · exact usbg_set_gadget_strs_heap B g _ _ w
    · rfl

theorem usbg_import_gadget_strings_loop_heap (g : Nat) : ∀ (l : List config_setting_t)
    (r0 : Int) (w : World σ), (usbg_import_gadget_strings_loop B g l r0 w).2.heap = w.heap := by
  intro l
  induction l with
  | nil => intro r0 w; rfl
  | cons node rest ih =>
    intro r0 w
    unfold usbg_import_gadget_strings_loop
    have e := usbg_import_gadget_strs_lang_heap B node g w
    split_ifs
    · split
      rename_i r2 w2 hq
      rw [hq] at e
      split_ifs
      · exact e
      · rw [ih]; exact e
    · rfl

theorem GET_OPTIONAL_GADGET_ATTR_heap (root : config_setting_t) (name : List Char)
    (set : Nat → Int → World σ → Int × World σ)
    (hset : ∀ g v w, (set g v w).2.heap = w.heap) (bits : Nat) (g : Nat) (w : World σ) :
    (GET_OPTIONAL_GADGET_ATTR root name set bits g w).2.heap = w.heap := by
  unfold GET_OPTIONAL_GADGET_ATTR
  split
  · rfl
  · rename_i node _
    split_ifs
    · rfl
    · have e := hset g (config_setting_get_int node) w
      split
      rename_i ret w1 hq
      rw [hq] at e
      split_ifs <;> exact e
    · rfl

theorem gadget_setters_heap :
    (∀ g v (w : World σ), (usbg_set_gadget_device_bcd_usb B g v w).2.heap = w.heap) ∧
    (∀ g v (w : World σ), (usbg_set_gadget_device_class B g v w).2.heap = w.heap) ∧
    (∀ g v (w : World σ), (usbg_set_gadget_device_subclass B g v w).2.heap = w.heap) ∧
    (∀ g v (w : World σ), (usbg_set_gadget_device_protocol B g v w).2.heap = w.heap) ∧
    (∀ g v (w : World σ), (usbg_set_gadget_device_max_packet B g v w).2.heap = w.heap) ∧
    (∀ g v (w : World σ), (usbg_set_gadget_vendor_id B g v w).2.heap = w.heap) ∧
    (∀ g v (w : World σ), (usbg_set_gadget_product_id B g v w).2.heap = w.heap) ∧
    (∀ g v (w : World σ), (usbg_set_gadget_device_bcd_device B g v w).2.heap = w.heap) := by
  refine ⟨?_, ?_, ?_, ?_, ?_, ?_, ?_, ?_⟩ <;> intro g v w
  · unfold usbg_set_gadget_device_bcd_usb usbg_write_hex16
    exact usbg_write_int_heap B _ _ _ _ w
  · unfold usbg_set_gadget_device_class usbg_write_hex8
    exact usbg_write_int_heap B _ _ _ _ w
  · unfold usbg_set_gadget_device_subclass usbg_write_hex8
    exact usbg_write_int_heap B _ _ _ _ w
  · unfold usbg_set_gadget_device_protocol usbg_write_hex8
    exact usbg_write_int_heap B _ _ _ _ w
  · unfold usbg_set_gadget_device_max_packet usbg_write_hex8
    exact usbg_write_int_heap B _ _ _ _ w
  · unfold usbg_set_gadget_vendor_id usbg_write_hex16
    exact usbg_write_int_heap B _ _ _ _ w
  · unfold usbg_set_gadget_product_id usbg_write_hex16
    exact usbg_write_int_heap B _ _ _ _ w
  · unfold usbg_set_gadget_device_bcd_device usbg_write_hex16
    exact usbg_write_int_heap B _ _ _ _ w

theorem usbg_import_gadget_attrs_heap (root : config_setting_t) (g : Nat) (w : World σ) :
    (usbg_import_gadget_attrs B root g w).2.heap = w.heap := by
  unfold usbg_import_gadget_attrs
  obtain ⟨s1, s2, s3, s4, s5, s6, s7, s8⟩ := gadget_setters_heap B
  have e : w.heap = w.heap := rfl
  iterate 8
    split
    · rename_i r w1 hq
      have h1 := congrArg (fun p => p.2.heap) hq
      simp only [GET_OPTIONAL_GADGET_ATTR_heap, s1, s2, s3, s4, s5, s6, s7, s8, implies_true]
        at h1
      exact h1.symm.trans e
    rename_i w1 hq
    replace e : w1.heap = w.heap := by
      have h1 := congrArg (fun p => p.2.heap) hq
      simp only [GET_OPTIONAL_GADGET_ATTR_heap, s1, s2, s3, s4, s5, s6, s7, s8, implies_true]
        at h1
      exact h1.symm.trans e
  exact e

end frame_import_gadget

section frame_import_gadget2
variable {σ : Type} (B : Backend σ)

theorem usbg_import_gadget_members_slots (root : config_setting_t) (newg : Nat) (w : World σ)
    (ret : Int) (w1 : World σ) (h : usbg_import_gadget_members B root newg w = some (ret, w1)) :
    w1.heap.slots = w.heap.slots := by
  unfold usbg_import_gadget_members at h
  split at h
  rename_i ret1 w2 hq1
  have e2 : w2.heap = w.heap := by
    split at hq1
    · cases hq1; rfl
    · rename_i node _
      split_ifs at hq1
      · have := usbg_import_gadget_attrs_heap B node newg w
        rw [hq1] at this
        exact this
      · cases hq1; rfl
  split_ifs at h
  · cases h; rw [e2]
  · split at h
    rename_i ret2 w3 hq2
    have e3 : w3.heap = w2.heap := by
      split at hq2
      · cases hq2; rfl
      · rename_i node _
        split_ifs at hq2
        · have := usbg_import_gadget_strings_loop_heap B newg (config_setting_elems node)
            USBG_SUCCESS w2
          unfold usbg_import_gadget_strings at hq2
          rw [hq2] at this
          exact this
        · cases hq2; rfl
    split_ifs at h
    · cases h; rw [e3, e2]
    · split at h
      · cases h
      · rename_i ret3 w4 hq3
        have e4 : w4.heap.slots = w3.heap.slots := by
          split at hq3
          · cases hq3; rfl
          · rename_i node _
            split_ifs at hq3
            · unfold usbg_import_gadget_functions at hq3
              exact usbg_import_gadget_functions_loop_slots B newg _ _ w3 ret3 w4 hq3
            · cases hq3; rfl
        split_ifs at h
        · cases h; rw [e4, e3, e2]
        · split at h
          · cases h; rw [e4, e3, e2]
          · rename_i node _
            split_ifs at h
            · unfold usbg_import_gadget_configs at h
              rw [usbg_import_gadget_configs_loop_slots B newg _ _ w4 ret w1 h, e4, e3, e2]
            · cases h; rw [e4, e3, e2]

theorem usbg_import_gadget_run_slots (s : Nat) (root : config_setting_t) (name : List Char)
    (w : World σ) (ret : Int) (g : Option Nat) (w1 : World σ)
    (h : usbg_import_gadget_run B s root name w = some (ret, g, w1)) :
    slots_but w.heap.brk w.heap w1.heap := by
  unfold usbg_import_gadget_run at h
  split at h
  · cases h
  · rename_i r1 newg w2 hc
    have e2 := usbg_create_gadget_slots B s name none none w r1 newg w2 hc
    split_ifs at h
    · cases h; exact e2
    · split at h
      · cases h
      · rename_i gad
        split at h
        · cases h
        · rename_i r3 w3 hm
          have e3 := usbg_import_gadget_members_slots B root gad w2 r3 w3 hm
          split_ifs at h
          · cases h; exact slots_but_trans _ _ _ _ e2 e3
          · split at h
            · cases h
            · rename_i hrm
              cases h
              refine slots_but_trans _ _ _ _ e2 ?_
              rw [usbg_rm_gadget_slots B gad _ w3 _ _ hrm, e3]

/-- What `usbg_import_gadget` leaves of the slots: those of the states but
for the state `s`, and those of the gadgets but for the address of the new
gadget. -/
theorem usbg_import_gadget_slots (s : Nat) (stream : config_stream)
    (name : Option (List Char)) (w : World σ) (ret : Int) (g : Option Nat) (w1 : World σ)
    (h : usbg_import_gadget B s stream name w = some (ret, g, w1)) :
    (∀ a, a ≠ s → w1.heap.slots.1 a = w.heap.slots.1 a) ∧
    (∀ a, a ≠ w.heap.brk → w1.heap.slots.2 a = w.heap.slots.2 a) := by
  have key : ∀ (h0 : Heap) (cfg : Option config_t), slots_but w.heap.brk w.heap h0 →
      (∀ a, a ≠ s → (h0.set_state_failed_import s cfg).slots.1 a = w.heap.slots.1 a) ∧
      (∀ a, a ≠ w.heap.brk → (h0.set_state_failed_import s cfg).slots.2 a =
        w.heap.slots.2 a) := by
    intro h0 cfg hb
    constructor
    · intro a ha
      rw [← hb.1]
      simp [Heap.set_state_failed_import, Heap.slots, upd, ha]
    · intro a ha
      rw [← hb.2 a ha]
      rfl
  unfold usbg_import_gadget at h
  split at h
  · cases h; exact ⟨fun _ _ => rfl, fun _ _ => rfl⟩
  · split_ifs at h
    · split at h
      · cases h
      · rename_i r2 g2 w2 hr
        have e2 := usbg_import_gadget_run_slots B s _ _ w r2 g2 w2 hr
        split_ifs at h
        · cases h; exact key _ _ e2
        · cases h; exact key _ _ e2
    · cases h
      exact key _ _ (slots_but_of_eq _ _ _ rfl)

end frame_import_gadget2

section frame_read
variable {σ : Type} (B : Backend σ)

theorem usbg_read_int_heap (path name file : List Char) (base : Nat) (w : World σ) :
    (usbg_read_int B path name file base w).2.2.heap = w.heap := by
  unfold usbg_read_int
  have e := usbg_read_buf_heap B path name file w
  split
  · rename_i ret buf w1 hq
    rw [hq] at e
    split_ifs <;> exact e
  · rename_i ret w1 hq
    rw [hq] at e
    exact e

theorem usbg_parse_gadget_attrs_heap (path name : List Char) (w : World σ) :
    (usbg_parse_gadget_attrs B path name w).2.2.heap = w.heap := by
  unfold usbg_parse_gadget_attrs
  have e : w.heap = w.heap := rfl
  iterate 8
    split
    · rename_i r w1 hq
      have h1 := congrArg (fun p => p.2.2.heap) hq
      simp only [usbg_read_hex, usbg_read_int_heap] at h1
      exact h1.symm.trans e
    rename_i r v w1 hq
    replace e : w1.heap = w.heap := by
      have h1 := congrArg (fun p => p.2.2.heap) hq
      simp only [usbg_read_hex, usbg_read_int_heap] at h1
      exact h1.symm.trans e
  exact e

theorem usbg_parse_gadget_strs_heap (path name : List Char) (lang : Int) (w : World σ) :
    (usbg_parse_gadget_strs B path name lang w).2.2.heap = w.heap := by
  unfold usbg_parse_gadget_strs
  lift_lets
  intro spath
  split_ifs
  · rfl
  · split
    rename_i e0 w1 ho
    have e1 : w1.heap = w.heap := by
      simp only [sys_opendir] at ho
      cases ho; rfl
    split_ifs
    · split
      rename_i r2 s2 w2 h2
      have e2 : w2.heap = w.heap := by
        have := usbg_read_string_heap B spath [] "serialnumber".toList w1
        rw [h2] at this
        exact this.trans e1
      split_ifs
      · exact e2
      · split
        rename_i r3 s3 w3 h3
        have e3 : w3.heap = w.heap := by
          have := usbg_read_string_heap B spath [] "manufacturer".toList w2
          rw [h3] at this
          exact this.trans e2
        split_ifs
        · exact e3
        · split
          rename_i r4 s4 w4 h4
          have e4 : w4.heap = w.heap := by
            have := usbg_read_string_heap B spath [] "product".toList w3
            rw [h4] at this
            exact this.trans e3
          split_ifs <;> exact e4
    · exact e1

theorem usbg_parse_config_attrs_heap (path name : List Char) (w : World σ) :
    (usbg_parse_config_attrs B path name w).2.2.heap = w.heap := by
  unfold usbg_parse_config_attrs
  have e : w.heap = w.heap := rfl
  split
  · rename_i r w1 hq
    have h1 := congrArg (fun p => p.2.2.heap) hq
    simp only [usbg_read_dec, usbg_read_int_heap] at h1
    exact h1.symm
  · rename_i r v w1 hq
    have e1 : w1.heap = w.heap := by
      have h1 := congrArg (fun p => p.2.2.heap) hq
      simp only [usbg_read_dec, usbg_read_int_heap] at h1
      exact h1.symm
    split
    · rename_i r2 w2 hq2
      have h1 := congrArg (fun p => p.2.2.heap) hq2
      simp only [usbg_read_hex, usbg_read_int_heap] at h1
      exact h1.symm.trans e1
    · rename_i r2 v2 w2 hq2
      have h1 := congrArg (fun p => p.2.2.heap) hq2
      simp only [usbg_read_hex, usbg_read_int_heap] at h1
      exact h1.symm.trans e1

theorem usbg_parse_config_strs_heap (path name : List Char) (lang : Int) (w : World σ) :
    (usbg_parse_config_strs B path name lang w).2.2.heap = w.heap := by
  unfold usbg_parse_config_strs
  lift_lets
  intro spath
  split_ifs
  · split
    rename_i e0 w1 ho
    have e1 : w1.heap = w.heap := by
      simp only [sys_opendir] at ho
      cases ho; rfl
    split_ifs
    · split
      rename_i r2 s2 w2 h2
      have e2 : w2.heap = w.heap := by
        have := usbg_read_string_heap B spath [] "configuration".toList w1
        rw [h2] at this
        exact this.trans e1
      split_ifs <;> exact e2
    · exact e1
  · rfl

theorem usbg_parse_function_net_attrs_heap (f : Nat) (w : World σ) :
    (usbg_parse_function_net_attrs B f w).2.2.heap = w.heap := by
  unfold usbg_parse_function_net_attrs
  lift_lets
  intro path name
  split
  rename_i r1 s1 w1 h1
  have e1 : w1.heap = w.heap := by
    have := usbg_read_string_heap B path name "dev_addr".toList w
    rw [h1] at this
    exact this
  split_ifs
  · exact e1
  · split
    · exact e1
    · split
      rename_i r2 s2 w2 h2
      have e2 : w2.heap = w.heap := by
        have := usbg_read_string_heap B path name "host_addr".toList w1
        rw [h2] at this
        exact this.trans e1
      split_ifs
      · exact e2
      · split
        · exact e2
        · split
          rename_i r3 s3 w3 h3
          have e3 : w3.heap = w.heap := by
            have := usbg_read_string_heap B path name "ifname".toList w2
            rw [h3] at this
            exact this.trans e2
          split_ifs
          · exact e3
          · split
            · rename_i r4 w4 h4
              have h5 := congrArg (fun p => p.2.2.heap) h4
              simp only [usbg_read_dec, usbg_read_int_heap] at h5
              exact h5.symm.trans e3
            · rename_i r4 v4 w4 h4
              have h5 := congrArg (fun p => p.2.2.heap) h4
              simp only [usbg_read_dec, usbg_read_int_heap] at h5
              exact h5.symm.trans e3

theorem usbg_get_function_attrs_heap (f : Nat) (w : World σ) :
    (usbg_get_function_attrs B f w).2.2.heap = w.heap := by
  unfold usbg_get_function_attrs usbg_parse_function_attrs
  lift_lets
  intro type
  split_ifs
  · split
    · rename_i r v w1 hq
      have h1 := congrArg (fun p => p.2.2.heap) hq
      simp only [usbg_read_dec, usbg_read_int_heap] at h1
      exact h1.symm
    · rename_i r w1 hq
      have h1 := congrArg (fun p => p.2.2.heap) hq
      simp only [usbg_read_dec, usbg_read_int_heap] at h1
      exact h1.symm
  · have e := usbg_parse_function_net_attrs_heap B f w
    split
    · rename_i r v w1 hq
      rw [hq] at e
      exact e
    · rename_i r w1 hq
      rw [hq] at e
      exact e
  · have e := usbg_read_string_heap B (w.heap.functions f).path (w.heap.functions f).name
      "ifname".toList w
    split
    rename_i r v w1 hq
    rw [hq] at e
    split_ifs <;> exact e
  · rfl
  · rfl

end frame_read

section frame_export
variable {σ : Type} (B : Backend σ)

theorem usbg_export_config_strs_lang_heap (c : Nat) (lang_str : List Char)
    (root : config_setting_t) (w : World σ) :
    (usbg_export_config_strs_lang B c lang_str root w).2.2.heap = w.heap := by
  unfold usbg_export_config_strs_lang
  split
  · rfl
  · rename_i lang _
    have e := usbg_parse_config_strs_heap B (w.heap.configs c).path (w.heap.configs c).name
      lang w
    unfold usbg_get_config_strs
    split
    · rename_i r w1 hq
      rw [hq] at e
      exact e
    · rename_i r v w1 hq
      rw [hq] at e
      exact e

theorem usbg_export_config_strings_loop_heap (c : Nat) : ∀ (l : List dirent)
    (root : config_setting_t) (w : World σ),
    (usbg_export_config_strings_loop B c l root w).2.2.heap = w.heap := by
  intro l
  induction l with
  | nil => intro root w; rfl
  | cons d rest ih =>
    intro root w
    unfold usbg_export_config_strings_loop
    have e := usbg_export_config_strs_lang_heap B c d.d_name (config_setting_t.group none []) w
    split
    rename_i r node w1 hq
    rw [hq] at e
    split_ifs
    · exact e
    · rw [ih]; exact e

theorem usbg_export_config_strings_heap (c : Nat) (root : config_setting_t) (w : World σ) :
    (usbg_export_config_strings B c root w).2.2.heap = w.heap := by
  unfold usbg_export_config_strings
  lift_lets
  intro spath
  split_ifs
  · rfl
  · have e := scandir_heap B spath file_select w
    split
    · rename_i er w1 hq
      rw [hq] at e
      exact e
    · rename_i dent w1 hq
      rw [hq] at e
      rw [usbg_export_config_strings_loop_heap]
      exact e

theorem usbg_export_config_attrs_heap (c : Nat) (root : config_setting_t) (w : World σ) :
    (usbg_export_config_attrs B c root w).2.2.heap = w.heap := by
  unfold usbg_export_config_attrs usbg_get_config_attrs
  have e := usbg_parse_config_attrs_heap B (w.heap.configs c).path (w.heap.configs c).name w
  split
  · rename_i r w1 hq
    rw [hq] at e
    exact e
  · rename_i r v w1 hq
    rw [hq] at e
    split_ifs <;> exact e

theorem usbg_export_config_prep_heap (c : Nat) (root : config_setting_t) (w : World σ)
    (ret : Int) (doc : config_setting_t) (w1 : World σ)
    (h : usbg_export_config_prep B c root w = some (ret, doc, w1)) : w1.heap = w.heap := by
  unfold usbg_export_config_prep at h
  lift_lets at h
  extract_lets root1 at h
  split at h
  rename_i r1 a1 w2 hq1
  have e2 : w2.heap = w.heap := by
    have := usbg_export_config_attrs_heap B c (config_setting_t.group (some "attrs".toList) []) w
    rw [hq1] at this
    exact this
  split_ifs at h
  · cases h; exact e2
  · split at h
    rename_i r2 a2 w3 hq2
    have e3 : w3.heap = w.heap := by
      have := usbg_export_config_strings_heap B c
        (config_setting_t.list (some "strings".toList) []) w2
      rw [hq2] at this
      exact this.trans e2
    split_ifs at h
    · cases h; exact e3
    · split at h
      · cases h
      · cases h; exact e3

theorem usbg_export_gadget_configs_loop_heap : ∀ (fuel : Nat) (cur : Option Nat) (r0 : Int)
    (root : config_setting_t) (w : World σ) (ret : Int) (doc : config_setting_t)
    (w1 : World σ), usbg_export_gadget_configs_loop B fuel cur r0 root w = some (ret, doc, w1) →
    w1.heap = w.heap := by
  intro fuel
  induction fuel with
  | zero =>
    intro cur r0 root w ret doc w1 h
    cases cur with
    | none => simp only [usbg_export_gadget_configs_loop] at h; cases h; rfl
    | some c => simp [usbg_export_gadget_configs_loop] at h
  | succ n ih =>
    intro cur r0 root w ret doc w1 h
    cases cur with
    | none => simp only [usbg_export_gadget_configs_loop] at h; cases h; rfl
    | some c =>
      unfold usbg_export_gadget_configs_loop at h
      split at h
      · cases h
      · rename_i r2 node w2 hq
        have e2 := usbg_export_config_prep_heap B c _ w r2 node w2 hq
        split_ifs at h
        · cases h; exact e2
        · rw [ih _ _ _ _ _ _ _ h]; exact e2

theorem usbg_export_function_attrs_heap (f : Nat) (root : config_setting_t) (w : World σ) :
    (usbg_export_function_attrs B f root w).2.2.heap = w.heap := by
  unfold usbg_export_function_attrs
  have e := usbg_get_function_attrs_heap B f w
  split
  · rename_i r w1 hq
    rw [hq] at e
    exact e
  · rename_i r v w1 hq
    rw [hq] at e
    split_ifs
    · exact e
    · lift_lets
      intro type
      split_ifs
      · split <;> exact e
      · split <;> exact e
      · exact e
      · exact e
      · exact e

theorem usbg_export_function_prep_heap (f : Nat) (root : config_setting_t) (w : World σ)
    (ret : Int) (doc : config_setting_t) (w1 : World σ)
    (h : usbg_export_function_prep B f root w = some (ret, doc, w1)) : w1.heap = w.heap := by
  unfold usbg_export_function_prep at h
  split at h
  · cases h
  · have e := usbg_export_function_attrs_heap B f
      (config_setting_t.group (some "attrs".toList) []) w
    split at h
    rename_i r a w2 hq
    rw [hq] at e
    cases h
    exact e

theorem usbg_export_gadget_functions_loop_heap : ∀ (fuel : Nat) (cur : Option Nat) (r0 : Int)
    (root : config_setting_t) (w : World σ) (ret : Int) (doc : config_setting_t)
    (w1 : World σ),
    usbg_export_gadget_functions_loop B fuel cur r0 root w = some (ret, doc, w1) →
    w1.heap = w.heap := by
  intro fuel
  induction fuel with
  | zero =>
    intro cur r0 root w ret doc w1 h
    cases cur with
    | none => simp only [usbg_export_gadget_functions_loop] at h; cases h; rfl
    | some c => simp [usbg_export_gadget_functions_loop] at h
  | succ n ih =>
    intro cur r0 root w ret doc w1 h
    cases cur with
    | none => simp only [usbg_export_gadget_functions_loop] at h; cases h; rfl
    | some f =>
      unfold usbg_export_gadget_functions_loop at h
      split at h
      · cases h
      · split_ifs at h
        · cases h; rfl
        · split at h
          · cases h
          · rename_i r2 node w2 hq
            have e2 := usbg_export_function_prep_heap B f _ w r2 node w2 hq
            split_ifs at h
            · cases h; exact e2
            · rw [ih _ _ _ _ _ _ _ h]; exact e2

theorem usbg_export_gadget_strs_lang_heap (g : Nat) (lang_str : List Char)
    (root : config_setting_t) (w : World σ) :
    (usbg_export_gadget_strs_lang B g lang_str root w).2.2.heap = w.heap := by
  unfold usbg_export_gadget_strs_lang
  split
  · rfl
  · rename_i lang _
    have e := usbg_parse_gadget_strs_heap B (w.heap.gadgets g).path (w.heap.gadgets g).name
      lang w
    unfold usbg_get_gadget_strs
    split
    · rename_i r w1 hq
      rw [hq] at e
      exact e
    · rename_i r v w1 hq
      rw [hq] at e
      exact e

theorem usbg_export_gadget_strings_loop_heap (g : Nat) : ∀ (l : List dirent)
    (root : config_setting_t) (w : World σ),
    (usbg_export_gadget_strings_loop B g l root w).2.2.heap = w.heap := by
  intro l
  induction l with
  | nil => intro root w; rfl
  | cons d rest ih =>
    intro root w
    unfold usbg_export_gadget_strings_loop
    have e := usbg_export_gadget_strs_lang_heap B g d.d_name (config_setting_t.group none []) w
    split
    rename_i r node w1 hq
    rw [hq] at e
    split_ifs
    · exact e
    · rw [ih]; exact e

theorem usbg_export_gadget_strings_heap (g : Nat) (root : config_setting_t) (w : World σ) :
    (usbg_export_gadget_strings B g root w).2.2.heap = w.heap := by
  unfold usbg_export_gadget_strings
  lift_lets
  intro spath
  split_ifs
  · rfl
  · have e := scandir_heap B spath file_select w
    split
    · rename_i er w1 hq
      rw [hq] at e
      exact e
    · rename_i dent w1 hq
      rw [hq] at e
      rw [usbg_export_gadget_strings_loop_heap]
      exact e

theorem usbg_export_gadget_attrs_heap (g : Nat) (root : config_setting_t) (w : World σ) :
    (usbg_export_gadget_attrs B g root w).2.2.heap = w.heap := by
  unfold usbg_export_gadget_attrs usbg_get_gadget_attrs
  have e := usbg_parse_gadget_attrs_heap B (w.heap.gadgets g).path (w.heap.gadgets g).name w
  split
  · rename_i r w1 hq
    rw [hq] at e
    exact e
  · rename_i r v w1 hq
    rw [hq] at e
    split_ifs <;> exact e

theorem usbg_export_gadget_prep_heap (g : Nat) (root : config_setting_t) (w : World σ)
    (ret : Int) (doc : config_setting_t) (w1 : World σ)
    (h : usbg_export_gadget_prep B g root w = some (ret, doc, w1)) : w1.heap = w.heap := by
  unfold usbg_export_gadget_prep at h
  split at h
  rename_i r1 a1 w2 hq1
  have e2 : w2.heap = w.heap := by
    have := usbg_export_gadget_attrs_heap B g (config_setting_t.group (some "attrs".toList) []) w
    rw [hq1] at this
    exact this
  split_ifs at h
  · cases h; exact e2
  · split at h
    rename_i r2 a2 w3 hq2
    have e3 : w3.heap = w.heap := by
      have := usbg_export_gadget_strings_heap B g
        (config_setting_t.list (some "strings".toList) []) w2
      rw [hq2] at this
      exact this.trans e2
    split_ifs at h
    · cases h; exact e3
    · split at h
      · cases h
      · rename_i r3 a3 w4 hq3
        have e4 : w4.heap = w.heap := by
          unfold usbg_export_gadget_functions at hq3
          rw [usbg_export_gadget_functions_loop_heap B _ _ _ _ w3 r3 a3 w4 hq3]
          exact e3
        split_ifs at h
        · cases h; exact e4
        · split at h
          · cases h
          · rename_i r4 a4 w5 hq4
            unfold usbg_export_gadget_configs at hq4
            have e5 := usbg_export_gadget_configs_loop_heap B _ _ _ _ w4 r4 a4 w5 hq4
            cases h
            exact e5.trans e4

theorem usbg_export_function_heap (f : Nat) (w : World σ) (ret : Int)
    (doc : Option config_setting_t) (w1 : World σ)
    (h : usbg_export_function B f w = some (ret, doc, w1)) : w1.heap = w.heap := by
  unfold usbg_export_function at h
  split at h
  · cases h
  · rename_i r root w2 hq
    have e := usbg_export_function_prep_heap B f _ w r root w2 hq
    split_ifs at h <;> (cases h; exact e)

theorem usbg_export_config_heap (c : Nat) (w : World σ) (ret : Int)
    (doc : Option config_setting_t) (w1 : World σ)
    (h : usbg_export_config B c w = some (ret, doc, w1)) : w1.heap = w.heap := by
  unfold usbg_export_config at h
  split at h
  · cases h
  · rename_i r root w2 hq
    have e := usbg_export_config_prep_heap B c _ w r root w2 hq
    split_ifs at h <;> (cases h; exact e)

theorem usbg_export_gadget_heap (g : Nat) (w : World σ) (ret : Int)
    (doc : Option config_setting_t) (w1 : World σ)
    (h : usbg_export_gadget B g w = some (ret, doc, w1)) : w1.heap = w.heap := by
  unfold usbg_export_gadget at h
  split at h
  · cases h
  · rename_i r root w2 hq
    have e := usbg_export_gadget_prep_heap B g _ w r root w2 hq
    split_ifs at h <;> (cases h; exact e)

end frame_export

/-- Claim C27: `usbg_translate_error` is called with `errno` only, and an
`errno` value is not negative.  For every code `e` that is not negative it
maps `EACCES`, `EROFS` and `EPERM` to NoAccess, `ENOENT` and `ENOTDIR` to
NotFound, `ENOMEM` to NoMemory, `EINVAL` to InvalidParam, `EIO` to IO,
`EEXIST` to AlreadyExists, `ENODEV` to NoSuchDevice, `EBUSY` to Busy, and
every other code to OtherError; the result is never Success.  (The one
negative code with a case of its own in the switch is the value of
`USBG_ERROR_INVALID_PARAM`.) -/
theorem usbg_translate_error_errno (e : Int) (he : 0 ≤ e) :
    (e = EACCES ∨ e = EROFS ∨ e = EPERM → usbg_translate_error e = USBG_ERROR_NO_ACCESS) ∧
    (e = ENOENT ∨ e = ENOTDIR → usbg_translate_error e = USBG_ERROR_NOT_FOUND) ∧
    (e = ENOMEM → usbg_translate_error e = USBG_ERROR_NO_MEM) ∧
    (e = EINVAL → usbg_translate_error e = USBG_ERROR_INVALID_PARAM) ∧
    (e = EIO → usbg_translate_error e = USBG_ERROR_IO) ∧
    (e = EEXIST → usbg_translate_error e = USBG_ERROR_EXIST) ∧
    (e = ENODEV → usbg_translate_error e = USBG_ERROR_NO_DEV) ∧
    (e = EBUSY → usbg_translate_error e = USBG_ERROR_BUSY) ∧
    (e ∉ [EACCES, EROFS, EPERM, ENOENT, ENOTDIR, ENOMEM, EINVAL, EIO, EEXIST, ENODEV, EBUSY] →
      usbg_translate_error e = USBG_ERROR_OTHER_ERROR) ∧
    usbg_translate_error e ≠ USBG_SUCCESS := by
  refine ⟨?_, ?_, ?_, ?_, ?_, ?_, ?_, ?_, ?_, ?_⟩
  · rintro (h | h | h) <;> subst h <;> decide
  · rintro (h | h) <;> subst h <;> decide
  · rintro h; subst h; decide
  · rintro h; subst h; decide
  · rintro h; subst h; decide
  · rintro h; subst h; decide
  · rintro h; subst h; decide
  · rintro h; subst h; decide
  · intro h
    simp only [List.mem_cons, List.mem_singleton, List.not_mem_nil, or_false, not_or] at h
    obtain ⟨h1, h2, h3, h4, h5, h6, h7, h8, h9, h10, h11⟩ := h
    have h12 : e ≠ USBG_ERROR_INVALID_PARAM := by
      rw [USBG_ERROR_INVALID_PARAM]
      omega
    simp [usbg_translate_error, h1, h2, h3, h4, h5, h6, h7, h8, h9, h10, h11, h12]
  · have := usbg_translate_error_neg e
    rw [USBG_SUCCESS]
    omega

/-- Claim C27 at the codes `ENOSPC` and 0, which map to OtherError, and at
`EROFS`, which maps to NoAccess. -/
theorem usbg_translate_error_errno_witness :
    (0 : Int) ≤ ENOSPC ∧
    usbg_translate_error ENOSPC = USBG_ERROR_OTHER_ERROR ∧
    usbg_translate_error 0 = USBG_ERROR_OTHER_ERROR ∧
    usbg_translate_error EROFS = USBG_ERROR_NO_ACCESS ∧
    usbg_translate_error ENOSPC ≠ USBG_SUCCESS :=
  ⟨by decide,
    (usbg_translate_error_errno ENOSPC (by decide)).2.2.2.2.2.2.2.2.1 (by decide),
    (usbg_translate_error_errno 0 (by decide)).2.2.2.2.2.2.2.2.1 (by decide),
    (usbg_translate_error_errno EROFS (by decide)).1 (by decide),
    (usbg_translate_error_errno ENOSPC (by decide)).2.2.2.2.2.2.2.2.2⟩

/-! ## The import calls return -/

theorem tailq_find_total (q : QMem) (p : Nat → Bool) :
    ∀ (l : List Nat) (lk : Link) (fuel : Nat),
      seg_ok q lk l = true → l.length ≤ fuel →
      ∃ r, tailq_find q p fuel (q.load lk) = some r := by
  intro l
  induction l with
  | nil =>
    intro lk fuel hseg _
    have : q.load lk = none := by simpa [seg_ok] using hseg
    rw [this]
    cases fuel <;> exact ⟨none, by simp [tailq_find]⟩
  | cons a l ih =>
    intro lk fuel hseg hf
    obtain ⟨f, rfl⟩ : ∃ f, fuel = f + 1 := ⟨fuel - 1, by simp at hf; omega⟩
    obtain ⟨h1, _, h3⟩ := (seg_ok_cons q lk a l).1 hseg
    rw [h1]
    simp only [tailq_find]
    split_ifs
    · exact ⟨some a, rfl⟩
    · exact ih (Link.next a) f h3 (by simp at hf; omega)

/-- On a well-formed queue whose elements are allocated, a lookup ends. -/
theorem tailq_find_queue (q : QMem) (p : Nat → Bool) (h brk : Nat) (l : List Nat)
    (hq : is_queue q h l = true) (hb : ∀ a ∈ l, a < brk) :
    ∃ r, tailq_find q p (brk + 1) (TAILQ_FIRST q h) = some r := by
  simp only [is_queue, Bool.and_eq_true, decide_eq_true_eq] at hq
  obtain ⟨⟨hnd, hseg⟩, _⟩ := hq
  have hlen : l.length ≤ brk := nodup_length_le _ l hnd hb
  exact tailq_find_total q p l (Link.head h) (brk + 1) hseg (by omega)

/-- On a well-formed queue whose elements are allocated, the insertion in
string order of a new element ends. -/
theorem insert_string_order_total (name : Nat → List Char) (q : QMem) (h x brk fuel : Nat)
    (l : List Nat) (hq : is_queue q h l = true) (hb : ∀ a ∈ l, a < brk) (hx : brk ≤ x)
    (hf : brk ≤ fuel) : ∃ q1, INSERT_TAILQ_STRING_ORDER fuel name q h x = some q1 := by
  have hq' := hq
  simp only [is_queue, Bool.and_eq_true, decide_eq_true_eq] at hq'
  obtain ⟨⟨hnd, _⟩, _⟩ := hq'
  have hlen : l.length ≤ brk := nodup_length_le _ l hnd hb
  have hfresh : x ∉ l := fun e => by have := hb _ e; omega
  obtain ⟨q1, _, _, _, hins, _⟩ :=
    insert_string_order_path name q h x fuel l hq hfresh (by omega)
  exact ⟨q1, hins⟩

section import_total
variable {σ : Type} (B : Backend σ)

theorem usbg_create_function_named_total (g : Nat) (type : usbg_function_type)
    (inst : List Char) (w : World σ) (l : List Nat)
    (hq : is_queue w.heap.fq g l = true) (hb : ∀ a ∈ l, a < w.heap.brk) :
    ∃ ret f w1, usbg_create_function_named B g type inst none w = some (ret, f, w1) ∧
      (ret = USBG_SUCCESS → ∃ func, f = some func) := by
  obtain ⟨r, hget⟩ := tailq_find_queue w.heap.fq
    (fun f => (w.heap.functions f).type = type && strcmp (w.heap.functions f).inst inst = 0)
    g w.heap.brk l hq hb
  have hget' : usbg_get_function w.heap g type inst = some r := hget
  unfold usbg_create_function_named
  rw [hget']
  cases r with
  | some x => exact ⟨_, _, _, rfl, fun e => absurd e (by decide)⟩
  | none =>
    simp only
    split_ifs
    · exact ⟨_, _, _, rfl, fun e => absurd e (by decide)⟩
    · cases hal : usbg_allocate_function
        (path3 (w.heap.gadgets g).path (w.heap.gadgets g).name FUNCTIONS_DIR) type inst g
        w.heap with
      | none => exact ⟨_, _, _, rfl, fun e => absurd e (by decide)⟩
      | some r1 =>
        obtain ⟨func, h1⟩ := r1
        have hfq : h1.fq = w.heap.fq ∧ h1.brk = w.heap.brk + 1 ∧ func = w.heap.brk := by
          unfold usbg_allocate_function at hal
          split at hal
          · cases hal
          · cases hal; exact ⟨rfl, rfl, rfl⟩
        simp only
        obtain ⟨q1, hins⟩ := insert_string_order_total
          (fun f => (h1.functions f).name) h1.fq g func w.heap.brk h1.fuel l
          (by rw [hfq.1]; exact hq) hb (by omega)
          (by simp only [Heap.fuel]; rw [hfq.2.1]; omega)
        split
        · rename_i heq
          exfalso
          split_ifs at heq
        · rename_i ret3 w3 heq
          have e3 : w3.heap = h1 := by
            split_ifs at heq <;>
              (simp only [sys_mkdir, Option.some.injEq, Prod.mk.injEq] at heq; rw [← heq.2])
          split_ifs
          · simp only [insert_function, e3, hins, Option.map_some']
            exact ⟨_, _, _, rfl, fun _ => ⟨func, rfl⟩⟩
          · exact ⟨_, _, _, rfl, fun _ => ⟨func, rfl⟩⟩

theorem usbg_import_function_run_total (g : Nat) (root : config_setting_t) (inst : List Char)
    (w : World σ) (l : List Nat)
    (hq : is_queue w.heap.fq g l = true) (hb : ∀ a ∈ l, a < w.heap.brk) :
    ∃ r, usbg_import_function_run B g root inst w = some r := by
  unfold usbg_import_function_run
  split
  · exact ⟨_, rfl⟩
  · split
    · exact ⟨_, rfl⟩
    · split_ifs
      · exact ⟨_, rfl⟩
      · rename_i type_str _ _
        obtain ⟨ret, f, w1, hc, hf⟩ := usbg_create_function_named_total B g
          (usbg_lookup_function_type (some type_str)) inst w l hq hb
        have hc' : usbg_create_function B g (usbg_lookup_function_type (some type_str))
            (some inst) none w = some (ret, f, w1) := hc
        rw [hc']
        simp only
        split_ifs with hr
        · exact ⟨_, rfl⟩
        · obtain ⟨func, rfl⟩ := hf (not_not.1 hr)
          split
          · exact ⟨_, rfl⟩
          · rename_i heq
            cases heq
          · split <;> exact ⟨_, rfl⟩

end import_total

section import_total2
variable {σ : Type} (B : Backend σ)

theorem usbg_import_function_total (g : Nat) (stream : config_stream) (inst : List Char)
    (w : World σ) (l : List Nat)
    (hq : is_queue w.heap.fq g l = true) (hb : ∀ a ∈ l, a < w.heap.brk) :
    ∃ r, usbg_import_function B g stream (some inst) w = some r := by
  unfold usbg_import_function
  simp only
  split_ifs
  · obtain ⟨r, hr⟩ := usbg_import_function_run_total B g (config_root_setting stream.cfg) inst
      w l hq hb
    rw [hr]
    obtain ⟨ret, f, w1⟩ := r
    simp only
    split_ifs <;> exact ⟨_, rfl⟩
  · exact ⟨_, rfl⟩

theorem TAILQ_FIRST_INIT (q : QMem) (h : Nat) : TAILQ_FIRST (TAILQ_INIT q h) h = none := by
  simp [TAILQ_FIRST, TAILQ_INIT, upd]

theorem usbg_create_config_total (g : Nat) (id : Int) (label : Option (List Char))
    (w : World σ) (l : List Nat)
    (hq : is_queue w.heap.cq g l = true) (hb : ∀ a ∈ l, a < w.heap.brk) :
    ∃ ret c w1, usbg_create_config B g id label none none w = some (ret, c, w1) ∧
      (ret = USBG_SUCCESS → ∃ conf, c = some conf ∧ TAILQ_FIRST w1.heap.bq conf = none) := by
  unfold usbg_create_config
  split_ifs
  · exact ⟨_, _, _, rfl, fun e => absurd e (by decide)⟩
  · obtain ⟨r, hget⟩ := tailq_find_queue w.heap.cq
      (fun c => (w.heap.configs c).id = id && true) g w.heap.brk l hq hb
    have hget' : usbg_get_config w.heap g id none = some r := hget
    rw [hget']
    cases r with
    | some x => exact ⟨_, _, _, rfl, fun e => absurd e (by decide)⟩
    | none =>
      obtain ⟨q1, hins⟩ := insert_string_order_total
        (fun c => ((upd w.heap.configs w.heap.brk
          ⟨g, config_name (label.getD DEFAULT_CONFIG_LABEL) id,
            path3 (w.heap.gadgets g).path (w.heap.gadgets g).name CONFIGS_DIR,
            label.getD DEFAULT_CONFIG_LABEL, id⟩) c).name)
        w.heap.cq g w.heap.brk w.heap.brk (w.heap.brk + 1 + 1) l hq hb (le_refl _)
        (by omega)
      simp only [usbg_allocate_config, sys_mkdir]
      split_ifs
      all_goals first
        | exact ⟨_, _, _, rfl, fun e => absurd e (by decide)⟩
        | (simp only [insert_config, Heap.fuel, hins, Option.map_some']
           exact ⟨_, _, _, rfl, fun _ => ⟨_, rfl, TAILQ_FIRST_INIT _ _⟩⟩)

theorem usbg_import_config_members_total (root : config_setting_t) (newc : Nat) (w : World σ)
    (hfun : ∀ node, config_setting_get_member root "functions".toList = some node →
      config_setting_elems node = []) :
    ∃ ret w2, usbg_import_config_members B root newc w = some (ret, w2) ∧
      w2.heap = w.heap := by
  unfold usbg_import_config_members
  split
  rename_i ret1 w2 hq1
  have e2 : w2.heap = w.heap := by
    split at hq1
    · cases hq1; rfl
    · rename_i node _
      split_ifs at hq1
      · have := usbg_import_config_attrs_heap B node newc w
        rw [hq1] at this
        exact this
      · cases hq1; rfl
  split_ifs
  · exact ⟨_, _, rfl, e2⟩
  · split
    rename_i ret2 w3 hq2
    have e3 : w3.heap = w2.heap := by
      split at hq2
      · cases hq2; rfl
      · rename_i node _
        split_ifs at hq2
        · have := usbg_import_config_strings_loop_heap B newc (config_setting_elems node)
            USBG_SUCCESS w2
          unfold usbg_import_config_strings at hq2
          rw [hq2] at this
          exact this
        · cases hq2; rfl
    split_ifs
    · exact ⟨_, _, rfl, e3.trans e2⟩
    · split
      · exact ⟨_, _, rfl, e3.trans e2⟩
      · rename_i node hnode
        split_ifs
        · unfold usbg_import_config_bindings
          rw [hfun node hnode]
          exact ⟨_, _, rfl, e3.trans e2⟩
        · exact ⟨_, _, rfl, e3.trans e2⟩

/-- The removal of a config that has no binding ends. -/
theorem usbg_rm_config_total (c : Nat) (w : World σ) (hc : TAILQ_FIRST w.heap.bq c = none) :
    ∃ r, usbg_rm_config B c USBG_RM_RECURSE w = some r := by
  unfold usbg_rm_config
  rw [if_pos (by decide)]
  simp only [usbg_rm_config_bindings, hc]
  split_ifs <;> exact ⟨_, rfl⟩

theorem usbg_import_config_run_total (g : Nat) (root : config_setting_t) (id : Int)
    (w : World σ) (l : List Nat)
    (hq : is_queue w.heap.cq g l = true) (hb : ∀ a ∈ l, a < w.heap.brk)
    (hfun : ∀ node, config_setting_get_member root "functions".toList = some node →
      config_setting_elems node = []) :
    ∃ r, usbg_import_config_run B g root id w = some r := by
  unfold usbg_import_config_run
  split
  · exact ⟨_, rfl⟩
  · split
    · exact ⟨_, rfl⟩
    · rename_i name _
      obtain ⟨ret, c, w1, hc, hs⟩ := usbg_create_config_total B g id (some name) w l hq hb
      rw [hc]
      simp only
      split_ifs with hr
      · exact ⟨_, rfl⟩
      · obtain ⟨conf, rfl, hempty⟩ := hs (not_not.1 hr)
        simp only
        obtain ⟨ret2, w2, hm, e2⟩ := usbg_import_config_members_total B root conf w1 hfun
        rw [hm]
        simp only
        split_ifs
        · exact ⟨_, rfl⟩
        · obtain ⟨r3, h3⟩ := usbg_rm_config_total B conf w2 (by rw [e2]; exact hempty)
          rw [h3]
          exact ⟨_, rfl⟩

theorem usbg_import_config_total (g : Nat) (stream : config_stream) (id : Int)
    (w : World σ) (l : List Nat)
    (hq : is_queue w.heap.cq g l = true) (hb : ∀ a ∈ l, a < w.heap.brk)
    (hfun : ∀ node,
      config_setting_get_member (config_root_setting stream.cfg) "functions".toList = some node →
      config_setting_elems node = []) :
    ∃ r, usbg_import_config B g stream id w = some r := by
  unfold usbg_import_config
  split_ifs
  · exact ⟨_, rfl⟩
  · obtain ⟨r, hr⟩ := usbg_import_config_run_total B g (config_root_setting stream.cfg) id
      w l hq hb hfun
    rw [hr]
    obtain ⟨ret, f, w1⟩ := r
    simp only
    split_ifs <;> exact ⟨_, rfl⟩
  · exact ⟨_, rfl⟩

end import_total2

section import_total3
variable {σ : Type} (B : Backend σ)

theorem usbg_create_empty_gadget_some (s : Nat) (name : List Char) (w : World σ) (ret : Int)
    (gad : Nat) (w1 : World σ)
    (h : usbg_create_empty_gadget B s name w = (ret, some gad, w1)) :
    gad = w.heap.brk ∧ w1.heap.gq = w.heap.gq ∧ w1.heap.brk = w.heap.brk + 1 ∧
      w1.heap.cq = TAILQ_INIT w.heap.cq w.heap.brk ∧
      w1.heap.fq = TAILQ_INIT w.heap.fq w.heap.brk := by
  unfold usbg_create_empty_gadget at h
  split_ifs at h
  · cases h
  · simp only [usbg_allocate_gadget, sys_mkdir, sys_rmdir] at h
    have hr := usbg_read_string_heap B
    split_ifs at h
    · cases h
    · simp only [Prod.mk.injEq, Option.some.injEq] at h
      obtain ⟨_, hg, hw⟩ := h
      rw [← hw, ← hg]
      simp [hr, Heap.set_udc]
    · cases h

theorem usbg_create_gadget_total (s : Nat) (name : List Char) (w : World σ) (l : List Nat)
    (hq : is_queue w.heap.gq s l = true) (hb : ∀ a ∈ l, a < w.heap.brk) :
    ∃ ret gad w1, usbg_create_gadget B s name none none w = some (ret, gad, w1) ∧
      (ret = USBG_SUCCESS → ∃ g0, gad = some g0 ∧ TAILQ_FIRST w1.heap.cq g0 = none ∧
        TAILQ_FIRST w1.heap.fq g0 = none) := by
  unfold usbg_create_gadget
  obtain ⟨r, hget⟩ := tailq_find_queue w.heap.gq
    (fun g => strcmp (w.heap.gadgets g).name name = 0) s w.heap.brk l hq hb
  have hget' : usbg_get_gadget w.heap s name = some r := hget
  rw [hget']
  cases r with
  | some x => exact ⟨_, _, _, rfl, fun e => absurd e (by decide)⟩
  | none =>
    simp only
    split
    · rename_i ret gad w1 he
      obtain ⟨e1, e2, e3, e4, e5⟩ := usbg_create_empty_gadget_some B s name w ret gad w1 he
      split_ifs with hr
      · obtain ⟨q1, hins⟩ := insert_string_order_total
          (fun g => (w1.heap.gadgets g).name) w1.heap.gq s gad w.heap.brk w1.heap.fuel l
          (by rw [e2]; exact hq) hb (by omega)
          (by simp only [Heap.fuel]; rw [e3]; omega)
        simp only [hr, if_true, insert_gadget, hins, Option.map_some']
        refine ⟨_, _, _, rfl, fun _ => ⟨gad, rfl, ?_, ?_⟩⟩
        · simp only [e4, e1]
          exact TAILQ_FIRST_INIT _ _
        · simp only [e5, e1]
          exact TAILQ_FIRST_INIT _ _
      · exact ⟨_, _, _, rfl, fun e => absurd e hr⟩
    · rename_i ret w1 he
      refine ⟨_, _, _, rfl, fun e => ?_⟩
      exfalso
      subst e
      unfold usbg_create_empty_gadget at he
      split_ifs at he
      · cases he
      · simp only [usbg_allocate_gadget, sys_mkdir, sys_rmdir] at he
        split_ifs at he
        · simp only [Prod.mk.injEq] at he
          rename_i h1
          exact h1 he.1
        · simp at he
        · simp only [Prod.mk.injEq] at he
          have := usbg_translate_error_neg
            ((B.mkdir (path2 (w.heap.states s).path name) w.fs).1)
          rw [he.1] at this
          exact absurd this (by decide)

theorem usbg_import_gadget_members_total (root : config_setting_t) (newg : Nat) (w : World σ)
    (hfun : ∀ node, config_setting_get_member root "functions".toList = some node →
      config_setting_elems node = [])
    (hcfg : ∀ node, config_setting_get_member root "configs".toList = some node →
      config_setting_elems node = []) :
    ∃ ret w2, usbg_import_gadget_members B root newg w = some (ret, w2) ∧
      w2.heap = w.heap := by
  unfold usbg_import_gadget_members
  split
  rename_i ret1 w2 hq1
  have e2 : w2.heap = w.heap := by
    split at hq1
    · cases hq1; rfl
    · rename_i node _
      split_ifs at hq1
      · have := usbg_import_gadget_attrs_heap B node newg w
        rw [hq1] at this
        exact this
      · cases hq1; rfl
  split_ifs
  · exact ⟨_, _, rfl, e2⟩
  · split
    rename_i ret2 w3 hq2
    have e3 : w3.heap = w2.heap := by
      split at hq2
      · cases hq2; rfl
      · rename_i node _
        split_ifs at hq2
        · have := usbg_import_gadget_strings_loop_heap B newg (config_setting_elems node)
            USBG_SUCCESS w2
          unfold usbg_import_gadget_strings at hq2
          rw [hq2] at this
          exact this
        · cases hq2; rfl
    split_ifs
    · exact ⟨_, _, rfl, e3.trans e2⟩
    · split
      · rename_i heq
        exfalso
        split at heq
        · cases heq
        · rename_i node hnode
          split_ifs at heq
          unfold usbg_import_gadget_functions at heq
          rw [hfun node hnode] at heq
          simp [usbg_import_gadget_functions_loop] at heq
      · rename_i ret3 w4 heq
        have e4 : w4 = w3 := by
          split at heq
          · simp only [Option.some.injEq, Prod.mk.injEq] at heq
            exact heq.2.symm
          · rename_i node hnode
            split_ifs at heq
            · unfold usbg_import_gadget_functions at heq
              rw [hfun node hnode] at heq
              simp only [usbg_import_gadget_functions_loop, Option.some.injEq,
                Prod.mk.injEq] at heq
              exact heq.2.symm
            · simp only [Option.some.injEq, Prod.mk.injEq] at heq
              exact heq.2.symm
        subst e4
        split_ifs
        · exact ⟨_, _, rfl, e3.trans e2⟩
        · split
          · exact ⟨_, _, rfl, e3.trans e2⟩
          · rename_i node hnode
            split_ifs
            · unfold usbg_import_gadget_configs
              rw [hcfg node hnode]
              exact ⟨_, _, rfl, e3.trans e2⟩
            · exact ⟨_, _, rfl, e3.trans e2⟩

/-- The removal of a gadget that has no config and no function ends. -/
theorem usbg_rm_gadget_total (g : Nat) (w : World σ) (hc : TAILQ_FIRST w.heap.cq g = none)
    (hf : TAILQ_FIRST w.heap.fq g = none) :
    ∃ r, usbg_rm_gadget B g USBG_RM_RECURSE w = some r := by
  unfold usbg_rm_gadget
  rw [if_pos (by decide)]
  simp only [usbg_rm_gadget_configs, usbg_rm_gadget_functions, hc, hf]
  split_ifs <;> exact ⟨_, rfl⟩

theorem usbg_import_gadget_run_total (s : Nat) (root : config_setting_t) (name : List Char)
    (w : World σ) (l : List Nat)
    (hq : is_queue w.heap.gq s l = true) (hb : ∀ a ∈ l, a < w.heap.brk)
    (hfun : ∀ node, config_setting_get_member root "functions".toList = some node →
      config_setting_elems node = [])
    (hcfg : ∀ node, config_setting_get_member root "configs".toList = some node →
      config_setting_elems node = []) :
    ∃ r, usbg_import_gadget_run B s root name w = some r := by
  unfold usbg_import_gadget_run
  obtain ⟨ret, gad, w1, hc, hs⟩ := usbg_create_gadget_total B s name w l hq hb
  rw [hc]
  simp only
  split_ifs with hr
  · exact ⟨_, rfl⟩
  · obtain ⟨g0, rfl, hc0, hf0⟩ := hs (not_not.1 hr)
    simp only
    obtain ⟨ret2, w2, hm, e2⟩ := usbg_import_gadget_members_total B root g0 w1 hfun hcfg
    rw [hm]
    simp only
    split_ifs
    · exact ⟨_, rfl⟩
    · obtain ⟨r3, h3⟩ := usbg_rm_gadget_total B g0 w2 (by rw [e2]; exact hc0)
        (by rw [e2]; exact hf0)
      rw [h3]
      exact ⟨_, rfl⟩

theorem usbg_import_gadget_total (s : Nat) (stream : config_stream) (name : List Char)
    (w : World σ) (l : List Nat)
    (hq : is_queue w.heap.gq s l = true) (hb : ∀ a ∈ l, a < w.heap.brk)
    (hfun : ∀ node,
      config_setting_get_member (config_root_setting stream.cfg) "functions".toList = some node →
      config_setting_elems node = [])
    (hcfg : ∀ node,
      config_setting_get_member (config_root_setting stream.cfg) "configs".toList = some node →
      config_setting_elems node = []) :
    ∃ r, usbg_import_gadget B s stream (some name) w = some r := by
  unfold usbg_import_gadget
  simp only
  split_ifs
  · obtain ⟨r, hr⟩ := usbg_import_gadget_run_total B s (config_root_setting stream.cfg) name
      w l hq hb hfun hcfg
    rw [hr]
    obtain ⟨ret, f, w1⟩ := r
    simp only
    split_ifs <;> exact ⟨_, rfl⟩
  · exact ⟨_, rfl⟩

end import_total3

/-- C25: the import-diagnostic slot.  A call of `usbg_import_function` or
`usbg_import_config` on the gadget `g`, or of `usbg_import_gadget` on the
state `s`, returns (the function collection of the gadget, its config
collection, or the gadget collection of the state being a well-formed queue
`l` of allocated elements, and, for a config or a gadget, the document having
no element in a `functions` or `configs` member), and when it returns an
error after it read the stream the slot of that gadget or state holds the
document of the call, and when it returns `USBG_SUCCESS` the slot is empty,
the error text is NULL and the error line is -1.  For every document the same
holds of the slot whenever the call returns.  Such a call leaves every other
slot as it is (the slot at the address `brk` is that of the gadget
`usbg_import_gadget` or `usbg_create_gadget` allocates).  The create, bind,
remove, set and export operations leave every slot as it is. -/
theorem failed_import_slot_holds_document {σ : Type} (B : Backend σ) (w : World σ)
    (s g : Nat) (stream : config_stream) :
    (∀ inst l, is_queue w.heap.fq g l = true → (∀ a ∈ l, a < w.heap.brk) →
      ∃ ret f w1, usbg_import_function B g stream (some inst) w = some (ret, f, w1) ∧
        (ret ≠ USBG_SUCCESS → (w1.heap.gadgets g).last_failed_import = some stream.cfg) ∧
        (ret = USBG_SUCCESS → (w1.heap.gadgets g).last_failed_import = none ∧
          usbg_get_func_import_error_text w1.heap g = none ∧
          usbg_get_func_import_error_line w1.heap g = -1)) ∧
    (∀ id l, 0 ≤ id → is_queue w.heap.cq g l = true → (∀ a ∈ l, a < w.heap.brk) →
      (∀ node, config_setting_get_member (config_root_setting stream.cfg)
        "functions".toList = some node → config_setting_elems node = []) →
      ∃ ret c w1, usbg_import_config B g stream id w = some (ret, c, w1) ∧
        (ret ≠ USBG_SUCCESS → (w1.heap.gadgets g).last_failed_import = some stream.cfg) ∧
        (ret = USBG_SUCCESS → (w1.heap.gadgets g).last_failed_import = none ∧
          usbg_get_config_import_error_text w1.heap g = none ∧
          usbg_get_config_import_error_line w1.heap g = -1)) ∧
    (∀ name l, is_queue w.heap.gq s l = true → (∀ a ∈ l, a < w.heap.brk) →
      (∀ node, config_setting_get_member (config_root_setting stream.cfg)
        "functions".toList = some node → config_setting_elems node = []) →
      (∀ node, config_setting_get_member (config_root_setting stream.cfg)
        "configs".toList = some node → config_setting_elems node = []) →
      ∃ ret gad w1, usbg_import_gadget B s stream (some name) w = some (ret, gad, w1) ∧
        (ret ≠ USBG_SUCCESS → (w1.heap.states s).last_failed_import = some stream.cfg) ∧
        (ret = USBG_SUCCESS → (w1.heap.states s).last_failed_import = none ∧
          usbg_get_gadget_import_error_text w1.heap s = none ∧
          usbg_get_gadget_import_error_line w1.heap s = -1)) ∧
    (∀ inst ret f w1, usbg_import_function B g stream (some inst) w = some (ret, f, w1) →
      (ret ≠ USBG_SUCCESS → (w1.heap.gadgets g).last_failed_import = some stream.cfg) ∧
      (ret = USBG_SUCCESS → (w1.heap.gadgets g).last_failed_import = none ∧
        usbg_get_func_import_error_text w1.heap g = none ∧
        usbg_get_func_import_error_line w1.heap g = -1)) ∧
    (∀ id ret c w1, 0 ≤ id → usbg_import_config B g stream id w = some (ret, c, w1) →
      (ret ≠ USBG_SUCCESS → (w1.heap.gadgets g).last_failed_import = some stream.cfg) ∧
      (ret = USBG_SUCCESS → (w1.heap.gadgets g).last_failed_import = none ∧
        usbg_get_config_import_error_text w1.heap g = none ∧
        usbg_get_config_import_error_line w1.heap g = -1)) ∧
    (∀ name ret gad w1, usbg_import_gadget B s stream (some name) w = some (ret, gad, w1) →
      (ret ≠ USBG_SUCCESS → (w1.heap.states s).last_failed_import = some stream.cfg) ∧
      (ret = USBG_SUCCESS → (w1.heap.states s).last_failed_import = none ∧
        usbg_get_gadget_import_error_text w1.heap s = none ∧
        usbg_get_gadget_import_error_line w1.heap s = -1)) ∧
    (∀ inst ret f w1, usbg_import_function B g stream inst w = some (ret, f, w1) →
      slots_but g w.heap w1.heap) ∧
    (∀ id ret c w1, usbg_import_config B g stream id w = some (ret, c, w1) →
      slots_but g w.heap w1.heap) ∧
    (∀ name ret gad w1, usbg_import_gadget B s stream name w = some (ret, gad, w1) →
      (∀ a, a ≠ s → w1.heap.slots.1 a = w.heap.slots.1 a) ∧
      (∀ a, a ≠ w.heap.brk → w1.heap.slots.2 a = w.heap.slots.2 a)) ∧
    (∀ name a t ret gad w1, usbg_create_gadget B s name a t w = some (ret, gad, w1) →
      slots_but w.heap.brk w.heap w1.heap) ∧
    (∀ type inst a ret f w1, usbg_create_function B g type inst a w = some (ret, f, w1) →
      w1.heap.slots = w.heap.slots) ∧
    (∀ id label a t ret c w1, usbg_create_config B g id label a t w = some (ret, c, w1) →
      w1.heap.slots = w.heap.slots) ∧
    (∀ c name f ret w1, usbg_add_config_function B c name f w = some (ret, w1) →
      w1.heap.slots = w.heap.slots) ∧
    (∀ b, (usbg_rm_binding B b w).2.heap.slots = w.heap.slots) ∧
    (∀ c opts ret w1, usbg_rm_config B c opts w = some (ret, w1) →
      w1.heap.slots = w.heap.slots) ∧
    (∀ f opts ret w1, usbg_rm_function B f opts w = some (ret, w1) →
      w1.heap.slots = w.heap.slots) ∧
    (∀ opts ret w1, usbg_rm_gadget B g opts w = some (ret, w1) →
      w1.heap.slots = w.heap.slots) ∧
    (∀ a, (usbg_set_gadget_attrs B g a w).2.heap.slots = w.heap.slots) ∧
    (∀ lang t, (usbg_set_gadget_strs B g lang t w).2.heap.slots = w.heap.slots) ∧
    (∀ f a ret w1, usbg_set_function_attrs B f a w = some (ret, w1) →
      w1.heap.slots = w.heap.slots) ∧
    (∀ c a, (usbg_set_config_attrs B c a w).2.heap.slots = w.heap.slots) ∧
    (∀ c lang str, (usbg_set_config_string B c lang str w).2.heap.slots = w.heap.slots) ∧
    (∀ ret doc w1, usbg_export_gadget B g w = some (ret, doc, w1) →
      w1.heap.slots = w.heap.slots) ∧
    (∀ c ret doc w1, usbg_export_config B c w = some (ret, doc, w1) →
      w1.heap.slots = w.heap.slots) ∧
    (∀ f ret doc w1, usbg_export_function B f w = some (ret, doc, w1) →
      w1.heap.slots = w.heap.slots) := by
  have hg : ∀ (h : Heap) (cfg : Option config_t),
      ((h.set_gadget_failed_import g cfg).gadgets g).last_failed_import = cfg := by
    intro h cfg
    simp [Heap.set_gadget_failed_import, upd]
  have hs : ∀ (h : Heap) (cfg : Option config_t),
      ((h.set_state_failed_import s cfg).states s).last_failed_import = cfg := by
    intro h cfg
    simp [Heap.set_state_failed_import, upd]
  have p1 : ∀ inst ret f w1,
      usbg_import_function B g stream (some inst) w = some (ret, f, w1) →
      (ret ≠ USBG_SUCCESS → (w1.heap.gadgets g).last_failed_import = some stream.cfg) ∧
      (ret = USBG_SUCCESS → (w1.heap.gadgets g).last_failed_import = none ∧
        usbg_get_func_import_error_text w1.heap g = none ∧
        usbg_get_func_import_error_line w1.heap g = -1) := by
    intro inst ret f w1 h
    simp only [usbg_import_function] at h
    split_ifs at h
    · split at h
      · cases h
      · split_ifs at h with hr
        · cases h
          exact ⟨fun _ => hg _ _, fun e => absurd e hr⟩
        · cases h
          refine ⟨fun e => absurd e hr, fun _ => ⟨hg _ _, ?_, ?_⟩⟩
          · simp [usbg_get_func_import_error_text, hg]
          · simp [usbg_get_func_import_error_line, hg]
    · cases h
      exact ⟨fun _ => hg _ _, fun e => absurd e (by decide)⟩
  have p2 : ∀ id ret c w1, 0 ≤ id → usbg_import_config B g stream id w = some (ret, c, w1) →
      (ret ≠ USBG_SUCCESS → (w1.heap.gadgets g).last_failed_import = some stream.cfg) ∧
      (ret = USBG_SUCCESS → (w1.heap.gadgets g).last_failed_import = none ∧
        usbg_get_config_import_error_text w1.heap g = none ∧
        usbg_get_config_import_error_line w1.heap g = -1) := by
    intro id ret c w1 hid h
    simp only [usbg_import_config] at h
    rw [if_neg (not_lt.mpr hid)] at h
    split_ifs at h
    · split at h
      · cases h
      · split_ifs at h with hr
        · cases h
          exact ⟨fun _ => hg _ _, fun e => absurd e hr⟩
        · cases h
          refine ⟨fun e => absurd e hr, fun _ => ⟨hg _ _, ?_, ?_⟩⟩
          · simp [usbg_get_config_import_error_text, hg]
          · simp [usbg_get_config_import_error_line, hg]
    · cases h
      exact ⟨fun _ => hg _ _, fun e => absurd e (by decide)⟩
  have p3 : ∀ name ret gad w1,
      usbg_import_gadget B s stream (some name) w = some (ret, gad, w1) →
      (ret ≠ USBG_SUCCESS → (w1.heap.states s).last_failed_import = some stream.cfg) ∧
      (ret = USBG_SUCCESS → (w1.heap.states s).last_failed_import = none ∧
        usbg_get_gadget_import_error_text w1.heap s = none ∧
        usbg_get_gadget_import_error_line w1.heap s = -1) := by
    intro name ret gad w1 h
    simp only [usbg_import_gadget] at h
    split_ifs at h
    · split at h
      · cases h
      · split_ifs at h with hr
        · cases h
          exact ⟨fun _ => hs _ _, fun e => absurd e hr⟩
        · cases h
          refine ⟨fun e => absurd e hr, fun _ => ⟨hs _ _, ?_, ?_⟩⟩
          · simp [usbg_get_gadget_import_error_text, hs]
          · simp [usbg_get_gadget_import_error_line, hs]
    · cases h
      exact ⟨fun _ => hs _ _, fun e => absurd e (by decide)⟩
  refine ⟨?_, ?_, ?_, p1, p2, p3, ?_, ?_, ?_, ?_, ?_, ?_, ?_, ?_, ?_, ?_, ?_, ?_, ?_, ?_, ?_, ?_,
    ?_, ?_, ?_⟩
  · intro inst l hq hb
    obtain ⟨⟨ret, f, w1⟩, hr⟩ := usbg_import_function_total B g stream inst w l hq hb
    exact ⟨ret, f, w1, hr, p1 inst ret f w1 hr⟩
  · intro id l hid hq hb hfun
    obtain ⟨⟨ret, c, w1⟩, hr⟩ := usbg_import_config_total B g stream id w l hq hb hfun
    exact ⟨ret, c, w1, hr, p2 id ret c w1 hid hr⟩
  · intro name l hq hb hfun hcfg
    obtain ⟨⟨ret, gad, w1⟩, hr⟩ := usbg_import_gadget_total B s stream name w l hq hb hfun hcfg
    exact ⟨ret, gad, w1, hr, p3 name ret gad w1 hr⟩
  · intro inst ret f w1 h
    exact usbg_import_function_slots B g stream inst w ret f w1 h
  · intro id ret c w1 h
    exact usbg_import_config_slots B g stream id w ret c w1 h
  · intro name ret gad w1 h
    exact usbg_import_gadget_slots B s stream name w ret gad w1 h
  · intro name a t ret gad w1 h
    exact usbg_create_gadget_slots B s name a t w ret gad w1 h
  · intro type inst a ret f w1 h
    exact usbg_create_function_slots B g type inst a w ret f w1 h
  · intro id label a t ret c w1 h
    exact usbg_create_config_slots B g id label a t w ret c w1 h
  · intro c name f ret w1 h
    exact usbg_add_config_function_slots B c name f w ret w1 h
  · intro b
    exact usbg_rm_binding_slots B b w
  · intro c opts ret w1 h
    exact usbg_rm_config_slots B c opts w ret w1 h
  · intro f opts ret w1 h
    exact usbg_rm_function_slots B f opts w ret w1 h
  · intro opts ret w1 h
    exact usbg_rm_gadget_slots B g opts w ret w1 h
  · intro a
    rw [usbg_set_gadget_attrs_heap]
  · intro lang t
    rw [usbg_set_gadget_strs_heap]
  · intro f a ret w1 h
    rw [usbg_set_function_attrs_heap B f a w ret w1 h]
  · intro c a
    rw [usbg_set_config_attrs_heap]
  · intro c lang str
    rw [usbg_set_config_string_heap]
  · intro ret doc w1 h
    rw [usbg_export_gadget_heap B g w ret doc w1 h]
  · intro c ret doc w1 h
    rw [usbg_export_config_heap B c w ret doc w1 h]
  · intro f ret doc w1 h
    rw [usbg_export_function_heap B f w ret doc w1 h]

/-- Claim C25 on the state of `world_okfs`, which has no gadget, and on the
gadget loaded from `tree_one_gadget`, which has no function and no config;
`world_okfs_failed_import` and `world_failed_import` are the worlds that a
failed `usbg_import_gadget` and a failed `usbg_import_config` leave.  A
call of `usbg_import_gadget` with a document that gives `bcdUSB` the value
70000 returns InvalidValue and leaves that document in the slot of the state;
with a slot that holds a document, a call that succeeds empties it.  A call of
`usbg_import_function` with a `qmult` that is a string returns InvalidType
and leaves that document in the slot of the gadget; with a slot that holds a
document, a call of `usbg_import_config` that succeeds empties it. -/
theorem failed_import_slot_holds_document_witness :
    is_queue world_okfs.heap.gq 1 [] = true ∧
    is_queue world_okfs_failed_import.heap.gq 1 [] = true ∧
    is_queue world_one_gadget.heap.fq 2 [] = true ∧
    is_queue world_failed_import.heap.cq 2 [] = true ∧
    usbg_import_gadget okfs 1 ⟨false, doc_no_type⟩ (some "g1".toList) world_okfs =
      some (USBG_ERROR_INVALID_FORMAT, none, world_okfs_failed_import) ∧
    usbg_import_config simfs 2 ⟨true, doc_no_type⟩ 1 world_one_gadget =
      some (USBG_ERROR_MISSING_TAG, none, world_failed_import) ∧
    (∃ gad w1, usbg_import_gadget okfs 1 ⟨true, doc_gadget_bad_attr⟩ (some "g1".toList)
        world_okfs = some (USBG_ERROR_INVALID_VALUE, gad, w1) ∧
      (w1.heap.states 1).last_failed_import = some doc_gadget_bad_attr) ∧
    (world_okfs_failed_import.heap.states 1).last_failed_import = some doc_no_type ∧
    (∃ gad w1, usbg_import_gadget okfs 1 ⟨true, doc_gadget_attrs⟩ (some "g1".toList)
        world_okfs_failed_import = some (USBG_SUCCESS, gad, w1) ∧
      (w1.heap.states 1).last_failed_import = none ∧
      usbg_get_gadget_import_error_text w1.heap 1 = none ∧
      usbg_get_gadget_import_error_line w1.heap 1 = -1) ∧
    (∃ f w1, usbg_import_function simfs 2 ⟨true, doc_ecm_bad_qmult⟩ (some "usb0".toList)
        world_one_gadget = some (USBG_ERROR_INVALID_TYPE, f, w1) ∧
      (w1.heap.gadgets 2).last_failed_import = some doc_ecm_bad_qmult) ∧
    (world_failed_import.heap.gadgets 2).last_failed_import = some doc_no_type ∧
    (∃ c w1, usbg_import_config simfs 2 ⟨true, doc_config_attrs_out_of_range⟩ 1
        world_failed_import = some (USBG_SUCCESS, c, w1) ∧
      (w1.heap.gadgets 2).last_failed_import = none ∧
      usbg_get_config_import_error_text w1.heap 2 = none ∧
      usbg_get_config_import_error_line w1.heap 2 = -1) := by
  have q1 : is_queue world_okfs.heap.gq 1 [] = true := by decide
  have q2 : is_queue world_okfs_failed_import.heap.gq 1 [] = true := by decide
  have q3 : is_queue world_one_gadget.heap.fq 2 [] = true := by decide
  have q4 : is_queue world_failed_import.heap.cq 2 [] = true := by decide
  refine ⟨q1, q2, q3, q4, rfl, rfl, ?_, rfl, ?_, ?_, rfl, ?_⟩
  · obtain ⟨ret, gad, w1, h, hfail, _⟩ :=
      (failed_import_slot_holds_document okfs world_okfs 1 2 ⟨true, doc_gadget_bad_attr⟩).2.2.1
        "g1".toList [] q1 (fun a ha => absurd ha (List.not_mem_nil a))
        (fun node hn => Option.noConfusion hn) (fun node hn => Option.noConfusion hn)
    have hr : (usbg_import_gadget okfs 1 ⟨true, doc_gadget_bad_attr⟩ (some "g1".toList)
        world_okfs).map (fun r => r.1) = some USBG_ERROR_INVALID_VALUE := by decide
    rw [h] at hr
    have hret : ret = USBG_ERROR_INVALID_VALUE := Option.some.inj hr
    subst hret
    exact ⟨gad, w1, h, hfail (by decide)⟩
  · obtain ⟨ret, gad, w1, h, _, hok⟩ :=
      (failed_import_slot_holds_document okfs world_okfs_failed_import 1 2
        ⟨true, doc_gadget_attrs⟩).2.2.1
        "g1".toList [] q2 (fun a ha => absurd ha (List.not_mem_nil a))
        (fun node hn => Option.noConfusion hn) (fun node hn => Option.noConfusion hn)
    have hr : (usbg_import_gadget okfs 1 ⟨true, doc_gadget_attrs⟩ (some "g1".toList)
        world_okfs_failed_import).map (fun r => r.1) = some USBG_SUCCESS := by decide
    rw [h] at hr
    have hret : ret = USBG_SUCCESS := Option.some.inj hr
    subst hret
    exact ⟨gad, w1, h, hok rfl⟩
  · obtain ⟨ret, f, w1, h, hfail, _⟩ :=
      (failed_import_slot_holds_document simfs world_one_gadget 1 2
        ⟨true, doc_ecm_bad_qmult⟩).1
        "usb0".toList [] q3 (fun a ha => absurd ha (List.not_mem_nil a))
    have hr : (usbg_import_function simfs 2 ⟨true, doc_ecm_bad_qmult⟩ (some "usb0".toList)
        world_one_gadget).map (fun r => r.1) = some USBG_ERROR_INVALID_TYPE := by decide
    rw [h] at hr
    have hret : ret = USBG_ERROR_INVALID_TYPE := Option.some.inj hr
    subst hret
    exact ⟨f, w1, h, hfail (by decide)⟩
  · obtain ⟨ret, c, w1, h, _, hok⟩ :=
      (failed_import_slot_holds_document simfs world_failed_import 1 2
        ⟨true, doc_config_attrs_out_of_range⟩).2.1
        1 [] (by decide) q4 (fun a ha => absurd ha (List.not_mem_nil a))
        (fun node hn => Option.noConfusion hn)
    have hr : (usbg_import_config simfs 2 ⟨true, doc_config_attrs_out_of_range⟩ 1
        world_failed_import).map (fun r => r.1) = some USBG_SUCCESS := by decide
    rw [h] at hr
    have hret : ret = USBG_SUCCESS := Option.some.inj hr
    subst hret
    exact ⟨c, w1, h, hok rfl⟩

end Usbg
